import Mathlib

/-!
# TCP chat server: wire framing, client registry and room registry

A shallow embedding of the server side of the chat service
(`src/server/server_helper.c`, `src/server/dynamic_client.c`,
`src/server/dynamic_room.c`).

Conventions of the embedding

* A C `char` is kept as its unsigned byte value, a `Nat`; a C string is the
  list of the bytes of its array, and its content ends before the first NUL
  (`strlen`, `cstr`).
* `uint32_t` and `int` values are `Nat`/`Int` with the conversions of the
  source written out (`u32`, `toInt32`).
* A socket is one direction of a TCP byte stream together with a schedule that
  fixes how many bytes the kernel moves at each `send`/`recv` call, so short
  reads, short writes and failing calls are all inputs of the model.
* Logging, terminal colours, time stamps and mutexes have no effect on the
  values modelled here and are left out; each operation is one atomic step.
-/

namespace ChatServer

/-! ## C strings and machine integers -/

/-- Length of the C string stored in `s`: the number of bytes before the first NUL. -/
def strlen (s : List Nat) : Nat := (s.takeWhile (fun c => c != 0)).length

/-- Content of the C string stored in `s`: the bytes before the first NUL. -/
def cstr (s : List Nat) : List Nat := s.takeWhile (fun c => c != 0)

/-- Bytes of an ASCII literal of the source. -/
def lit (s : String) : List Nat := s.toList.map Char.toNat

/-- Conversion to `uint32_t`. -/
def u32 (n : Nat) : Nat := n % 4294967296

/-- Conversion of a `uint32_t` to `int` (two's complement, 32 bits). -/
def toInt32 (n : Nat) : Int :=
  if u32 n < 2147483648 then (u32 n : Int) else (u32 n : Int) - 4294967296

/-- The statement `x++` on an `int`: one more, except at INT_MAX, where the
increment overflows. Signed overflow is undefined in C; the value taken here is
INT_MIN, the result of the addition modulo 2^32 read as an `int`. -/
def int_incr (x : Int) : Int := if x = 2147483647 then -2147483648 else x + 1

/-- The four bytes of `htonl(n)` in memory order (most significant first). -/
def htonl (n : Nat) : List Nat :=
  [u32 n / 16777216 % 256, u32 n / 65536 % 256, u32 n / 256 % 256, u32 n % 256]

/-- Value of `ntohl` applied to four bytes read from the wire. -/
def ntohl (b : List Nat) : Nat :=
  ((b.getD 0 0 * 256 + b.getD 1 0) * 256 + b.getD 2 0) * 256 + b.getD 3 0

/-- Writing `bytes` into the array `buf` starting at index `off`. -/
def store (buf : List Nat) (off : Nat) (bytes : List Nat) : List Nat :=
  buf.take off ++ bytes ++ buf.drop (off + bytes.length)

/-! ## Sockets -/

/-- What the kernel does at one `send`/`recv` call. -/
inductive Io where
  | take (k : Nat)
  | err
deriving DecidableEq, Repr

/-- One direction of a connection: the bytes on the wire (written so far, or
not yet read) and the kernel's behaviour at the coming calls. When the schedule
is used up every call transfers all it was asked for. -/
structure Sock where
  wire : List Nat
  sched : List Io
deriving DecidableEq, Repr

/-- Number of bytes moved by a call that asks for `n` when the kernel offers `k`:
at least one byte, at most `n`. -/
def chunk (k n : Nat) : Nat := min (max k 1) n

/-- The call `send(fd, data, n, 0)` with `n = data.length`: its return value and
the socket afterwards. -/
def send (s : Sock) (data : List Nat) : Int × Sock :=
  match s.sched with
  | [] => ((data.length : Int), { wire := s.wire ++ data, sched := [] })
  | Io.err :: rest => (-1, { wire := s.wire, sched := rest })
  | Io.take k :: rest =>
    ((chunk k data.length : Nat), { wire := s.wire ++ data.take (chunk k data.length), sched := rest })

/-- The call `recv(fd, p, n, 0)`: its return value, the bytes stored at `p` and
the socket afterwards. An empty wire is a closed connection (return value 0). -/
def recv (s : Sock) (n : Nat) : Int × List Nat × Sock :=
  match s.sched with
  | [] =>
    ((min n s.wire.length : Nat), s.wire.take (min n s.wire.length),
      { wire := s.wire.drop (min n s.wire.length), sched := [] })
  | Io.err :: rest => (-1, [], { wire := s.wire, sched := rest })
  | Io.take k :: rest =>
    ((chunk k (min n s.wire.length) : Nat), s.wire.take (chunk k (min n s.wire.length)),
      { wire := s.wire.drop (chunk k (min n s.wire.length)), sched := rest })

/-- The loop `while (total_sent < bytes_to_send)` of `send_message`; `p` is the
memory the bytes are taken from. Every round moves at least one byte, so
`bytes_to_send - total_sent` rounds are enough and the function is called with
that much fuel. -/
def send_loop : Nat → Sock → List Nat → Int → Int → Int × Sock
  | fuel, s, p, total_sent, bytes_to_send =>
    if total_sent < bytes_to_send then
      match fuel with
      | 0 => (-1, s)
      | fuel + 1 =>
        let r := send s ((p.drop total_sent.toNat).take (bytes_to_send - total_sent).toNat)
        if r.1 ≤ 0 then (-1, r.2)
        else send_loop fuel r.2 p (total_sent + r.1) bytes_to_send
    else (0, s)

/-- The function `send_message` of `server_helper.c`: 0 on success, -1 on failure. -/
def send_message (client_socket : Int) (s : Sock) (message : List Nat) : Int × Sock :=
  if client_socket = -1 then (-1, s)
  else
    let message_len := u32 (strlen message)
    let network_len := htonl message_len
    let r1 := send_loop 4 s network_len 0 4
    if r1.1 ≠ 0 then (-1, r1.2)
    else
      let bytes_to_send := toInt32 message_len
      send_loop bytes_to_send.toNat r1.2 message 0 bytes_to_send

/-- Outcome of a receive loop. -/
inductive RecvLoop where
  | done (buf : List Nat) (s : Sock)
  | closed (buf : List Nat) (s : Sock)
  | failed (buf : List Nat) (s : Sock)
deriving DecidableEq, Repr

/-- The socket a receive loop leaves behind. -/
def RecvLoop.sock : RecvLoop → Sock
  | RecvLoop.done _ s => s
  | RecvLoop.closed _ s => s
  | RecvLoop.failed _ s => s

/-- The loop `while (total_received < bytes_to_receive)` of `receive_message`,
storing into `buf` at `total_received`. -/
def recv_loop : Nat → Sock → List Nat → Int → Int → RecvLoop
  | fuel, s, buf, total_received, bytes_to_receive =>
    if total_received < bytes_to_receive then
      match fuel with
      | 0 => RecvLoop.failed buf s
      | fuel + 1 =>
        let r := recv s (bytes_to_receive - total_received).toNat
        if r.1 ≤ 0 then
          if r.1 = 0 then RecvLoop.closed buf r.2.2 else RecvLoop.failed buf r.2.2
        else
          recv_loop fuel r.2.2 (store buf total_received.toNat r.2.1)
            (total_received + r.1) bytes_to_receive
    else RecvLoop.done buf s

/-- The function `receive_message` of `server_helper.c`: return value, the
caller's buffer afterwards and the socket afterwards. -/
def receive_message (client_socket : Int) (s : Sock) (buffer : List Nat) (buffer_size : Nat) :
    Int × List Nat × Sock :=
  if client_socket = -1 ∨ buffer_size < 1 then (-1, buffer, s)
  else
    match recv_loop 4 s [0, 0, 0, 0] 0 4 with
    | RecvLoop.closed _ s1 => (0, buffer, s1)
    | RecvLoop.failed _ s1 => (-1, buffer, s1)
    | RecvLoop.done network_len s1 =>
      let message_len := ntohl network_len
      if message_len = 0 then (0, buffer, s1)
      else if message_len ≥ buffer_size then (-1, buffer, s1)
      else
        let bytes_to_receive := toInt32 message_len
        match recv_loop bytes_to_receive.toNat s1 buffer 0 bytes_to_receive with
        | RecvLoop.closed b s2 => (-1, b, s2)
        | RecvLoop.failed b s2 => (-1, b, s2)
        | RecvLoop.done b s2 => (toInt32 message_len, store b message_len [0], s2)

/-! ## Strings of the handlers -/

/-- The function `isalnum` of the C library in the "C" locale, on a byte: true
for the ASCII digits and letters only (bytes above 127 are never alphanumeric). -/
def isalnum (c : Nat) : Bool :=
  (48 ≤ c && c ≤ 57) || (65 ≤ c && c ≤ 90) || (97 ≤ c && c ≤ 122)

/-- Result of `strncpy(dst, src, n); dst[n] = 0`: the first `n` bytes of the string. -/
def strncpy (src : List Nat) (n : Nat) : List Nat := (cstr src).take n

/-- Result of `snprintf(buf, size, ...)` for the formatted text `text`: at most
`size - 1` bytes are stored. -/
def snprintf (size : Nat) (text : List Nat) : List Nat := text.take (size - 1)

/-- Decimal text of an `int` (`%d`). -/
def dec (n : Int) : List Nat := lit (toString n)

/-- The loop `while (*start == ' ' || *start == '\t') start++`, for a set of
blank characters given by `ws`. -/
def ltrim (ws : Nat → Bool) (s : List Nat) : List Nat := s.dropWhile ws

/-- The loop `end = s + strlen(s) - 1; while (end > s && ws(*end)) { *end = 0; end--; }`:
trailing blanks are cut, but never the first byte of the string. -/
def rtrim (ws : Nat → Bool) (s : List Nat) : List Nat :=
  match s with
  | [] => []
  | c :: tl => c :: (tl.reverse.dropWhile ws).reverse

/-- Blank test `c == ' ' || c == '\t'`. -/
def ws_sp_tab (c : Nat) : Bool := c == 32 || c == 9

/-- Blank test `c == ' ' || c == '\t' || c == '\n'` (also written
`c == ' ' || c == '\n' || c == '\t'`). -/
def ws_sp_tab_nl (c : Nat) : Bool := c == 32 || c == 9 || c == 10

/-- Blank test `c == ' ' || c == '\t' || c == '\n' || c == '\r'`. -/
def ws_sp_tab_nl_cr (c : Nat) : Bool := c == 32 || c == 9 || c == 10 || c == 13

/-- The function `validate_username` of `server_helper.c`: 0 for a valid name, -1 otherwise. -/
def validate_username (username : List Nat) : Int :=
  let len := strlen username
  if len = 0 ∨ len > 16 then -1
  else if (cstr username).all isalnum then 0 else -1

/-! ## Registries -/

/-- The constant `MAX_CLIENTS_PER_ROOM`. -/
def MAX_CLIENTS_PER_ROOM : Nat := 15

/-- The constant `MAX_ROOM_NAME_LENGTH`. -/
def MAX_ROOM_NAME_LENGTH : Nat := 32

/-- The record `client_info_t`. `addr` is the address of the record, the value
of every pointer to it; strings are kept by content. The fields `thread_id` and
`login_time` are written once and read by no operation modelled here. -/
structure client_info where
  addr : Nat
  username : List Nat
  socket_fd : Int
  current_room_name : List Nat
  current_room_index : Int
  client_ip : List Nat
  client_port : Int
  current_file_path : List Nat
  is_active : Int
  is_uploading : Int
  is_downloading : Int
deriving DecidableEq, Repr

/-- The record `room_info_t`; `clients` is the array of `MAX_CLIENTS_PER_ROOM`
pointers, `none` for NULL. The time stamps `created_time` and `last_activity`
and the mutex are left out. -/
structure room_info where
  room_name : List Nat
  clients : List (Option Nat)
  client_count : Int
  total_messages_sent : Int
deriving DecidableEq, Repr

/-- The global state of the server: the client list (from `client_list_head`),
the room list (from `room_list_head`), their counters, the next address the
allocator hands out, and the frames passed to `send_message` so far, oldest
first, each with the socket it was sent on. The allocator never hands out an
address twice; a real allocator may reuse the address of a freed record, which
cannot be told apart as long as no slot holds the address of a freed record
(`Inv.slot_ref` below). -/
structure Server where
  client_list : List client_info
  active_client_count : Int
  room_list : List room_info
  total_room_count : Int
  next_addr : Nat
  out : List (Int × List Nat)
deriving DecidableEq, Repr

/-- State after `init_clients` and `init_rooms`. -/
def Server.init : Server :=
  { client_list := [], active_client_count := 0, room_list := [], total_room_count := 0,
    next_addr := 1, out := [] }

/-- A call `send_message(fd, msg)` made by a handler whose return value is not
used, at the granularity of frames: the frame is appended to the log. -/
def Server.emit (σ : Server) (fd : Int) (msg : List Nat) : Server :=
  { σ with out := σ.out ++ [(fd, msg)] }

/-- Assignment to the room list. -/
def Server.with_rooms (σ : Server) (rl : List room_info) : Server := { σ with room_list := rl }

/-- Assignment to the client list. -/
def Server.with_clients (σ : Server) (cl : List client_info) : Server :=
  { σ with client_list := cl }

/-- The function `find_client_by_socket` of `dynamic_client.c`. -/
def find_client_by_socket (σ : Server) (socket_fd : Int) : Option client_info :=
  σ.client_list.find? (fun c => c.socket_fd = socket_fd)

/-- The function `find_client_by_username` of `dynamic_client.c`. -/
def find_client_by_username (σ : Server) (username : List Nat) : Option client_info :=
  σ.client_list.find? (fun c => c.is_active ≠ 0 ∧ c.username = cstr username)

/-- Reading through a pointer to a client record. -/
def deref (σ : Server) (a : Nat) : Option client_info :=
  σ.client_list.find? (fun c => c.addr = a)

/-- Applying `f` to the first element of a list that satisfies `p`: the write
through a pointer obtained by a search of the linked list. -/
def update_first {α : Type} (p : α → Bool) (f : α → α) : List α → List α
  | [] => []
  | x :: xs => if p x then f x :: xs else x :: update_first p f xs

/-- Writing through a pointer to a client record. -/
def update_client (a : Nat) (f : client_info → client_info) (l : List client_info) :
    List client_info :=
  update_first (fun c => decide (c.addr = a)) f l

/-- The function `add_client` of `dynamic_client.c`. `alloc_ok` tells whether
`malloc` succeeds. Returns the new record (NULL is `none`) and the state. -/
def add_client (σ : Server) (alloc_ok : Bool) (username : List Nat) (socket_fd : Int)
    (client_ip : List Nat) (client_port : Int) (file_path : List Nat) :
    Option client_info × Server :=
  if socket_fd < 0 then (none, σ)
  else if !alloc_ok then (none, σ)
  else
    let new_client : client_info :=
      { addr := σ.next_addr
        username := strncpy username 16
        socket_fd := socket_fd
        current_room_name := []
        current_room_index := -1
        client_ip := strncpy client_ip 15
        client_port := client_port
        current_file_path := strncpy file_path 1023
        is_active := 1
        is_uploading := 0
        is_downloading := 0 }
    (some new_client,
      { σ with client_list := new_client :: σ.client_list,
               active_client_count := σ.active_client_count + 1,
               next_addr := σ.next_addr + 1 })

/-- The function `remove_client` of `dynamic_client.c`. -/
def remove_client (σ : Server) (socket_fd : Int) : Int × Server :=
  match σ.client_list.find? (fun c => c.socket_fd = socket_fd) with
  | none => (-1, σ)
  | some _ =>
    (0, { σ with client_list := σ.client_list.eraseP (fun c => c.socket_fd = socket_fd),
                 active_client_count := σ.active_client_count - 1 })

/-- The function `find_room` of `dynamic_room.c`. -/
def find_room (σ : Server) (room_name : List Nat) : Option room_info :=
  σ.room_list.find? (fun r => r.room_name = cstr room_name)

/-- Writing through the pointer `find_room` returns: the first room of that name. -/
def update_room (name : List Nat) (f : room_info → room_info) (l : List room_info) :
    List room_info :=
  update_first (fun r => decide (r.room_name = name)) f l

/-- The function `add_room` of `dynamic_room.c`. `alloc_ok` tells whether
`malloc` and `pthread_mutex_init` succeed. -/
def add_room (σ : Server) (alloc_ok : Bool) (room_name : List Nat) : Option room_info × Server :=
  match σ.room_list.find? (fun r => r.room_name = cstr room_name) with
  | some existing => (some existing, σ)
  | none =>
    if !alloc_ok then (none, σ)
    else
      let new_room : room_info :=
        { room_name := strncpy room_name MAX_ROOM_NAME_LENGTH
          clients := List.replicate MAX_CLIENTS_PER_ROOM none
          client_count := 0
          total_messages_sent := 0 }
      (some new_room,
        { σ with room_list := new_room :: σ.room_list,
                 total_room_count := σ.total_room_count + 1 })

/-- The function `remove_room` of `dynamic_room.c`. -/
def remove_room (σ : Server) (room_name : List Nat) : Int × Server :=
  match σ.room_list.find? (fun r => r.room_name = cstr room_name) with
  | none => (-1, σ)
  | some current =>
    if current.client_count > 0 then (-1, σ)
    else
      (0, { σ with room_list := σ.room_list.eraseP (fun r => r.room_name = cstr room_name),
                   total_room_count := σ.total_room_count - 1 })

/-- The function `get_room_index` of `dynamic_room.c`. -/
def get_room_index (σ : Server) (room_name : List Nat) : Int :=
  match σ.room_list.findIdx? (fun r => r.room_name = cstr room_name) with
  | some i => (i : Int)
  | none => -1

/-! ## Member arrays -/

/-- The loop `for (i ...) if (clients[i] == client) { clients[i] = NULL; ...; break; }`
on the array. -/
def remove_member (a : Nat) : List (Option Nat) → List (Option Nat)
  | [] => []
  | x :: xs => if x = some a then none :: xs else x :: remove_member a xs

/-- The loop `for (i ...) if (clients[i] == NULL) { slot_found = i; break; }`
followed by `clients[slot_found] = client`, on an array with a free slot. -/
def put_member (a : Nat) : List (Option Nat) → List (Option Nat)
  | [] => []
  | x :: xs => if x = none then some a :: xs else x :: put_member a xs

/-- Taking a client out of a room: the slot is cleared and the count decremented
when the client is found in the array. -/
def room_remove (a : Nat) (r : room_info) : room_info :=
  if some a ∈ r.clients then
    { r with clients := remove_member a r.clients, client_count := r.client_count - 1 }
  else r

/-- Putting a client into a room that has a free slot: the first free slot is
taken and the count incremented. -/
def room_add (a : Nat) (r : room_info) : room_info :=
  { r with clients := put_member a r.clients, client_count := r.client_count + 1 }

/-- The notification loops: `send_message` to every member of the array that is
non-NULL, active and (when `skip` is given) not the client `skip`. A slot whose
record is not in the client list is passed over. -/
def notify (σ : Server) (skip : Option Nat) (msg : List Nat) : List (Option Nat) → Server
  | [] => σ
  | none :: xs => notify σ skip msg xs
  | some a :: xs =>
    match deref σ a with
    | none => notify σ skip msg xs
    | some c =>
      if c.is_active ≠ 0 ∧ some a ≠ skip then notify (σ.emit c.socket_fd msg) skip msg xs
      else notify σ skip msg xs

/-! ## Command handlers -/

/-- Lines 614 to 639 of `handle_join_command`: leaving the room recorded in
`current_room_name`, and removing that room when its count has come to 0. -/
def join_leave_old (σ : Server) (client : client_info) : Server :=
  if client.current_room_name.length > 0 then
    match find_room σ client.current_room_name with
    | none => σ
    | some old_room =>
      let σ1 := σ.with_rooms
        (update_room old_room.room_name (room_remove client.addr) σ.room_list)
      if (room_remove client.addr old_room).client_count = 0 then
        (remove_room σ1 old_room.room_name).2
      else σ1
  else σ

/-- Lines 641 to 718 of `handle_join_command`: entering the room `start`. -/
def join_enter (σ : Server) (alloc_ok : Bool) (client_socket : Int) (client : client_info)
    (start : List Nat) : Server :=
  let found :=
    match find_room σ start with
    | some r => (some r, σ)
    | none => add_room σ alloc_ok start
  match found with
  | (none, σ1) => σ1.emit client_socket (lit "ERROR Failed to create room")
  | (some target_room, σ1) =>
    if target_room.client_count ≥ (MAX_CLIENTS_PER_ROOM : Int) then
      σ1.emit client_socket (snprintf 256 (lit "ERROR Room '" ++ start ++ lit "' is full ("
        ++ dec MAX_CLIENTS_PER_ROOM ++ lit "/" ++ dec MAX_CLIENTS_PER_ROOM ++ lit " clients)"))
    else if none ∉ target_room.clients then
      σ1.emit client_socket (lit "ERROR Room is full (no available slots)")
    else
      let joined := room_add client.addr target_room
      let σ2 := σ1.with_rooms
        (update_room target_room.room_name (room_add client.addr) σ1.room_list)
      let σ3 := σ2.with_clients (update_client client.addr
        (fun c => { c with current_room_name := strncpy start 32,
                           current_room_index := get_room_index σ2 start }) σ2.client_list)
      let σ4 := σ3.emit client_socket (snprintf 256 (lit "JOIN_SUCCESS Joined room '" ++ start
        ++ lit "' (" ++ dec joined.client_count ++ lit "/" ++ dec MAX_CLIENTS_PER_ROOM
        ++ lit " clients)"))
      notify σ4 (some client.addr)
        (snprintf 256 (lit "ROOM_NOTIFICATION " ++ client.username ++ lit " joined the room"))
        joined.clients

/-- The function `handle_join_command` of `server_helper.c`. -/
def handle_join_command (σ : Server) (alloc_ok : Bool) (client_socket : Int)
    (room_name : List Nat) : Server :=
  if strlen room_name = 0 then
    σ.emit client_socket (lit "ERROR Usage: /join <room_name>")
  else
    match find_client_by_socket σ client_socket with
    | none => σ.emit client_socket (lit "ERROR Unable to identify client")
    | some client =>
      let clean_room_name := strncpy room_name MAX_ROOM_NAME_LENGTH
      let start := rtrim ws_sp_tab_nl (ltrim ws_sp_tab clean_room_name)
      if start.length = 0 then
        σ.emit client_socket (lit "ERROR Room name cannot be empty")
      else if start.length > MAX_ROOM_NAME_LENGTH then
        σ.emit client_socket (snprintf 128 (lit "ERROR Room name too long (max "
          ++ dec MAX_ROOM_NAME_LENGTH ++ lit " characters)"))
      else if !(start.all isalnum) then
        σ.emit client_socket
          (lit "ERROR Room name must be alphanumeric only (no spaces or special characters)")
      else if client.current_room_name.length > 0 ∧ client.current_room_name = start then
        σ.emit client_socket (snprintf 256 (lit "INFO You are already in room '" ++ start ++ lit "'"))
      else
        join_enter (join_leave_old σ client) alloc_ok client_socket client start

/-- The function `handle_leave_command` of `server_helper.c`. -/
def handle_leave_command (σ : Server) (client_socket : Int) : Server :=
  match find_client_by_socket σ client_socket with
  | none => σ.emit client_socket (lit "ERROR Unable to identify client")
  | some client =>
    if client.current_room_name.length = 0 then
      σ.emit client_socket (lit "ERROR You are not in any room")
    else
      let clear : client_info → client_info :=
        fun c => { c with current_room_name := [], current_room_index := -1 }
      match find_room σ client.current_room_name with
      | none =>
        (σ.with_clients (update_client client.addr clear σ.client_list)).emit
          client_socket (lit "ERROR Room no longer exists")
      | some current_room =>
        if some client.addr ∉ current_room.clients then
          (σ.with_clients (update_client client.addr clear σ.client_list)).emit
            client_socket (lit "ERROR You were not properly registered in the room")
        else
          let left := room_remove client.addr current_room
          let σ1 := σ.with_rooms
            (update_room current_room.room_name (room_remove client.addr) σ.room_list)
          let σ2 := notify σ1 none
            (snprintf 256 (lit "ROOM_NOTIFICATION " ++ client.username ++ lit " left the room"))
            left.clients
          let room_name_copy := strncpy current_room.room_name 32
          let σ3 := σ2.with_clients (update_client client.addr clear σ2.client_list)
          σ3.emit client_socket (snprintf 256 (lit "LEAVE_SUCCESS Left room '" ++ room_name_copy
            ++ lit "'"))

/-- The delivery loop of `handle_broadcast_command`: the state, `messages_sent`
and `total_recipients`. `net fd` tells whether `send_message` on `fd` succeeds. -/
def broadcast_loop (net : Int → Bool) (sender : Nat) (msg : List Nat) :
    Server → List (Option Nat) → Server × Int × Int
  | σ, [] => (σ, 0, 0)
  | σ, none :: xs => broadcast_loop net sender msg σ xs
  | σ, some a :: xs =>
    match deref σ a with
    | none => broadcast_loop net sender msg σ xs
    | some c =>
      if c.is_active ≠ 0 ∧ a ≠ sender then
        let r := broadcast_loop net sender msg (σ.emit c.socket_fd msg) xs
        (r.1, (if net c.socket_fd then r.2.1 + 1 else r.2.1), r.2.2 + 1)
      else broadcast_loop net sender msg σ xs

/-- The function `handle_broadcast_command` of `server_helper.c`. -/
def handle_broadcast_command (σ : Server) (net : Int → Bool) (client_socket : Int)
    (message : List Nat) : Server :=
  if strlen message = 0 then
    σ.emit client_socket (lit "ERROR Usage: /broadcast <message>")
  else
    match find_client_by_socket σ client_socket with
    | none => σ.emit client_socket (lit "ERROR Unable to identify sender")
    | some sender =>
      if sender.current_room_name.length = 0 then
        σ.emit client_socket (lit "ERROR You must join a room first to broadcast messages")
      else
        match find_room σ sender.current_room_name with
        | none =>
          (σ.with_clients (update_client sender.addr
              (fun c => { c with current_room_name := [], current_room_index := -1 })
              σ.client_list)).emit client_socket
            (lit "ERROR Room no longer exists. Please join a room first.")
        | some current_room =>
          let clean_message := strncpy message 1023
          let start := rtrim ws_sp_tab_nl_cr (ltrim ws_sp_tab clean_message)
          if start.length = 0 then
            σ.emit client_socket (lit "ERROR Broadcast message cannot be empty")
          else
            let broadcast_msg := snprintf 1200 (lit "BROADCAST [" ++ sender.username ++ lit "@"
              ++ current_room.room_name ++ lit "]: " ++ start)
            let r := broadcast_loop net sender.addr broadcast_msg σ current_room.clients
            let σ1 := r.1.with_rooms (update_room current_room.room_name
              (fun x => { x with total_messages_sent := int_incr x.total_messages_sent }) r.1.room_list)
            let confirmation :=
              if r.2.1 = r.2.2 then
                snprintf 256 (lit "BROADCAST_SUCCESS Message delivered to " ++ dec r.2.2
                  ++ lit " recipient(s) in room '" ++ current_room.room_name ++ lit "'")
              else
                snprintf 256 (lit "BROADCAST_PARTIAL Message delivered to " ++ dec r.2.1 ++ lit "/"
                  ++ dec r.2.2 ++ lit " recipient(s) in room '" ++ current_room.room_name ++ lit "'")
            σ1.emit client_socket confirmation

/-- The function `cleanup_client_connection` of `server_helper.c` (the socket's
`close` is outside the state modelled). -/
def cleanup_client_connection (σ : Server) (client_socket : Int) : Server :=
  if client_socket = -1 then σ
  else
    match find_client_by_socket σ client_socket with
    | none => σ
    | some client =>
      if client.current_room_name.length > 0 then
        match find_room σ client.current_room_name with
        | none => σ
        | some current_room =>
          let left := room_remove client.addr current_room
          let σ1 := σ.with_rooms
            (update_room current_room.room_name (room_remove client.addr) σ.room_list)
          notify σ1 none
            (snprintf 256 (lit "ROOM_NOTIFICATION " ++ client.username ++ lit " disconnected"))
            left.clients
      else σ

/-- The end of `handle_client` for a session that had logged in:
`cleanup_client_connection` followed by `remove_client`. -/
def close_session (σ : Server) (client_socket : Int) : Server :=
  (remove_client (cleanup_client_connection σ client_socket) client_socket).2

/-! ## Whisper and the recipients of notifications -/

/-- The active members an array of slots points to, in the order of the slots:
the records the notification loops send to (`clients[i] != NULL` and
`clients[i]->is_active`). -/
def active_members (σ : Server) (slots : List (Option Nat)) : List client_info :=
  slots.filterMap (fun slot =>
    match slot with
    | none => none
    | some a =>
      match deref σ a with
      | none => none
      | some c => if c.is_active ≠ 0 then some c else none)

/-- The function `handle_whisper_command` of `server_helper.c`. `net fd` tells
whether `send_message` on `fd` succeeds. The `malloc` of the copy of the
arguments, whose result the source does not test, is taken to succeed. The
arrow of the format string is the three bytes 226, 134, 146 of its UTF-8 form. -/
def handle_whisper_command (σ : Server) (net : Int → Bool) (client_socket : Int)
    (whisper_args : List Nat) : Server :=
  if strlen whisper_args = 0 then
    σ.emit client_socket (lit "ERROR Usage: /whisper <username> <message>")
  else
    match find_client_by_socket σ client_socket with
    | none => σ.emit client_socket (lit "ERROR Unable to identify sender")
    | some sender =>
      let args_copy := cstr whisper_args
      if 32 ∉ args_copy then
        σ.emit client_socket (lit "ERROR Usage: /whisper <username> <message>")
      else
        let target_username := args_copy.takeWhile (fun c => c != 32)
        let message := ltrim ws_sp_tab (args_copy.dropWhile (fun c => c != 32)).tail
        if message.length = 0 then
          σ.emit client_socket (lit "ERROR Message cannot be empty")
        else if sender.username = target_username then
          σ.emit client_socket (lit "ERROR Cannot whisper to yourself")
        else
          let not_found := σ.emit client_socket
            (snprintf 256 (lit "ERROR User '" ++ target_username ++ lit "' not found or offline"))
          match find_client_by_username σ target_username with
          | none => not_found
          | some target =>
            if target.is_active = 0 then not_found
            else
              let whisper_msg := snprintf 1024 (lit "WHISPER [" ++ sender.username
                ++ [32, 226, 134, 146, 32] ++ target.username ++ lit "]: " ++ message)
              let σ1 := σ.emit target.socket_fd whisper_msg
              if net target.socket_fd then
                σ1.emit client_socket
                  (snprintf 256 (lit "WHISPER_SENT Whisper sent to " ++ target_username))
              else σ1.emit client_socket (lit "ERROR Failed to deliver whisper")

/-! ## Login handshake -/

/-- Outcome of one round of the `while (1)` loop of `handle_client_login`:
`again` is `continue`, `finished r` is `return r`. -/
inductive Round where
  | again (σ : Server) (heap : List Bool) (s : Sock)
  | finished (r : Int) (σ : Server) (heap : List Bool) (s : Sock)
deriving DecidableEq, Repr

/-- The state a round of the login loop leaves behind. -/
def Round.state : Round → Server
  | Round.again σ _ _ => σ
  | Round.finished _ σ _ _ => σ

/-- Lines 324 to 361 of `handle_client_login`: the decision on a username and a
path that have been read and trimmed. `heap` lists the outcomes of the coming
`malloc` calls (success when used up). -/
def login_decide (σ : Server) (heap : List Bool) (s : Sock) (client_socket : Int)
    (client_ip : List Nat) (client_port : Int) (username file_path : List Nat) : Round :=
  if validate_username username ≠ 0 then
    Round.again (σ.emit client_socket (lit "Invalid username format")) heap s
  else if (find_client_by_username σ username).isSome then
    Round.again (σ.emit client_socket (lit "Username already taken")) heap s
  else
    match add_client σ (heap.headD true) username client_socket client_ip client_port
        file_path with
    | (none, σ1) => Round.again (σ1.emit client_socket (lit "Server error")) heap.tail s
    | (some _, σ1) => Round.finished 0 (σ1.emit client_socket (lit "LOGIN_SUCCESS")) heap.tail s

/-- One round of the loop of `handle_client_login`. `s` is the stream coming
from the client. The arrays `username` and `file_path` are read only up to the
terminator `receive_message` stores, so what they held before a round cannot be
observed and every round starts from zeroed arrays. -/
def login_round (σ : Server) (heap : List Bool) (s : Sock) (client_socket : Int)
    (client_ip : List Nat) (client_port : Int) : Round :=
  let r1 := receive_message client_socket s (List.replicate 1024 0) 1024
  if r1.1 ≤ 0 then Round.finished (-1) σ heap r1.2.2
  else
    let r2 := receive_message client_socket r1.2.2 (List.replicate 1024 0) 1024
    if r2.1 ≤ 0 then Round.finished (-1) σ heap r2.2.2
    else
      login_decide σ heap r2.2.2 client_socket client_ip client_port
        (rtrim ws_sp_tab_nl (cstr r1.2.1)) (rtrim ws_sp_tab_nl (cstr r2.2.1))

/-- The loop of `handle_client_login`, with a bound on the number of rounds. -/
def login_loop : Nat → Server → List Bool → Sock → Int → List Nat → Int → Int × Server × Sock
  | 0, σ, _, s, _, _, _ => (-1, σ, s)
  | fuel + 1, σ, heap, s, client_socket, client_ip, client_port =>
    match login_round σ heap s client_socket client_ip client_port with
    | Round.again σ1 heap1 s1 => login_loop fuel σ1 heap1 s1 client_socket client_ip client_port
    | Round.finished r σ1 _ s1 => (r, σ1, s1)

/-- The function `handle_client_login` of `server_helper.c`: return value, state
and the client's stream afterwards. Every round that does not return reads at
least one byte, so `s.wire.length + 1` rounds are enough. -/
def handle_client_login (σ : Server) (heap : List Bool) (s : Sock) (client_socket : Int)
    (client_ip : List Nat) (client_port : Int) : Int × Server × Sock :=
  login_loop (s.wire.length + 1) σ heap s client_socket client_ip client_port

/-- What a login handshake on socket `fd` can do to the registries: nothing, or
the insertion of one new session at the head of the client list. -/
def LoginEffect (fd : Int) (σ σ2 : Server) : Prop :=
  σ2.room_list = σ.room_list ∧ σ2.total_room_count = σ.total_room_count ∧
  ((σ2.client_list = σ.client_list ∧ σ2.next_addr = σ.next_addr ∧
      σ2.active_client_count = σ.active_client_count) ∨
    ∃ c : client_info, σ2.client_list = c :: σ.client_list ∧ σ2.next_addr = σ.next_addr + 1 ∧
      σ2.active_client_count = σ.active_client_count + 1 ∧
      c.addr = σ.next_addr ∧ c.socket_fd = fd ∧ 0 ≤ fd ∧ c.current_room_name = [] ∧
      c.is_active = 1 ∧ validate_username c.username = 0 ∧ 0 ∉ c.username ∧
      ∀ d ∈ σ.client_list, d.is_active ≠ 0 → d.username ≠ c.username)

/-- Framing of a message as `send_message` writes it. -/
def frame (m : List Nat) : List Nat := htonl m.length ++ m

/-! ## File names -/

/-- The function `tolower` of the C library in the "C" locale, on a byte. -/
def tolower (c : Nat) : Nat := if 65 ≤ c ∧ c ≤ 90 then c + 32 else c

/-- The comparison loop of `strcasecmp` on the contents of two C strings: 0
when they are equal up to the case of ASCII letters, otherwise the difference
of the first two bytes that differ after `tolower` (the terminator counts as 0). -/
def strcasecmp_loop : List Nat → List Nat → Int
  | [], [] => 0
  | [], y :: _ => 0 - (tolower y : Int)
  | x :: _, [] => (tolower x : Int)
  | x :: xs, y :: ys =>
    if tolower x = tolower y then strcasecmp_loop xs ys else (tolower x : Int) - (tolower y : Int)

/-- The function `strcasecmp` of the C library. -/
def strcasecmp (a b : List Nat) : Int := strcasecmp_loop (cstr a) (cstr b)

/-- The search of `strrchr` on the content of a C string: the part of the
string that starts at the last occurrence of `c`, `none` for NULL. -/
def strrchr_loop (c : Nat) : List Nat → Option (List Nat)
  | [] => none
  | x :: xs =>
    match strrchr_loop c xs with
    | some r => some r
    | none => if x = c then some (x :: xs) else none

/-- The function `strrchr` of the C library, for a character other than NUL. -/
def strrchr (s : List Nat) (c : Nat) : Option (List Nat) := strrchr_loop c (cstr s)

/-- The table `ALLOWED_EXTENSIONS` of `file_transfer.c`. -/
def ALLOWED_EXTENSIONS : List (List Nat) :=
  [lit ".txt", lit ".pdf", lit ".jpg", lit ".png", lit ".mp4"]

/-- The function `validate_file_extension` of `file_transfer.c`: 1 for an
allowed extension, 0 otherwise. -/
def validate_file_extension (filename : List Nat) : Int :=
  match strrchr filename 46 with
  | none => 0
  | some dot => if ALLOWED_EXTENSIONS.any (fun e => strcasecmp dot e == 0) then 1 else 0

/-! ## File queue -/

/-- The constant `MAX_UPLOAD_QUEUE`. -/
def MAX_UPLOAD_QUEUE : Nat := 5

/-- The constant `MAX_FILE_SIZE`, 3 MiB. -/
def MAX_FILE_SIZE : Nat := 3 * 1024 * 1024

/-- The constant `CHUNK_SIZE`. -/
def CHUNK_SIZE : Nat := 4096

/-- The record `file_queue_item_t`. `file_data` is the pointer to the payload
buffer, by its address, `none` for NULL. The time stamp `created_time` is left
out. -/
structure file_queue_item where
  filename : List Nat
  sender_username : List Nat
  receiver_username : List Nat
  file_data : Option Nat
  file_size : Nat
  sender_socket : Int
  receiver_socket : Int
deriving DecidableEq, Repr

/-- The record `file_queue_t`: the array of `MAX_UPLOAD_QUEUE` items and the
count of tickets; the tickets are the items at the indices below `count`. The
mutex is left out. -/
structure file_queue_t where
  items : List file_queue_item
  count : Int
deriving DecidableEq, Repr

/-- The tickets of the queue, in the order of their indices. -/
def file_queue_t.tickets (q : file_queue_t) : List file_queue_item := q.items.take q.count.toNat

/-- The queue after `init_file_queue` has run on the zeroed global
`global_file_queue` (the mutex is initialised without failure). -/
def init_file_queue : file_queue_t :=
  { items := List.replicate MAX_UPLOAD_QUEUE
      { filename := [], sender_username := [], receiver_username := [], file_data := none,
        file_size := 0, sender_socket := 0, receiver_socket := 0 },
    count := 0 }

/-- The function `add_to_file_queue` of `file_transfer.c`: return value and
queue afterwards. (With a negative count the C code writes before the array;
no reachable queue has one.) -/
def add_to_file_queue (q : file_queue_t) (filename sender receiver : List Nat)
    (file_data : Option Nat) (file_size : Nat) (sender_socket receiver_socket : Int) :
    Int × file_queue_t :=
  if q.count ≥ (MAX_UPLOAD_QUEUE : Int) then (-1, q)
  else
    let item : file_queue_item :=
      { filename := strncpy filename 255
        sender_username := strncpy sender 16
        receiver_username := strncpy receiver 16
        file_data := file_data
        file_size := file_size
        sender_socket := sender_socket
        receiver_socket := receiver_socket }
    (q.count + 1 - 1, { items := q.items.set q.count.toNat item, count := q.count + 1 })

/-- The loop `for (i = index; i < count - 1; i++) items[i] = items[i + 1]` of
`remove_from_file_queue`, for the number of rounds it makes. -/
def shift_loop : Nat → List file_queue_item → Nat → List file_queue_item
  | 0, items, _ => items
  | k + 1, items, i =>
    match items.get? (i + 1) with
    | some x => shift_loop k (items.set i x) (i + 1)
    | none => items

/-- The function `remove_from_file_queue` of `file_transfer.c`: return value,
queue afterwards and the pointers passed to `free`. -/
def remove_from_file_queue (q : file_queue_t) (index : Int) : Int × file_queue_t × List Nat :=
  if index < 0 ∨ index ≥ q.count then (-1, q, [])
  else
    let freed :=
      match (q.items.get? index.toNat).bind (fun it => it.file_data) with
      | some p => [p]
      | none => []
    (0, { items := shift_loop (q.count - 1 - index).toNat q.items index.toNat,
          count := q.count - 1 }, freed)

/-- The function `is_file_queue_full` of `file_transfer.c`. -/
def is_file_queue_full (q : file_queue_t) : Int :=
  if q.count ≥ (MAX_UPLOAD_QUEUE : Int) then 1 else 0

/-- The function `get_file_queue_count` of `file_transfer.c`. -/
def get_file_queue_count (q : file_queue_t) : Int := q.count

/-- The loop `for (i = 0; i < count; i++) if (items[i].file_data) { free(...);
items[i].file_data = NULL; }` of `abort_all_file_transfers` and of
`cleanup_file_queue`, from index `i` for the number of rounds it makes: the
array afterwards and the pointers passed to `free`, in order. -/
def free_loop : Nat → List file_queue_item → Nat → List file_queue_item × List Nat
  | 0, items, _ => (items, [])
  | k + 1, items, i =>
    match items.get? i with
    | none => (items, [])
    | some it =>
      match it.file_data with
      | some p =>
        let r := free_loop k (items.set i { it with file_data := none }) (i + 1)
        (r.1, p :: r.2)
      | none => free_loop k items (i + 1)

/-- The function `abort_all_file_transfers` of `server_helper.c`: queue
afterwards and the pointers passed to `free`. -/
def abort_all_file_transfers (q : file_queue_t) : file_queue_t × List Nat :=
  let r := free_loop q.count.toNat q.items 0
  ({ items := r.1, count := 0 }, r.2)

/-- The function `cleanup_file_queue` of `file_transfer.c`: queue afterwards
and the pointers passed to `free`. -/
def cleanup_file_queue (q : file_queue_t) : file_queue_t × List Nat :=
  let r := free_loop q.count.toNat q.items 0
  ({ items := r.1, count := 0 }, r.2)

/-! ## File transfer over a socket -/

/-- The call `recv(fd, p, n, MSG_WAITALL)`: the kernel goes on receiving until
the `n` bytes are there; the call ends early, with what it has, when the peer
has closed or an error is pending (an error with nothing received is -1).
`got` is what the call holds so far. -/
def recv_waitall : Nat → Sock → Nat → List Nat → Int × List Nat × Sock
  | fuel, s, n, got =>
    if got.length < n then
      match fuel with
      | 0 => ((got.length : Int), got, s)
      | fuel + 1 =>
        let r := recv s (n - got.length)
        if r.1 ≤ 0 then
          if got = [] then (r.1, [], r.2.2) else ((got.length : Int), got, r.2.2)
        else recv_waitall fuel r.2.2 n (got ++ r.2.1)
    else ((got.length : Int), got, s)

/-- The loop `while (total_received < *file_size)` of `receive_file_from_client`,
storing into `buf` at `total_received`: the buffer, or `none` when a `recv`
fails or the peer closes (the buffer is freed), and the socket afterwards. -/
def recv_file_loop : Nat → Sock → List Nat → Nat → Nat → Option (List Nat) × Sock
  | fuel, s, buf, total_received, file_size =>
    if total_received < file_size then
      match fuel with
      | 0 => (none, s)
      | fuel + 1 =>
        let remaining := file_size - total_received
        let chunk_size := if remaining < CHUNK_SIZE then remaining else CHUNK_SIZE
        let r := recv s chunk_size
        if r.1 ≤ 0 then (none, r.2.2)
        else recv_file_loop fuel r.2.2 (store buf total_received r.2.1)
          (total_received + r.1.toNat) file_size
    else (some buf, s)

/-- The function `receive_file_from_client` of `file_transfer.c`: return value,
the buffer `*file_data` (`none` for NULL), `*file_size` and the client's stream
afterwards. `alloc_ok` tells whether `malloc` succeeds; the buffer it returns
is written in full before it is read, and is taken to hold zeros. Every round
of the loop stores at least one byte, so `file_size` rounds are enough. -/
def receive_file_from_client (alloc_ok : Bool) (s : Sock) : Int × Option (List Nat) × Nat × Sock :=
  let r := recv_waitall 4 s 4 []
  if r.1 ≠ 4 then (-1, none, 0, r.2.2)
  else
    let file_size := ntohl r.2.1
    if file_size > MAX_FILE_SIZE then (-1, none, file_size, r.2.2)
    else if !alloc_ok then (-1, none, file_size, r.2.2)
    else
      match recv_file_loop file_size r.2.2 (List.replicate file_size 0) 0 file_size with
      | (none, s2) => (-1, none, file_size, s2)
      | (some b, s2) => (0, some b, file_size, s2)

/-- The loop `while (total_sent < file_size)` of `send_file_to_client`. -/
def send_file_loop : Nat → Sock → List Nat → Nat → Nat → Int × Sock
  | fuel, s, file_data, total_sent, file_size =>
    if total_sent < file_size then
      match fuel with
      | 0 => (-1, s)
      | fuel + 1 =>
        let remaining := file_size - total_sent
        let chunk_size := if remaining < CHUNK_SIZE then remaining else CHUNK_SIZE
        let r := send s ((file_data.drop total_sent).take chunk_size)
        if r.1 ≤ 0 then (-1, r.2)
        else send_file_loop fuel r.2 file_data (total_sent + r.1.toNat) file_size
    else (0, s)

/-- The header `send_file_to_client` formats into `header[512]`. -/
def file_download_header (filename sender : List Nat) (file_size : Nat) : List Nat :=
  snprintf 512 (lit "FILE_DOWNLOAD:" ++ cstr filename ++ lit ":" ++ dec (file_size : Int)
    ++ lit ":" ++ cstr sender)

/-- The function `send_file_to_client` of `file_transfer.c`, on the stream `s`
going to the client: return value and the stream afterwards. Every round of
the loop sends at least one byte, so `file_size` rounds are enough. -/
def send_file_to_client (client_socket : Int) (s : Sock) (filename sender file_data : List Nat)
    (file_size : Nat) : Int × Sock :=
  let r1 := send_message client_socket s (file_download_header filename sender file_size)
  if r1.1 ≠ 0 then (-1, r1.2)
  else
    let r2 := send r1.2 (htonl file_size)
    if r2.1 ≠ 4 then (-1, r2.2)
    else send_file_loop file_size r2.2 file_data 0 file_size

/-! ## Sendfile, the dispatcher and shutdown -/

/-- What a command works on: the registries with the log of frames (`srv`),
the file queue, the stream coming from the client that issues the command
(`up`, read by `/sendfile` only) and the stream going to the receiver of a
file (`down`, written by `/sendfile` only). -/
structure World where
  srv : Server
  queue : file_queue_t
  up : Sock
  down : Sock
deriving DecidableEq, Repr

/-- Assignment to the registries of a world. -/
def World.with_srv (w : World) (σ : Server) : World :=
  { srv := σ, queue := w.queue, up := w.up, down := w.down }

/-- A call `send_message(fd, msg)` whose return value is not used. -/
def World.reply (w : World) (fd : Int) (msg : List Nat) : World := w.with_srv (w.srv.emit fd msg)

/-- Blank test `c == ' '`. -/
def ws_sp (c : Nat) : Bool := c == 32

/-- The last part of `handle_sendfile_command` (from the `upload_request` on):
the transfer itself, for the sender record `sender`, the receiver record
`receiver` and the two names as parsed. `net fd` tells whether `send_message`
on `fd` succeeds, `alloc_ok` whether the `malloc` of the payload buffer does,
`buf` is the address `malloc` gives to the payload buffer. The frame
`send_file_to_client` passes to `send_message` is put into the log of frames
as well as onto the stream `down`. -/
def handle_sendfile_transfer (w : World) (net : Int → Bool) (alloc_ok : Bool) (buf : Nat)
    (client_socket : Int) (sender receiver : client_info) (filename target_username : List Nat) :
    World :=
  let w1 := w.reply client_socket (snprintf 512
    (lit "FILE_UPLOAD_REQUEST:" ++ filename ++ lit ":" ++ target_username))
  if !net client_socket then
    w1.reply client_socket (lit "ERROR Failed to initiate file transfer")
  else
    let r := receive_file_from_client alloc_ok w.up
    let w2 : World := { srv := w1.srv, queue := w1.queue, up := r.2.2.2, down := w1.down }
    if r.1 ≠ 0 then w2.reply client_socket (lit "ERROR Failed to receive file data")
    else
      let file_data := r.2.1.getD []
      let file_size := r.2.2.1
      let a := add_to_file_queue w.queue filename sender.username receiver.username
        (some buf) file_size sender.socket_fd receiver.socket_fd
      let w3 : World := { srv := w2.srv, queue := a.2, up := w2.up, down := w2.down }
      if a.1 < 0 then
        w3.reply client_socket (lit "ERROR Failed to add to transfer queue")
      else
        let d := send_file_to_client receiver.socket_fd w.down filename
          sender.username file_data file_size
        let w4 : World :=
          { srv := w3.srv.emit receiver.socket_fd
              (file_download_header filename sender.username file_size),
            queue := w3.queue, up := w3.up, down := d.2 }
        let w5 :=
          if d.1 = 0 then
            w4.reply client_socket (snprintf 512
              (lit "FILE_TRANSFER_SUCCESS File '" ++ filename
                ++ lit "' sent successfully to " ++ target_username ++ lit " ("
                ++ dec (file_size : Int) ++ lit " bytes)"))
          else
            w4.reply client_socket (snprintf 512
              (lit "FILE_TRANSFER_FAILED Failed to send '" ++ filename
                ++ lit "' to " ++ target_username))
        { srv := w5.srv, queue := (remove_from_file_queue w5.queue a.1).2.1,
          up := w5.up, down := w5.down }

/-- The middle part of `handle_sendfile_command`: the checks made on the two
names as parsed, in the order of the source (extension, self-target, lookup of
the target, room in the queue), and then the transfer. -/
def handle_sendfile_checks (w : World) (net : Int → Bool) (alloc_ok : Bool) (buf : Nat)
    (client_socket : Int) (sender : client_info) (filename target_username : List Nat) : World :=
  if validate_file_extension filename = 0 then
    w.reply client_socket (lit "ERROR Invalid file type. Allowed: .txt, .pdf, .jpg, .png")
  else if sender.username = target_username then
    w.reply client_socket (lit "ERROR Cannot send file to yourself")
  else
    let not_found : World :=
      w.reply client_socket (snprintf 256
        (lit "ERROR User '" ++ target_username ++ lit "' not found or offline"))
    match find_client_by_username w.srv target_username with
    | none => not_found
    | some receiver =>
      if receiver.is_active = 0 then not_found
      else if is_file_queue_full w.queue ≠ 0 then
        w.reply client_socket (snprintf 256
          (lit "ERROR Upload queue is full (" ++ dec MAX_UPLOAD_QUEUE ++ lit "/"
            ++ dec MAX_UPLOAD_QUEUE ++ lit "). Please try again later."))
      else
        handle_sendfile_transfer w net alloc_ok buf client_socket sender receiver filename
          target_username

/-- The function `handle_sendfile_command` of `server_helper.c`: the parsing of
the arguments, then the checks and the transfer. `heap` lists the outcomes of
the coming `malloc` calls (success when used up): the copy of the arguments,
then the payload buffer. -/
def handle_sendfile_command (w : World) (net : Int → Bool) (heap : List Bool) (buf : Nat)
    (client_socket : Int) (file_args : List Nat) : World :=
  if strlen file_args = 0 then
    w.reply client_socket (lit "ERROR Usage: /sendfile <filename> <username>")
  else
    match find_client_by_socket w.srv client_socket with
    | none => w.reply client_socket (lit "ERROR Unable to identify sender")
    | some sender =>
      if !(heap.headD true) then w.reply client_socket (lit "ERROR Server memory error")
      else
        let args_copy := cstr file_args
        if 32 ∉ args_copy then
          w.reply client_socket (lit "ERROR Usage: /sendfile <filename> <username>")
        else
          let filename := rtrim ws_sp (args_copy.takeWhile (fun c => c != 32))
          let target_username :=
            rtrim ws_sp (ltrim ws_sp (args_copy.dropWhile (fun c => c != 32)).tail)
          if filename.length = 0 ∨ target_username.length = 0 then
            w.reply client_socket (lit "ERROR Filename and username cannot be empty")
          else
            handle_sendfile_checks w net (heap.tail.headD true) buf client_socket sender filename
              target_username

/-- The function `handle_exit_command` of `server_helper.c`: it writes to the
log file and the terminal only. -/
def handle_exit_command (w : World) (_client_socket : Int) : World := w

/-- The test `strncmp(a, b, n) == 0` of the C library: the two strings agree on
their first `n` bytes, or are equal when shorter. -/
def strncmp_eq (a b : List Nat) (n : Nat) : Bool := (cstr a).take n == (cstr b).take n

/-- The function `process_client_command` of `server_helper.c`. The oracles
are those of the handlers; the `malloc` of `add_room` is the first of `heap`. -/
def process_client_command (w : World) (net : Int → Bool) (heap : List Bool) (buf : Nat)
    (client_socket : Int) (command : List Nat) : World :=
  if strlen command = 0 then
    w.reply client_socket (lit "ERROR Empty command")
  else if strncmp_eq command (lit "/join ") 6 then
    w.with_srv (handle_join_command w.srv (heap.headD true) client_socket (command.drop 6))
  else if strncmp_eq command (lit "/leave") 6 then
    w.with_srv (handle_leave_command w.srv client_socket)
  else if strncmp_eq command (lit "/broadcast ") 11 then
    w.with_srv (handle_broadcast_command w.srv net client_socket (command.drop 11))
  else if strncmp_eq command (lit "/whisper ") 9 then
    w.with_srv (handle_whisper_command w.srv net client_socket (command.drop 9))
  else if strncmp_eq command (lit "/sendfile ") 10 then
    handle_sendfile_command w net heap buf client_socket (command.drop 10)
  else if strncmp_eq command (lit "/exit") 5 then
    handle_exit_command w client_socket
  else
    w.reply client_socket (snprintf 256 (lit "ERROR Unknown command: " ++ cstr command))

/-- Lines 437 to 447 of `client_message_loop`: a command has been received
into `buffer`; it is processed, and the loop goes on (`true`) unless the
buffer begins with `/exit`. -/
def client_message_round (w : World) (net : Int → Bool) (heap : List Bool) (buf : Nat)
    (client_socket : Int) (buffer : List Nat) : Bool × World :=
  (!strncmp_eq buffer (lit "/exit") 5, process_client_command w net heap buf client_socket buffer)

/-- The text `notify_file_transfer_shutdown` formats into `sender_msg[512]`. -/
def sender_msg (item : file_queue_item) : List Nat :=
  snprintf 512 (lit "FILE_TRANSFER_ABORT Server shutting down - file transfer of '"
    ++ item.filename ++ lit "' to '" ++ item.receiver_username ++ lit "' cancelled")

/-- The text `notify_file_transfer_shutdown` formats into `receiver_msg[512]`. -/
def receiver_msg (item : file_queue_item) : List Nat :=
  snprintf 512 (lit "FILE_TRANSFER_ABORT Server shutting down - incoming file '"
    ++ item.filename ++ lit "' from '" ++ item.sender_username ++ lit "' cancelled")

/-- The loop of `notify_file_transfer_shutdown` over the tickets. -/
def notify_transfer_loop (σ : Server) : List file_queue_item → Server
  | [] => σ
  | item :: rest =>
    notify_transfer_loop
      ((σ.emit item.sender_socket (sender_msg item)).emit item.receiver_socket
        (receiver_msg item))
      rest

/-- The function `notify_file_transfer_shutdown` of `server_helper.c`. -/
def notify_file_transfer_shutdown (σ : Server) (q : file_queue_t) : Server :=
  if q.count = 0 then σ else notify_transfer_loop σ q.tickets

/-- The loop `while (current)` of `shutdown_all_clients` over the client list. -/
def shutdown_notify_loop (σ : Server) : List client_info → Server
  | [] => σ
  | c :: rest =>
    if c.is_active ≠ 0 ∧ c.socket_fd ≥ 0 then
      shutdown_notify_loop
        (σ.emit c.socket_fd (lit "SERVER_SHUTDOWN Server is shutting down. Please disconnect."))
        rest
    else shutdown_notify_loop σ rest

/-- What `shutdown_all_clients` does, in the order in which it does it: a frame
is handed to `send_message`, or the file queue is drained. -/
inductive ShutdownStep where
  | frame (fd : Int) (msg : List Nat)
  | drain
deriving DecidableEq, Repr

/-- The frames handed to `send_message` between the state `σ` and the later
state `σ2`, as steps. -/
def frames_since (σ σ2 : Server) : List ShutdownStep :=
  (σ2.out.drop σ.out.length).map (fun e => ShutdownStep.frame e.1 e.2)

/-- The function `shutdown_all_clients` of `server_helper.c`: the registries
with the log of frames, the file queue afterwards, and the steps taken in
their order. -/
def shutdown_all_clients (σ : Server) (q : file_queue_t) :
    Server × file_queue_t × List ShutdownStep :=
  if get_file_queue_count q > 0 then
    let σ1 := notify_file_transfer_shutdown σ q
    let q1 := (abort_all_file_transfers q).1
    let σ2 := shutdown_notify_loop σ1 σ1.client_list
    (σ2, q1, frames_since σ σ1 ++ [ShutdownStep.drain] ++ frames_since σ1 σ2)
  else
    let σ2 := shutdown_notify_loop σ σ.client_list
    (σ2, q, frames_since σ σ2)

/-! ## Reachable states -/

/-- States the server reaches from the empty registries by login handshakes on
fresh connections, `/join`, `/leave`, `/broadcast`, `/whisper`, `/sendfile` and
the closing of sessions. A connection being accepted has a descriptor that no
open session uses. -/
inductive Reachable : Server → Prop where
  | init : Reachable Server.init
  | login (σ : Server) (heap : List Bool) (s : Sock) (fd : Int) (ip : List Nat) (port : Int) :
      Reachable σ → find_client_by_socket σ fd = none →
      Reachable (handle_client_login σ heap s fd ip port).2.1
  | join (σ : Server) (alloc_ok : Bool) (fd : Int) (room_name : List Nat) :
      Reachable σ → Reachable (handle_join_command σ alloc_ok fd room_name)
  | leave (σ : Server) (fd : Int) :
      Reachable σ → Reachable (handle_leave_command σ fd)
  | broadcast (σ : Server) (net : Int → Bool) (fd : Int) (message : List Nat) :
      Reachable σ → Reachable (handle_broadcast_command σ net fd message)
  | close (σ : Server) (fd : Int) :
      Reachable σ → Reachable (close_session σ fd)
  | whisper (σ : Server) (net : Int → Bool) (fd : Int) (whisper_args : List Nat) :
      Reachable σ → Reachable (handle_whisper_command σ net fd whisper_args)
  | sendfile (σ : Server) (q : file_queue_t) (up down : Sock) (net : Int → Bool)
      (heap : List Bool) (buf : Nat) (fd : Int) (file_args : List Nat) :
      Reachable σ →
      Reachable (handle_sendfile_command ⟨σ, q, up, down⟩ net heap buf fd file_args).srv

/-- States of the client registry reached from the empty registry by login
handshakes and calls of `remove_client`. -/
inductive RegistryReachable : Server → Prop where
  | init : RegistryReachable Server.init
  | login (σ : Server) (heap : List Bool) (s : Sock) (fd : Int) (ip : List Nat) (port : Int) :
      RegistryReachable σ → RegistryReachable (handle_client_login σ heap s fd ip port).2.1
  | remove (σ : Server) (fd : Int) :
      RegistryReachable σ → RegistryReachable (remove_client σ fd).2

/-! ## Invariant of the registries -/

/-- A well-formed room record: a non-empty name without NUL, an array of
`MAX_CLIENTS_PER_ROOM` slots, a count equal to the number of non-empty slots,
and no client in two slots. -/
def RoomOK (r : room_info) : Prop :=
  r.room_name ≠ [] ∧ 0 ∉ r.room_name ∧ r.clients.length = MAX_CLIENTS_PER_ROOM ∧
  r.client_count = ((r.clients.filter Option.isSome).length : Int) ∧
  ∀ a : Nat, r.clients.count (some a) ≤ 1

/-- The client `a` is in no slot of any room. -/
def Free (a : Nat) (σ : Server) : Prop := ∀ r ∈ σ.room_list, some a ∉ r.clients

/-- The invariant of the two registries. Client records have distinct
addresses, all handed out by the allocator, and distinct non-negative sockets;
rooms have distinct names and are well formed; every non-empty slot points to a
record of the client list whose current room is the room of the slot. -/
structure Inv (σ : Server) : Prop where
  addr_lt : ∀ c ∈ σ.client_list, c.addr < σ.next_addr
  addr_nodup : (σ.client_list.map (fun c => c.addr)).Nodup
  fd_nodup : (σ.client_list.map (fun c => c.socket_fd)).Nodup
  fd_nonneg : ∀ c ∈ σ.client_list, 0 ≤ c.socket_fd
  cur_nonul : ∀ c ∈ σ.client_list, 0 ∉ c.current_room_name
  room_nodup : (σ.room_list.map (fun r => r.room_name)).Nodup
  room_ok : ∀ r ∈ σ.room_list, RoomOK r
  slot_ref : ∀ r ∈ σ.room_list, ∀ a : Nat, some a ∈ r.clients →
    ∃ c ∈ σ.client_list, c.addr = a ∧ c.current_room_name = r.room_name

/-! ## Test scenarios -/

/-- A client that connects on `fd` and sends the frames `name` and `/tmp`, all
calls transferring what they are asked for. -/
def demo_login (σ : Server) (fd : Int) (name : List Nat) : Server :=
  (handle_client_login σ [] ⟨frame name ++ frame (lit "/tmp"), []⟩ fd (lit "127.0.0.1") 40000).2.1

/-- One session, `alice` on socket 4. -/
def demo_alice : Server := demo_login Server.init 4 (lit "alice")

/-- Steps of a test scenario. -/
inductive Event where
  | login (fd : Int) (name : List Nat)
  | join (fd : Int) (room_name : List Nat)
  | leave (fd : Int)
  | close (fd : Int)
deriving DecidableEq, Repr

/-- One step of a scenario; a login needs a socket that no session uses. -/
def Event.apply (σ : Server) : Event → Option Server
  | Event.login fd name =>
    if (find_client_by_socket σ fd).isSome then none else some (demo_login σ fd name)
  | Event.join fd room_name => some (handle_join_command σ true fd room_name)
  | Event.leave fd => some (handle_leave_command σ fd)
  | Event.close fd => some (close_session σ fd)

/-- Running a scenario from the state `σ`. -/
def play (σ : Server) : List Event → Option Server
  | [] => some σ
  | e :: es =>
    match e.apply σ with
    | none => none
    | some σ1 => play σ1 es

/-- The state at the end of a scenario played from the empty registries. -/
def final (es : List Event) : Server := (play Server.init es).getD Server.init

/-- The session `alice` joins `room1`. -/
def scenario_join : List Event := [Event.login 4 (lit "alice"), Event.join 4 (lit "room1")]

/-- The session `alice` joins `room1` and leaves it. -/
def scenario_leave : List Event := scenario_join ++ [Event.leave 4]

/-- The session `alice` joins `room1`, `bob` joins `room2`, and `bob` disconnects. -/
def scenario_disconnect : List Event :=
  scenario_join ++ [Event.login 5 (lit "bob"), Event.join 5 (lit "room2"), Event.close 5]

/-- The session `alice` sends `/join` with a name of 33 letters `a`. -/
def scenario_long_name : List Event :=
  [Event.login 4 (lit "alice"), Event.join 4 (List.replicate 33 97)]

/-- Sixteen sessions named `a` to `p` on the sockets 10 to 25; the first fifteen
join room `B`, which is then full; the last one joins room `A` and then sends
`/join B`. -/
def scenario_full_room : List Event :=
  (List.range 16).map (fun (i : Nat) => Event.login (10 + (i : Int)) [97 + i])
    ++ (List.range 15).map (fun (i : Nat) => Event.join (10 + (i : Int)) [66])
    ++ [Event.join 25 [65], Event.join 25 [66]]

/-! ## Names in the registries -/

/-- Facts about the names held by the registries: every session is active and
has a valid username (1 to 16 alphanumeric bytes, no NUL), no two sessions have
the same username, and room names have at most 32 bytes. -/
structure NamesOK (σ : Server) : Prop where
  user_ok : ∀ c ∈ σ.client_list,
    c.is_active = 1 ∧ validate_username c.username = 0 ∧ 0 ∉ c.username
  user_nodup : (σ.client_list.map (fun c => c.username)).Nodup
  room_len : ∀ r ∈ σ.room_list, r.room_name.length ≤ 32

/-- The step from `σ` to `σ2` writes neither a username nor an activity flag,
adds and removes no session, and makes no room name longer than 32 bytes. -/
def Keeps (σ σ2 : Server) : Prop :=
  σ2.client_list.map (fun c => (c.username, c.is_active))
    = σ.client_list.map (fun c => (c.username, c.is_active)) ∧
  ((∀ r ∈ σ.room_list, r.room_name.length ≤ 32) →
    ∀ r ∈ σ2.room_list, r.room_name.length ≤ 32)

/-! ## Further test scenarios -/

/-- The sessions `alice` and `bob` are in `room1`. -/
def scenario_pair : List Event :=
  [Event.login 4 (lit "alice"), Event.login 5 (lit "bob"), Event.join 4 (lit "room1"),
    Event.join 5 (lit "room1")]

/-- The sessions `alice`, `bob` and `carol` are logged in; `alice` and `bob`
are in `room1`, `carol` is in no room. -/
def scenario_trio : List Event :=
  [Event.login 4 (lit "alice"), Event.login 5 (lit "bob"), Event.login 6 (lit "carol"),
    Event.join 4 (lit "room1"), Event.join 5 (lit "room1")]

/-- Sixteen sessions named `a` to `p` on the sockets 10 to 25; the first fifteen
are in room `B`, which is full, and the last one is in room `A`. -/
def scenario_before_full : List Event :=
  (List.range 16).map (fun (i : Nat) => Event.login (10 + (i : Int)) [97 + i])
    ++ (List.range 15).map (fun (i : Nat) => Event.join (10 + (i : Int)) [66])
    ++ [Event.join 25 [65]]

/-! ## Reachable file queues -/

/-- The file queues the server can hold: the one set up by `init_file_queue`,
changed by admissions, removals and the two drains. -/
inductive QueueReachable : file_queue_t → Prop
  | init : QueueReachable init_file_queue
  | add (q : file_queue_t) (filename sender receiver : List Nat) (file_data : Option Nat)
      (file_size : Nat) (sender_socket receiver_socket : Int) :
      QueueReachable q →
      QueueReachable (add_to_file_queue q filename sender receiver file_data file_size
        sender_socket receiver_socket).2
  | remove (q : file_queue_t) (index : Int) :
      QueueReachable q → QueueReachable (remove_from_file_queue q index).2.1
  | abort (q : file_queue_t) :
      QueueReachable q → QueueReachable (abort_all_file_transfers q).1
  | cleanup (q : file_queue_t) :
      QueueReachable q → QueueReachable (cleanup_file_queue q).1

/-- The clearing of a ticket's payload reference (`file_data = NULL`). -/
def file_queue_item.cleared (it : file_queue_item) : file_queue_item :=
  { it with file_data := none }

/-! ## Test scenarios of file transfers -/

/-- A queue with one ticket, from alice (socket 4) to bob (socket 5), whose
payload is the buffer at address 7. -/
def queue_one : file_queue_t :=
  (add_to_file_queue init_file_queue (lit "pic.png") (lit "alice") (lit "bob") (some 7) 10 4 5).2

/-- A queue with two tickets, payload buffers at addresses 7 and 8. -/
def queue_two : file_queue_t :=
  (add_to_file_queue queue_one (lit "doc.pdf") (lit "bob") (lit "alice") (some 8) 20 5 4).2

/-- The server with alice (socket 4) and bob (socket 5) in room1, an empty file
queue and nothing on the streams of a file transfer. -/
def world_pair : World :=
  { srv := final scenario_pair, queue := init_file_queue, up := ⟨[], []⟩, down := ⟨[], []⟩ }

/-- The server with alice and bob in room1 and an empty file queue, when alice
is about to upload the ten bytes 1, …, 10: the stream from alice holds the size
and the payload, and its first `recv` call is cut to two bytes. -/
def world_upload : World :=
  { srv := final scenario_pair, queue := init_file_queue,
    up := ⟨htonl 10 ++ [1, 2, 3, 4, 5, 6, 7, 8, 9, 10], [Io.take 2]⟩, down := ⟨[], []⟩ }

/-! ## Schedules of a stream -/

/-- A schedule on which every call moves at least four bytes when asked to, so
that a `send` of four bytes is not cut short. -/
def Smooth (sched : List Io) : Prop := ∀ e ∈ sched, ∃ k, 4 ≤ k ∧ e = Io.take k

/-! ## Scenarios with a stale room name -/

/-- After `scenario_full_room` (the record of `p` names room `A`, which no
longer exists, and `p` is in no slot) a seventeenth session `q` on socket 26
logs in and joins `A`, which creates room `A` again. -/
def scenario_stale_recreated : List Event :=
  scenario_full_room ++ [Event.login 26 (lit "q"), Event.join 26 [65]]

/-- After `scenario_full_room` the fifteen members of room `B` join room `A`
one after the other: room `A` is created again and ends with 15 members, while
the record of `p` still names `A` and `p` is in no slot. -/
def scenario_stale_full : List Event :=
  scenario_full_room ++ (List.range 15).map (fun (i : Nat) => Event.join (10 + (i : Int)) [65])

/-- The state after `n` broadcasts of "hi" by alice in room1 of
`scenario_pair`, every send succeeding. -/
def broadcast_times : Nat → Server
  | 0 => final scenario_pair
  | n + 1 => handle_broadcast_command (broadcast_times n) (fun _ => true) 4 (lit "hi")

/-- The server with alice and bob in room1 and an empty file queue, when alice
uploads the ten bytes 1, …, 10 for bob and the third `send` call on the stream
to bob, the one that carries the four size bytes, moves two bytes only. -/
def world_short_size : World :=
  { srv := final scenario_pair, queue := init_file_queue,
    up := ⟨htonl 10 ++ [1, 2, 3, 4, 5, 6, 7, 8, 9, 10], []⟩,
    down := ⟨[], [Io.take 4, Io.take 30, Io.take 2]⟩ }

/-! ## Wire framing: lemmas -/

theorem chunk_pos (k n : Nat) (h : 0 < n) : 0 < chunk k n := by
  unfold chunk; omega

theorem chunk_le (k n : Nat) : chunk k n ≤ n := by
  unfold chunk; omega

theorem ntohl_htonl (n : Nat) (h : n < 4294967296) : ntohl (htonl n) = n := by
  simp only [ntohl, htonl, u32, List.getD_cons_zero, List.getD_cons_succ]
  omega

theorem htonl_length (n : Nat) : (htonl n).length = 4 := rfl

theorem strlen_of_no_nul (m : List Nat) (h : 0 ∉ m) : strlen m = m.length := by
  unfold strlen
  rw [List.takeWhile_eq_self_iff.mpr]
  intro x hx
  have : x ≠ 0 := fun e => h (e ▸ hx)
  simpa using this

theorem take_split (l : List Nat) (c m : Nat) (h : c ≤ m) :
    l.take m = (l.take m).take c ++ (l.drop c).take (m - c) := by
  rw [List.take_take, Nat.min_eq_left h]
  conv_lhs => rw [show m = c + (m - c) by omega]
  rw [List.take_add]

/-- A send loop over a schedule without failing calls writes exactly the bytes
`p[i .. n)` and returns 0. -/
theorem send_loop_ok (fuel : Nat) : ∀ (s : Sock) (p : List Nat) (i n : Nat),
    Io.err ∉ s.sched → i ≤ n → n ≤ p.length → n - i ≤ fuel →
    ∃ sched, Io.err ∉ sched ∧
      send_loop fuel s p (i : Int) (n : Int) = (0, ⟨s.wire ++ (p.drop i).take (n - i), sched⟩) := by
  induction fuel with
  | zero =>
    intro s p i n hs hin _ hf
    have : i = n := by omega
    subst this
    refine ⟨s.sched, hs, ?_⟩
    unfold send_loop
    simp
  | succ fuel ih =>
    intro s p i n hs hin hn hf
    rcases Nat.eq_or_lt_of_le hin with h | h
    · subst h
      refine ⟨s.sched, hs, ?_⟩
      unfold send_loop
      simp
    · unfold send_loop
      have hlt : (i : Int) < (n : Int) := by exact_mod_cast h
      have e1 : ((n : Int) - (i : Int)).toNat = n - i := by omega
      have hlen : ((p.drop i).take (n - i)).length = n - i := by
        simp only [List.length_take, List.length_drop]; omega
      simp only [hlt, if_true, Int.toNat_ofNat, e1]
      cases hsc : s.sched with
      | nil =>
        have hr : send s ((p.drop i).take (n - i))
            = (((n - i : Nat) : Int), ⟨s.wire ++ (p.drop i).take (n - i), []⟩) := by
          simp only [send, hsc, hlen]
        rw [hr]
        have hpos : ¬ (((n - i : Nat) : Int) ≤ 0) := by omega
        simp only [hpos, if_false]
        have e2 : (i : Int) + ((n - i : Nat) : Int) = ((n : Nat) : Int) := by omega
        rw [e2]
        obtain ⟨sched, h1, h2⟩ := ih ⟨s.wire ++ (p.drop i).take (n - i), []⟩ p n n
          (by simp) (le_refl _) hn (by omega)
        refine ⟨sched, h1, ?_⟩
        rw [h2]; simp
      | cons e rest =>
        cases e with
        | err => exact absurd (hsc ▸ List.mem_cons_self _ _) hs
        | take k =>
          have hc1 := chunk_pos k (n - i) (by omega)
          have hc2 := chunk_le k (n - i)
          have hr : send s ((p.drop i).take (n - i))
              = (((chunk k (n - i) : Nat) : Int),
                  ⟨s.wire ++ ((p.drop i).take (n - i)).take (chunk k (n - i)), rest⟩) := by
            simp only [send, hsc, hlen]
          rw [hr]
          have hpos : ¬ (((chunk k (n - i) : Nat) : Int) ≤ 0) := by omega
          simp only [hpos, if_false]
          have e2 : (i : Int) + ((chunk k (n - i) : Nat) : Int)
              = ((i + chunk k (n - i) : Nat) : Int) := by omega
          rw [e2]
          have hrest : Io.err ∉ rest := fun hm => hs (hsc ▸ List.mem_cons_of_mem _ hm)
          obtain ⟨sched, h1, h2⟩ := ih
            ⟨s.wire ++ ((p.drop i).take (n - i)).take (chunk k (n - i)), rest⟩ p
            (i + chunk k (n - i)) n hrest (by omega) hn (by omega)
          refine ⟨sched, h1, ?_⟩
          rw [h2]
          have hl : ((p.drop i).take (n - i)).take (chunk k (n - i))
              ++ (p.drop (i + chunk k (n - i))).take (n - (i + chunk k (n - i)))
              = (p.drop i).take (n - i) := by
            have h3 := (take_split (p.drop i) (chunk k (n - i)) (n - i) hc2).symm
            rw [List.drop_drop] at h3
            have e3 : n - (i + chunk k (n - i)) = n - i - chunk k (n - i) := by omega
            have e4 : i + chunk k (n - i) = chunk k (n - i) + i := by omega
            rw [e3]
            exact h3
          simp only [List.append_assoc, hl]


theorem store_nil (buf : List Nat) (i : Nat) : store buf i [] = buf := by
  simp [store]

theorem store_store (buf : List Nat) (i : Nat) (d1 d2 : List Nat) (h : i ≤ buf.length) :
    store (store buf i d1) (i + d1.length) d2 = store buf i (d1 ++ d2) := by
  have hl : (buf.take i ++ d1).length = i + d1.length := by
    simp [List.length_take, Nat.min_eq_left h]
  have e1 : (buf.take i ++ d1 ++ buf.drop (i + d1.length)).take (i + d1.length)
      = buf.take i ++ d1 := by
    rw [← hl, List.take_left]
  have e2 : (buf.take i ++ d1 ++ buf.drop (i + d1.length)).drop (i + d1.length + d2.length)
      = buf.drop (i + (d1 ++ d2).length) := by
    rw [show i + d1.length + d2.length = (buf.take i ++ d1).length + d2.length by rw [hl],
      List.drop_append, List.drop_drop, List.length_append]
    congr 1; omega
  unfold store
  rw [e1, e2]
  simp only [List.append_assoc]

/-- A receive loop over a schedule without failing calls, on a wire that holds
the `n - i` bytes `d` it still needs, stores `d` at index `i` and consumes
exactly these bytes. -/
theorem recv_loop_ok (fuel : Nat) : ∀ (s : Sock) (buf : List Nat) (i n : Nat) (d rest : List Nat),
    Io.err ∉ s.sched → s.wire = d ++ rest → d.length = n - i → i ≤ n → n ≤ buf.length →
    n - i ≤ fuel →
    ∃ sched, Io.err ∉ sched ∧
      recv_loop fuel s buf (i : Int) (n : Int) = RecvLoop.done (store buf i d) ⟨rest, sched⟩ := by
  induction fuel with
  | zero =>
    intro s buf i n d rest hs hw hd hin _ hf
    have : i = n := by omega
    subst this
    have hd0 : d = [] := List.length_eq_zero.mp (by omega)
    subst hd0
    refine ⟨s.sched, hs, ?_⟩
    unfold recv_loop
    simp only [lt_self_iff_false, if_false, store_nil]
    cases s; simp_all
  | succ fuel ih =>
    intro s buf i n d rest hs hw hd hin hn hf
    rcases Nat.eq_or_lt_of_le hin with h | h
    · subst h
      have hd0 : d = [] := List.length_eq_zero.mp (by omega)
      subst hd0
      refine ⟨s.sched, hs, ?_⟩
      unfold recv_loop
      simp only [lt_self_iff_false, if_false, store_nil]
      cases s; simp_all
    · unfold recv_loop
      have hlt : (i : Int) < (n : Int) := by exact_mod_cast h
      have e1 : ((n : Int) - (i : Int)).toNat = n - i := by omega
      have hwl : s.wire.length = (n - i) + rest.length := by rw [hw, List.length_append, hd]
      have hmin : min (n - i) s.wire.length = n - i := by omega
      simp only [hlt, if_true, e1]
      cases hsc : s.sched with
      | nil =>
        have hr : recv s (n - i) = (((n - i : Nat) : Int), d, ⟨rest, []⟩) := by
          have ht : s.wire.take (n - i) = d := by rw [hw, ← hd, List.take_left]
          have hdr : s.wire.drop (n - i) = rest := by rw [hw, ← hd, List.drop_left]
          simp only [recv, hsc, hmin, ht, hdr]
        rw [hr]
        have hpos : ¬ (((n - i : Nat) : Int) ≤ 0) := by omega
        simp only [hpos, if_false, Int.toNat_ofNat]
        have e2 : (i : Int) + ((n - i : Nat) : Int) = ((n : Nat) : Int) := by omega
        rw [e2]
        obtain ⟨sched, h1, h2⟩ := ih ⟨rest, []⟩ (store buf i d) n n [] rest
          (by simp) (by simp) (by simp) (le_refl _) (by simp [store]; omega) (by omega)
        refine ⟨sched, h1, ?_⟩
        rw [h2, store_nil]
      | cons e tl =>
        cases e with
        | err => exact absurd (hsc ▸ List.mem_cons_self _ _) hs
        | take k =>
          have hc1 := chunk_pos k (n - i) (by omega)
          have hc2 := chunk_le k (n - i)
          have ht : s.wire.take (chunk k (n - i)) = d.take (chunk k (n - i)) := by
            rw [hw, List.take_append_of_le_length (by omega)]
          have hdr : s.wire.drop (chunk k (n - i)) = d.drop (chunk k (n - i)) ++ rest := by
            rw [hw, List.drop_append_of_le_length (by omega)]
          have hr : recv s (n - i) = (((chunk k (n - i) : Nat) : Int), d.take (chunk k (n - i)),
              ⟨d.drop (chunk k (n - i)) ++ rest, tl⟩) := by
            simp only [recv, hsc, hmin, ht, hdr]
          rw [hr]
          have hpos : ¬ (((chunk k (n - i) : Nat) : Int) ≤ 0) := by omega
          simp only [hpos, if_false, Int.toNat_ofNat]
          have e2 : (i : Int) + ((chunk k (n - i) : Nat) : Int)
              = ((i + chunk k (n - i) : Nat) : Int) := by omega
          rw [e2]
          have htl : Io.err ∉ tl := fun hm => hs (hsc ▸ List.mem_cons_of_mem _ hm)
          have hlt2 : (d.take (chunk k (n - i))).length = chunk k (n - i) := by
            rw [List.length_take]; omega
          obtain ⟨sched, h1, h2⟩ := ih ⟨d.drop (chunk k (n - i)) ++ rest, tl⟩
            (store buf i (d.take (chunk k (n - i)))) (i + chunk k (n - i)) n
            (d.drop (chunk k (n - i))) rest htl rfl
            (by rw [List.length_drop]; omega) (by omega)
            (by simp only [store, List.length_append, List.length_take, List.length_drop]; omega)
            (by omega)
          refine ⟨sched, h1, ?_⟩
          rw [h2]
          have h4 := store_store buf i (d.take (chunk k (n - i))) (d.drop (chunk k (n - i)))
            (by omega)
          rw [hlt2, List.take_append_drop] at h4
          rw [h4]


/-- The bound on the rounds of a send loop is never reached: from
`bytes_to_send - total_sent` rounds on, the result does not depend on the bound,
whatever the kernel does. -/
theorem send_loop_fuel (f1 : Nat) : ∀ (f2 : Nat) (s : Sock) (p : List Nat) (t b : Int),
    (b - t).toNat ≤ f1 → (b - t).toNat ≤ f2 →
    send_loop f1 s p t b = send_loop f2 s p t b := by
  induction f1 with
  | zero =>
    intro f2 s p t b h1 _
    have hnlt : ¬ t < b := by omega
    unfold send_loop
    rw [if_neg hnlt, if_neg hnlt]
  | succ f1 ih =>
    intro f2 s p t b h1 h2
    by_cases hlt : t < b
    · cases f2 with
      | zero => omega
      | succ f2 =>
        unfold send_loop
        rw [if_pos hlt, if_pos hlt]
        dsimp only
        by_cases hr : (send s ((p.drop t.toNat).take (b - t).toNat)).1 ≤ 0
        · rw [if_pos hr, if_pos hr]
        · rw [if_neg hr, if_neg hr]
          exact ih f2 _ p _ b (by omega) (by omega)
    · unfold send_loop
      rw [if_neg hlt, if_neg hlt]

/-- The bound on the rounds of a receive loop is never reached. -/
theorem recv_loop_fuel (f1 : Nat) : ∀ (f2 : Nat) (s : Sock) (buf : List Nat) (t b : Int),
    (b - t).toNat ≤ f1 → (b - t).toNat ≤ f2 →
    recv_loop f1 s buf t b = recv_loop f2 s buf t b := by
  induction f1 with
  | zero =>
    intro f2 s buf t b h1 _
    have hnlt : ¬ t < b := by omega
    unfold recv_loop
    rw [if_neg hnlt, if_neg hnlt]
  | succ f1 ih =>
    intro f2 s buf t b h1 h2
    by_cases hlt : t < b
    · cases f2 with
      | zero => omega
      | succ f2 =>
        unfold recv_loop
        rw [if_pos hlt, if_pos hlt]
        dsimp only
        by_cases hr : (recv s (b - t).toNat).1 ≤ 0
        · rw [if_pos hr, if_pos hr]
        · rw [if_neg hr, if_neg hr]
          exact ih f2 _ _ _ b (by omega) (by omega)
    · unfold recv_loop
      rw [if_neg hlt, if_neg hlt]


theorem store_zero_full (b h : List Nat) (hl : h.length = b.length) : store b 0 h = h := by
  simp [store, hl]

/-- Reading the four length bytes of a frame. -/
theorem recv_header_ok (s : Sock) (L : Nat) (rest : List Nat)
    (hs : Io.err ∉ s.sched) (hw : s.wire = htonl L ++ rest) :
    ∃ sched, Io.err ∉ sched ∧
      recv_loop 4 s [0, 0, 0, 0] 0 4 = RecvLoop.done (htonl L) ⟨rest, sched⟩ := by
  obtain ⟨sched, h1, h2⟩ := recv_loop_ok 4 s [0, 0, 0, 0] 0 4 (htonl L) rest hs hw rfl
    (by omega) (by simp) (by omega)
  refine ⟨sched, h1, ?_⟩
  rw [store_zero_full _ _ (by rfl)] at h2
  exact h2

/-- The result of `receive_message` on a wire that starts with the length `L`,
for each of the three ranges of `L`. -/
theorem receive_message_cases (fd : Int) (s : Sock) (L bs : Nat) (buffer rest : List Nat)
    (hfd : fd ≠ -1) (hs : Io.err ∉ s.sched) (hL : L < 4294967296) (hbs : 1 ≤ bs)
    (hbuf : buffer.length = bs) (hw : s.wire = htonl L ++ rest) :
    ∃ sched, Io.err ∉ sched ∧
      (L = 0 → receive_message fd s buffer bs = (0, buffer, ⟨rest, sched⟩)) ∧
      (bs ≤ L → receive_message fd s buffer bs = (-1, buffer, ⟨rest, sched⟩)) ∧
      (0 < L → L < bs → L < 2147483648 → ∀ payload rest2, rest = payload ++ rest2 →
        payload.length = L → ∃ sched2, Io.err ∉ sched2 ∧
          receive_message fd s buffer bs
            = ((L : Int), payload ++ 0 :: buffer.drop (L + 1), ⟨rest2, sched2⟩)) := by
  obtain ⟨sched, h1, h2⟩ := recv_header_ok s L rest hs hw
  have hc : ¬ (fd = -1 ∨ bs < 1) := by
    intro h; rcases h with h | h
    · exact hfd h
    · omega
  refine ⟨sched, h1, ?_, ?_, ?_⟩
  · intro h0
    subst h0
    have hn : ntohl (htonl 0) = 0 := by decide
    unfold receive_message
    simp only [hc, if_false, h2, hn, if_true]
  · intro hge
    have hne : L ≠ 0 := by omega
    unfold receive_message
    simp only [hc, if_false, h2, ntohl_htonl L hL, hne, ge_iff_le, hge, if_true]
  · intro hpos hlt hint payload rest2 hrest hpl
    have hne : L ≠ 0 := by omega
    have hnge : ¬ (bs ≤ L) := by omega
    have hti : toInt32 L = (L : Int) := by
      unfold toInt32 u32
      rw [Nat.mod_eq_of_lt hL]
      simp [hint]
    obtain ⟨sched2, h3, h4⟩ := recv_loop_ok L ⟨rest, sched⟩ buffer 0 L payload rest2 h1 hrest
      (by omega) (by omega) (by omega) (by omega)
    refine ⟨sched2, h3, ?_⟩
    unfold receive_message
    simp only [hc, if_false, h2, ntohl_htonl L hL, hne, ge_iff_le, hnge, hti, Int.toNat_ofNat]
    have h5 : recv_loop L ⟨rest, sched⟩ buffer 0 (L : Int)
        = RecvLoop.done (store buffer 0 payload) ⟨rest2, sched2⟩ := by
      simpa using h4
    rw [h5]
    have h6 : store (store buffer 0 payload) L [0] = payload ++ 0 :: buffer.drop (L + 1) := by
      have := store_store buffer 0 payload [0] (by omega)
      simp only [Nat.zero_add, hpl] at this
      rw [this]
      simp [store, hpl]
    simp only [h6]


theorem toInt32_small (L : Nat) (h : L < 2147483648) : toInt32 L = (L : Int) := by
  unfold toInt32 u32
  rw [Nat.mod_eq_of_lt (by omega)]
  simp [h]

/-- The bytes `send_message` puts on the wire when no call fails: the length in
network byte order, then the message. -/
theorem send_message_ok (fd : Int) (s : Sock) (m : List Nat)
    (hfd : fd ≠ -1) (hs : Io.err ∉ s.sched) (hnul : 0 ∉ m) (hint : m.length < 2147483648) :
    ∃ sched, Io.err ∉ sched ∧
      send_message fd s m = (0, ⟨s.wire ++ htonl m.length ++ m, sched⟩) := by
  have hu : u32 m.length = m.length := by
    unfold u32; exact Nat.mod_eq_of_lt (by omega)
  obtain ⟨sc1, h1, h2⟩ := send_loop_ok 4 s (htonl m.length) 0 4 hs (by omega) (by simp [htonl])
    (by omega)
  have h2' : send_loop 4 s (htonl m.length) 0 4 = (0, ⟨s.wire ++ htonl m.length, sc1⟩) := by
    have e : ((htonl m.length).drop 0).take (4 - 0) = htonl m.length := by simp [htonl]
    rw [e] at h2
    exact h2
  obtain ⟨sc2, h3, h4⟩ := send_loop_ok m.length ⟨s.wire ++ htonl m.length, sc1⟩ m 0 m.length h1
    (by omega) (le_refl _) (by omega)
  refine ⟨sc2, h3, ?_⟩
  unfold send_message
  simp only [hfd, if_false, strlen_of_no_nul m hnul, hu, h2', ne_eq, not_true_eq_false,
    toInt32_small _ hint, Int.toNat_ofNat]
  have h4' : send_loop m.length ⟨s.wire ++ htonl m.length, sc1⟩ m 0 (m.length : Int)
      = (0, ⟨s.wire ++ htonl m.length ++ m, sc2⟩) := by
    simpa using h4
  exact h4'

/-- C1 (as amended): a message without NUL byte that is shorter than the
receiver's buffer and at most INT_MAX bytes long, written by `send_message` and
read back by `receive_message`, arrives whole: the sender returns 0, the
receiver returns the length, the buffer holds the message followed by a NUL and
nothing is left on the wire, for every split of the stream into short writes
and short reads. -/
theorem send_receive_roundtrip (fd_s fd_r : Int) (m : List Nat) (ss rs : List Io)
    (buffer : List Nat) (buffer_size : Nat)
    (hfs : fd_s ≠ -1) (hfr : fd_r ≠ -1) (hnul : 0 ∉ m) (hpos : 0 < m.length)
    (hlt : m.length < buffer_size) (hint : m.length < 2147483648)
    (hbuf : buffer.length = buffer_size) (hss : Io.err ∉ ss) (hrs : Io.err ∉ rs) :
    (send_message fd_s ⟨[], ss⟩ m).1 = 0 ∧
    (receive_message fd_r ⟨(send_message fd_s ⟨[], ss⟩ m).2.wire, rs⟩ buffer buffer_size).1
      = (m.length : Int) ∧
    (receive_message fd_r ⟨(send_message fd_s ⟨[], ss⟩ m).2.wire, rs⟩ buffer buffer_size).2.1
      = m ++ 0 :: buffer.drop (m.length + 1) ∧
    (receive_message fd_r ⟨(send_message fd_s ⟨[], ss⟩ m).2.wire, rs⟩ buffer buffer_size).2.2.wire
      = [] := by
  obtain ⟨sc, _, h1⟩ := send_message_ok fd_s ⟨[], ss⟩ m hfs hss hnul hint
  rw [h1]
  obtain ⟨sc1, hsc1, _, _, h2⟩ := receive_message_cases fd_r ⟨[] ++ htonl m.length ++ m, rs⟩
    m.length buffer_size buffer m hfr hrs (by omega) (by omega) hbuf (by simp)
  obtain ⟨sc2, _, h3⟩ := h2 hpos hlt hint m [] (by simp) rfl
  simp only [h3, and_self]

theorem send_receive_roundtrip_witness :
    (send_message 3 ⟨[], [Io.take 1, Io.take 2]⟩ [104, 105]).1 = 0 ∧
    (receive_message 4 ⟨(send_message 3 ⟨[], [Io.take 1, Io.take 2]⟩ [104, 105]).2.wire,
      [Io.take 3, Io.take 1]⟩ [7, 7, 7, 7] 4).1 = ((([104, 105] : List Nat).length : Nat) : Int) ∧
    (receive_message 4 ⟨(send_message 3 ⟨[], [Io.take 1, Io.take 2]⟩ [104, 105]).2.wire,
      [Io.take 3, Io.take 1]⟩ [7, 7, 7, 7] 4).2.1
      = [104, 105] ++ 0 :: ([7, 7, 7, 7] : List Nat).drop (([104, 105] : List Nat).length + 1) ∧
    (receive_message 4 ⟨(send_message 3 ⟨[], [Io.take 1, Io.take 2]⟩ [104, 105]).2.wire,
      [Io.take 3, Io.take 1]⟩ [7, 7, 7, 7] 4).2.2.wire = [] :=
  send_receive_roundtrip 3 4 [104, 105] [Io.take 1, Io.take 2] [Io.take 3, Io.take 1]
    [7, 7, 7, 7] 4 (by decide) (by decide) (by decide) (by decide) (by decide) (by decide)
    (by decide) (by decide) (by decide)

theorem strlen_replicate (n c : Nat) (hc : c ≠ 0) : strlen (List.replicate n c) = n := by
  rw [strlen_of_no_nul]
  · simp
  · intro h
    exact hc (List.eq_of_mem_replicate h).symm

/-- A message of exactly 2^31 bytes: only the four length bytes are written. -/
theorem send_message_wraps (m : List Nat) (h : strlen m = 2147483648) :
    send_message 3 ⟨[], []⟩ m = (0, ⟨[128, 0, 0, 0], []⟩) := by
  unfold send_message
  rw [h]
  rfl

/-- A declared length of 2^31 and a buffer of 2^31 + 1 bytes: no payload byte is
read and the return value is negative. -/
theorem receive_message_wraps (buffer : List Nat) :
    (receive_message 4 ⟨[128, 0, 0, 0], []⟩ buffer 2147483649).1 = -2147483648 := by
  rfl

/-- C1 as stated fails: a message of 2^31 bytes sent into a buffer of 2^31 + 1
bytes. The payload loop of `send_message` counts in `int`, does not run, and
`receive_message` returns -2147483648. -/
theorem send_receive_int_overflow :
    0 ∉ List.replicate 2147483648 65 ∧
    0 < (List.replicate 2147483648 65).length ∧
    (List.replicate 2147483648 65).length < 2147483649 ∧
    (List.replicate 2147483649 0).length = 2147483649 ∧
    (send_message 3 ⟨[], []⟩ (List.replicate 2147483648 65)).2.wire = [128, 0, 0, 0] ∧
    (receive_message 4 ⟨(send_message 3 ⟨[], []⟩ (List.replicate 2147483648 65)).2.wire, []⟩
      (List.replicate 2147483649 0) 2147483649).1 = -2147483648 ∧
    (receive_message 4 ⟨(send_message 3 ⟨[], []⟩ (List.replicate 2147483648 65)).2.wire, []⟩
      (List.replicate 2147483649 0) 2147483649).1
      ≠ ((List.replicate 2147483648 65).length : Int) := by
  have hs : send_message 3 ⟨[], []⟩ (List.replicate 2147483648 65)
      = (0, ⟨[128, 0, 0, 0], []⟩) :=
    send_message_wraps _ (strlen_replicate _ _ (by decide))
  have hr : (receive_message 4 ⟨[128, 0, 0, 0], []⟩
      (List.replicate 2147483649 0) 2147483649).1 = -2147483648 :=
    receive_message_wraps _
  refine ⟨?_, ?_, ?_, ?_, ?_, ?_, ?_⟩
  · intro h
    exact absurd (List.eq_of_mem_replicate h) (by decide)
  · rw [List.length_replicate]; omega
  · rw [List.length_replicate]; omega
  · rw [List.length_replicate]
  · rw [hs]
  · rw [hs]; exact hr
  · rw [hs, hr, List.length_replicate]; omega


/-- C2 (as amended): `receive_message` on a wire that starts with the four
bytes of the length `L`, read without failing calls. For `L = 0` it returns 0
and for `L ≥ buffer_size` it returns -1, in both cases leaving the buffer as it
was and the wire right behind the length; for `0 < L < buffer_size` with `L` at
most INT_MAX it returns `L`, having taken exactly the `L` payload bytes off the
wire and stored them, NUL-terminated, in the buffer. -/
theorem receive_message_by_length (fd : Int) (sched : List Io) (L buffer_size : Nat)
    (buffer rest : List Nat)
    (hfd : fd ≠ -1) (hs : Io.err ∉ sched) (hL : L < 4294967296) (hbs : 1 ≤ buffer_size)
    (hbuf : buffer.length = buffer_size) :
    (L = 0 →
      (receive_message fd ⟨htonl L ++ rest, sched⟩ buffer buffer_size).1 = 0 ∧
      (receive_message fd ⟨htonl L ++ rest, sched⟩ buffer buffer_size).2.1 = buffer ∧
      (receive_message fd ⟨htonl L ++ rest, sched⟩ buffer buffer_size).2.2.wire = rest) ∧
    (buffer_size ≤ L →
      (receive_message fd ⟨htonl L ++ rest, sched⟩ buffer buffer_size).1 = -1 ∧
      (receive_message fd ⟨htonl L ++ rest, sched⟩ buffer buffer_size).2.1 = buffer ∧
      (receive_message fd ⟨htonl L ++ rest, sched⟩ buffer buffer_size).2.2.wire = rest) ∧
    (0 < L → L < buffer_size → L < 2147483648 → ∀ payload rest2 : List Nat,
      rest = payload ++ rest2 → payload.length = L →
      (receive_message fd ⟨htonl L ++ rest, sched⟩ buffer buffer_size).1 = (L : Int) ∧
      (receive_message fd ⟨htonl L ++ rest, sched⟩ buffer buffer_size).2.1
        = payload ++ 0 :: buffer.drop (L + 1) ∧
      (receive_message fd ⟨htonl L ++ rest, sched⟩ buffer buffer_size).2.2.wire = rest2) := by
  obtain ⟨sc, _, h0, h1, h2⟩ := receive_message_cases fd ⟨htonl L ++ rest, sched⟩ L buffer_size
    buffer rest hfd hs hL hbs hbuf rfl
  refine ⟨?_, ?_, ?_⟩
  · intro h; rw [h0 h]; exact ⟨rfl, rfl, rfl⟩
  · intro h; rw [h1 h]; exact ⟨rfl, rfl, rfl⟩
  · intro ha hb hc payload rest2 hr hp
    obtain ⟨sc2, _, h3⟩ := h2 ha hb hc payload rest2 hr hp
    rw [h3]; exact ⟨rfl, rfl, rfl⟩

theorem receive_message_by_length_witness :
    (receive_message 4 ⟨htonl 2 ++ [104, 105, 9], [Io.take 1]⟩ [7, 7, 7, 7] 4).1 = 2 ∧
    (receive_message 4 ⟨htonl 2 ++ [104, 105, 9], [Io.take 1]⟩ [7, 7, 7, 7] 4).2.1
      = [104, 105] ++ 0 :: ([7, 7, 7, 7] : List Nat).drop (2 + 1) ∧
    (receive_message 4 ⟨htonl 2 ++ [104, 105, 9], [Io.take 1]⟩ [7, 7, 7, 7] 4).2.2.wire = [9] :=
  (receive_message_by_length 4 [Io.take 1] 2 4 [7, 7, 7, 7] [104, 105, 9] (by decide) (by decide)
    (by decide) (by decide) (by decide)).2.2 (by decide) (by decide) (by decide) [104, 105] [9]
    (by decide) (by decide)

/-- C2 as stated fails: the length 2^31 is below a buffer size of 2^31 + 1, yet
`receive_message` reads no payload byte (the byte 9 is still on the wire) and
returns -2147483648. -/
theorem receive_message_negative_length :
    (0 : Nat) < 2147483648 ∧ (2147483648 : Nat) < 2147483649 ∧
    htonl 2147483648 = [128, 0, 0, 0] ∧
    (receive_message 4 ⟨htonl 2147483648 ++ [9], []⟩ (List.replicate 2147483649 0)
      2147483649).1 = -2147483648 ∧
    (receive_message 4 ⟨htonl 2147483648 ++ [9], []⟩ (List.replicate 2147483649 0)
      2147483649).2.2.wire = [9] := by
  have key : ∀ buffer : List Nat,
      (receive_message 4 ⟨htonl 2147483648 ++ [9], []⟩ buffer 2147483649).1 = -2147483648 ∧
      (receive_message 4 ⟨htonl 2147483648 ++ [9], []⟩ buffer 2147483649).2.2.wire = [9] := by
    intro buffer
    exact ⟨rfl, rfl⟩
  exact ⟨by decide, by decide, by decide, (key _).1, (key _).2⟩

/-- Characterisation of the names `validate_username` accepts. -/
theorem validate_username_iff (u : List Nat) :
    validate_username u = 0 ↔
      1 ≤ strlen u ∧ strlen u ≤ 16 ∧
      ∀ c ∈ cstr u, (48 ≤ c ∧ c ≤ 57) ∨ (65 ≤ c ∧ c ≤ 90) ∨ (97 ≤ c ∧ c ≤ 122) := by
  have hall : (cstr u).all isalnum = true ↔
      ∀ c ∈ cstr u, (48 ≤ c ∧ c ≤ 57) ∨ (65 ≤ c ∧ c ≤ 90) ∨ (97 ≤ c ∧ c ≤ 122) := by
    simp [List.all_eq_true, isalnum, or_assoc]
  have hdef : validate_username u
      = if strlen u = 0 ∨ strlen u > 16 then -1
        else if (cstr u).all isalnum then 0 else -1 := rfl
  rw [← hall, hdef]
  by_cases h1 : strlen u = 0 ∨ strlen u > 16
  · simp only [h1, if_true]
    constructor
    · intro h; exact absurd h (by decide)
    · intro h; omega
  · simp only [h1, if_false]
    by_cases h2 : (cstr u).all isalnum = true
    · simp only [h2, if_true, true_iff, and_true]
      omega
    · simp only [h2]
      constructor
      · intro h; exact absurd h (by decide)
      · intro h; exact absurd h.2.2 (by simp)

/-- C3: `validate_username` returns 0 exactly for the strings of 1 to 16 ASCII
letters and digits, and -1 for every other string; in particular for the empty
string, for every string of 17 or more characters and for every string that
contains an underscore or a space. -/
theorem validate_username_spec (u : List Nat) :
    (validate_username u = 0 ↔
      1 ≤ strlen u ∧ strlen u ≤ 16 ∧
      ∀ c ∈ cstr u, (48 ≤ c ∧ c ≤ 57) ∨ (65 ≤ c ∧ c ≤ 90) ∨ (97 ≤ c ∧ c ≤ 122)) ∧
    (validate_username u = 0 ∨ validate_username u = -1) ∧
    (strlen u = 0 → validate_username u = -1) ∧
    (17 ≤ strlen u → validate_username u = -1) ∧
    (95 ∈ cstr u → validate_username u = -1) ∧
    (32 ∈ cstr u → validate_username u = -1) := by
  have hall : (cstr u).all isalnum = true ↔
      ∀ c ∈ cstr u, (48 ≤ c ∧ c ≤ 57) ∨ (65 ≤ c ∧ c ≤ 90) ∨ (97 ≤ c ∧ c ≤ 122) := by
    simp [List.all_eq_true, isalnum, or_assoc]
  have hdef : validate_username u
      = if strlen u = 0 ∨ strlen u > 16 then -1
        else if (cstr u).all isalnum then 0 else -1 := rfl
  have hbad : ∀ c, c ∈ cstr u → isalnum c = false → validate_username u = -1 := by
    intro c hc hf
    have hn : ¬ ((cstr u).all isalnum = true) := by
      rw [List.all_eq_true]
      intro h
      have := h c hc
      rw [hf] at this
      exact absurd this (by decide)
    rw [hdef]
    by_cases h1 : strlen u = 0 ∨ strlen u > 16
    · simp only [h1, if_true]
    · simp only [h1, if_false, hn]
      rfl
  refine ⟨validate_username_iff u, ?_, ?_, ?_, ?_, ?_⟩
  · rw [hdef]
    by_cases h1 : strlen u = 0 ∨ strlen u > 16
    · right; simp only [h1, if_true]
    · by_cases h2 : (cstr u).all isalnum = true
      · left; simp only [h1, if_false, h2, if_true]
      · right; simp only [h1, if_false, h2]; rfl
  · intro h
    rw [hdef]
    simp [h]
  · intro h
    rw [hdef]
    have : strlen u = 0 ∨ strlen u > 16 := by omega
    simp [this]
  · intro h; exact hbad 95 h (by decide)
  · intro h; exact hbad 32 h (by decide)


/-! ## Login handshake: lemmas -/

theorem cstr_append_nul (u t : List Nat) : cstr (u ++ 0 :: t) = cstr u := by
  unfold cstr
  induction u with
  | nil => simp
  | cons x xs ih =>
    by_cases hx : x = 0
    · subst hx; simp
    · simp [List.takeWhile_cons, hx, ih]

theorem cstr_of_no_nul (m : List Nat) (h : 0 ∉ m) : cstr m = m := by
  unfold cstr
  rw [List.takeWhile_eq_self_iff]
  intro x hx
  have : x ≠ 0 := fun e => h (e ▸ hx)
  simpa using this

theorem strlen_eq_cstr_length (m : List Nat) : strlen m = (cstr m).length := rfl

theorem no_nul_cstr (m : List Nat) : 0 ∉ cstr m := by
  unfold cstr
  intro h
  have := List.mem_takeWhile_imp h
  simp at this

theorem cstr_cstr (m : List Nat) : cstr (cstr m) = cstr m :=
  cstr_of_no_nul _ (no_nul_cstr m)

/-- Every call of `recv` takes a prefix off the wire. -/
theorem recv_wire (s : Sock) (k : Nat) :
    ∃ c : Nat, c ≤ k ∧ c ≤ s.wire.length ∧ (recv s k).2.2.wire = s.wire.drop c ∧
      ((recv s k).1 = (c : Int) ∨ (recv s k).1 = -1) := by
  unfold recv
  cases hsc : s.sched with
  | nil =>
    refine ⟨min k s.wire.length, by omega, by omega, rfl, Or.inl rfl⟩
  | cons e rest =>
    cases e with
    | err => exact ⟨0, by omega, by omega, by simp, Or.inr rfl⟩
    | take j =>
      have := chunk_le j (min k s.wire.length)
      exact ⟨chunk j (min k s.wire.length), by omega, by omega, rfl, Or.inl rfl⟩

/-- A receive loop never puts bytes back on the wire, and a loop that completes
has taken exactly the bytes it was asked for. -/
theorem recv_loop_wire (fuel : Nat) : ∀ (s : Sock) (buf : List Nat) (i n : Int),
    (recv_loop fuel s buf i n).sock.wire.length ≤ s.wire.length ∧
    (∀ b s2, recv_loop fuel s buf i n = RecvLoop.done b s2 →
      s2.wire.length + (n - i).toNat = s.wire.length) := by
  induction fuel with
  | zero =>
    intro s buf i n
    unfold recv_loop
    by_cases h : i < n
    · simp only [h, if_true]
      exact ⟨le_refl _, fun b s2 hh => by cases hh⟩
    · simp only [h, if_false]
      refine ⟨le_refl _, fun b s2 hh => ?_⟩
      cases hh
      have : (n - i).toNat = 0 := by omega
      omega
  | succ fuel ih =>
    intro s buf i n
    unfold recv_loop
    by_cases h : i < n
    · simp only [h, if_true]
      obtain ⟨c, hc1, hc2, hc3, hc4⟩ := recv_wire s (n - i).toNat
      have hlen : (recv s (n - i).toNat).2.2.wire.length + c = s.wire.length := by
        rw [hc3, List.length_drop]; omega
      by_cases h1 : (recv s (n - i).toNat).1 ≤ 0
      · simp only [h1, if_true]
        by_cases h2 : (recv s (n - i).toNat).1 = 0
        · simp only [h2, if_true]
          exact ⟨by simp only [RecvLoop.sock]; omega, fun b s2 hh => by cases hh⟩
        · simp only [h2, if_false]
          exact ⟨by simp only [RecvLoop.sock]; omega, fun b s2 hh => by cases hh⟩
      · simp only [h1, if_false]
        have hr : (recv s (n - i).toNat).1 = (c : Int) := by
          rcases hc4 with h4 | h4
          · exact h4
          · rw [h4] at h1; exact absurd (by decide) h1
        obtain ⟨ih1, ih2⟩ := ih (recv s (n - i).toNat).2.2
          (store buf i.toNat (recv s (n - i).toNat).2.1) (i + (recv s (n - i).toNat).1) n
        refine ⟨by omega, fun b s2 hh => ?_⟩
        have := ih2 b s2 hh
        rw [hr] at this
        omega
    · simp only [h, if_false]
      refine ⟨le_refl _, fun b s2 hh => ?_⟩
      cases hh
      have : (n - i).toNat = 0 := by omega
      omega

/-- The function `receive_message` never puts bytes back on the wire, and a
positive return value means that at least the four length bytes were taken. -/
theorem receive_message_wire (fd : Int) (s : Sock) (buffer : List Nat) (bs : Nat) :
    (receive_message fd s buffer bs).2.2.wire.length ≤ s.wire.length ∧
    (0 < (receive_message fd s buffer bs).1 →
      (receive_message fd s buffer bs).2.2.wire.length < s.wire.length) := by
  unfold receive_message
  by_cases hg : fd = -1 ∨ bs < 1
  · simp only [hg, if_true]
    exact ⟨le_refl _, fun h => absurd h (by decide)⟩
  · simp only [hg, if_false]
    obtain ⟨hw1, hd1⟩ := recv_loop_wire 4 s [0, 0, 0, 0] 0 4
    cases h1 : recv_loop 4 s [0, 0, 0, 0] 0 4 with
    | closed b s1 =>
      rw [h1] at hw1; simp only [RecvLoop.sock] at hw1
      dsimp only
      exact ⟨hw1, fun h => absurd h (by decide)⟩
    | failed b s1 =>
      rw [h1] at hw1; simp only [RecvLoop.sock] at hw1
      dsimp only
      exact ⟨hw1, fun h => absurd h (by decide)⟩
    | done nl s1 =>
      have h4 := hd1 nl s1 h1
      have h4b : s1.wire.length + 4 = s.wire.length := by
        have : ((4 : Int) - 0).toNat = 4 := by decide
        omega
      dsimp only
      by_cases hz : ntohl nl = 0
      · simp only [hz, if_true]
        exact ⟨by omega, fun h => absurd h (by decide)⟩
      · simp only [hz, if_false]
        by_cases hb : ntohl nl ≥ bs
        · simp only [hb, if_true]
          exact ⟨by omega, fun h => absurd h (by decide)⟩
        · simp only [hb, if_false]
          obtain ⟨hw2, _⟩ := recv_loop_wire (toInt32 (ntohl nl)).toNat s1 buffer 0
            (toInt32 (ntohl nl))
          cases h2 : recv_loop (toInt32 (ntohl nl)).toNat s1 buffer 0 (toInt32 (ntohl nl)) with
          | closed b s2 =>
            rw [h2] at hw2; simp only [RecvLoop.sock] at hw2
            dsimp only
            exact ⟨by omega, fun _ => by omega⟩
          | failed b s2 =>
            rw [h2] at hw2; simp only [RecvLoop.sock] at hw2
            dsimp only
            exact ⟨by omega, fun _ => by omega⟩
          | done b s2 =>
            rw [h2] at hw2; simp only [RecvLoop.sock] at hw2
            dsimp only
            exact ⟨by omega, fun _ => by omega⟩

/-- A round of the login loop that continues has read from the client. -/
theorem login_round_again_wire (σ : Server) (heap : List Bool) (s : Sock) (fd : Int)
    (ip : List Nat) (port : Int) (σ1 : Server) (heap1 : List Bool) (s1 : Sock)
    (h : login_round σ heap s fd ip port = Round.again σ1 heap1 s1) :
    s1.wire.length < s.wire.length := by
  unfold login_round at h
  obtain ⟨ha1, ha2⟩ := receive_message_wire fd s (List.replicate 1024 0) 1024
  obtain ⟨hb1, _⟩ := receive_message_wire fd
    (receive_message fd s (List.replicate 1024 0) 1024).2.2 (List.replicate 1024 0) 1024
  by_cases h1 : (receive_message fd s (List.replicate 1024 0) 1024).1 ≤ 0
  · simp only [h1, if_true] at h
    cases h
  · simp only [h1, if_false] at h
    have hlt := ha2 (by omega)
    by_cases h2 : (receive_message fd (receive_message fd s (List.replicate 1024 0) 1024).2.2
        (List.replicate 1024 0) 1024).1 ≤ 0
    · simp only [h2, if_true] at h
      cases h
    · simp only [h2, if_false] at h
      have hs1 : s1 = (receive_message fd (receive_message fd s (List.replicate 1024 0) 1024).2.2
          (List.replicate 1024 0) 1024).2.2 := by
        unfold login_decide at h
        split at h
        · cases h; rfl
        · split at h
          · cases h; rfl
          · split at h
            · cases h; rfl
            · cases h
      rw [hs1]
      omega

/-- More rounds than the wire has bytes are never used: the result of the login
loop does not depend on the bound once it exceeds the length of the wire. -/
theorem login_loop_fuel (f1 : Nat) : ∀ (f2 : Nat) (σ : Server) (heap : List Bool) (s : Sock)
    (fd : Int) (ip : List Nat) (port : Int),
    s.wire.length < f1 → s.wire.length < f2 →
    login_loop f1 σ heap s fd ip port = login_loop f2 σ heap s fd ip port := by
  induction f1 with
  | zero => intro f2 σ heap s fd ip port h; omega
  | succ f1 ih =>
    intro f2 σ heap s fd ip port h1 h2
    cases f2 with
    | zero => omega
    | succ f2 =>
      unfold login_loop
      cases hr : login_round σ heap s fd ip port with
      | finished r σ1 heap1 s1 => rfl
      | again σ1 heap1 s1 =>
        have := login_round_again_wire σ heap s fd ip port σ1 heap1 s1 hr
        exact ih f2 σ1 heap1 s1 fd ip port (by omega) (by omega)

/-- The login handshake after a round that continues is the login handshake on
what is left of the stream. -/
theorem handle_client_login_again (σ : Server) (heap : List Bool) (s : Sock) (fd : Int)
    (ip : List Nat) (port : Int) (σ1 : Server) (heap1 : List Bool) (s1 : Sock)
    (h : login_round σ heap s fd ip port = Round.again σ1 heap1 s1) :
    handle_client_login σ heap s fd ip port = handle_client_login σ1 heap1 s1 fd ip port := by
  have hw := login_round_again_wire σ heap s fd ip port σ1 heap1 s1 h
  unfold handle_client_login
  rw [show s.wire.length + 1 = (s.wire.length) + 1 from rfl]
  conv_lhs => unfold login_loop
  simp only [h]
  exact login_loop_fuel _ _ σ1 heap1 s1 fd ip port (by omega) (by omega)

/-- A round of the login loop on a wire that starts with a username frame and a
path frame: both are read and the decision is taken on their trimmed contents. -/
theorem login_round_frames (σ : Server) (heap : List Bool) (sched : List Io)
    (u p rest : List Nat) (fd : Int) (ip : List Nat) (port : Int)
    (hfd : fd ≠ -1) (hs : Io.err ∉ sched)
    (hu0 : 0 < u.length) (hu1 : u.length < 1024) (hp0 : 0 < p.length) (hp1 : p.length < 1024) :
    ∃ sched2, Io.err ∉ sched2 ∧
      login_round σ heap ⟨frame u ++ frame p ++ rest, sched⟩ fd ip port
        = login_decide σ heap ⟨rest, sched2⟩ fd ip port
            (rtrim ws_sp_tab_nl (cstr u)) (rtrim ws_sp_tab_nl (cstr p)) := by
  obtain ⟨sa, hsa, _, _, ha⟩ := receive_message_cases fd ⟨frame u ++ frame p ++ rest, sched⟩
    u.length 1024 (List.replicate 1024 0) (u ++ (frame p ++ rest)) hfd hs (by omega) (by omega)
    (List.length_replicate _ _) (by simp only [frame, List.append_assoc])
  obtain ⟨sb, hsb, hb⟩ := ha hu0 hu1 (by omega) u (frame p ++ rest) rfl rfl
  obtain ⟨sc, hsc, _, _, hc⟩ := receive_message_cases fd ⟨frame p ++ rest, sb⟩
    p.length 1024 (List.replicate 1024 0) (p ++ rest) hfd hsb (by omega) (by omega)
    (List.length_replicate _ _) (by simp only [frame, List.append_assoc])
  obtain ⟨sd, hsd, hd⟩ := hc hp0 hp1 (by omega) p rest rfl rfl
  refine ⟨sd, hsd, ?_⟩
  unfold login_round
  simp only [hb, hd, cstr_append_nul]
  have h1 : ¬ ((u.length : Int) ≤ 0) := by omega
  have h2 : ¬ ((p.length : Int) ≤ 0) := by omega
  simp only [h1, h2, if_false]


theorem mem_rtrim (ws : Nat → Bool) (m : List Nat) (x : Nat) (h : x ∈ rtrim ws m) : x ∈ m := by
  cases m with
  | nil => simp [rtrim] at h
  | cons c tl =>
    simp only [rtrim, List.mem_cons, List.mem_reverse] at h
    rcases h with h | h
    · exact h ▸ List.mem_cons_self _ _
    · exact List.mem_cons_of_mem _ (List.mem_reverse.mp ((List.dropWhile_sublist _).mem h))

theorem no_nul_rtrim (ws : Nat → Bool) (m : List Nat) (h : 0 ∉ m) : 0 ∉ rtrim ws m :=
  fun hm => h (mem_rtrim ws m 0 hm)

/-- A name that is too long or holds a byte that is no letter and no digit is
refused by `validate_username`. -/
theorem validate_username_bad (n : List Nat) (hn : 0 ∉ n)
    (hbad : 16 < n.length ∨
      ∃ c ∈ n, ¬ ((48 ≤ c ∧ c ≤ 57) ∨ (65 ≤ c ∧ c ≤ 90) ∨ (97 ≤ c ∧ c ≤ 122))) :
    validate_username n ≠ 0 := by
  intro h
  have h2 := (validate_username_iff n).mp h
  rw [strlen_of_no_nul n hn, cstr_of_no_nul n hn] at h2
  rcases hbad with hb | ⟨c, hc, hb⟩
  · omega
  · exact hb (h2.2.2 c hc)

/-- C4 (as amended): a username frame whose name, read up to the first NUL and
with the trailing blanks (space, tab, newline) cut, is longer than 16 bytes or
holds a byte that is no ASCII letter and no digit, followed by a path frame,
both non-empty and shorter than 1024 bytes: the round answers exactly
"Invalid username format" on the client's socket, leaves the registry as it
was, and the handshake goes on with the frames that follow. -/
theorem login_rejects_invalid_username (σ : Server) (heap : List Bool) (sched : List Io)
    (u p rest : List Nat) (fd : Int) (ip : List Nat) (port : Int)
    (hfd : fd ≠ -1) (hs : Io.err ∉ sched)
    (hu0 : 0 < u.length) (hu1 : u.length < 1024) (hp0 : 0 < p.length) (hp1 : p.length < 1024)
    (hbad : 16 < (rtrim ws_sp_tab_nl (cstr u)).length ∨
      ∃ c ∈ rtrim ws_sp_tab_nl (cstr u),
        ¬ ((48 ≤ c ∧ c ≤ 57) ∨ (65 ≤ c ∧ c ≤ 90) ∨ (97 ≤ c ∧ c ≤ 122))) :
    ∃ sched2,
      login_round σ heap ⟨frame u ++ frame p ++ rest, sched⟩ fd ip port
        = Round.again (σ.emit fd (lit "Invalid username format")) heap ⟨rest, sched2⟩ ∧
      handle_client_login σ heap ⟨frame u ++ frame p ++ rest, sched⟩ fd ip port
        = handle_client_login (σ.emit fd (lit "Invalid username format")) heap ⟨rest, sched2⟩
            fd ip port ∧
      (σ.emit fd (lit "Invalid username format")).client_list = σ.client_list ∧
      (σ.emit fd (lit "Invalid username format")).active_client_count = σ.active_client_count ∧
      (σ.emit fd (lit "Invalid username format")).out
        = σ.out ++ [(fd, lit "Invalid username format")] := by
  obtain ⟨sched2, _, h1⟩ := login_round_frames σ heap sched u p rest fd ip port hfd hs hu0 hu1
    hp0 hp1
  have hv := validate_username_bad (rtrim ws_sp_tab_nl (cstr u))
    (no_nul_rtrim _ _ (no_nul_cstr u)) hbad
  have h2 : login_round σ heap ⟨frame u ++ frame p ++ rest, sched⟩ fd ip port
      = Round.again (σ.emit fd (lit "Invalid username format")) heap ⟨rest, sched2⟩ := by
    rw [h1]
    unfold login_decide
    simp only [ne_eq, hv, not_false_eq_true, if_true]
  exact ⟨sched2, h2, handle_client_login_again _ _ _ _ _ _ _ _ _ h2, rfl, rfl, rfl⟩

theorem login_rejects_invalid_username_witness :
    ∃ sched2,
      login_round Server.init [] ⟨frame (lit "bad_name") ++ frame (lit "/tmp") ++ [], [Io.take 1]⟩
          4 (lit "127.0.0.1") 40000
        = Round.again (Server.init.emit 4 (lit "Invalid username format")) [] ⟨[], sched2⟩ ∧
      handle_client_login Server.init []
          ⟨frame (lit "bad_name") ++ frame (lit "/tmp") ++ [], [Io.take 1]⟩
          4 (lit "127.0.0.1") 40000
        = handle_client_login (Server.init.emit 4 (lit "Invalid username format")) []
            ⟨[], sched2⟩ 4 (lit "127.0.0.1") 40000 ∧
      (Server.init.emit 4 (lit "Invalid username format")).client_list
        = Server.init.client_list ∧
      (Server.init.emit 4 (lit "Invalid username format")).active_client_count
        = Server.init.active_client_count ∧
      (Server.init.emit 4 (lit "Invalid username format")).out
        = Server.init.out ++ [(4, lit "Invalid username format")] :=
  login_rejects_invalid_username Server.init [] [Io.take 1] (lit "bad_name") (lit "/tmp") []
    4 (lit "127.0.0.1") 40000 (by decide) (by decide) (by decide) (by decide) (by decide)
    (by decide) (Or.inr ⟨95, by decide, by decide⟩)

/-- C4 as stated fails: the username frame "bob " holds a space, the path frame
is non-empty, and the server answers LOGIN_SUCCESS and registers the session
under the name "bob". -/
theorem login_accepts_trailing_blank :
    32 ∈ lit "bob " ∧ 0 < (lit "/tmp").length ∧
    (handle_client_login Server.init [] ⟨frame (lit "bob ") ++ frame (lit "/tmp"), []⟩ 4
      (lit "127.0.0.1") 40000).1 = 0 ∧
    (handle_client_login Server.init [] ⟨frame (lit "bob ") ++ frame (lit "/tmp"), []⟩ 4
      (lit "127.0.0.1") 40000).2.1.out = [(4, lit "LOGIN_SUCCESS")] ∧
    (handle_client_login Server.init [] ⟨frame (lit "bob ") ++ frame (lit "/tmp"), []⟩ 4
      (lit "127.0.0.1") 40000).2.1.client_list.map (fun c => c.username) = [lit "bob"] := by
  decide


theorem strncpy_short (m : List Nat) (n : Nat) (h0 : 0 ∉ m) (hl : m.length ≤ n) :
    strncpy m n = m := by
  unfold strncpy
  rw [cstr_of_no_nul m h0, List.take_of_length_le hl]

theorem no_nul_strncpy (m : List Nat) (n : Nat) : 0 ∉ strncpy m n :=
  fun h => no_nul_cstr m ((List.take_sublist _ _).mem h)

/-- The decision of a login round changes the registries by `LoginEffect`, and a
round that continues leaves the whole registry as it was. -/
theorem login_decide_effect (σ : Server) (heap : List Bool) (s : Sock) (fd : Int)
    (ip : List Nat) (port : Int) (name path : List Nat) (hn : 0 ∉ name) :
    LoginEffect fd σ (login_decide σ heap s fd ip port name path).state ∧
    (∀ σ1 h1 s1, login_decide σ heap s fd ip port name path = Round.again σ1 h1 s1 →
      σ1.client_list = σ.client_list ∧ σ1.next_addr = σ.next_addr ∧
      σ1.room_list = σ.room_list ∧ σ1.active_client_count = σ.active_client_count ∧
      σ1.total_room_count = σ.total_room_count) := by
  unfold login_decide
  by_cases hv0 : validate_username name = 0
  case neg =>
    simp only [ne_eq, hv0, not_false_eq_true, if_true]
    refine ⟨⟨rfl, rfl, Or.inl ⟨rfl, rfl, rfl⟩⟩, ?_⟩
    intro σ1 h1 s1 h; cases h; exact ⟨rfl, rfl, rfl, rfl, rfl⟩
  case pos =>
    simp only [ne_eq, hv0, not_true_eq_false, if_false]
    by_cases hf : (find_client_by_username σ name).isSome = true
    · simp only [hf, if_true]
      refine ⟨⟨rfl, rfl, Or.inl ⟨rfl, rfl, rfl⟩⟩, ?_⟩
      intro σ1 h1 s1 h; cases h; exact ⟨rfl, rfl, rfl, rfl, rfl⟩
    · simp only [hf]
      unfold add_client
      by_cases hfd : fd < 0
      · simp only [hfd, if_true]
        refine ⟨⟨rfl, rfl, Or.inl ⟨rfl, rfl, rfl⟩⟩, ?_⟩
        intro σ1 h1 s1 h; cases h; exact ⟨rfl, rfl, rfl, rfl, rfl⟩
      · simp only [hfd, if_false]
        by_cases ha : (!heap.headD true) = true
        · simp only [ha, if_true]
          refine ⟨⟨rfl, rfl, Or.inl ⟨rfl, rfl, rfl⟩⟩, ?_⟩
          intro σ1 h1 s1 h; cases h; exact ⟨rfl, rfl, rfl, rfl, rfl⟩
        · simp only [ha]
          have hlen := ((validate_username_iff name).mp hv0).2.1
          rw [strlen_of_no_nul name hn] at hlen
          have hname : strncpy name 16 = name := strncpy_short name 16 hn hlen
          refine ⟨⟨rfl, rfl, Or.inr ⟨_, rfl, rfl, rfl, rfl, rfl, by omega, rfl, rfl, ?_, ?_, ?_⟩⟩, ?_⟩
          · simp only [hname]; exact hv0
          · simp only [hname]; exact hn
          · intro d hd hact heq
            simp only [hname] at heq
            apply hf
            unfold find_client_by_username
            rw [List.find?_isSome]
            refine ⟨d, hd, ?_⟩
            simp only [decide_eq_true_eq]
            exact ⟨hact, by rw [cstr_of_no_nul name hn]; exact heq⟩
          · intro σ1 h1 s1 h; cases h

/-- A round of the login loop changes the registries by `LoginEffect`, and a
round that continues leaves the whole registry as it was. -/
theorem login_round_effect (σ : Server) (heap : List Bool) (s : Sock) (fd : Int)
    (ip : List Nat) (port : Int) :
    LoginEffect fd σ (login_round σ heap s fd ip port).state ∧
    (∀ σ1 h1 s1, login_round σ heap s fd ip port = Round.again σ1 h1 s1 →
      σ1.client_list = σ.client_list ∧ σ1.next_addr = σ.next_addr ∧
      σ1.room_list = σ.room_list ∧ σ1.active_client_count = σ.active_client_count ∧
      σ1.total_room_count = σ.total_room_count) := by
  unfold login_round
  by_cases h1 : (receive_message fd s (List.replicate 1024 0) 1024).1 ≤ 0
  · simp only [h1, if_true]
    refine ⟨⟨rfl, rfl, Or.inl ⟨rfl, rfl, rfl⟩⟩, ?_⟩
    intro σ1 h1 s1 h; cases h
  · simp only [h1, if_false]
    by_cases h2 : (receive_message fd (receive_message fd s (List.replicate 1024 0) 1024).2.2
        (List.replicate 1024 0) 1024).1 ≤ 0
    · simp only [h2, if_true]
      refine ⟨⟨rfl, rfl, Or.inl ⟨rfl, rfl, rfl⟩⟩, ?_⟩
      intro σ1 h1 s1 h; cases h
    · simp only [h2, if_false]
      exact login_decide_effect σ heap _ fd ip port _ _ (no_nul_rtrim _ _ (no_nul_cstr _))

/-- Only the registries of the state enter `LoginEffect`. -/
theorem LoginEffect.congr (fd : Int) (σ σ1 σ2 : Server)
    (hc : σ1.client_list = σ.client_list) (hn : σ1.next_addr = σ.next_addr)
    (hr : σ1.room_list = σ.room_list) (ha : σ1.active_client_count = σ.active_client_count)
    (ht : σ1.total_room_count = σ.total_room_count)
    (h : LoginEffect fd σ1 σ2) : LoginEffect fd σ σ2 := by
  unfold LoginEffect at *
  rw [hc, hn, hr, ha, ht] at h
  exact h

/-- The login handshake changes the registries by `LoginEffect`. -/
theorem login_loop_effect (fuel : Nat) : ∀ (σ : Server) (heap : List Bool) (s : Sock) (fd : Int)
    (ip : List Nat) (port : Int),
    LoginEffect fd σ (login_loop fuel σ heap s fd ip port).2.1 := by
  induction fuel with
  | zero =>
    intro σ heap s fd ip port
    exact ⟨rfl, rfl, Or.inl ⟨rfl, rfl, rfl⟩⟩
  | succ fuel ih =>
    intro σ heap s fd ip port
    obtain ⟨he, ha⟩ := login_round_effect σ heap s fd ip port
    unfold login_loop
    cases hr : login_round σ heap s fd ip port with
    | finished r σ1 heap1 s1 =>
      rw [hr] at he
      exact he
    | again σ1 heap1 s1 =>
      obtain ⟨a1, a2, a3, a4, a5⟩ := ha σ1 heap1 s1 hr
      exact LoginEffect.congr fd σ σ1 _ a1 a2 a3 a4 a5 (ih σ1 heap1 s1 fd ip port)

theorem handle_client_login_effect (σ : Server) (heap : List Bool) (s : Sock) (fd : Int)
    (ip : List Nat) (port : Int) :
    LoginEffect fd σ (handle_client_login σ heap s fd ip port).2.1 :=
  login_loop_effect _ σ heap s fd ip port

/-! ## Client registry: unique usernames -/

/-- The registry facts behind unique usernames: the names are pairwise distinct,
and every session is active and holds a valid name. -/
theorem registry_names (σ : Server) (h : RegistryReachable σ) :
    (σ.client_list.map (fun c => c.username)).Nodup ∧
    ∀ c ∈ σ.client_list, c.is_active = 1 ∧ validate_username c.username = 0 ∧
      0 ∉ c.username := by
  induction h with
  | init => exact ⟨List.nodup_nil, fun c hc => absurd hc (List.not_mem_nil c)⟩
  | login σ heap s fd ip port _ ih =>
    obtain ⟨_, _, he⟩ := handle_client_login_effect σ heap s fd ip port
    rcases he with ⟨hc, _, _⟩ | ⟨c, hc, _, _, _, _, _, _, hact, hval, hnul, hfresh⟩
    · rw [hc]; exact ih
    · rw [hc]
      refine ⟨?_, ?_⟩
      · rw [List.map_cons, List.nodup_cons]
        refine ⟨?_, ih.1⟩
        intro hm
        obtain ⟨d, hd, hdn⟩ := List.mem_map.mp hm
        exact hfresh d hd (by rw [(ih.2 d hd).1]; decide) hdn
      · intro d hd
        rcases List.mem_cons.mp hd with hd | hd
        · subst hd; exact ⟨hact, hval, hnul⟩
        · exact ih.2 d hd
  | remove σ fd _ ih =>
    unfold remove_client
    cases hf : σ.client_list.find? (fun c => c.socket_fd = fd) with
    | none => exact ih
    | some c =>
      refine ⟨?_, ?_⟩
      · exact ih.1.sublist ((List.eraseP_sublist _).map _)
      · intro d hd
        exact ih.2 d ((List.eraseP_sublist _).mem hd)

/-- C5: in every state reached from the empty registry by login handshakes and
calls of `remove_client` the usernames of the sessions are pairwise distinct,
and a login round whose username is held by a registered session answers
exactly "Username already taken", leaves the registry as it was and goes on with
the frames that follow. -/
theorem usernames_pairwise_distinct (σ : Server) (h : RegistryReachable σ) :
    (σ.client_list.map (fun c => c.username)).Nodup ∧
    ∀ (heap : List Bool) (sched : List Io) (u p rest : List Nat) (fd : Int) (ip : List Nat)
      (port : Int),
      fd ≠ -1 → Io.err ∉ sched → 0 < u.length → u.length < 1024 → 0 < p.length →
      p.length < 1024 →
      (∃ c ∈ σ.client_list, c.username = rtrim ws_sp_tab_nl (cstr u)) →
      ∃ sched2,
        login_round σ heap ⟨frame u ++ frame p ++ rest, sched⟩ fd ip port
          = Round.again (σ.emit fd (lit "Username already taken")) heap ⟨rest, sched2⟩ ∧
        handle_client_login σ heap ⟨frame u ++ frame p ++ rest, sched⟩ fd ip port
          = handle_client_login (σ.emit fd (lit "Username already taken")) heap ⟨rest, sched2⟩
              fd ip port ∧
        (σ.emit fd (lit "Username already taken")).client_list = σ.client_list ∧
        (σ.emit fd (lit "Username already taken")).active_client_count
          = σ.active_client_count := by
  obtain ⟨hnd, hok⟩ := registry_names σ h
  refine ⟨hnd, ?_⟩
  intro heap sched u p rest fd ip port hfd hs hu0 hu1 hp0 hp1 ⟨c, hc, hcn⟩
  obtain ⟨sched2, _, h1⟩ := login_round_frames σ heap sched u p rest fd ip port hfd hs hu0 hu1
    hp0 hp1
  obtain ⟨hact, hval, hnul⟩ := hok c hc
  have hv : ¬ (validate_username (rtrim ws_sp_tab_nl (cstr u)) ≠ 0) := by
    rw [← hcn]; simp [hval]
  have hf : (find_client_by_username σ (rtrim ws_sp_tab_nl (cstr u))).isSome = true := by
    unfold find_client_by_username
    rw [List.find?_isSome]
    refine ⟨c, hc, ?_⟩
    simp only [decide_eq_true_eq]
    refine ⟨by rw [hact]; decide, ?_⟩
    rw [← hcn, cstr_of_no_nul _ hnul]
  have h2 : login_round σ heap ⟨frame u ++ frame p ++ rest, sched⟩ fd ip port
      = Round.again (σ.emit fd (lit "Username already taken")) heap ⟨rest, sched2⟩ := by
    rw [h1]
    unfold login_decide
    rw [if_neg hv, if_pos hf]
  exact ⟨sched2, h2, handle_client_login_again _ _ _ _ _ _ _ _ _ h2, rfl, rfl⟩

theorem usernames_pairwise_distinct_witness :
    (demo_alice.client_list.map (fun c => c.username)).Nodup ∧
    ∃ sched2,
      login_round demo_alice [] ⟨frame (lit "alice\n") ++ frame (lit "/home") ++ [], []⟩ 5
          (lit "127.0.0.1") 40001
        = Round.again (demo_alice.emit 5 (lit "Username already taken")) [] ⟨[], sched2⟩ ∧
      handle_client_login demo_alice [] ⟨frame (lit "alice\n") ++ frame (lit "/home") ++ [], []⟩ 5
          (lit "127.0.0.1") 40001
        = handle_client_login (demo_alice.emit 5 (lit "Username already taken")) [] ⟨[], sched2⟩
            5 (lit "127.0.0.1") 40001 ∧
      (demo_alice.emit 5 (lit "Username already taken")).client_list = demo_alice.client_list ∧
      (demo_alice.emit 5 (lit "Username already taken")).active_client_count
        = demo_alice.active_client_count :=
  ⟨(usernames_pairwise_distinct demo_alice
      (RegistryReachable.login Server.init [] _ 4 _ 40000 RegistryReachable.init)).1,
   (usernames_pairwise_distinct demo_alice
      (RegistryReachable.login Server.init [] _ 4 _ 40000 RegistryReachable.init)).2
      [] [] (lit "alice\n") (lit "/home") [] 5 (lit "127.0.0.1") 40001
      (by decide) (by decide) (by decide) (by decide) (by decide) (by decide)
      (by decide)⟩


/-! ## Lists: writes through a pointer, member arrays -/

theorem update_first_map {α β : Type} (p : α → Bool) (f : α → α) (g : α → β)
    (h : ∀ x, g (f x) = g x) (l : List α) : (update_first p f l).map g = l.map g := by
  induction l with
  | nil => rfl
  | cons x xs ih =>
    unfold update_first
    by_cases hp : p x = true
    · rw [if_pos hp, List.map_cons, List.map_cons, h]
    · rw [if_neg hp, List.map_cons, List.map_cons, ih]

theorem update_first_mem {α : Type} (p : α → Bool) (f : α → α) (l : List α) (y : α)
    (h : y ∈ update_first p f l) : y ∈ l ∨ ∃ x ∈ l, p x = true ∧ y = f x := by
  induction l with
  | nil => exact absurd h (List.not_mem_nil y)
  | cons x xs ih =>
    unfold update_first at h
    by_cases hp : p x = true
    · rw [if_pos hp] at h
      rcases List.mem_cons.mp h with h1 | h1
      · exact Or.inr ⟨x, List.mem_cons_self _ _, hp, h1⟩
      · exact Or.inl (List.mem_cons_of_mem _ h1)
    · rw [if_neg hp] at h
      rcases List.mem_cons.mp h with h1 | h1
      · exact Or.inl (h1 ▸ List.mem_cons_self _ _)
      · rcases ih h1 with h2 | ⟨z, hz, hpz, hy⟩
        · exact Or.inl (List.mem_cons_of_mem _ h2)
        · exact Or.inr ⟨z, List.mem_cons_of_mem _ hz, hpz, hy⟩

theorem update_first_mem_of_not {α : Type} (p : α → Bool) (f : α → α) (l : List α) (x : α)
    (hx : x ∈ l) (hp : ¬ p x = true) : x ∈ update_first p f l := by
  induction l with
  | nil => exact absurd hx (List.not_mem_nil x)
  | cons y ys ih =>
    unfold update_first
    rcases List.mem_cons.mp hx with h | h
    · subst h
      rw [if_neg hp]
      exact List.mem_cons_self _ _
    · by_cases hy : p y = true
      · rw [if_pos hy]; exact List.mem_cons_of_mem _ h
      · rw [if_neg hy]; exact List.mem_cons_of_mem _ (ih h)

/-- With a key that is unique in the list, the write changes exactly the element
of that key. -/
theorem update_first_mem_key {α κ : Type} [DecidableEq κ] (k : α → κ) (key : κ) (f : α → α)
    (l : List α) (hnd : (l.map k).Nodup) (y : α)
    (h : y ∈ update_first (fun x => decide (k x = key)) f l) :
    (y ∈ l ∧ k y ≠ key) ∨ ∃ x ∈ l, k x = key ∧ y = f x := by
  induction l with
  | nil => exact absurd h (List.not_mem_nil y)
  | cons x xs ih =>
    rw [List.map_cons, List.nodup_cons] at hnd
    unfold update_first at h
    by_cases hp : k x = key
    · rw [if_pos (decide_eq_true hp)] at h
      rcases List.mem_cons.mp h with h1 | h1
      · exact Or.inr ⟨x, List.mem_cons_self _ _, hp, h1⟩
      · refine Or.inl ⟨List.mem_cons_of_mem _ h1, ?_⟩
        intro hk
        exact hnd.1 (List.mem_map.mpr ⟨y, h1, hk.trans hp.symm⟩)
    · rw [if_neg (by simpa using hp)] at h
      rcases List.mem_cons.mp h with h1 | h1
      · exact Or.inl ⟨h1 ▸ List.mem_cons_self _ _, h1 ▸ hp⟩
      · rcases ih hnd.2 h1 with ⟨h2, h3⟩ | ⟨z, hz, hkz, hy⟩
        · exact Or.inl ⟨List.mem_cons_of_mem _ h2, h3⟩
        · exact Or.inr ⟨z, List.mem_cons_of_mem _ hz, hkz, hy⟩

theorem update_first_mem_image {α κ : Type} [DecidableEq κ] (k : α → κ) (key : κ) (f : α → α)
    (l : List α) (x : α) (hx : x ∈ l) (hk : k x = key) (hnd : (l.map k).Nodup) :
    f x ∈ update_first (fun x => decide (k x = key)) f l := by
  induction l with
  | nil => exact absurd hx (List.not_mem_nil x)
  | cons y ys ih =>
    rw [List.map_cons, List.nodup_cons] at hnd
    unfold update_first
    rcases List.mem_cons.mp hx with h | h
    · subst h
      rw [if_pos (decide_eq_true hk)]
      exact List.mem_cons_self _ _
    · have hy : k y ≠ key := by
        intro hyk
        exact hnd.1 (List.mem_map.mpr ⟨x, h, hk.trans hyk.symm⟩)
      rw [if_neg (by simpa using hy)]
      exact List.mem_cons_of_mem _ (ih h hnd.2)

theorem eq_of_key {α κ : Type} (k : α → κ) (l : List α) (hnd : (l.map k).Nodup) (x y : α)
    (hx : x ∈ l) (hy : y ∈ l) (h : k x = k y) : x = y :=
  List.inj_on_of_nodup_map hnd hx hy h

theorem remove_member_length (a : Nat) (l : List (Option Nat)) :
    (remove_member a l).length = l.length := by
  induction l with
  | nil => rfl
  | cons x xs ih =>
    unfold remove_member
    by_cases h : x = some a
    · rw [if_pos h]; rfl
    · rw [if_neg h, List.length_cons, List.length_cons, ih]

theorem remove_member_mem (a b : Nat) (l : List (Option Nat))
    (h : some b ∈ remove_member a l) : some b ∈ l := by
  induction l with
  | nil => exact absurd h (List.not_mem_nil _)
  | cons x xs ih =>
    unfold remove_member at h
    by_cases hx : x = some a
    · rw [if_pos hx] at h
      rcases List.mem_cons.mp h with h1 | h1
      · cases h1
      · exact List.mem_cons_of_mem _ h1
    · rw [if_neg hx] at h
      rcases List.mem_cons.mp h with h1 | h1
      · exact h1 ▸ List.mem_cons_self _ _
      · exact List.mem_cons_of_mem _ (ih h1)

theorem remove_member_count (a b : Nat) (l : List (Option Nat)) :
    (remove_member a l).count (some b) ≤ l.count (some b) := by
  induction l with
  | nil => exact le_refl _
  | cons x xs ih =>
    unfold remove_member
    by_cases hx : x = some a
    · rw [if_pos hx, List.count_cons_of_ne (by simp)]
      exact List.count_le_count_cons _ _ _
    · rw [if_neg hx]
      by_cases hb : some b = x
      · subst hb
        rw [List.count_cons_self, List.count_cons_self]
        omega
      · rw [List.count_cons_of_ne hb, List.count_cons_of_ne hb]
        exact ih

theorem remove_member_gone (a : Nat) (l : List (Option Nat)) (h : l.count (some a) ≤ 1) :
    some a ∉ remove_member a l := by
  induction l with
  | nil => exact List.not_mem_nil _
  | cons x xs ih =>
    unfold remove_member
    by_cases hx : x = some a
    · subst hx
      rw [if_pos rfl]
      rw [List.count_cons_self] at h
      intro hm
      rcases List.mem_cons.mp hm with h1 | h1
      · cases h1
      · have := List.count_pos_iff.mpr h1
        omega
    · rw [if_neg hx]
      rw [List.count_cons_of_ne (fun e => hx e.symm)] at h
      intro hm
      rcases List.mem_cons.mp hm with h1 | h1
      · exact hx h1.symm
      · exact ih h h1

theorem remove_member_filter (a : Nat) (l : List (Option Nat)) (h : some a ∈ l) :
    ((remove_member a l).filter Option.isSome).length + 1 = (l.filter Option.isSome).length := by
  induction l with
  | nil => exact absurd h (List.not_mem_nil _)
  | cons x xs ih =>
    unfold remove_member
    by_cases hx : x = some a
    · subst hx
      rw [if_pos rfl]
      simp
    · have hm : some a ∈ xs := by
        rcases List.mem_cons.mp h with h1 | h1
        · exact absurd h1.symm hx
        · exact h1
      rw [if_neg hx]
      have := ih hm
      cases x with
      | none => simpa using this
      | some v =>
        simp only [List.filter_cons, Option.isSome_some, if_true, List.length_cons]
        omega

theorem put_member_length (a : Nat) (l : List (Option Nat)) :
    (put_member a l).length = l.length := by
  induction l with
  | nil => rfl
  | cons x xs ih =>
    unfold put_member
    by_cases h : x = none
    · rw [if_pos h]; rfl
    · rw [if_neg h, List.length_cons, List.length_cons, ih]

theorem put_member_mem (a b : Nat) (l : List (Option Nat))
    (h : some b ∈ put_member a l) : b = a ∨ some b ∈ l := by
  induction l with
  | nil => exact absurd h (List.not_mem_nil _)
  | cons x xs ih =>
    unfold put_member at h
    by_cases hx : x = none
    · rw [if_pos hx] at h
      rcases List.mem_cons.mp h with h1 | h1
      · left; exact Option.some.inj h1
      · right; exact List.mem_cons_of_mem _ h1
    · rw [if_neg hx] at h
      rcases List.mem_cons.mp h with h1 | h1
      · right; exact h1 ▸ List.mem_cons_self _ _
      · rcases ih h1 with h2 | h2
        · left; exact h2
        · right; exact List.mem_cons_of_mem _ h2

theorem put_member_has (a : Nat) (l : List (Option Nat)) (h : none ∈ l) :
    some a ∈ put_member a l := by
  induction l with
  | nil => exact absurd h (List.not_mem_nil _)
  | cons x xs ih =>
    unfold put_member
    by_cases hx : x = none
    · rw [if_pos hx]; exact List.mem_cons_self _ _
    · rw [if_neg hx]
      rcases List.mem_cons.mp h with h1 | h1
      · exact absurd h1.symm hx
      · exact List.mem_cons_of_mem _ (ih h1)

theorem put_member_count (a b : Nat) (l : List (Option Nat)) (h : none ∈ l) :
    (put_member a l).count (some b) = l.count (some b) + (if b = a then 1 else 0) := by
  induction l with
  | nil => exact absurd h (List.not_mem_nil _)
  | cons x xs ih =>
    unfold put_member
    by_cases hx : x = none
    · subst hx
      rw [if_pos rfl, List.count_cons_of_ne (a := some b) (b := none) (by simp)]
      by_cases hab : b = a
      · subst hab
        rw [List.count_cons_self, if_pos rfl]
      · rw [List.count_cons_of_ne (fun e => hab (Option.some.inj e)), if_neg hab]
        rfl
    · have hm : none ∈ xs := by
        rcases List.mem_cons.mp h with h1 | h1
        · exact absurd h1.symm hx
        · exact h1
      rw [if_neg hx]
      by_cases hb : some b = x
      · subst hb
        rw [List.count_cons_self, List.count_cons_self, ih hm]
        omega
      · rw [List.count_cons_of_ne hb, List.count_cons_of_ne hb, ih hm]

theorem put_member_filter (a : Nat) (l : List (Option Nat)) (h : none ∈ l) :
    ((put_member a l).filter Option.isSome).length = (l.filter Option.isSome).length + 1 := by
  induction l with
  | nil => exact absurd h (List.not_mem_nil _)
  | cons x xs ih =>
    unfold put_member
    by_cases hx : x = none
    · subst hx
      rw [if_pos rfl]
      simp
    · have hm : none ∈ xs := by
        rcases List.mem_cons.mp h with h1 | h1
        · exact absurd h1.symm hx
        · exact h1
      rw [if_neg hx]
      have := ih hm
      cases x with
      | none => exact absurd rfl hx
      | some v =>
        simp only [List.filter_cons, Option.isSome_some, if_true, List.length_cons]
        omega


/-! ## Invariant: the registry operations -/

/-- Only the two lists and the allocator enter the invariant. -/
theorem inv_congr (σ σ2 : Server) (hc : σ2.client_list = σ.client_list)
    (hr : σ2.room_list = σ.room_list) (hn : σ2.next_addr = σ.next_addr) (h : Inv σ) : Inv σ2 := by
  constructor
  · rw [hc, hn]; exact h.addr_lt
  · rw [hc]; exact h.addr_nodup
  · rw [hc]; exact h.fd_nodup
  · rw [hc]; exact h.fd_nonneg
  · rw [hc]; exact h.cur_nonul
  · rw [hr]; exact h.room_nodup
  · rw [hr]; exact h.room_ok
  · rw [hr, hc]; exact h.slot_ref

theorem free_congr (a : Nat) (σ σ2 : Server) (hr : σ2.room_list = σ.room_list) (h : Free a σ) :
    Free a σ2 := by
  unfold Free at *
  rw [hr]; exact h

theorem inv_init : Inv Server.init := by
  constructor
  · intro c hc; exact absurd hc (List.not_mem_nil c)
  · exact List.nodup_nil
  · exact List.nodup_nil
  · intro c hc; exact absurd hc (List.not_mem_nil c)
  · intro c hc; exact absurd hc (List.not_mem_nil c)
  · exact List.nodup_nil
  · intro r hr; exact absurd hr (List.not_mem_nil r)
  · intro r hr; exact absurd hr (List.not_mem_nil r)

theorem notify_fields (skip : Option Nat) (msg : List Nat) (l : List (Option Nat)) :
    ∀ σ : Server, (notify σ skip msg l).client_list = σ.client_list ∧
      (notify σ skip msg l).room_list = σ.room_list ∧
      (notify σ skip msg l).next_addr = σ.next_addr := by
  induction l with
  | nil => intro σ; exact ⟨rfl, rfl, rfl⟩
  | cons x xs ih =>
    intro σ
    cases x with
    | none => unfold notify; exact ih σ
    | some a =>
      unfold notify
      cases hd : deref σ a with
      | none => exact ih σ
      | some c =>
        dsimp only
        by_cases hc : c.is_active ≠ 0 ∧ some a ≠ skip
        · rw [if_pos hc]
          exact ih (σ.emit c.socket_fd msg)
        · rw [if_neg hc]
          exact ih σ

theorem broadcast_loop_fields (net : Int → Bool) (sender : Nat) (msg : List Nat)
    (l : List (Option Nat)) :
    ∀ σ : Server, (broadcast_loop net sender msg σ l).1.client_list = σ.client_list ∧
      (broadcast_loop net sender msg σ l).1.room_list = σ.room_list ∧
      (broadcast_loop net sender msg σ l).1.next_addr = σ.next_addr := by
  induction l with
  | nil => intro σ; exact ⟨rfl, rfl, rfl⟩
  | cons x xs ih =>
    intro σ
    cases x with
    | none => unfold broadcast_loop; exact ih σ
    | some a =>
      unfold broadcast_loop
      cases hd : deref σ a with
      | none => exact ih σ
      | some c =>
        dsimp only
        by_cases hc : c.is_active ≠ 0 ∧ a ≠ sender
        · rw [if_pos hc]
          exact ih (σ.emit c.socket_fd msg)
        · rw [if_neg hc]
          exact ih σ

theorem update_client_map {β : Type} (a : Nat) (g : client_info → client_info)
    (k : client_info → β) (h : ∀ x, k (g x) = k x) (l : List client_info) :
    (update_client a g l).map k = l.map k :=
  update_first_map _ g k h l

theorem update_room_map {β : Type} (name : List Nat) (g : room_info → room_info)
    (k : room_info → β) (h : ∀ x, k (g x) = k x) (l : List room_info) :
    (update_room name g l).map k = l.map k :=
  update_first_map _ g k h l

theorem update_client_mem (a : Nat) (g : client_info → client_info) (l : List client_info)
    (d : client_info) (h : d ∈ update_client a g l) : d ∈ l ∨ ∃ x ∈ l, d = g x := by
  rcases update_first_mem _ _ _ _ h with h1 | ⟨x, hx, _, hdx⟩
  · exact Or.inl h1
  · exact Or.inr ⟨x, hx, hdx⟩

theorem update_client_mem_other (a : Nat) (g : client_info → client_info) (l : List client_info)
    (d : client_info) (hd : d ∈ l) (hne : d.addr ≠ a) : d ∈ update_client a g l :=
  update_first_mem_of_not _ _ _ d hd (by simpa using hne)

theorem update_client_mem_image (a : Nat) (g : client_info → client_info) (l : List client_info)
    (c : client_info) (hc : c ∈ l) (ha : c.addr = a) (hnd : (l.map (fun c => c.addr)).Nodup) :
    g c ∈ update_client a g l :=
  update_first_mem_image (fun x : client_info => x.addr) a g l c hc ha hnd

theorem update_room_mem (name : List Nat) (g : room_info → room_info) (l : List room_info)
    (y : room_info) (h : y ∈ update_room name g l) : y ∈ l ∨ ∃ x ∈ l, y = g x := by
  rcases update_first_mem _ _ _ _ h with h1 | ⟨x, hx, _, hdx⟩
  · exact Or.inl h1
  · exact Or.inr ⟨x, hx, hdx⟩

theorem update_room_mem_key (name : List Nat) (g : room_info → room_info) (l : List room_info)
    (hnd : (l.map (fun r => r.room_name)).Nodup) (y : room_info)
    (h : y ∈ update_room name g l) :
    (y ∈ l ∧ y.room_name ≠ name) ∨ ∃ x ∈ l, x.room_name = name ∧ y = g x :=
  update_first_mem_key (fun r : room_info => r.room_name) name g l hnd y h

/-- The room of a given name is unique. -/
theorem inv_room_unique (σ : Server) (h : Inv σ) (r1 r2 : room_info) (h1 : r1 ∈ σ.room_list)
    (h2 : r2 ∈ σ.room_list) (hn : r1.room_name = r2.room_name) : r1 = r2 :=
  eq_of_key (fun r => r.room_name) σ.room_list h.room_nodup r1 r2 h1 h2 hn

/-- The record of a given address is unique. -/
theorem inv_client_unique (σ : Server) (h : Inv σ) (c1 c2 : client_info)
    (h1 : c1 ∈ σ.client_list) (h2 : c2 ∈ σ.client_list) (hn : c1.addr = c2.addr) : c1 = c2 :=
  eq_of_key (fun c => c.addr) σ.client_list h.addr_nodup c1 c2 h1 h2 hn

/-- A client that is in no slot of the room its record names is in no slot at all. -/
theorem inv_free_of_cur (σ : Server) (h : Inv σ) (c : client_info) (hc : c ∈ σ.client_list)
    (hcur : ∀ r ∈ σ.room_list, r.room_name = c.current_room_name → some c.addr ∉ r.clients) :
    Free c.addr σ := by
  intro r hr hm
  obtain ⟨d, hd, hda, hdn⟩ := h.slot_ref r hr c.addr hm
  have : d = c := inv_client_unique σ h d c hd hc hda
  subst this
  exact hcur r hr hdn.symm hm

/-- A write to the room fields of a record that is in no slot keeps the invariant. -/
theorem inv_update_client_free (σ : Server) (h : Inv σ) (a : Nat) (hf : Free a σ)
    (g : client_info → client_info)
    (hg : ∀ c, (g c).addr = c.addr ∧ (g c).socket_fd = c.socket_fd ∧
      0 ∉ (g c).current_room_name) :
    Inv (σ.with_clients (update_client a g σ.client_list)) := by
  have hmem : ∀ d ∈ update_client a g σ.client_list,
      d ∈ σ.client_list ∨ ∃ x ∈ σ.client_list, d = g x := by
    intro d hd
    exact update_client_mem a g _ d hd
  constructor
  · intro d hd
    rcases hmem d hd with h1 | ⟨x, hx, hdx⟩
    · exact h.addr_lt d h1
    · rw [hdx, (hg x).1]; exact h.addr_lt x hx
  · show ((update_client a g σ.client_list).map (fun c => c.addr)).Nodup
    rw [update_client_map a g (fun c => c.addr) (fun x => (hg x).1)]
    exact h.addr_nodup
  · show ((update_client a g σ.client_list).map (fun c => c.socket_fd)).Nodup
    rw [update_client_map a g (fun c => c.socket_fd) (fun x => (hg x).2.1)]
    exact h.fd_nodup
  · intro d hd
    rcases hmem d hd with h1 | ⟨x, hx, hdx⟩
    · exact h.fd_nonneg d h1
    · rw [hdx, (hg x).2.1]; exact h.fd_nonneg x hx
  · intro d hd
    rcases hmem d hd with h1 | ⟨x, hx, hdx⟩
    · exact h.cur_nonul d h1
    · rw [hdx]; exact (hg x).2.2
  · exact h.room_nodup
  · exact h.room_ok
  · intro r hr b hb
    obtain ⟨d, hd, hda, hdn⟩ := h.slot_ref r hr b hb
    refine ⟨d, ?_, hda, hdn⟩
    have hne : d.addr ≠ a := by
      intro e
      exact hf r hr (by rw [← e, hda]; exact hb)
    exact update_client_mem_other a g _ d hd hne

theorem roomok_remove (a : Nat) (r : room_info) (h : RoomOK r) : RoomOK (room_remove a r) := by
  unfold room_remove
  by_cases hm : some a ∈ r.clients
  · rw [if_pos hm]
    obtain ⟨h1, h2, h3, h4, h5⟩ := h
    refine ⟨h1, h2, ?_, ?_, ?_⟩
    · show (remove_member a r.clients).length = MAX_CLIENTS_PER_ROOM
      rw [remove_member_length]; exact h3
    · show r.client_count - 1 = (((remove_member a r.clients).filter Option.isSome).length : Int)
      have := remove_member_filter a r.clients hm
      rw [h4]; omega
    · intro b
      exact le_trans (remove_member_count a b r.clients) (h5 b)
  · rw [if_neg hm]; exact h

theorem room_remove_name (a : Nat) (r : room_info) : (room_remove a r).room_name = r.room_name := by
  unfold room_remove
  split <;> rfl

theorem room_remove_mem (a b : Nat) (r : room_info) (h : some b ∈ (room_remove a r).clients) :
    some b ∈ r.clients := by
  unfold room_remove at h
  by_cases hm : some a ∈ r.clients
  · rw [if_pos hm] at h
    exact remove_member_mem a b r.clients h
  · rw [if_neg hm] at h; exact h

theorem room_remove_gone (a : Nat) (r : room_info) (h : RoomOK r) :
    some a ∉ (room_remove a r).clients := by
  unfold room_remove
  by_cases hm : some a ∈ r.clients
  · rw [if_pos hm]
    exact remove_member_gone a r.clients (h.2.2.2.2 a)
  · rw [if_neg hm]; exact hm

/-- Taking a client out of the room its record names keeps the invariant and
leaves the client in no slot. -/
theorem inv_room_remove (σ : Server) (h : Inv σ) (c : client_info) (hc : c ∈ σ.client_list)
    (name : List Nat) (hname : name = c.current_room_name) :
    Inv (σ.with_rooms (update_room name (room_remove c.addr) σ.room_list)) ∧
    Free c.addr (σ.with_rooms (update_room name (room_remove c.addr) σ.room_list)) := by
  have hmem : ∀ y ∈ update_room name (room_remove c.addr) σ.room_list,
      (y ∈ σ.room_list ∧ y.room_name ≠ name) ∨
      ∃ x ∈ σ.room_list, x.room_name = name ∧ y = room_remove c.addr x := by
    intro y hy
    exact update_room_mem_key name _ _ h.room_nodup y hy
  refine ⟨?_, ?_⟩
  · constructor
    · exact h.addr_lt
    · exact h.addr_nodup
    · exact h.fd_nodup
    · exact h.fd_nonneg
    · exact h.cur_nonul
    · show ((update_room name (room_remove c.addr) σ.room_list).map (fun r => r.room_name)).Nodup
      rw [update_room_map name (room_remove c.addr) (fun r => r.room_name)
        (fun x => room_remove_name c.addr x)]
      exact h.room_nodup
    · intro y hy
      rcases hmem y hy with ⟨h1, _⟩ | ⟨x, hx, _, hyx⟩
      · exact h.room_ok y h1
      · rw [hyx]; exact roomok_remove c.addr x (h.room_ok x hx)
    · intro y hy b hb
      rcases hmem y hy with ⟨h1, _⟩ | ⟨x, hx, _, hyx⟩
      · exact h.slot_ref y h1 b hb
      · rw [hyx] at hb ⊢
        rw [room_remove_name]
        exact h.slot_ref x hx b (room_remove_mem c.addr b x hb)
  · intro y hy hm
    rcases hmem y hy with ⟨h1, h2⟩ | ⟨x, hx, _, hyx⟩
    · obtain ⟨d, hd, hda, hdn⟩ := h.slot_ref y h1 c.addr hm
      have : d = c := inv_client_unique σ h d c hd hc hda
      subst this
      exact h2 (by rw [hname, hdn])
    · rw [hyx] at hm
      exact room_remove_gone c.addr x (h.room_ok x hx) hm

/-- The function `remove_room` keeps the invariant and frees no slot. -/
theorem inv_remove_room (σ : Server) (h : Inv σ) (name : List Nat) :
    Inv (remove_room σ name).2 ∧ (remove_room σ name).2.client_list = σ.client_list ∧
    ∀ a, Free a σ → Free a (remove_room σ name).2 := by
  unfold remove_room
  cases hf : σ.room_list.find? (fun r => r.room_name = cstr name) with
  | none => exact ⟨h, rfl, fun a ha => ha⟩
  | some current =>
    dsimp only
    by_cases hcnt : current.client_count > 0
    · rw [if_pos hcnt]; exact ⟨h, rfl, fun a ha => ha⟩
    · rw [if_neg hcnt]
      have hsub := List.eraseP_sublist (p := fun r : room_info => decide (r.room_name = cstr name))
        σ.room_list
      refine ⟨?_, rfl, ?_⟩
      · constructor
        · exact h.addr_lt
        · exact h.addr_nodup
        · exact h.fd_nodup
        · exact h.fd_nonneg
        · exact h.cur_nonul
        · exact h.room_nodup.sublist (hsub.map _)
        · intro r hr; exact h.room_ok r (hsub.mem hr)
        · intro r hr b hb; exact h.slot_ref r (hsub.mem hr) b hb
      · intro a ha r hr
        exact ha r (hsub.mem hr)

theorem roomok_fresh (name : List Nat) (h0 : name ≠ []) (h1 : 0 ∉ name) :
    RoomOK { room_name := name, clients := List.replicate MAX_CLIENTS_PER_ROOM none,
             client_count := 0, total_messages_sent := 0 } := by
  refine ⟨h0, h1, List.length_replicate _ _, ?_, ?_⟩
  · show (0 : Int) = (((List.replicate MAX_CLIENTS_PER_ROOM (none : Option Nat)).filter
      Option.isSome).length : Int)
    rw [List.filter_replicate]
    rfl
  · intro a
    show (List.replicate MAX_CLIENTS_PER_ROOM (none : Option Nat)).count (some a) ≤ 1
    rw [List.count_replicate]
    have : ((none : Option Nat) == some a) = false := rfl
    rw [this]
    exact Nat.zero_le _

/-- The function `add_room`, called with a trimmed name, keeps the invariant;
the room it returns is in the list and carries the name. -/
theorem inv_add_room (σ : Server) (h : Inv σ) (ok : Bool) (name : List Nat) (h0 : name ≠ [])
    (h1 : 0 ∉ name) (h2 : name.length ≤ 32) :
    Inv (add_room σ ok name).2 ∧ (add_room σ ok name).2.client_list = σ.client_list ∧
    (∀ a, Free a σ → Free a (add_room σ ok name).2) ∧
    (∀ r, (add_room σ ok name).1 = some r →
      r ∈ (add_room σ ok name).2.room_list ∧ r.room_name = name) := by
  unfold add_room
  rw [cstr_of_no_nul name h1]
  cases hf : σ.room_list.find? (fun r => r.room_name = name) with
  | some existing =>
    refine ⟨h, rfl, fun a ha => ha, ?_⟩
    intro r hr
    cases hr
    exact ⟨List.mem_of_find?_eq_some hf, by simpa using List.find?_some hf⟩
  | none =>
    dsimp only
    by_cases hok : (!ok) = true
    · rw [if_pos hok]
      exact ⟨h, rfl, fun a ha => ha, fun r hr => by cases hr⟩
    · rw [if_neg hok]
      have hname : strncpy name MAX_ROOM_NAME_LENGTH = name := strncpy_short name 32 h1 h2
      rw [hname]
      have hnone := List.find?_eq_none.mp hf
      refine ⟨?_, rfl, ?_, ?_⟩
      · constructor
        · exact h.addr_lt
        · exact h.addr_nodup
        · exact h.fd_nodup
        · exact h.fd_nonneg
        · exact h.cur_nonul
        · show (List.map (fun r => r.room_name) (_ :: σ.room_list)).Nodup
          rw [List.map_cons, List.nodup_cons]
          refine ⟨?_, h.room_nodup⟩
          intro hm
          obtain ⟨r, hr, hrn⟩ := List.mem_map.mp hm
          exact hnone r hr (by simpa using hrn)
        · intro r hr
          rcases List.mem_cons.mp hr with hr1 | hr1
          · rw [hr1]; exact roomok_fresh name h0 h1
          · exact h.room_ok r hr1
        · intro r hr b hb
          rcases List.mem_cons.mp hr with hr1 | hr1
          · rw [hr1] at hb
            exact absurd (List.eq_of_mem_replicate hb) (by simp)
          · exact h.slot_ref r hr1 b hb
      · intro a ha r hr
        rcases List.mem_cons.mp hr with hr1 | hr1
        · rw [hr1]
          intro hb
          exact absurd (List.eq_of_mem_replicate hb) (by simp)
        · exact ha r hr1
      · intro r hr
        cases hr
        exact ⟨List.mem_cons_self _ _, rfl⟩

theorem roomok_add (a : Nat) (r : room_info) (h : RoomOK r) (hn : none ∈ r.clients)
    (ha : some a ∉ r.clients) : RoomOK (room_add a r) := by
  obtain ⟨h1, h2, h3, h4, h5⟩ := h
  refine ⟨h1, h2, ?_, ?_, ?_⟩
  · show (put_member a r.clients).length = MAX_CLIENTS_PER_ROOM
    rw [put_member_length]; exact h3
  · show r.client_count + 1 = (((put_member a r.clients).filter Option.isSome).length : Int)
    rw [put_member_filter a r.clients hn, h4]
    push_cast; rfl
  · intro b
    show (put_member a r.clients).count (some b) ≤ 1
    rw [put_member_count a b r.clients hn]
    by_cases hb : b = a
    · subst hb
      rw [if_pos rfl, List.count_eq_zero.mpr ha]
    · rw [if_neg hb]; exact h5 b

/-- Putting a client that is in no slot into a room with a free slot, and
recording the room in the client's record, keeps the invariant. -/
theorem inv_enter (σ : Server) (h : Inv σ) (c : client_info) (hc : c ∈ σ.client_list)
    (hf : Free c.addr σ) (r : room_info) (hr : r ∈ σ.room_list) (hn : none ∈ r.clients)
    (g : client_info → client_info)
    (hg : ∀ x, (g x).addr = x.addr ∧ (g x).socket_fd = x.socket_fd ∧
      (g x).current_room_name = r.room_name) :
    Inv ((σ.with_rooms (update_room r.room_name (room_add c.addr) σ.room_list)).with_clients
      (update_client c.addr g σ.client_list)) := by
  have hrmem : ∀ y ∈ update_room r.room_name (room_add c.addr) σ.room_list,
      (y ∈ σ.room_list ∧ y.room_name ≠ r.room_name) ∨ y = room_add c.addr r := by
    intro y hy
    rcases update_room_mem_key r.room_name _ _ h.room_nodup y hy with
      h1 | ⟨x, hx, hxn, hyx⟩
    · exact Or.inl h1
    · have : x = r := inv_room_unique σ h x r hx hr hxn
      subst this
      exact Or.inr hyx
  have hcmem : ∀ d ∈ update_client c.addr g σ.client_list,
      d ∈ σ.client_list ∨ ∃ x ∈ σ.client_list, d = g x := by
    intro d hd
    exact update_client_mem c.addr _ _ d hd
  constructor
  · intro d hd
    rcases hcmem d hd with h1 | ⟨x, hx, hdx⟩
    · exact h.addr_lt d h1
    · rw [hdx, (hg x).1]; exact h.addr_lt x hx
  · show ((update_client c.addr g σ.client_list).map (fun c => c.addr)).Nodup
    rw [update_client_map c.addr g (fun c => c.addr) (fun x => (hg x).1)]
    exact h.addr_nodup
  · show ((update_client c.addr g σ.client_list).map (fun c => c.socket_fd)).Nodup
    rw [update_client_map c.addr g (fun c => c.socket_fd) (fun x => (hg x).2.1)]
    exact h.fd_nodup
  · intro d hd
    rcases hcmem d hd with h1 | ⟨x, hx, hdx⟩
    · exact h.fd_nonneg d h1
    · rw [hdx, (hg x).2.1]; exact h.fd_nonneg x hx
  · intro d hd
    rcases hcmem d hd with h1 | ⟨x, hx, hdx⟩
    · exact h.cur_nonul d h1
    · rw [hdx, (hg x).2.2]; exact (h.room_ok r hr).2.1
  · show ((update_room r.room_name (room_add c.addr) σ.room_list).map
      (fun r => r.room_name)).Nodup
    rw [update_room_map r.room_name (room_add c.addr) (fun r => r.room_name) (fun x => rfl)]
    exact h.room_nodup
  · intro y hy
    rcases hrmem y hy with ⟨h1, _⟩ | hyr
    · exact h.room_ok y h1
    · rw [hyr]; exact roomok_add c.addr r (h.room_ok r hr) hn (hf r hr)
  · intro y hy b hb
    have hold : ∀ d ∈ σ.client_list, d.addr ≠ c.addr →
        d ∈ update_client c.addr g σ.client_list := by
      intro d hd hne
      exact update_client_mem_other c.addr _ _ d hd hne
    rcases hrmem y hy with ⟨h1, _⟩ | hyr
    · obtain ⟨d, hd, hda, hdn⟩ := h.slot_ref y h1 b hb
      have hne : d.addr ≠ c.addr := by
        intro e
        exact hf y h1 (by rw [← e, hda]; exact hb)
      exact ⟨d, hold d hd hne, hda, hdn⟩
    · rw [hyr] at hb ⊢
      rcases put_member_mem c.addr b r.clients hb with hbc | hbr
      · refine ⟨g c, ?_, by rw [(hg c).1, hbc], (hg c).2.2⟩
        exact update_client_mem_image c.addr _ σ.client_list c hc rfl h.addr_nodup
      · obtain ⟨d, hd, hda, hdn⟩ := h.slot_ref r hr b hbr
        have hne : d.addr ≠ c.addr := by
          intro e
          exact hf r hr (by rw [← e, hda]; exact hbr)
        exact ⟨d, hold d hd hne, hda, hdn⟩

/-- A change of the counters of a room keeps the invariant. -/
theorem inv_update_room_meta (σ : Server) (h : Inv σ) (name : List Nat)
    (g : room_info → room_info)
    (hg : ∀ r, (g r).room_name = r.room_name ∧ (g r).clients = r.clients ∧
      (g r).client_count = r.client_count) :
    Inv (σ.with_rooms (update_room name g σ.room_list)) := by
  have hmem : ∀ y ∈ update_room name g σ.room_list,
      y ∈ σ.room_list ∨ ∃ x ∈ σ.room_list, y = g x := by
    intro y hy
    exact update_room_mem name g _ y hy
  constructor
  · exact h.addr_lt
  · exact h.addr_nodup
  · exact h.fd_nodup
  · exact h.fd_nonneg
  · exact h.cur_nonul
  · show ((update_room name g σ.room_list).map (fun r => r.room_name)).Nodup
    rw [update_room_map name g (fun r => r.room_name) (fun x => (hg x).1)]
    exact h.room_nodup
  · intro y hy
    rcases hmem y hy with h1 | ⟨x, hx, hyx⟩
    · exact h.room_ok y h1
    · obtain ⟨a1, a2, a3, a4, a5⟩ := h.room_ok x hx
      obtain ⟨g1, g2, g3⟩ := hg x
      rw [hyx]
      unfold RoomOK
      rw [g1, g2, g3]
      exact ⟨a1, a2, a3, a4, a5⟩
  · intro y hy b hb
    rcases hmem y hy with h1 | ⟨x, hx, hyx⟩
    · exact h.slot_ref y h1 b hb
    · obtain ⟨g1, g2, g3⟩ := hg x
      rw [hyx, g2] at hb
      rw [hyx, g1]
      exact h.slot_ref x hx b hb

/-- A login handshake on a socket that no session uses keeps the invariant. -/
theorem inv_login (σ σ2 : Server) (h : Inv σ) (fd : Int)
    (hfresh : find_client_by_socket σ fd = none) (he : LoginEffect fd σ σ2) : Inv σ2 := by
  obtain ⟨hr, _, hcl⟩ := he
  rcases hcl with ⟨hc, hn, _⟩ | ⟨c, hc, hn, _, hca, hcf, hfd0, hcur, _, _, _, _⟩
  · exact inv_congr σ σ2 hc hr hn h
  · have hnone := List.find?_eq_none.mp hfresh
    constructor
    · rw [hc, hn]
      intro d hd
      rcases List.mem_cons.mp hd with h1 | h1
      · rw [h1, hca]; omega
      · have := h.addr_lt d h1; omega
    · rw [hc, List.map_cons, List.nodup_cons]
      refine ⟨?_, h.addr_nodup⟩
      intro hm
      obtain ⟨d, hd, hda⟩ := List.mem_map.mp hm
      have := h.addr_lt d hd
      have hda2 : d.addr = c.addr := hda
      omega
    · rw [hc, List.map_cons, List.nodup_cons]
      refine ⟨?_, h.fd_nodup⟩
      intro hm
      obtain ⟨d, hd, hdf⟩ := List.mem_map.mp hm
      have hdf2 : d.socket_fd = c.socket_fd := hdf
      exact hnone d hd (by simp [hdf2, hcf])
    · rw [hc]
      intro d hd
      rcases List.mem_cons.mp hd with h1 | h1
      · rw [h1, hcf]; exact hfd0
      · exact h.fd_nonneg d h1
    · rw [hc]
      intro d hd
      rcases List.mem_cons.mp hd with h1 | h1
      · rw [h1, hcur]; exact List.not_mem_nil 0
      · exact h.cur_nonul d h1
    · rw [hr]; exact h.room_nodup
    · rw [hr]; exact h.room_ok
    · rw [hr, hc]
      intro r hrm b hb
      obtain ⟨d, hd, hda, hdn⟩ := h.slot_ref r hrm b hb
      exact ⟨d, List.mem_cons_of_mem _ hd, hda, hdn⟩

/-- The function `remove_client` keeps the invariant when the record it frees
is in no slot. -/
theorem inv_remove_client (σ : Server) (h : Inv σ) (fd : Int)
    (hf : ∀ c ∈ σ.client_list, c.socket_fd = fd → Free c.addr σ) :
    Inv (remove_client σ fd).2 := by
  unfold remove_client
  cases hfind : σ.client_list.find? (fun c => c.socket_fd = fd) with
  | none => exact h
  | some c =>
    dsimp only
    have hsub := List.eraseP_sublist (p := fun c : client_info => decide (c.socket_fd = fd))
      σ.client_list
    constructor
    · intro d hd; exact h.addr_lt d (hsub.mem hd)
    · exact h.addr_nodup.sublist (hsub.map _)
    · exact h.fd_nodup.sublist (hsub.map _)
    · intro d hd; exact h.fd_nonneg d (hsub.mem hd)
    · intro d hd; exact h.cur_nonul d (hsub.mem hd)
    · exact h.room_nodup
    · exact h.room_ok
    · intro r hr b hb
      obtain ⟨d, hd, hda, hdn⟩ := h.slot_ref r hr b hb
      refine ⟨d, ?_, hda, hdn⟩
      have hne : ¬ d.socket_fd = fd := by
        intro e
        exact hf d hd e r hr (by rw [hda]; exact hb)
      exact (List.mem_eraseP_of_neg (by simpa using hne)).mpr hd


/-! ## Invariant: the command handlers -/

theorem find_client_by_socket_some (σ : Server) (fd : Int) (c : client_info)
    (h : find_client_by_socket σ fd = some c) : c ∈ σ.client_list ∧ c.socket_fd = fd := by
  unfold find_client_by_socket at h
  exact ⟨List.mem_of_find?_eq_some h, by simpa using List.find?_some h⟩

theorem find_room_some (σ : Server) (name : List Nat) (r : room_info)
    (h : find_room σ name = some r) : r ∈ σ.room_list ∧ r.room_name = cstr name := by
  unfold find_room at h
  exact ⟨List.mem_of_find?_eq_some h, by simpa using List.find?_some h⟩

theorem find_room_none (σ : Server) (name : List Nat) (h : find_room σ name = none) :
    ∀ r ∈ σ.room_list, r.room_name ≠ cstr name := by
  unfold find_room at h
  intro r hr
  simpa using List.find?_eq_none.mp h r hr

theorem inv_emit (σ : Server) (h : Inv σ) (fd : Int) (msg : List Nat) : Inv (σ.emit fd msg) :=
  inv_congr σ _ rfl rfl rfl h

theorem inv_notify (σ : Server) (h : Inv σ) (skip : Option Nat) (msg : List Nat)
    (l : List (Option Nat)) : Inv (notify σ skip msg l) := by
  obtain ⟨h1, h2, h3⟩ := notify_fields skip msg l σ
  exact inv_congr σ _ h1 h2 h3 h

/-- A client whose record names no room, or a room that does not exist, is in
no slot. -/
theorem free_of_no_room (σ : Server) (h : Inv σ) (c : client_info) (hc : c ∈ σ.client_list)
    (hno : c.current_room_name = [] ∨ find_room σ c.current_room_name = none) :
    Free c.addr σ := by
  apply inv_free_of_cur σ h c hc
  intro r hr hrn
  rcases hno with h0 | h0
  · exact absurd (hrn.trans h0) (h.room_ok r hr).1
  · have := find_room_none σ _ h0 r hr
    rw [cstr_of_no_nul _ (h.cur_nonul c hc)] at this
    exact absurd hrn this

/-- A client that is not in the array of the room its record names is in no slot. -/
theorem free_of_not_member (σ : Server) (h : Inv σ) (c : client_info) (hc : c ∈ σ.client_list)
    (r : room_info) (hr : find_room σ c.current_room_name = some r)
    (hm : some c.addr ∉ r.clients) : Free c.addr σ := by
  apply inv_free_of_cur σ h c hc
  intro r2 hr2 hrn
  obtain ⟨h1, h2⟩ := find_room_some σ _ r hr
  rw [cstr_of_no_nul _ (h.cur_nonul c hc)] at h2
  have : r2 = r := inv_room_unique σ h r2 r hr2 h1 (hrn.trans h2.symm)
  rw [this]; exact hm

/-- Leaving the old room in `handle_join_command` keeps the invariant and leaves
the client in no slot. -/
theorem join_leave_old_inv (σ : Server) (h : Inv σ) (c : client_info) (hc : c ∈ σ.client_list) :
    Inv (join_leave_old σ c) ∧ Free c.addr (join_leave_old σ c) ∧
    (join_leave_old σ c).client_list = σ.client_list := by
  unfold join_leave_old
  by_cases hl : c.current_room_name.length > 0
  · rw [if_pos hl]
    cases hf : find_room σ c.current_room_name with
    | none => exact ⟨h, free_of_no_room σ h c hc (Or.inr hf), rfl⟩
    | some old_room =>
      dsimp only
      obtain ⟨h1, h2⟩ := find_room_some σ _ old_room hf
      rw [cstr_of_no_nul _ (h.cur_nonul c hc)] at h2
      obtain ⟨hi, hfree⟩ := inv_room_remove σ h c hc old_room.room_name h2
      by_cases hz : (room_remove c.addr old_room).client_count = 0
      · rw [if_pos hz]
        obtain ⟨a1, a2, a3⟩ := inv_remove_room _ hi old_room.room_name
        exact ⟨a1, a3 c.addr hfree, a2⟩
      · rw [if_neg hz]
        exact ⟨hi, hfree, rfl⟩
  · rw [if_neg hl]
    have : c.current_room_name = [] := List.length_eq_zero.mp (by omega)
    exact ⟨h, free_of_no_room σ h c hc (Or.inl this), rfl⟩

/-- Entering the target room in `handle_join_command` keeps the invariant. -/
theorem join_enter_inv (σ : Server) (h : Inv σ) (ok : Bool) (fd : Int) (c : client_info)
    (hc : c ∈ σ.client_list) (hfree : Free c.addr σ) (start : List Nat) (h0 : start ≠ [])
    (h1 : 0 ∉ start) (h2 : start.length ≤ 32) : Inv (join_enter σ ok fd c start) := by
  have hfound : ∃ tr σ1,
      (match find_room σ start with
        | some r => (some r, σ)
        | none => add_room σ ok start) = (tr, σ1) ∧
      Inv σ1 ∧ Free c.addr σ1 ∧ σ1.client_list = σ.client_list ∧
      ∀ r, tr = some r → r ∈ σ1.room_list ∧ r.room_name = start := by
    cases hf : find_room σ start with
    | some r =>
      refine ⟨some r, σ, rfl, h, hfree, rfl, ?_⟩
      intro r2 hr2
      cases hr2
      obtain ⟨a1, a2⟩ := find_room_some σ _ r hf
      rw [cstr_of_no_nul _ h1] at a2
      exact ⟨a1, a2⟩
    | none =>
      obtain ⟨a1, a2, a3, a4⟩ := inv_add_room σ h ok start h0 h1 h2
      exact ⟨(add_room σ ok start).1, (add_room σ ok start).2, rfl, a1, a3 c.addr hfree, a2, a4⟩
  obtain ⟨tr, σ1, hm, hi1, hf1, hc1, htr⟩ := hfound
  unfold join_enter
  dsimp only
  rw [hm]
  cases tr with
  | none => exact inv_emit σ1 hi1 _ _
  | some target =>
    dsimp only
    obtain ⟨ht1, ht2⟩ := htr target rfl
    by_cases hfull : target.client_count ≥ (MAX_CLIENTS_PER_ROOM : Int)
    · rw [if_pos hfull]; exact inv_emit σ1 hi1 _ _
    · rw [if_neg hfull]
      by_cases hslot : none ∉ target.clients
      · rw [if_pos hslot]; exact inv_emit σ1 hi1 _ _
      · rw [if_neg hslot]
        have hn : none ∈ target.clients := by
          by_contra hcon; exact hslot hcon
        apply inv_notify
        apply inv_emit
        have hcm : c ∈ σ1.client_list := by rw [hc1]; exact hc
        have hs : strncpy start 32 = target.room_name := by
          rw [strncpy_short start 32 h1 h2, ht2]
        exact inv_enter σ1 hi1 c hcm hf1 target ht1 hn _ (fun x => ⟨rfl, rfl, hs⟩)

theorem length_rtrim_le (ws : Nat → Bool) (m : List Nat) : (rtrim ws m).length ≤ m.length := by
  cases m with
  | nil => exact le_refl _
  | cons c tl =>
    simp only [rtrim, List.length_cons, List.length_reverse]
    have := (List.dropWhile_sublist ws (l := tl.reverse)).length_le
    simp only [List.length_reverse] at this
    omega

theorem join_name_facts (room_name : List Nat) :
    0 ∉ rtrim ws_sp_tab_nl (ltrim ws_sp_tab (strncpy room_name MAX_ROOM_NAME_LENGTH)) ∧
    (rtrim ws_sp_tab_nl (ltrim ws_sp_tab (strncpy room_name MAX_ROOM_NAME_LENGTH))).length
      ≤ 32 := by
  refine ⟨?_, ?_⟩
  · intro hm
    have h1 := mem_rtrim _ _ _ hm
    have h2 : (0 : Nat) ∈ strncpy room_name MAX_ROOM_NAME_LENGTH :=
      (List.dropWhile_sublist _).mem h1
    exact no_nul_strncpy _ _ h2
  · have h1 := length_rtrim_le ws_sp_tab_nl (ltrim ws_sp_tab (strncpy room_name MAX_ROOM_NAME_LENGTH))
    have h2 : (ltrim ws_sp_tab (strncpy room_name MAX_ROOM_NAME_LENGTH)).length
        ≤ (strncpy room_name MAX_ROOM_NAME_LENGTH).length :=
      (List.dropWhile_sublist _).length_le
    have h3 : (strncpy room_name MAX_ROOM_NAME_LENGTH).length ≤ 32 := by
      unfold strncpy MAX_ROOM_NAME_LENGTH
      rw [List.length_take]
      exact Nat.min_le_left _ _
    omega

/-- The function `handle_join_command` keeps the invariant. -/
theorem handle_join_command_inv (σ : Server) (h : Inv σ) (ok : Bool) (fd : Int)
    (room_name : List Nat) : Inv (handle_join_command σ ok fd room_name) := by
  unfold handle_join_command
  by_cases he : strlen room_name = 0
  · rw [if_pos he]; exact inv_emit σ h _ _
  · rw [if_neg he]
    cases hf : find_client_by_socket σ fd with
    | none => exact inv_emit σ h _ _
    | some client =>
      dsimp only
      obtain ⟨hc, _⟩ := find_client_by_socket_some σ fd client hf
      obtain ⟨hnul, hlen⟩ := join_name_facts room_name
      by_cases h1 : (rtrim ws_sp_tab_nl
          (ltrim ws_sp_tab (strncpy room_name MAX_ROOM_NAME_LENGTH))).length = 0
      · rw [if_pos h1]; exact inv_emit σ h _ _
      · rw [if_neg h1]
        by_cases h2 : (rtrim ws_sp_tab_nl
            (ltrim ws_sp_tab (strncpy room_name MAX_ROOM_NAME_LENGTH))).length
              > MAX_ROOM_NAME_LENGTH
        · rw [if_pos h2]; exact inv_emit σ h _ _
        · rw [if_neg h2]
          by_cases h3 : (!(rtrim ws_sp_tab_nl
              (ltrim ws_sp_tab (strncpy room_name MAX_ROOM_NAME_LENGTH))).all isalnum) = true
          · rw [if_pos h3]; exact inv_emit σ h _ _
          · rw [if_neg h3]
            by_cases h4 : client.current_room_name.length > 0 ∧ client.current_room_name
                = rtrim ws_sp_tab_nl (ltrim ws_sp_tab (strncpy room_name MAX_ROOM_NAME_LENGTH))
            · rw [if_pos h4]; exact inv_emit σ h _ _
            · rw [if_neg h4]
              obtain ⟨a1, a2, a3⟩ := join_leave_old_inv σ h client hc
              exact join_enter_inv _ a1 ok fd client (by rw [a3]; exact hc) a2 _
                (fun e => h1 (by rw [e]; rfl)) hnul hlen

/-- The function `handle_leave_command` keeps the invariant. -/
theorem handle_leave_command_inv (σ : Server) (h : Inv σ) (fd : Int) :
    Inv (handle_leave_command σ fd) := by
  unfold handle_leave_command
  cases hf : find_client_by_socket σ fd with
  | none => exact inv_emit σ h _ _
  | some client =>
    dsimp only
    obtain ⟨hc, _⟩ := find_client_by_socket_some σ fd client hf
    have hclear : ∀ x : client_info,
        ({ x with current_room_name := [], current_room_index := -1 } : client_info).addr = x.addr ∧
        ({ x with current_room_name := [], current_room_index := -1 } : client_info).socket_fd
          = x.socket_fd ∧
        0 ∉ ({ x with current_room_name := [], current_room_index := -1 }
          : client_info).current_room_name :=
      fun x => ⟨rfl, rfl, List.not_mem_nil 0⟩
    by_cases h0 : client.current_room_name.length = 0
    · rw [if_pos h0]; exact inv_emit σ h _ _
    · rw [if_neg h0]
      cases hr : find_room σ client.current_room_name with
      | none =>
        dsimp only
        apply inv_emit
        exact inv_update_client_free σ h client.addr
          (free_of_no_room σ h client hc (Or.inr hr)) _ hclear
      | some current_room =>
        dsimp only
        by_cases hm : some client.addr ∉ current_room.clients
        · rw [if_pos hm]
          apply inv_emit
          exact inv_update_client_free σ h client.addr
            (free_of_not_member σ h client hc current_room hr hm) _ hclear
        · rw [if_neg hm]
          apply inv_emit
          obtain ⟨r1, r2⟩ := find_room_some σ _ current_room hr
          rw [cstr_of_no_nul _ (h.cur_nonul client hc)] at r2
          obtain ⟨hi, hfree⟩ := inv_room_remove σ h client hc current_room.room_name r2
          obtain ⟨n1, n2, n3⟩ := notify_fields none
            (snprintf 256 (lit "ROOM_NOTIFICATION " ++ client.username ++ lit " left the room"))
            (room_remove client.addr current_room).clients
            (σ.with_rooms (update_room current_room.room_name (room_remove client.addr)
              σ.room_list))
          have hi2 := inv_congr _ _ n1 n2 n3 hi
          have hf2 := free_congr client.addr _ _ n2 hfree
          have := inv_update_client_free _ hi2 client.addr hf2 _ hclear
          rw [n1] at this
          rw [n1]
          exact this

/-- The function `handle_broadcast_command` keeps the invariant. -/
theorem handle_broadcast_command_inv (σ : Server) (h : Inv σ) (net : Int → Bool) (fd : Int)
    (message : List Nat) : Inv (handle_broadcast_command σ net fd message) := by
  unfold handle_broadcast_command
  by_cases he : strlen message = 0
  · rw [if_pos he]; exact inv_emit σ h _ _
  · rw [if_neg he]
    cases hf : find_client_by_socket σ fd with
    | none => exact inv_emit σ h _ _
    | some sender =>
      dsimp only
      obtain ⟨hc, _⟩ := find_client_by_socket_some σ fd sender hf
      by_cases h0 : sender.current_room_name.length = 0
      · rw [if_pos h0]; exact inv_emit σ h _ _
      · rw [if_neg h0]
        cases hr : find_room σ sender.current_room_name with
        | none =>
          dsimp only
          apply inv_emit
          exact inv_update_client_free σ h sender.addr
            (free_of_no_room σ h sender hc (Or.inr hr)) _
            (fun x => ⟨rfl, rfl, List.not_mem_nil 0⟩)
        | some current_room =>
          dsimp only
          by_cases h1 : (rtrim ws_sp_tab_nl_cr (ltrim ws_sp_tab (strncpy message 1023))).length = 0
          · rw [if_pos h1]; exact inv_emit σ h _ _
          · rw [if_neg h1]
            apply inv_emit
            obtain ⟨b1, b2, b3⟩ := broadcast_loop_fields net sender.addr
              (snprintf 1200 (lit "BROADCAST [" ++ sender.username ++ lit "@"
                ++ current_room.room_name ++ lit "]: "
                ++ rtrim ws_sp_tab_nl_cr (ltrim ws_sp_tab (strncpy message 1023))))
              current_room.clients σ
            exact inv_update_room_meta _ (inv_congr σ _ b1 b2 b3 h) _ _
              (fun r => ⟨rfl, rfl, rfl⟩)

/-- The function `cleanup_client_connection` keeps the invariant and leaves the
session of the socket in no slot. -/
theorem cleanup_client_connection_inv (σ : Server) (h : Inv σ) (fd : Int) :
    Inv (cleanup_client_connection σ fd) ∧
    (cleanup_client_connection σ fd).client_list = σ.client_list ∧
    ∀ c ∈ σ.client_list, c.socket_fd = fd → Free c.addr (cleanup_client_connection σ fd) := by
  have huniq : ∀ c d : client_info, c ∈ σ.client_list → d ∈ σ.client_list →
      c.socket_fd = fd → d.socket_fd = fd → c = d := by
    intro c d hc hd h1 h2
    exact eq_of_key (fun c => c.socket_fd) σ.client_list h.fd_nodup c d hc hd (h1.trans h2.symm)
  unfold cleanup_client_connection
  by_cases hm1 : fd = -1
  · rw [if_pos hm1]
    refine ⟨h, rfl, ?_⟩
    intro c hc hcf
    have := h.fd_nonneg c hc
    omega
  · rw [if_neg hm1]
    cases hf : find_client_by_socket σ fd with
    | none =>
      refine ⟨h, rfl, ?_⟩
      intro c hc hcf
      unfold find_client_by_socket at hf
      exact absurd (by simpa using hcf) (List.find?_eq_none.mp hf c hc)
    | some client =>
      dsimp only
      obtain ⟨hc, hcfd⟩ := find_client_by_socket_some σ fd client hf
      by_cases hl : client.current_room_name.length > 0
      · rw [if_pos hl]
        cases hr : find_room σ client.current_room_name with
        | none =>
          refine ⟨h, rfl, ?_⟩
          intro c hcm hcf
          rw [huniq c client hcm hc hcf hcfd]
          exact free_of_no_room σ h client hc (Or.inr hr)
        | some current_room =>
          dsimp only
          obtain ⟨r1, r2⟩ := find_room_some σ _ current_room hr
          rw [cstr_of_no_nul _ (h.cur_nonul client hc)] at r2
          obtain ⟨hi, hfree⟩ := inv_room_remove σ h client hc current_room.room_name r2
          obtain ⟨n1, n2, n3⟩ := notify_fields none
            (snprintf 256 (lit "ROOM_NOTIFICATION " ++ client.username ++ lit " disconnected"))
            (room_remove client.addr current_room).clients
            (σ.with_rooms (update_room current_room.room_name (room_remove client.addr)
              σ.room_list))
          refine ⟨inv_congr _ _ n1 n2 n3 hi, n1, ?_⟩
          intro c hcm hcf
          rw [huniq c client hcm hc hcf hcfd]
          exact free_congr client.addr _ _ n2 hfree
      · rw [if_neg hl]
        refine ⟨h, rfl, ?_⟩
        intro c hcm hcf
        rw [huniq c client hcm hc hcf hcfd]
        have : client.current_room_name = [] := List.length_eq_zero.mp (by omega)
        exact free_of_no_room σ h client hc (Or.inl this)

/-- The closing of a session keeps the invariant. -/
theorem close_session_inv (σ : Server) (h : Inv σ) (fd : Int) : Inv (close_session σ fd) := by
  obtain ⟨h1, h2, h3⟩ := cleanup_client_connection_inv σ h fd
  unfold close_session
  apply inv_remove_client _ h1 fd
  intro c hc hcf
  rw [h2] at hc
  exact h3 c hc hcf

/-- The function `handle_whisper_command` sends frames and writes nothing else. -/
theorem handle_whisper_command_fields (σ : Server) (net : Int → Bool) (fd : Int)
    (whisper_args : List Nat) :
    (handle_whisper_command σ net fd whisper_args).client_list = σ.client_list ∧
    (handle_whisper_command σ net fd whisper_args).room_list = σ.room_list ∧
    (handle_whisper_command σ net fd whisper_args).next_addr = σ.next_addr ∧
    (handle_whisper_command σ net fd whisper_args).active_client_count
      = σ.active_client_count ∧
    (handle_whisper_command σ net fd whisper_args).total_room_count = σ.total_room_count := by
  unfold handle_whisper_command
  split
  · exact ⟨rfl, rfl, rfl, rfl, rfl⟩
  · split
    · exact ⟨rfl, rfl, rfl, rfl, rfl⟩
    · dsimp only
      split
      · exact ⟨rfl, rfl, rfl, rfl, rfl⟩
      · split
        · exact ⟨rfl, rfl, rfl, rfl, rfl⟩
        · split
          · exact ⟨rfl, rfl, rfl, rfl, rfl⟩
          · split
            · exact ⟨rfl, rfl, rfl, rfl, rfl⟩
            · split
              · exact ⟨rfl, rfl, rfl, rfl, rfl⟩
              · split
                · exact ⟨rfl, rfl, rfl, rfl, rfl⟩
                · exact ⟨rfl, rfl, rfl, rfl, rfl⟩

theorem handle_sendfile_transfer_fields (w : World) (net : Int → Bool) (alloc_ok : Bool)
    (buf : Nat) (fd : Int) (s r : client_info) (f t : List Nat) :
    (handle_sendfile_transfer w net alloc_ok buf fd s r f t).srv.client_list
      = w.srv.client_list ∧
    (handle_sendfile_transfer w net alloc_ok buf fd s r f t).srv.room_list = w.srv.room_list ∧
    (handle_sendfile_transfer w net alloc_ok buf fd s r f t).srv.next_addr = w.srv.next_addr := by
  unfold handle_sendfile_transfer
  dsimp only
  split
  · exact ⟨rfl, rfl, rfl⟩
  · split
    · exact ⟨rfl, rfl, rfl⟩
    · split
      · exact ⟨rfl, rfl, rfl⟩
      · split
        · exact ⟨rfl, rfl, rfl⟩
        · exact ⟨rfl, rfl, rfl⟩

theorem handle_sendfile_checks_fields (w : World) (net : Int → Bool) (alloc_ok : Bool)
    (buf : Nat) (fd : Int) (s : client_info) (f t : List Nat) :
    (handle_sendfile_checks w net alloc_ok buf fd s f t).srv.client_list = w.srv.client_list ∧
    (handle_sendfile_checks w net alloc_ok buf fd s f t).srv.room_list = w.srv.room_list ∧
    (handle_sendfile_checks w net alloc_ok buf fd s f t).srv.next_addr = w.srv.next_addr := by
  unfold handle_sendfile_checks
  split
  · exact ⟨rfl, rfl, rfl⟩
  · split
    · exact ⟨rfl, rfl, rfl⟩
    · dsimp only
      split
      · exact ⟨rfl, rfl, rfl⟩
      · split
        · exact ⟨rfl, rfl, rfl⟩
        · split
          · exact ⟨rfl, rfl, rfl⟩
          · exact handle_sendfile_transfer_fields w net alloc_ok buf fd s _ f t

/-- The handler of `/sendfile` writes to the log of frames only: the client
list and the room list stay as they are. -/
theorem handle_sendfile_command_fields (w : World) (net : Int → Bool) (heap : List Bool)
    (buf : Nat) (fd : Int) (file_args : List Nat) :
    (handle_sendfile_command w net heap buf fd file_args).srv.client_list = w.srv.client_list ∧
    (handle_sendfile_command w net heap buf fd file_args).srv.room_list = w.srv.room_list ∧
    (handle_sendfile_command w net heap buf fd file_args).srv.next_addr = w.srv.next_addr := by
  unfold handle_sendfile_command
  split
  · exact ⟨rfl, rfl, rfl⟩
  · split
    · exact ⟨rfl, rfl, rfl⟩
    · split
      · exact ⟨rfl, rfl, rfl⟩
      · dsimp only
        split
        · exact ⟨rfl, rfl, rfl⟩
        · split
          · exact ⟨rfl, rfl, rfl⟩
          · exact handle_sendfile_checks_fields w net _ buf fd _ _ _

/-- Every reachable state satisfies the invariant. -/
theorem reachable_inv (σ : Server) (h : Reachable σ) : Inv σ := by
  induction h with
  | init => exact inv_init
  | login σ heap s fd ip port _ hfresh ih =>
    exact inv_login σ _ ih fd hfresh (handle_client_login_effect σ heap s fd ip port)
  | join σ ok fd room_name _ ih => exact handle_join_command_inv σ ih ok fd room_name
  | leave σ fd _ ih => exact handle_leave_command_inv σ ih fd
  | broadcast σ net fd message _ ih => exact handle_broadcast_command_inv σ ih net fd message
  | close σ fd _ ih => exact close_session_inv σ ih fd
  | whisper σ net fd args _ ih =>
    exact inv_congr σ _ (handle_whisper_command_fields σ net fd args).1
      (handle_whisper_command_fields σ net fd args).2.1
      (handle_whisper_command_fields σ net fd args).2.2.1 ih
  | sendfile σ q up down net heap buf fd args _ ih =>
    exact inv_congr σ _ (handle_sendfile_command_fields ⟨σ, q, up, down⟩ net heap buf fd args).1
      (handle_sendfile_command_fields ⟨σ, q, up, down⟩ net heap buf fd args).2.1
      (handle_sendfile_command_fields ⟨σ, q, up, down⟩ net heap buf fd args).2.2 ih


/-! ## Scenarios are reachable -/

theorem event_apply_reachable (σ σ2 : Server) (e : Event) (h : Reachable σ)
    (he : e.apply σ = some σ2) : Reachable σ2 := by
  cases e with
  | login fd name =>
    simp only [Event.apply] at he
    by_cases hs : (find_client_by_socket σ fd).isSome = true
    · rw [if_pos hs] at he; cases he
    · rw [if_neg hs] at he
      cases he
      have hn : find_client_by_socket σ fd = none := by
        cases hx : find_client_by_socket σ fd with
        | none => rfl
        | some c => rw [hx] at hs; exact absurd rfl hs
      exact Reachable.login σ [] _ fd _ 40000 h hn
  | join fd room_name =>
    simp only [Event.apply, Option.some.injEq] at he
    rw [← he]
    exact Reachable.join σ true fd room_name h
  | leave fd =>
    simp only [Event.apply, Option.some.injEq] at he
    rw [← he]
    exact Reachable.leave σ fd h
  | close fd =>
    simp only [Event.apply, Option.some.injEq] at he
    rw [← he]
    exact Reachable.close σ fd h

theorem play_reachable (es : List Event) : ∀ (σ σ2 : Server), Reachable σ →
    play σ es = some σ2 → Reachable σ2 := by
  induction es with
  | nil =>
    intro σ σ2 h hp
    cases hp
    exact h
  | cons e es ih =>
    intro σ σ2 h hp
    unfold play at hp
    cases he : e.apply σ with
    | none => rw [he] at hp; cases hp
    | some σ1 =>
      rw [he] at hp
      exact ih σ1 σ2 (event_apply_reachable σ σ1 e h he) hp

theorem final_reachable (es : List Event) (h : (play Server.init es).isSome = true) :
    Reachable (final es) := by
  unfold final
  cases hp : play Server.init es with
  | none => rw [hp] at h; cases h
  | some σ => exact play_reachable es Server.init σ Reachable.init hp

/-! ## The claims on the registries -/

set_option maxRecDepth 1000000

/-- C6 (as amended): `add_client` fails, returning NULL and leaving the
registry as it was, when the socket is negative or the allocation fails. It
makes no check of the usernames in the registry: with a non-negative socket and
a successful allocation it returns the new record, put at the head of the list,
and increments the count, whoever holds the name. -/
theorem add_client_spec (σ : Server) (alloc_ok : Bool) (username : List Nat) (fd : Int)
    (ip : List Nat) (port : Int) (path : List Nat) :
    ((fd < 0 ∨ alloc_ok = false) →
      add_client σ alloc_ok username fd ip port path = (none, σ)) ∧
    (0 ≤ fd → alloc_ok = true →
      ∃ c : client_info,
        (add_client σ alloc_ok username fd ip port path).1 = some c ∧
        (add_client σ alloc_ok username fd ip port path).2.client_list = c :: σ.client_list ∧
        (add_client σ alloc_ok username fd ip port path).2.active_client_count
          = σ.active_client_count + 1 ∧
        (add_client σ alloc_ok username fd ip port path).2.room_list = σ.room_list ∧
        c.username = strncpy username 16 ∧ c.socket_fd = fd ∧ c.current_room_name = [] ∧
        c.is_active = 1) := by
  refine ⟨?_, ?_⟩
  · intro h
    unfold add_client
    by_cases hfd : fd < 0
    · rw [if_pos hfd]
    · rw [if_neg hfd]
      rcases h with h | h
      · exact absurd h hfd
      · subst h; rfl
  · intro hfd hok
    subst hok
    have hn : ¬ fd < 0 := by omega
    unfold add_client
    rw [if_neg hn]
    exact ⟨_, rfl, rfl, rfl, rfl, rfl, rfl, rfl, rfl⟩

/-- C6 as stated fails: `alice` is registered and active, and `add_client`
called with the name `alice` returns a record and puts a second `alice` into
the list. -/
theorem add_client_duplicate_inserted :
    (find_client_by_username demo_alice (lit "alice")).isSome = true ∧
    (add_client demo_alice true (lit "alice") 5 (lit "127.0.0.1") 40001 (lit "/tmp")).1.isSome
      = true ∧
    (add_client demo_alice true (lit "alice") 5 (lit "127.0.0.1") 40001
      (lit "/tmp")).2.client_list.map (fun c => c.username) = [lit "alice", lit "alice"] ∧
    (add_client demo_alice true (lit "alice") 5 (lit "127.0.0.1") 40001
      (lit "/tmp")).2.active_client_count = 2 := by
  decide

/-- Over rooms with distinct names, a client that is in at most one slot of
each room, and in slots of rooms of one name only, is in at most one slot. -/
theorem slots_sum_le_one (a : Nat) (l : List room_info)
    (hnd : (l.map (fun r => r.room_name)).Nodup)
    (hone : ∀ r ∈ l, r.clients.count (some a) ≤ 1)
    (hname : ∀ r1 ∈ l, ∀ r2 ∈ l, some a ∈ r1.clients → some a ∈ r2.clients →
      r1.room_name = r2.room_name) :
    (l.map (fun r => r.clients.count (some a))).sum ≤ 1 := by
  induction l with
  | nil => exact Nat.zero_le _
  | cons r rs ih =>
    rw [List.map_cons, List.nodup_cons] at hnd
    have ih2 := ih hnd.2 (fun x hx => hone x (List.mem_cons_of_mem _ hx))
      (fun x hx y hy => hname x (List.mem_cons_of_mem _ hx) y (List.mem_cons_of_mem _ hy))
    rw [List.map_cons, List.sum_cons]
    by_cases hm : some a ∈ r.clients
    · have hz : ∀ x ∈ rs, x.clients.count (some a) = 0 := by
        intro x hx
        rw [List.count_eq_zero]
        intro hxa
        have := hname r (List.mem_cons_self _ _) x (List.mem_cons_of_mem _ hx) hm hxa
        exact hnd.1 (List.mem_map.mpr ⟨x, hx, this.symm⟩)
      have hs : (rs.map (fun r => r.clients.count (some a))).sum = 0 := by
        apply List.sum_eq_zero
        intro n hn
        obtain ⟨x, hx, hxn⟩ := List.mem_map.mp hn
        rw [← hxn]; exact hz x hx
      rw [hs]
      exact hone r (List.mem_cons_self _ _)
    · rw [List.count_eq_zero.mpr hm]
      omega

/-- C7: in every state reached from the empty registries by logins, `/join`,
`/leave`, `/broadcast`, `/whisper`, `/sendfile` and the closing of sessions,
every room has 15 slots and a member count that equals the number of its
non-empty slots and is at most 15; every non-empty slot holds the address of a
record of the client list; and no client is in more than one slot, counted over
all rooms. -/
theorem room_membership_invariant (σ : Server) (h : Reachable σ) :
    (∀ r ∈ σ.room_list,
      r.client_count = ((r.clients.filter Option.isSome).length : Int) ∧
      r.client_count ≤ 15 ∧ r.clients.length = 15) ∧
    (∀ r ∈ σ.room_list, ∀ a : Nat, some a ∈ r.clients → ∃ c ∈ σ.client_list, c.addr = a) ∧
    (∀ a : Nat, (σ.room_list.map (fun r => r.clients.count (some a))).sum ≤ 1) := by
  have hi := reachable_inv σ h
  refine ⟨?_, ?_, ?_⟩
  · intro r hr
    obtain ⟨_, _, h3, h4, _⟩ := hi.room_ok r hr
    refine ⟨h4, ?_, h3⟩
    rw [h4]
    have := List.length_filter_le Option.isSome r.clients
    have h3b : r.clients.length = 15 := h3
    omega
  · intro r hr a ha
    obtain ⟨c, hc, hca, _⟩ := hi.slot_ref r hr a ha
    exact ⟨c, hc, hca⟩
  · intro a
    apply slots_sum_le_one a σ.room_list hi.room_nodup
    · intro r hr; exact (hi.room_ok r hr).2.2.2.2 a
    · intro r1 h1 r2 h2 m1 m2
      obtain ⟨c1, hc1, ha1, hn1⟩ := hi.slot_ref r1 h1 a m1
      obtain ⟨c2, hc2, ha2, hn2⟩ := hi.slot_ref r2 h2 a m2
      have : c1 = c2 := inv_client_unique σ hi c1 c2 hc1 hc2 (ha1.trans ha2.symm)
      rw [← hn1, ← hn2, this]

theorem room_membership_invariant_witness :
    (∀ r ∈ (final scenario_join).room_list,
      r.client_count = ((r.clients.filter Option.isSome).length : Int) ∧
      r.client_count ≤ 15 ∧ r.clients.length = 15) ∧
    (∀ r ∈ (final scenario_join).room_list, ∀ a : Nat, some a ∈ r.clients →
      ∃ c ∈ (final scenario_join).client_list, c.addr = a) ∧
    (∀ a : Nat, ((final scenario_join).room_list.map
      (fun r => r.clients.count (some a))).sum ≤ 1) :=
  room_membership_invariant (final scenario_join) (final_reachable scenario_join (by decide))

/-- C8 fails on the code. Sixteen sessions; fifteen fill room `B`, the
sixteenth (user `p`, socket 25) is in room `A` and sends `/join B`. The state
is reachable, the reply is the "room is full" error, and afterwards the record
of `p` still names room `A`, while no room `A` exists and `p` is in no slot. -/
theorem join_full_room_stale_name :
    Reachable (final scenario_full_room) ∧
    (final scenario_full_room).out.getLast?
      = some (25, lit "ERROR Room 'B' is full (15/15 clients)") ∧
    ∃ c ∈ (final scenario_full_room).client_list,
      c.socket_fd = 25 ∧ c.username = lit "p" ∧ c.current_room_name = lit "A" ∧
      find_room (final scenario_full_room) (lit "A") = none ∧
      ∀ r ∈ (final scenario_full_room).room_list, some c.addr ∉ r.clients := by
  refine ⟨final_reachable scenario_full_room (by decide), by decide, by decide⟩

/-- C9 fails on the code. After `alice` has joined `room1` and sent `/leave`,
the reply is LEAVE_SUCCESS and `room1` is still in the registry with no member;
after `bob` has joined `room2` and disconnected, `room2` is still in the
registry with no member. -/
theorem leave_keeps_empty_room :
    Reachable (final scenario_leave) ∧
    (final scenario_leave).out.getLast? = some (4, lit "LEAVE_SUCCESS Left room 'room1'") ∧
    (final scenario_leave).room_list.map (fun r => (r.room_name, r.client_count))
      = [(lit "room1", 0)] ∧
    (final scenario_leave).total_room_count = 1 ∧
    Reachable (final scenario_disconnect) ∧
    (final scenario_disconnect).client_list.map (fun c => c.username) = [lit "alice"] ∧
    (final scenario_disconnect).room_list.map (fun r => (r.room_name, r.client_count))
      = [(lit "room2", 0), (lit "room1", 1)] := by
  refine ⟨final_reachable scenario_leave (by decide), by decide, by decide, by decide,
    final_reachable scenario_disconnect (by decide), by decide, by decide⟩

/-- C10 fails on the code. The argument of `/join` is cut to 32 bytes before
its length is tested: for a name of 33 letters `a` the reply is JOIN_SUCCESS,
the room of 32 letters `a` is created and the session is put into it. -/
theorem join_long_name_accepted :
    Reachable (final scenario_long_name) ∧
    (List.replicate 33 97).length = 33 ∧
    (final scenario_long_name).out.getLast?
      = some (4, lit "JOIN_SUCCESS Joined room 'aaaaaaaaaaaaaaaaaaaaaaaaaaaaaaaa' (1/15 clients)") ∧
    (final scenario_long_name).room_list.map (fun r => (r.room_name, r.client_count))
      = [(List.replicate 32 97, 1)] ∧
    (final scenario_long_name).client_list.map (fun c => c.current_room_name)
      = [List.replicate 32 97] := by
  refine ⟨final_reachable scenario_long_name (by decide), by decide, by decide, by decide,
    by decide⟩

/-! ## Texts of the replies: lemmas -/

theorem snprintf_fit (size : Nat) (t : List Nat) (h : t.length + 1 ≤ size) :
    snprintf size t = t := by
  unfold snprintf
  exact List.take_of_length_le (by omega)

theorem dec_length (n : Nat) (h : n ≤ 15) : (dec (n : Int)).length ≤ 2 := by
  interval_cases n <;> decide

theorem dropWhile_of_head {α : Type} (p : α → Bool) (x : α) (l : List α) (h : p x = false) :
    (x :: l).dropWhile p = x :: l := by
  rw [List.dropWhile_cons, h]; rfl

theorem isalnum_not_blank (x : Nat) (h : isalnum x = true) :
    x ≠ 0 ∧ ws_sp_tab x = false ∧ ws_sp_tab_nl x = false := by
  unfold isalnum at h
  simp only [Bool.or_eq_true, Bool.and_eq_true, decide_eq_true_eq] at h
  unfold ws_sp_tab ws_sp_tab_nl
  refine ⟨by omega, ?_, ?_⟩
  · simp only [Bool.or_eq_false_iff, beq_eq_false_iff_ne, ne_eq]
    omega
  · simp only [Bool.or_eq_false_iff, beq_eq_false_iff_ne, ne_eq]
    omega

theorem no_nul_of_alnum (r : List Nat) (h : ∀ x ∈ r, isalnum x = true) : 0 ∉ r := by
  intro h0
  exact (isalnum_not_blank 0 (h 0 h0)).1 rfl

theorem ltrim_of_alnum (r : List Nat) (h : ∀ x ∈ r, isalnum x = true) :
    ltrim ws_sp_tab r = r := by
  unfold ltrim
  cases r with
  | nil => rfl
  | cons x xs => exact dropWhile_of_head _ x xs (isalnum_not_blank x (h x (List.mem_cons_self _ _))).2.1

theorem rtrim_of_alnum (r : List Nat) (h : ∀ x ∈ r, isalnum x = true) :
    rtrim ws_sp_tab_nl r = r := by
  unfold rtrim
  cases r with
  | nil => rfl
  | cons x xs =>
    dsimp only
    congr 1
    cases hr : xs.reverse with
    | nil =>
      have : xs = [] := List.reverse_eq_nil_iff.mp hr
      rw [this]; rfl
    | cons y ys =>
      have hy : y ∈ xs := by
        have : y ∈ xs.reverse := by rw [hr]; exact List.mem_cons_self _ _
        exact List.mem_reverse.mp this
      rw [dropWhile_of_head _ y ys (isalnum_not_blank y (h y (List.mem_cons_of_mem _ hy))).2.2,
        ← hr, List.reverse_reverse]

/-- The name a `/join` works on is the argument itself when the argument is
alphanumeric and of at most 32 bytes. -/
theorem join_start_of_alnum (r : List Nat) (h : ∀ x ∈ r, isalnum x = true)
    (hl : r.length ≤ 32) :
    rtrim ws_sp_tab_nl (ltrim ws_sp_tab (strncpy r MAX_ROOM_NAME_LENGTH)) = r := by
  rw [strncpy_short r MAX_ROOM_NAME_LENGTH (no_nul_of_alnum r h) hl, ltrim_of_alnum r h,
    rtrim_of_alnum r h]

theorem all_isalnum_iff (r : List Nat) : r.all isalnum = true ↔ ∀ x ∈ r, isalnum x = true := by
  simp only [List.all_eq_true]

/-! ## Searches after a write: lemmas -/

theorem find_update_first {α κ : Type} [DecidableEq κ] (k : α → κ) (key key2 : κ) (g : α → α)
    (hg : ∀ x, k (g x) = k x) (l : List α) :
    (update_first (fun x => decide (k x = key)) g l).find? (fun x => decide (k x = key2))
      = if key2 = key then (l.find? (fun x => decide (k x = key))).map g
        else l.find? (fun x => decide (k x = key2)) := by
  induction l with
  | nil => simp [update_first]
  | cons x xs ih =>
    unfold update_first
    by_cases h1 : k x = key
    · simp only [h1, decide_True, if_true]
      by_cases h2 : key2 = key
      · subst h2
        rw [if_pos rfl, List.find?_cons_of_pos _ (by simp [hg, h1]),
          List.find?_cons_of_pos _ (by simp [h1])]
        rfl
      · rw [if_neg h2, List.find?_cons_of_neg _ (by simp [hg, h1]; exact fun h => h2 h.symm),
          List.find?_cons_of_neg _ (by simp [h1]; exact fun h => h2 h.symm)]
    · simp only [h1, decide_False, Bool.false_eq_true, if_false]
      by_cases h3 : k x = key2
      · have h2 : key2 ≠ key := fun h => h1 (h3.trans h)
        rw [if_neg h2, List.find?_cons_of_pos _ (by simp [h3]),
          List.find?_cons_of_pos _ (by simp [h3])]
      · rw [List.find?_cons_of_neg _ (by simp [h3]), ih]
        by_cases h2 : key2 = key
        · rw [if_pos h2, if_pos h2, List.find?_cons_of_neg _ (by simp [h1])]
        · rw [if_neg h2, if_neg h2, List.find?_cons_of_neg _ (by simp [h3])]

theorem find_map_id {α : Type} (p : α → Bool) (h : α → α) (l : List α)
    (hid : ∀ y ∈ l, h y = y) : (l.find? p).map h = l.find? p := by
  cases hf : l.find? p with
  | none => rfl
  | some y => simp only [Option.map_some', hid y (List.mem_of_find?_eq_some hf)]

/-- A search by another field after a write through a pointer with key `key`:
the record found is the one found before, written to when its key is `key`. -/
theorem find_update_first_other {α κ : Type} [DecidableEq κ] (k : α → κ) (key : κ) (g : α → α)
    (p : α → Bool) (hg : ∀ x, p (g x) = p x) (l : List α) (hnd : (l.map k).Nodup) :
    (update_first (fun x => decide (k x = key)) g l).find? p
      = (l.find? p).map (fun x => if k x = key then g x else x) := by
  induction l with
  | nil => simp [update_first]
  | cons x xs ih =>
    rw [List.map_cons, List.nodup_cons] at hnd
    unfold update_first
    by_cases h1 : k x = key
    · simp only [h1, decide_True, if_true]
      by_cases h2 : p x = true
      · rw [List.find?_cons_of_pos _ (by rw [hg]; exact h2), List.find?_cons_of_pos _ h2]
        simp only [Option.map_some', h1, if_true]
      · rw [List.find?_cons_of_neg _ (by rw [hg]; exact h2), List.find?_cons_of_neg _ h2]
        symm
        apply find_map_id
        intro y hy
        have : k y ≠ key := by
          intro hk
          exact hnd.1 (List.mem_map.mpr ⟨y, hy, hk.trans h1.symm⟩)
        rw [if_neg this]
    · simp only [h1, decide_False, Bool.false_eq_true, if_false]
      by_cases h2 : p x = true
      · rw [List.find?_cons_of_pos _ h2, List.find?_cons_of_pos _ h2]
        simp only [Option.map_some', h1, if_false]
      · rw [List.find?_cons_of_neg _ h2, List.find?_cons_of_neg _ h2]
        exact ih hnd.2

theorem eraseP_eq_filter {α κ : Type} [DecidableEq κ] (k : α → κ) (key : κ) (l : List α)
    (hnd : (l.map k).Nodup) :
    l.eraseP (fun x => decide (k x = key)) = l.filter (fun x => decide (k x ≠ key)) := by
  induction l with
  | nil => rfl
  | cons x xs ih =>
    rw [List.map_cons, List.nodup_cons] at hnd
    by_cases h1 : k x = key
    · rw [List.eraseP_cons_of_pos (by simp [h1]), List.filter_cons_of_neg (by simp [h1])]
      symm
      apply List.filter_eq_self.mpr
      intro y hy
      have : k y ≠ key := by
        intro hk
        exact hnd.1 (List.mem_map.mpr ⟨y, hy, hk.trans h1.symm⟩)
      simp [this]
    · rw [List.eraseP_cons_of_neg (by simp [h1]), List.filter_cons_of_pos (by simp [h1]),
        ih hnd.2]

theorem find_filter_other {α : Type} (p q : α → Bool) (l : List α)
    (h : ∀ x ∈ l, p x = true → q x = true) :
    (l.filter q).find? p = l.find? p := by
  induction l with
  | nil => rfl
  | cons x xs ih =>
    have ih2 := ih (fun y hy => h y (List.mem_cons_of_mem _ hy))
    by_cases hq : q x = true
    · rw [List.filter_cons_of_pos hq]
      by_cases hp : p x = true
      · rw [List.find?_cons_of_pos _ hp, List.find?_cons_of_pos _ hp]
      · rw [List.find?_cons_of_neg _ hp, List.find?_cons_of_neg _ hp, ih2]
    · rw [List.filter_cons_of_neg hq]
      have hp : ¬ p x = true := fun hp => hq (h x (List.mem_cons_self _ _) hp)
      rw [List.find?_cons_of_neg _ hp, ih2]

/-! ## Member arrays: the slot taken -/

theorem put_member_findIdx (a : Nat) (l : List (Option Nat)) :
    put_member a l = l.set (l.findIdx Option.isNone) (some a) := by
  induction l with
  | nil => rfl
  | cons x xs ih =>
    unfold put_member
    rw [List.findIdx_cons]
    cases x with
    | none => rfl
    | some b =>
      rw [if_neg (by simp)]
      simp only [Option.isNone_some, cond_false, List.set_cons_succ, ih]

theorem findIdx_isNone_lowest (l : List (Option Nat)) (j : Nat)
    (h : j < l.findIdx Option.isNone) : ∃ b : Nat, l.get? j = some (some b) := by
  induction l generalizing j with
  | nil => simp at h
  | cons x xs ih =>
    rw [List.findIdx_cons] at h
    cases x with
    | none => simp at h
    | some b =>
      simp only [Option.isNone_some, cond_false] at h
      cases j with
      | zero => exact ⟨b, rfl⟩
      | succ j => exact ih j (by omega)

theorem findIdx_isNone_slot (l : List (Option Nat)) (h : none ∈ l) :
    l.findIdx Option.isNone < l.length ∧ l.get? (l.findIdx Option.isNone) = some none := by
  induction l with
  | nil => simp at h
  | cons x xs ih =>
    rw [List.findIdx_cons]
    cases x with
    | none => simp
    | some b =>
      have h2 : none ∈ xs := by
        rcases List.mem_cons.mp h with h | h
        · exact absurd h (by simp)
        · exact h
      have := ih h2
      simp only [Option.isNone_some, cond_false, List.length_cons, List.get?_cons_succ]
      exact ⟨by omega, this.2⟩

/-! ## Frames sent by the notification loops: lemmas -/

theorem deref_some (σ : Server) (a : Nat) (c : client_info) (h : deref σ a = some c) :
    c ∈ σ.client_list ∧ c.addr = a := by
  unfold deref at h
  exact ⟨List.mem_of_find?_eq_some h, by simpa using List.find?_some h⟩

theorem active_members_congr (σ σ2 : Server) (h : σ2.client_list = σ.client_list)
    (l : List (Option Nat)) : active_members σ2 l = active_members σ l := by
  unfold active_members deref
  rw [h]

theorem active_members_cons_none (σ : Server) (l : List (Option Nat)) :
    active_members σ (none :: l) = active_members σ l := by
  unfold active_members
  rw [List.filterMap_cons_none rfl]

theorem active_members_cons_some (σ : Server) (a : Nat) (l : List (Option Nat)) :
    active_members σ (some a :: l) =
      match deref σ a with
      | none => active_members σ l
      | some c => if c.is_active ≠ 0 then c :: active_members σ l else active_members σ l := by
  unfold active_members
  cases hd : deref σ a with
  | none =>
    rw [List.filterMap_cons_none (by simp only [hd])]
  | some c =>
    by_cases hact : c.is_active ≠ 0
    · rw [List.filterMap_cons_some (b := c) (by simp only [hd, if_pos hact])]
      simp only [if_pos hact]
    · rw [List.filterMap_cons_none (by simp only [hd, if_neg hact])]
      simp only [if_neg hact]

theorem active_members_mem (σ : Server) (l : List (Option Nat)) (d : client_info)
    (h : d ∈ active_members σ l) :
    d ∈ σ.client_list ∧ some d.addr ∈ l ∧ d.is_active ≠ 0 := by
  induction l with
  | nil => simp [active_members] at h
  | cons x xs ih =>
    cases x with
    | none =>
      rw [active_members_cons_none] at h
      have := ih h
      exact ⟨this.1, List.mem_cons_of_mem _ this.2.1, this.2.2⟩
    | some a =>
      rw [active_members_cons_some] at h
      cases hd : deref σ a with
      | none =>
        simp only [hd] at h
        have := ih h
        exact ⟨this.1, List.mem_cons_of_mem _ this.2.1, this.2.2⟩
      | some c =>
        simp only [hd] at h
        by_cases hact : c.is_active ≠ 0
        · rw [if_pos hact] at h
          rcases List.mem_cons.mp h with h | h
          · subst h
            have hc := deref_some σ a d hd
            exact ⟨hc.1, by rw [hc.2]; exact List.mem_cons_self _ _, hact⟩
          · have := ih h
            exact ⟨this.1, List.mem_cons_of_mem _ this.2.1, this.2.2⟩
        · rw [if_neg hact] at h
          have := ih h
          exact ⟨this.1, List.mem_cons_of_mem _ this.2.1, this.2.2⟩

/-- The frames a notification loop sends: the message, once to every active
member of the array other than the one passed over, in the order of the slots. -/
theorem notify_out (skip : Option Nat) (msg : List Nat) (l : List (Option Nat)) :
    ∀ σ : Server, (notify σ skip msg l).out = σ.out ++
      ((active_members σ l).filter (fun d => decide (some d.addr ≠ skip))).map
        (fun d => (d.socket_fd, msg)) := by
  induction l with
  | nil => intro σ; simp [notify, active_members]
  | cons x xs ih =>
    intro σ
    cases x with
    | none =>
      rw [active_members_cons_none]
      unfold notify
      exact ih σ
    | some a =>
      rw [active_members_cons_some]
      unfold notify
      cases hd : deref σ a with
      | none => exact ih σ
      | some c =>
        dsimp only
        have hca := (deref_some σ a c hd).2
        by_cases hact : c.is_active ≠ 0
        · by_cases hs : some a ≠ skip
          · rw [if_pos ⟨hact, hs⟩, if_pos hact, ih,
              active_members_congr σ (σ.emit c.socket_fd msg) rfl,
              List.filter_cons_of_pos (by rw [hca]; simpa using hs)]
            simp only [Server.emit, List.map_cons, List.append_assoc, List.singleton_append]
          · rw [if_neg (fun h => hs h.2), if_pos hact, ih,
              List.filter_cons_of_neg (by rw [hca]; simpa using hs)]
        · rw [if_neg (fun h => hact h.1), if_neg hact, ih]

/-- The frames the delivery loop of `/broadcast` sends, and its two counters. -/
theorem broadcast_loop_out (net : Int → Bool) (sender : Nat) (msg : List Nat)
    (l : List (Option Nat)) :
    ∀ σ : Server,
      (broadcast_loop net sender msg σ l).1.out = σ.out ++
        ((active_members σ l).filter (fun d => decide (d.addr ≠ sender))).map
          (fun d => (d.socket_fd, msg)) ∧
      (broadcast_loop net sender msg σ l).2.2
        = (((active_members σ l).filter (fun d => decide (d.addr ≠ sender))).length : Int) ∧
      (broadcast_loop net sender msg σ l).2.1
        = ((((active_members σ l).filter (fun d => decide (d.addr ≠ sender))).filter
            (fun d => net d.socket_fd)).length : Int) := by
  induction l with
  | nil => intro σ; simp [broadcast_loop, active_members]
  | cons x xs ih =>
    intro σ
    cases x with
    | none =>
      rw [active_members_cons_none]
      unfold broadcast_loop
      exact ih σ
    | some a =>
      rw [active_members_cons_some]
      unfold broadcast_loop
      cases hd : deref σ a with
      | none => exact ih σ
      | some c =>
        dsimp only
        have hca := (deref_some σ a c hd).2
        by_cases hact : c.is_active ≠ 0
        · by_cases hs : a ≠ sender
          · have h := ih (σ.emit c.socket_fd msg)
            rw [active_members_congr σ (σ.emit c.socket_fd msg) rfl] at h
            rw [if_pos ⟨hact, hs⟩, if_pos hact,
              List.filter_cons_of_pos (by rw [hca]; simpa using hs)]
            refine ⟨?_, ?_, ?_⟩
            · rw [h.1]
              simp only [Server.emit, List.map_cons, List.append_assoc, List.singleton_append]
            · rw [h.2.1]
              simp only [List.length_cons, Nat.cast_add, Nat.cast_one]
            · by_cases hn : net c.socket_fd = true
              · rw [if_pos hn, List.filter_cons_of_pos (p := fun (d : client_info) => net d.socket_fd) hn]
                simp only [List.length_cons, Nat.cast_add, Nat.cast_one, h.2.2]
              · rw [if_neg hn, List.filter_cons_of_neg (p := fun (d : client_info) => net d.socket_fd) hn]
                exact h.2.2
          · rw [if_neg (fun h => hs h.2), if_pos hact,
              List.filter_cons_of_neg (by rw [hca]; simpa using hs)]
            exact ih σ
        · rw [if_neg (fun h => hact h.1), if_neg hact]
          exact ih σ

theorem active_members_length (σ : Server) (l : List (Option Nat)) :
    (active_members σ l).length ≤ (l.filter Option.isSome).length := by
  induction l with
  | nil => simp [active_members]
  | cons x xs ih =>
    cases x with
    | none =>
      rw [active_members_cons_none, List.filter_cons_of_neg (by simp)]
      exact ih
    | some a =>
      rw [active_members_cons_some, List.filter_cons_of_pos (by simp)]
      cases hd : deref σ a with
      | none => simp only [List.length_cons]; omega
      | some c =>
        dsimp only
        by_cases hact : c.is_active ≠ 0
        · rw [if_pos hact]; simp only [List.length_cons]; omega
        · rw [if_neg hact]; simp only [List.length_cons]; omega

/-! ## Names in the registries: lemmas -/

theorem keeps_refl (σ : Server) : Keeps σ σ := ⟨rfl, fun h => h⟩

theorem keeps_trans (σ σ1 σ2 : Server) (h1 : Keeps σ σ1) (h2 : Keeps σ1 σ2) : Keeps σ σ2 :=
  ⟨h2.1.trans h1.1, fun h => h2.2 (h1.2 h)⟩

theorem keeps_congr (σ σ1 σ2 : Server) (h : Keeps σ σ1) (hc : σ2.client_list = σ1.client_list)
    (hr : σ2.room_list = σ1.room_list) : Keeps σ σ2 := by
  unfold Keeps
  rw [hc, hr]
  exact h

theorem keeps_emit (σ σ1 : Server) (fd : Int) (msg : List Nat) (h : Keeps σ σ1) :
    Keeps σ (σ1.emit fd msg) := keeps_congr σ σ1 _ h rfl rfl

theorem keeps_notify (σ σ1 : Server) (skip : Option Nat) (msg : List Nat)
    (l : List (Option Nat)) (h : Keeps σ σ1) : Keeps σ (notify σ1 skip msg l) :=
  keeps_congr σ σ1 _ h (notify_fields skip msg l σ1).1 (notify_fields skip msg l σ1).2.1

theorem keeps_broadcast_loop (σ σ1 : Server) (net : Int → Bool) (sender : Nat) (msg : List Nat)
    (l : List (Option Nat)) (h : Keeps σ σ1) : Keeps σ (broadcast_loop net sender msg σ1 l).1 :=
  keeps_congr σ σ1 _ h (broadcast_loop_fields net sender msg l σ1).1
    (broadcast_loop_fields net sender msg l σ1).2.1

theorem keeps_update_client (σ σ1 : Server) (a : Nat) (g : client_info → client_info)
    (hg : ∀ x, (g x).username = x.username ∧ (g x).is_active = x.is_active)
    (h : Keeps σ σ1) : Keeps σ (σ1.with_clients (update_client a g σ1.client_list)) := by
  refine ⟨?_, h.2⟩
  have : (σ1.with_clients (update_client a g σ1.client_list)).client_list
      = update_client a g σ1.client_list := rfl
  rw [this, update_client_map a g _ (fun x => by rw [(hg x).1, (hg x).2])]
  exact h.1

theorem keeps_update_room (σ σ1 : Server) (name : List Nat) (g : room_info → room_info)
    (hg : ∀ x, (g x).room_name = x.room_name)
    (h : Keeps σ σ1) : Keeps σ (σ1.with_rooms (update_room name g σ1.room_list)) := by
  refine ⟨h.1, ?_⟩
  intro h0 r hr
  have h1 := h.2 h0
  rcases update_room_mem name g σ1.room_list r hr with hm | ⟨x, hx, rfl⟩
  · exact h1 r hm
  · rw [hg]; exact h1 x hx

theorem keeps_remove_room (σ σ1 : Server) (name : List Nat) (h : Keeps σ σ1) :
    Keeps σ (remove_room σ1 name).2 := by
  unfold remove_room
  split
  · exact h
  · split
    · exact h
    · refine ⟨h.1, ?_⟩
      intro h0 r hr
      exact h.2 h0 r (List.mem_of_mem_eraseP hr)

theorem keeps_add_room (σ σ1 : Server) (ok : Bool) (name : List Nat) (h : Keeps σ σ1) :
    Keeps σ (add_room σ1 ok name).2 := by
  unfold add_room
  split
  · exact h
  · split
    · exact h
    · refine ⟨h.1, ?_⟩
      intro h0 r hr
      rcases List.mem_cons.mp hr with hr | hr
      · subst hr
        show (strncpy name MAX_ROOM_NAME_LENGTH).length ≤ 32
        unfold strncpy MAX_ROOM_NAME_LENGTH
        rw [List.length_take]
        exact Nat.min_le_left _ _
      · exact h.2 h0 r hr

theorem keeps_join_leave_old (σ : Server) (c : client_info) : Keeps σ (join_leave_old σ c) := by
  unfold join_leave_old
  split
  · split
    · exact keeps_refl σ
    · dsimp only
      split
      · exact keeps_remove_room _ _ _
          (keeps_update_room _ _ _ _ (fun x => room_remove_name _ x) (keeps_refl σ))
      · exact keeps_update_room _ _ _ _ (fun x => room_remove_name _ x) (keeps_refl σ)
  · exact keeps_refl σ

theorem keeps_join_enter_found (σ0 σ1 : Server) (fd : Int) (c : client_info)
    (start : List Nat) (tr : Option room_info) (hk : Keeps σ0 σ1) :
    Keeps σ0
      (match (tr, σ1) with
      | (none, σ1) => σ1.emit fd (lit "ERROR Failed to create room")
      | (some target_room, σ1) =>
        if target_room.client_count ≥ (MAX_CLIENTS_PER_ROOM : Int) then
          σ1.emit fd (snprintf 256 (lit "ERROR Room '" ++ start ++ lit "' is full ("
            ++ dec MAX_CLIENTS_PER_ROOM ++ lit "/" ++ dec MAX_CLIENTS_PER_ROOM ++ lit " clients)"))
        else if none ∉ target_room.clients then
          σ1.emit fd (lit "ERROR Room is full (no available slots)")
        else
          notify
            (((σ1.with_rooms
                (update_room target_room.room_name (room_add c.addr) σ1.room_list)).with_clients
              (update_client c.addr
                (fun x => { x with current_room_name := strncpy start 32,
                                   current_room_index := get_room_index (σ1.with_rooms
                                     (update_room target_room.room_name (room_add c.addr)
                                       σ1.room_list)) start })
                (σ1.with_rooms (update_room target_room.room_name (room_add c.addr)
                  σ1.room_list)).client_list)).emit fd
              (snprintf 256 (lit "JOIN_SUCCESS Joined room '" ++ start ++ lit "' ("
                ++ dec (room_add c.addr target_room).client_count ++ lit "/"
                ++ dec MAX_CLIENTS_PER_ROOM ++ lit " clients)")))
            (some c.addr)
            (snprintf 256 (lit "ROOM_NOTIFICATION " ++ c.username ++ lit " joined the room"))
            (room_add c.addr target_room).clients) := by
  cases tr with
  | none => exact keeps_emit _ _ _ _ hk
  | some target =>
    dsimp only
    split
    · exact keeps_emit _ _ _ _ hk
    · split
      · exact keeps_emit _ _ _ _ hk
      · apply keeps_notify
        apply keeps_emit
        refine keeps_update_client _ _ _ _ ?_ ?_
        · intro x; exact ⟨rfl, rfl⟩
        · refine keeps_update_room _ _ _ _ ?_ hk
          intro x; rfl

theorem keeps_join_enter (σ0 σ : Server) (ok : Bool) (fd : Int) (c : client_info)
    (start : List Nat) (h : Keeps σ0 σ) : Keeps σ0 (join_enter σ ok fd c start) := by
  unfold join_enter
  dsimp only
  cases hf : find_room σ start with
  | some r => exact keeps_join_enter_found σ0 σ fd c start (some r) h
  | none =>
    dsimp only
    have hk := keeps_add_room σ0 σ ok start h
    cases ha : add_room σ ok start with
    | mk tr σ1 =>
      rw [ha] at hk
      exact keeps_join_enter_found σ0 σ1 fd c start tr hk

theorem keeps_handle_join_command (σ : Server) (ok : Bool) (fd : Int) (room_name : List Nat) :
    Keeps σ (handle_join_command σ ok fd room_name) := by
  unfold handle_join_command
  split
  · exact keeps_emit _ _ _ _ (keeps_refl σ)
  · split
    · exact keeps_emit _ _ _ _ (keeps_refl σ)
    · dsimp only
      split
      · exact keeps_emit _ _ _ _ (keeps_refl σ)
      · split
        · exact keeps_emit _ _ _ _ (keeps_refl σ)
        · split
          · exact keeps_emit _ _ _ _ (keeps_refl σ)
          · split
            · exact keeps_emit _ _ _ _ (keeps_refl σ)
            · exact keeps_join_enter _ _ _ _ _ _ (keeps_join_leave_old σ _)

theorem keeps_handle_leave_command (σ : Server) (fd : Int) :
    Keeps σ (handle_leave_command σ fd) := by
  unfold handle_leave_command
  split
  · exact keeps_emit _ _ _ _ (keeps_refl σ)
  · split
    · exact keeps_emit _ _ _ _ (keeps_refl σ)
    · dsimp only
      split
      · apply keeps_emit
        refine keeps_update_client _ _ _ _ ?_ (keeps_refl σ)
        intro x; exact ⟨rfl, rfl⟩
      · split
        · apply keeps_emit
          refine keeps_update_client _ _ _ _ ?_ (keeps_refl σ)
          intro x; exact ⟨rfl, rfl⟩
        · apply keeps_emit
          refine keeps_update_client _ _ _ _ ?_ ?_
          · intro x; exact ⟨rfl, rfl⟩
          · apply keeps_notify
            exact keeps_update_room _ _ _ _ (fun x => room_remove_name _ x) (keeps_refl σ)

theorem keeps_handle_broadcast_command (σ : Server) (net : Int → Bool) (fd : Int)
    (message : List Nat) : Keeps σ (handle_broadcast_command σ net fd message) := by
  unfold handle_broadcast_command
  split
  · exact keeps_emit _ _ _ _ (keeps_refl σ)
  · split
    · exact keeps_emit _ _ _ _ (keeps_refl σ)
    · split
      · exact keeps_emit _ _ _ _ (keeps_refl σ)
      · split
        · apply keeps_emit
          refine keeps_update_client _ _ _ _ ?_ (keeps_refl σ)
          intro x; exact ⟨rfl, rfl⟩
        · dsimp only
          split
          · exact keeps_emit _ _ _ _ (keeps_refl σ)
          · apply keeps_emit
            refine keeps_update_room _ _ _ _ ?_ ?_
            · intro x; rfl
            · exact keeps_broadcast_loop _ _ _ _ _ _ (keeps_refl σ)

theorem keeps_cleanup_client_connection (σ : Server) (fd : Int) :
    Keeps σ (cleanup_client_connection σ fd) := by
  unfold cleanup_client_connection
  split
  · exact keeps_refl σ
  · split
    · exact keeps_refl σ
    · split
      · split
        · exact keeps_refl σ
        · apply keeps_notify
          exact keeps_update_room _ _ _ _ (fun x => room_remove_name _ x) (keeps_refl σ)
      · exact keeps_refl σ

theorem names_init : NamesOK Server.init :=
  ⟨fun c hc => (by cases hc), List.nodup_nil, fun r hr => (by cases hr)⟩

theorem names_keeps (σ σ2 : Server) (hk : Keeps σ σ2) (h : NamesOK σ) : NamesOK σ2 := by
  have hu : σ2.client_list.map (fun c => c.username) = σ.client_list.map (fun c => c.username) := by
    have := congrArg (List.map Prod.fst) hk.1
    simpa only [List.map_map, Function.comp] using this
  refine ⟨?_, ?_, hk.2 h.room_len⟩
  · intro c hc
    have hm : (c.username, c.is_active) ∈ σ2.client_list.map (fun c => (c.username, c.is_active)) :=
      List.mem_map.mpr ⟨c, hc, rfl⟩
    rw [hk.1] at hm
    obtain ⟨d, hd, he⟩ := List.mem_map.mp hm
    have h1 : d.username = c.username := congrArg Prod.fst he
    have h2 : d.is_active = c.is_active := congrArg Prod.snd he
    rw [← h1, ← h2]
    exact h.user_ok d hd
  · rw [hu]; exact h.user_nodup

theorem names_login (σ σ2 : Server) (h : NamesOK σ) (fd : Int) (he : LoginEffect fd σ σ2) :
    NamesOK σ2 := by
  obtain ⟨hr, _, he⟩ := he
  rcases he with ⟨hc, _, _⟩ | ⟨c, hc, _, _, _, _, _, _, hact, hval, hnul, hfresh⟩
  · exact ⟨by rw [hc]; exact h.user_ok, by rw [hc]; exact h.user_nodup,
      by rw [hr]; exact h.room_len⟩
  · refine ⟨?_, ?_, by rw [hr]; exact h.room_len⟩
    · intro d hd
      rw [hc] at hd
      rcases List.mem_cons.mp hd with hd | hd
      · subst hd; exact ⟨hact, hval, hnul⟩
      · exact h.user_ok d hd
    · rw [hc, List.map_cons, List.nodup_cons]
      refine ⟨?_, h.user_nodup⟩
      intro hm
      obtain ⟨d, hd, hdn⟩ := List.mem_map.mp hm
      exact hfresh d hd (by rw [(h.user_ok d hd).1]; decide) hdn

theorem names_remove_client (σ : Server) (h : NamesOK σ) (fd : Int) :
    NamesOK (remove_client σ fd).2 := by
  unfold remove_client
  split
  · exact h
  · refine ⟨?_, ?_, h.room_len⟩
    · intro c hc
      exact h.user_ok c (List.mem_of_mem_eraseP hc)
    · exact h.user_nodup.sublist ((List.eraseP_sublist _).map _)

/-- The facts on names hold in every reachable state. -/
theorem reachable_names (σ : Server) (h : Reachable σ) : NamesOK σ := by
  induction h with
  | init => exact names_init
  | login σ heap s fd ip port _ _ ih =>
    exact names_login σ _ ih fd (handle_client_login_effect σ heap s fd ip port)
  | join σ ok fd rn _ ih => exact names_keeps _ _ (keeps_handle_join_command σ ok fd rn) ih
  | leave σ fd _ ih => exact names_keeps _ _ (keeps_handle_leave_command σ fd) ih
  | broadcast σ net fd m _ ih => exact names_keeps _ _ (keeps_handle_broadcast_command σ net fd m) ih
  | close σ fd _ ih =>
    exact names_remove_client _ (names_keeps _ _ (keeps_cleanup_client_connection σ fd) ih) fd
  | whisper σ net fd args _ ih =>
    exact names_keeps _ _ (keeps_congr σ σ _ (keeps_refl σ)
      (handle_whisper_command_fields σ net fd args).1
      (handle_whisper_command_fields σ net fd args).2.1) ih
  | sendfile σ q up down net heap buf fd args _ ih =>
    exact names_keeps _ _ (keeps_congr σ σ _ (keeps_refl σ)
      (handle_sendfile_command_fields ⟨σ, q, up, down⟩ net heap buf fd args).1
      (handle_sendfile_command_fields ⟨σ, q, up, down⟩ net heap buf fd args).2.1) ih

theorem username_length (σ : Server) (h : NamesOK σ) (c : client_info)
    (hc : c ∈ σ.client_list) : c.username.length ≤ 16 := by
  obtain ⟨_, hv, hn⟩ := h.user_ok c hc
  unfold validate_username at hv
  rw [strlen_of_no_nul _ hn] at hv
  by_contra hlen
  dsimp only at hv
  rw [if_pos (Or.inr (by omega))] at hv
  exact absurd hv (by decide)

/-! ## Searches in the registries after a handler's writes: lemmas -/

theorem find_room_congr (σ σ2 : Server) (h : σ2.room_list = σ.room_list) (n : List Nat) :
    find_room σ2 n = find_room σ n := by
  unfold find_room; rw [h]

theorem find_client_by_socket_congr (σ σ2 : Server) (h : σ2.client_list = σ.client_list)
    (fd : Int) : find_client_by_socket σ2 fd = find_client_by_socket σ fd := by
  unfold find_client_by_socket; rw [h]

theorem find_client_by_username_congr (σ σ2 : Server) (h : σ2.client_list = σ.client_list)
    (n : List Nat) : find_client_by_username σ2 n = find_client_by_username σ n := by
  unfold find_client_by_username; rw [h]

/-- The room found under a name after a write to the room `name`. -/
theorem find_update_room (l : List room_info) (name n2 : List Nat) (g : room_info → room_info)
    (hg : ∀ x, (g x).room_name = x.room_name) :
    (update_room name g l).find? (fun r => decide (r.room_name = n2))
      = if n2 = name then (l.find? (fun r => decide (r.room_name = name))).map g
        else l.find? (fun r => decide (r.room_name = n2)) :=
  find_update_first (fun r : room_info => r.room_name) name n2 g hg l

/-- The session found on a socket after a write to the record at address `a`. -/
theorem find_update_client (l : List client_info) (a : Nat) (fd : Int)
    (g : client_info → client_info) (hg : ∀ x, (g x).socket_fd = x.socket_fd)
    (hnd : (l.map (fun c => c.addr)).Nodup) :
    (update_client a g l).find? (fun c => decide (c.socket_fd = fd))
      = (l.find? (fun c => decide (c.socket_fd = fd))).map
          (fun x => if x.addr = a then g x else x) :=
  find_update_first_other (fun c : client_info => c.addr) a g
    (fun c => decide (c.socket_fd = fd)) (fun x => by dsimp only; rw [hg]) l hnd

theorem find_eraseP_other {α κ : Type} [DecidableEq κ] (k : α → κ) (key key2 : κ)
    (h : key2 ≠ key) (l : List α) :
    (l.eraseP (fun x => decide (k x = key))).find? (fun x => decide (k x = key2))
      = l.find? (fun x => decide (k x = key2)) := by
  induction l with
  | nil => rfl
  | cons x xs ih =>
    by_cases h1 : k x = key
    · rw [List.eraseP_cons_of_pos (by simp [h1]),
        List.find?_cons_of_neg _ (by simp [h1]; exact fun e => h e.symm)]
    · rw [List.eraseP_cons_of_neg (by simp [h1])]
      by_cases h2 : k x = key2
      · rw [List.find?_cons_of_pos _ (by simp [h2]), List.find?_cons_of_pos _ (by simp [h2])]
      · rw [List.find?_cons_of_neg _ (by simp [h2]), List.find?_cons_of_neg _ (by simp [h2]), ih]

theorem find_eraseP_same {α κ : Type} [DecidableEq κ] (k : α → κ) (key : κ) (l : List α)
    (hnd : (l.map k).Nodup) :
    (l.eraseP (fun x => decide (k x = key))).find? (fun x => decide (k x = key)) = none := by
  rw [eraseP_eq_filter k key l hnd, List.find?_eq_none]
  intro x hx
  have := (List.mem_filter.mp hx).2
  simpa using this

theorem find_some_of_mem {α κ : Type} [DecidableEq κ] (k : α → κ) (l : List α)
    (hnd : (l.map k).Nodup) (x : α) (hx : x ∈ l) :
    l.find? (fun y => decide (k y = k x)) = some x := by
  cases hf : l.find? (fun y => decide (k y = k x)) with
  | none =>
    have := List.find?_eq_none.mp hf x hx
    simp at this
  | some y =>
    have h1 : y ∈ l := List.mem_of_find?_eq_some hf
    have h2 : k y = k x := by simpa using List.find?_some hf
    rw [eq_of_key k l hnd y x h1 hx h2]

/-- A session that holds a slot of a room: its record names the room, and the
room is the one `find_room` returns for that name. -/
theorem member_facts (σ : Server) (h : Inv σ) (c : client_info) (hc : c ∈ σ.client_list)
    (room : room_info) (hr : room ∈ σ.room_list) (hm : some c.addr ∈ room.clients) :
    c.current_room_name = room.room_name ∧ find_room σ c.current_room_name = some room ∧
    0 < c.current_room_name.length ∧ cstr room.room_name = room.room_name := by
  obtain ⟨c2, hc2, ha, hn⟩ := h.slot_ref room hr c.addr hm
  have hcc : c2 = c := inv_client_unique σ h c2 c hc2 hc ha
  subst hcc
  have hnul : cstr room.room_name = room.room_name := cstr_of_no_nul _ (h.room_ok room hr).2.1
  refine ⟨hn, ?_, ?_, hnul⟩
  · unfold find_room
    rw [hn, hnul]
    exact find_some_of_mem (fun r : room_info => r.room_name) σ.room_list h.room_nodup room hr
  · rw [hn]
    exact List.length_pos.mpr (h.room_ok room hr).1

theorem find_client_of_mem (σ : Server) (h : Inv σ) (c : client_info)
    (hc : c ∈ σ.client_list) : find_client_by_socket σ c.socket_fd = some c :=
  find_some_of_mem (fun c : client_info => c.socket_fd) σ.client_list h.fd_nodup c hc

theorem deref_of_mem (σ : Server) (h : Inv σ) (c : client_info)
    (hc : c ∈ σ.client_list) : deref σ c.addr = some c :=
  find_some_of_mem (fun c : client_info => c.addr) σ.client_list h.addr_nodup c hc

theorem notify_counts (skip : Option Nat) (msg : List Nat) (l : List (Option Nat)) :
    ∀ σ : Server, (notify σ skip msg l).total_room_count = σ.total_room_count ∧
      (notify σ skip msg l).active_client_count = σ.active_client_count := by
  induction l with
  | nil => intro σ; exact ⟨rfl, rfl⟩
  | cons x xs ih =>
    intro σ
    cases x with
    | none => unfold notify; exact ih σ
    | some a =>
      unfold notify
      split
      · exact ih σ
      · split
        · exact ih _
        · exact ih σ

theorem broadcast_loop_counts (net : Int → Bool) (sender : Nat) (msg : List Nat)
    (l : List (Option Nat)) :
    ∀ σ : Server,
      (broadcast_loop net sender msg σ l).1.total_room_count = σ.total_room_count ∧
      (broadcast_loop net sender msg σ l).1.active_client_count = σ.active_client_count := by
  induction l with
  | nil => intro σ; exact ⟨rfl, rfl⟩
  | cons x xs ih =>
    intro σ
    cases x with
    | none => unfold broadcast_loop; exact ih σ
    | some a =>
      unfold broadcast_loop
      split
      · exact ih σ
      · split
        · exact ih _
        · exact ih σ

/-! ## The main path of `/join`: lemmas -/

/-- For an alphanumeric argument of 1 to 32 bytes that is not the room the
session's record names, `handle_join_command` leaves the recorded room and
enters the room of the argument. -/
theorem handle_join_command_main (σ : Server) (ok : Bool) (fd : Int) (c : client_info)
    (r : List Nat) (hc : find_client_by_socket σ fd = some c)
    (hal : ∀ x ∈ r, isalnum x = true) (h0 : 0 < r.length) (h1 : r.length ≤ 32)
    (hne : c.current_room_name ≠ r) :
    handle_join_command σ ok fd r = join_enter (join_leave_old σ c) ok fd c r := by
  unfold handle_join_command
  have hs : strlen r = r.length := strlen_of_no_nul r (no_nul_of_alnum r hal)
  rw [if_neg (by rw [hs]; omega), hc]
  dsimp only
  rw [join_start_of_alnum r hal h1, if_neg (by omega),
    if_neg (by unfold MAX_ROOM_NAME_LENGTH; omega),
    if_neg (by rw [(all_isalnum_iff r).mpr hal]; decide), if_neg (fun h => hne h.2)]

theorem join_leave_old_none (σ : Server) (c : client_info) (h : c.current_room_name = []) :
    join_leave_old σ c = σ := by
  unfold join_leave_old
  rw [if_neg (by rw [h]; decide)]

/-- The state after the entry into a room `target` that has a free slot, from
the state `σ1` in which the room has been found or created. -/
theorem join_enter_found_ok (σ1 : Server) (fd : Int) (c : client_info) (start : List Nat)
    (target : room_info) (hcount : target.client_count < 15) (hslot : none ∈ target.clients) :
    ∀ τ, τ = (match ((some target, σ1) : Option room_info × Server) with
      | (none, σ1) => σ1.emit fd (lit "ERROR Failed to create room")
      | (some target_room, σ1) =>
        if target_room.client_count ≥ (MAX_CLIENTS_PER_ROOM : Int) then
          σ1.emit fd (snprintf 256 (lit "ERROR Room '" ++ start ++ lit "' is full ("
            ++ dec MAX_CLIENTS_PER_ROOM ++ lit "/" ++ dec MAX_CLIENTS_PER_ROOM ++ lit " clients)"))
        else if none ∉ target_room.clients then
          σ1.emit fd (lit "ERROR Room is full (no available slots)")
        else
          notify
            (((σ1.with_rooms
                (update_room target_room.room_name (room_add c.addr) σ1.room_list)).with_clients
              (update_client c.addr
                (fun x => { x with current_room_name := strncpy start 32,
                                   current_room_index := get_room_index (σ1.with_rooms
                                     (update_room target_room.room_name (room_add c.addr)
                                       σ1.room_list)) start })
                (σ1.with_rooms (update_room target_room.room_name (room_add c.addr)
                  σ1.room_list)).client_list)).emit fd
              (snprintf 256 (lit "JOIN_SUCCESS Joined room '" ++ start ++ lit "' ("
                ++ dec (room_add c.addr target_room).client_count ++ lit "/"
                ++ dec MAX_CLIENTS_PER_ROOM ++ lit " clients)")))
            (some c.addr)
            (snprintf 256 (lit "ROOM_NOTIFICATION " ++ c.username ++ lit " joined the room"))
            (room_add c.addr target_room).clients) →
    τ.room_list = update_room target.room_name (room_add c.addr) σ1.room_list ∧
    (∃ idx : Int, τ.client_list = update_client c.addr
      (fun x => { x with current_room_name := strncpy start 32, current_room_index := idx })
      σ1.client_list) ∧
    τ.total_room_count = σ1.total_room_count ∧
    τ.active_client_count = σ1.active_client_count ∧
    τ.out = σ1.out ++ (fd, snprintf 256 (lit "JOIN_SUCCESS Joined room '" ++ start ++ lit "' ("
        ++ dec (target.client_count + 1) ++ lit "/" ++ dec MAX_CLIENTS_PER_ROOM
        ++ lit " clients)")) ::
      ((active_members τ (put_member c.addr target.clients)).filter
        (fun d => decide (d.addr ≠ c.addr))).map
        (fun d => (d.socket_fd,
          snprintf 256 (lit "ROOM_NOTIFICATION " ++ c.username ++ lit " joined the room"))) := by
  intro τ hτ
  dsimp only at hτ
  rw [if_neg (by unfold MAX_CLIENTS_PER_ROOM; push_cast; omega), if_neg (fun h => h hslot)] at hτ
  have hcl : ∀ τ2 : Server, τ2.client_list = τ.client_list →
      active_members τ2 (put_member c.addr target.clients)
        = active_members τ (put_member c.addr target.clients) :=
    fun τ2 h2 => active_members_congr τ τ2 h2 _
  subst hτ
  refine ⟨?_, ⟨get_room_index (σ1.with_rooms
    (update_room target.room_name (room_add c.addr) σ1.room_list)) start, ?_⟩, ?_, ?_, ?_⟩
  · rw [(notify_fields _ _ _ _).2.1]; rfl
  · rw [(notify_fields _ _ _ _).1]; rfl
  · rw [(notify_counts _ _ _ _).1]; rfl
  · rw [(notify_counts _ _ _ _).2]; rfl
  · have hp : (fun d : client_info => decide (some d.addr ≠ some c.addr))
        = (fun d => decide (d.addr ≠ c.addr)) := by
      funext d; simp
    rw [notify_out, ← hcl _ (notify_fields _ _ _ _).1.symm, hp]
    show (_ ++ [_]) ++ _ = _
    rw [List.append_assoc, List.singleton_append]
    rfl

theorem slot_free_of_count (r : room_info) (h : RoomOK r) (hc : r.client_count < 15) :
    none ∈ r.clients := by
  by_contra hn
  obtain ⟨_, _, h3, h4, _⟩ := h
  have hall : r.clients.filter Option.isSome = r.clients := by
    apply List.filter_eq_self.mpr
    intro x hx
    cases x with
    | none => exact absurd hx hn
    | some b => rfl
  rw [hall, h3] at h4
  unfold MAX_CLIENTS_PER_ROOM at h4
  omega

theorem roomok_count_bounds (r : room_info) (h : RoomOK r) :
    0 ≤ r.client_count ∧ r.client_count ≤ 15 := by
  obtain ⟨_, _, h3, h4, _⟩ := h
  have := List.length_filter_le Option.isSome r.clients
  have h3b : r.clients.length = 15 := h3
  omega

theorem dec_length_int (n : Int) (h0 : 0 ≤ n) (h1 : n ≤ 15) : (dec n).length ≤ 2 := by
  obtain ⟨k, rfl⟩ := Int.eq_ofNat_of_zero_le h0
  exact dec_length k (by omega)

theorem room_add_eq (a : Nat) (r : room_info) :
    room_add a r = { r with clients := r.clients.set (r.clients.findIdx Option.isNone) (some a),
                            client_count := r.client_count + 1 } := by
  unfold room_add
  rw [put_member_findIdx]

theorem room_remove_eq (a : Nat) (r : room_info) (h : some a ∈ r.clients) :
    room_remove a r = { r with clients := remove_member a r.clients,
                               client_count := r.client_count - 1 } := by
  unfold room_remove
  rw [if_pos h]

/-- The entry into the room `r` from the state `σ1`, for a room that is there
with a free slot or is absent and can be created: the room afterwards, the
other rooms, the client list and the frames sent. -/
theorem join_enter_effect (σ1 : Server) (ok : Bool) (fd : Int) (c : client_info)
    (r : List Nat) (room0 : room_info) (hr : 0 ∉ r) (hlen : r.length ≤ 32)
    (hcase : find_room σ1 r = some room0 ∨
      (find_room σ1 r = none ∧ ok = true ∧
        room0 = { room_name := r, clients := List.replicate 15 none, client_count := 0,
                  total_messages_sent := 0 }))
    (hcnt : room0.client_count < 15) (hslot : none ∈ room0.clients) :
    find_room (join_enter σ1 ok fd c r) r = some (room_add c.addr room0) ∧
    (∀ n, cstr n ≠ r → find_room (join_enter σ1 ok fd c r) n = find_room σ1 n) ∧
    (∃ idx : Int, (join_enter σ1 ok fd c r).client_list = update_client c.addr
      (fun x => { x with current_room_name := r, current_room_index := idx })
      σ1.client_list) ∧
    (join_enter σ1 ok fd c r).active_client_count = σ1.active_client_count ∧
    (join_enter σ1 ok fd c r).out
      = σ1.out ++ (fd, snprintf 256 (lit "JOIN_SUCCESS Joined room '" ++ r ++ lit "' ("
        ++ dec (room0.client_count + 1) ++ lit "/" ++ dec MAX_CLIENTS_PER_ROOM
        ++ lit " clients)")) ::
      ((active_members (join_enter σ1 ok fd c r) (put_member c.addr room0.clients)).filter
        (fun d => decide (d.addr ≠ c.addr))).map
        (fun d => (d.socket_fd,
          snprintf 256 (lit "ROOM_NOTIFICATION " ++ c.username ++ lit " joined the room"))) := by
  have hcs : cstr r = r := cstr_of_no_nul r hr
  have hsn : strncpy r 32 = r := strncpy_short r 32 hr hlen
  have hfound : ∃ σb : Server,
      join_enter σ1 ok fd c r = (match ((some room0, σb) : Option room_info × Server) with
      | (none, σ1) => σ1.emit fd (lit "ERROR Failed to create room")
      | (some target_room, σ1) =>
        if target_room.client_count ≥ (MAX_CLIENTS_PER_ROOM : Int) then
          σ1.emit fd (snprintf 256 (lit "ERROR Room '" ++ r ++ lit "' is full ("
            ++ dec MAX_CLIENTS_PER_ROOM ++ lit "/" ++ dec MAX_CLIENTS_PER_ROOM ++ lit " clients)"))
        else if none ∉ target_room.clients then
          σ1.emit fd (lit "ERROR Room is full (no available slots)")
        else
          notify
            (((σ1.with_rooms
                (update_room target_room.room_name (room_add c.addr) σ1.room_list)).with_clients
              (update_client c.addr
                (fun x => { x with current_room_name := strncpy r 32,
                                   current_room_index := get_room_index (σ1.with_rooms
                                     (update_room target_room.room_name (room_add c.addr)
                                       σ1.room_list)) r })
                (σ1.with_rooms (update_room target_room.room_name (room_add c.addr)
                  σ1.room_list)).client_list)).emit fd
              (snprintf 256 (lit "JOIN_SUCCESS Joined room '" ++ r ++ lit "' ("
                ++ dec (room_add c.addr target_room).client_count ++ lit "/"
                ++ dec MAX_CLIENTS_PER_ROOM ++ lit " clients)")))
            (some c.addr)
            (snprintf 256 (lit "ROOM_NOTIFICATION " ++ c.username ++ lit " joined the room"))
            (room_add c.addr target_room).clients) ∧
      σb.client_list = σ1.client_list ∧ σb.out = σ1.out ∧
      σb.active_client_count = σ1.active_client_count ∧
      room0.room_name = r ∧
      σb.room_list.find? (fun x => decide (x.room_name = r)) = some room0 ∧
      (∀ n : List Nat, n ≠ r → σb.room_list.find? (fun x => decide (x.room_name = n))
        = σ1.room_list.find? (fun x => decide (x.room_name = n))) := by
    rcases hcase with hf | ⟨hf, hok, hfresh⟩
    · refine ⟨σ1, ?_, rfl, rfl, rfl, ?_, ?_, fun n _ => rfl⟩
      · unfold join_enter
        dsimp only
        rw [hf]
      · have := (find_room_some σ1 r room0 hf).2
        rw [hcs] at this
        exact this
      · unfold find_room at hf
        rw [hcs] at hf
        exact hf
    · subst hok
      have hadd : add_room σ1 true r = (some room0,
          { σ1 with room_list := room0 :: σ1.room_list,
                    total_room_count := σ1.total_room_count + 1 }) := by
        unfold add_room
        unfold find_room at hf
        rw [hf]
        dsimp only
        unfold MAX_ROOM_NAME_LENGTH MAX_CLIENTS_PER_ROOM
        rw [hsn, hfresh]
        rfl
      refine ⟨{ σ1 with room_list := room0 :: σ1.room_list,
                        total_room_count := σ1.total_room_count + 1 },
        ?_, rfl, rfl, rfl, by rw [hfresh], ?_, ?_⟩
      · unfold join_enter
        dsimp only
        rw [hf]
        dsimp only
        rw [hadd]
      · exact List.find?_cons_of_pos _ (by rw [hfresh]; simp)
      · intro n hn
        exact List.find?_cons_of_neg _ (by rw [hfresh]; simpa using fun e => hn e.symm)
  obtain ⟨σb, heq, hb1, hb2, hb3, hname, hb4, hb5⟩ := hfound
  obtain ⟨k1, ⟨idx, k2⟩, _, k4, k5⟩ :=
    join_enter_found_ok σb fd c r room0 hcnt hslot (join_enter σ1 ok fd c r) heq
  refine ⟨?_, ?_, ⟨idx, ?_⟩, ?_, ?_⟩
  · unfold find_room
    rw [k1, hcs, find_update_room _ _ _ (room_add c.addr) (fun x => rfl), hname, if_pos rfl, hb4]
    rfl
  · intro n hn
    unfold find_room
    rw [k1, find_update_room _ _ _ (room_add c.addr) (fun x => rfl), hname, if_neg hn, hb5 _ hn]
  · rw [k2, hsn, hb1]
  · rw [k4, hb3]
  · rw [k5, hb2]

/-! ## Texts of the replies of `/join`, `/leave` and `/broadcast`: lemmas -/

theorem join_success_text (r : List Nat) (n : Int) (hr : r.length ≤ 32) (h0 : 0 ≤ n)
    (h1 : n ≤ 15) :
    snprintf 256 (lit "JOIN_SUCCESS Joined room '" ++ r ++ lit "' (" ++ dec n ++ lit "/"
      ++ dec MAX_CLIENTS_PER_ROOM ++ lit " clients)")
      = lit "JOIN_SUCCESS Joined room '" ++ r ++ lit "' (" ++ dec n ++ lit "/15 clients)" := by
  have hd := dec_length_int n h0 h1
  have e1 : (lit "JOIN_SUCCESS Joined room '").length = 26 := by decide
  have e2 : (lit "' (").length = 3 := by decide
  have e3 : (lit "/").length = 1 := by decide
  have e4 : (dec (MAX_CLIENTS_PER_ROOM : Int)).length = 2 := by decide
  have e5 : (lit " clients)").length = 9 := by decide
  have e6 : lit "/" ++ (dec (MAX_CLIENTS_PER_ROOM : Int) ++ lit " clients)") = lit "/15 clients)" := by
    decide
  rw [snprintf_fit _ _ (by simp only [List.length_append, e1, e2, e3, e4, e5]; omega)]
  simp only [List.append_assoc, e6]

theorem notification_text (u tail : List Nat) (hu : u.length ≤ 16) (ht : tail.length ≤ 200) :
    snprintf 256 (lit "ROOM_NOTIFICATION " ++ u ++ tail) = lit "ROOM_NOTIFICATION " ++ u ++ tail := by
  have e1 : (lit "ROOM_NOTIFICATION ").length = 18 := by decide
  exact snprintf_fit _ _ (by simp only [List.length_append, e1]; omega)

theorem room_full_text (r : List Nat) (hr : r.length ≤ 32) :
    snprintf 256 (lit "ERROR Room '" ++ r ++ lit "' is full (" ++ dec MAX_CLIENTS_PER_ROOM
      ++ lit "/" ++ dec MAX_CLIENTS_PER_ROOM ++ lit " clients)")
      = lit "ERROR Room '" ++ r ++ lit "' is full (15/15 clients)" := by
  have e1 : (lit "ERROR Room '").length = 12 := by decide
  have e2 : (lit "' is full (").length = 11 := by decide
  have e3 : (lit "/").length = 1 := by decide
  have e4 : (dec (MAX_CLIENTS_PER_ROOM : Int)).length = 2 := by decide
  have e5 : (lit " clients)").length = 9 := by decide
  have e6 : lit "' is full (" ++ (dec (MAX_CLIENTS_PER_ROOM : Int) ++ (lit "/" ++
      (dec (MAX_CLIENTS_PER_ROOM : Int) ++ lit " clients)"))) = lit "' is full (15/15 clients)" := by
    decide
  rw [snprintf_fit _ _ (by simp only [List.length_append, e1, e2, e3, e4, e5]; omega)]
  simp only [List.append_assoc, e6]

/-- No frame of a notification loop over the members other than `c` goes to
the socket of `c`. -/
theorem others_socket_ne (σ : Server) (h : Inv σ) (c : client_info) (hc : c ∈ σ.client_list)
    (l : List (Option Nat)) (d : client_info) (hd : d ∈ active_members σ l)
    (hne : d.addr ≠ c.addr) : d.socket_fd ≠ c.socket_fd := by
  intro he
  have hd1 := (active_members_mem σ l d hd).1
  exact hne (congrArg (fun x => x.addr)
    (eq_of_key (fun x : client_info => x.socket_fd) σ.client_list h.fd_nodup d c hd1 hc he))

/-- The `/join` of a session whose record names no room: it sends `/join r`
for an alphanumeric name `r` of 1 to 32 bytes whose room `room0` has fewer than
15 members or is absent (then `room0` is the empty room the command creates,
the allocation succeeding). Afterwards room `r` exists and is `room0` with the
session in its lowest-indexed empty slot and the count one higher; the
session's record names `r`; and the frames sent are the reply "JOIN_SUCCESS
Joined room 'r' (n/15 clients)" to the joiner, `n` being the count after the
join, followed by "ROOM_NOTIFICATION <user> joined the room" to each other
active member of `r`, none of them on the joiner's socket. -/
theorem join_from_no_room (σ : Server) (ok : Bool) (fd : Int) (c : client_info) (r : List Nat)
    (room0 : room_info) (hσ : Reachable σ) (hc : find_client_by_socket σ fd = some c)
    (hno : c.current_room_name = [])
    (hal : ∀ x ∈ r, isalnum x = true) (h0 : 1 ≤ r.length) (h1 : r.length ≤ 32)
    (hroom : (find_room σ r = some room0 ∧ room0.client_count < 15) ∨
      (find_room σ r = none ∧ ok = true ∧
        room0 = { room_name := r, clients := List.replicate 15 none, client_count := 0,
                  total_messages_sent := 0 })) :
    find_room (handle_join_command σ ok fd r) r
      = some { room0 with
          clients := room0.clients.set (room0.clients.findIdx Option.isNone) (some c.addr),
          client_count := room0.client_count + 1 } ∧
    room0.clients.get? (room0.clients.findIdx Option.isNone) = some none ∧
    (∀ j, j < room0.clients.findIdx Option.isNone → ∃ b, room0.clients.get? j = some (some b)) ∧
    (∃ idx : Int, find_client_by_socket (handle_join_command σ ok fd r) fd
      = some { c with current_room_name := r, current_room_index := idx }) ∧
    (handle_join_command σ ok fd r).out
      = σ.out ++ (fd, lit "JOIN_SUCCESS Joined room '" ++ r ++ lit "' ("
          ++ dec (room0.client_count + 1) ++ lit "/15 clients)") ::
        ((active_members (handle_join_command σ ok fd r)
            (room0.clients.set (room0.clients.findIdx Option.isNone) (some c.addr))).filter
          (fun d => decide (d.addr ≠ c.addr))).map
          (fun d => (d.socket_fd, lit "ROOM_NOTIFICATION " ++ c.username
            ++ lit " joined the room")) ∧
    (∀ d ∈ active_members (handle_join_command σ ok fd r)
        (room0.clients.set (room0.clients.findIdx Option.isNone) (some c.addr)),
      d.addr ≠ c.addr → d.socket_fd ≠ fd) := by
  have hinv := reachable_inv σ hσ
  have hnames := reachable_names σ hσ
  have hinv2 := reachable_inv _ (Reachable.join σ ok fd r hσ)
  obtain ⟨hcm, hfd⟩ := find_client_by_socket_some σ fd c hc
  have hnul := no_nul_of_alnum r hal
  have hne : c.current_room_name ≠ r := by
    rw [hno]; intro h; rw [← h] at h0; simp at h0
  have hok0 : RoomOK room0 ∧ room0.client_count < 15 := by
    rcases hroom with ⟨hf, hcnt⟩ | ⟨_, _, hfresh⟩
    · exact ⟨hinv.room_ok room0 (find_room_some σ r room0 hf).1, hcnt⟩
    · rw [hfresh]
      exact ⟨roomok_fresh r (by intro h; rw [h] at h0; simp at h0) hnul,
        (by show (0 : Int) < 15; omega)⟩
  have hslot := slot_free_of_count room0 hok0.1 hok0.2
  have hcase : find_room σ r = some room0 ∨
      (find_room σ r = none ∧ ok = true ∧
        room0 = { room_name := r, clients := List.replicate 15 none, client_count := 0,
                  total_messages_sent := 0 }) := by
    rcases hroom with ⟨hf, _⟩ | h
    · exact Or.inl hf
    · exact Or.inr h
  have hmain := handle_join_command_main σ ok fd c r hc hal (by omega) h1 hne
  rw [join_leave_old_none σ c hno] at hmain
  obtain ⟨e1, _, ⟨idx, e3⟩, _, e5⟩ :=
    join_enter_effect σ ok fd c r room0 hnul h1 hcase hok0.2 hslot
  rw [← hmain] at e1 e3 e5
  have hfind : find_client_by_socket (handle_join_command σ ok fd r) fd
      = some { c with current_room_name := r, current_room_index := idx } := by
    unfold find_client_by_socket
    unfold find_client_by_socket at hc
    have hfu := find_update_client σ.client_list c.addr fd
      (fun x => { x with current_room_name := r, current_room_index := idx }) (fun x => rfl)
      hinv.addr_nodup
    rw [e3, hfu, hc]
    simp only [Option.map_some', if_true]
  have hcnt := roomok_count_bounds room0 hok0.1
  refine ⟨?_, (findIdx_isNone_slot _ hslot).2, findIdx_isNone_lowest _, ⟨idx, hfind⟩, ?_, ?_⟩
  · rw [e1, room_add_eq]
  · rw [e5, join_success_text r _ h1 (by omega) (by omega),
      notification_text c.username (lit " joined the room") (username_length σ hnames c hcm)
        (by decide), put_member_findIdx]
  · intro d hd hda
    have hc2 := (find_client_by_socket_some _ fd _ hfind)
    have := others_socket_ne _ hinv2 _ hc2.1 _ d hd hda
    rw [hc2.2] at this
    exact this

/-! ## Leaving the recorded room on a `/join`: lemmas -/

theorem remove_room_fields (σ : Server) (name : List Nat) :
    (remove_room σ name).2.client_list = σ.client_list ∧
    (remove_room σ name).2.out = σ.out ∧
    (remove_room σ name).2.active_client_count = σ.active_client_count := by
  unfold remove_room
  split
  · exact ⟨rfl, rfl, rfl⟩
  · split
    · exact ⟨rfl, rfl, rfl⟩
    · exact ⟨rfl, rfl, rfl⟩

theorem join_leave_old_fields (σ : Server) (c : client_info) :
    (join_leave_old σ c).client_list = σ.client_list ∧
    (join_leave_old σ c).out = σ.out ∧
    (join_leave_old σ c).active_client_count = σ.active_client_count := by
  unfold join_leave_old
  split
  · split
    · exact ⟨rfl, rfl, rfl⟩
    · dsimp only
      split
      · exact remove_room_fields _ _
      · exact ⟨rfl, rfl, rfl⟩
  · exact ⟨rfl, rfl, rfl⟩

/-- Leaving the recorded room on a `/join` does not touch the rooms of other
names. -/
theorem join_leave_old_other (σ : Server) (c : client_info) (n : List Nat)
    (hn : cstr n ≠ cstr c.current_room_name) :
    find_room (join_leave_old σ c) n = find_room σ n := by
  unfold join_leave_old
  split
  · cases hf : find_room σ c.current_room_name with
    | none => rfl
    | some old_room =>
      dsimp only
      have hname : old_room.room_name = cstr c.current_room_name :=
        (find_room_some σ _ old_room hf).2
      have h1 : find_room (σ.with_rooms
          (update_room old_room.room_name (room_remove c.addr) σ.room_list)) n
          = find_room σ n := by
        unfold find_room
        show (update_room old_room.room_name (room_remove c.addr) σ.room_list).find? _ = _
        rw [find_update_room _ _ _ (room_remove c.addr) (fun x => room_remove_name _ x),
          if_neg (by rw [hname]; exact hn)]
      split
      · rw [← h1]
        unfold remove_room
        split
        · rfl
        · split
          · rfl
          · unfold find_room
            dsimp only
            rw [hname, cstr_cstr]
            exact find_eraseP_other (fun x : room_info => x.room_name) _ _ hn _
      · exact h1
  · rfl

/-- Leaving the room `A` the session holds a slot of, on a `/join`: the room
is removed when the session was its only member, and is otherwise left with the
session's slot emptied and the count decremented. -/
theorem join_leave_old_member (σ : Server) (h : Inv σ) (c : client_info)
    (hc : c ∈ σ.client_list) (A : room_info) (hA : A ∈ σ.room_list)
    (hm : some c.addr ∈ A.clients) :
    find_room (join_leave_old σ c) A.room_name
      = if A.client_count = 1 then none
        else some { A with clients := remove_member c.addr A.clients,
                           client_count := A.client_count - 1 } := by
  obtain ⟨hcur, hfind, hpos, hcs⟩ := member_facts σ h c hc A hA hm
  have hfu : (update_room A.room_name (room_remove c.addr) σ.room_list).find?
      (fun r => decide (r.room_name = A.room_name)) = some (room_remove c.addr A) := by
    rw [find_update_room _ _ _ (room_remove c.addr) (fun x => room_remove_name _ x), if_pos rfl]
    unfold find_room at hfind
    rw [hcur, hcs] at hfind
    rw [hfind]
    rfl
  unfold join_leave_old
  rw [if_pos hpos, hfind]
  dsimp only
  rw [room_remove_eq c.addr A hm]
  dsimp only
  by_cases h1 : A.client_count = 1
  · rw [if_pos (by omega), if_pos h1]
    unfold remove_room
    rw [hcs]
    have hfu2 : (σ.with_rooms (update_room A.room_name
        (room_remove c.addr) σ.room_list)).room_list.find?
        (fun r => decide (r.room_name = A.room_name)) = some (room_remove c.addr A) := hfu
    rw [hfu2]
    dsimp only
    rw [room_remove_eq c.addr A hm]
    dsimp only
    rw [if_neg (by omega)]
    unfold find_room
    rw [hcs]
    apply find_eraseP_same (fun x : room_info => x.room_name)
    show ((update_room A.room_name (room_remove c.addr) σ.room_list).map _).Nodup
    rw [update_room_map _ _ _ (fun x => room_remove_name _ x)]
    exact h.room_nodup
  · rw [if_neg (by omega), if_neg h1]
    unfold find_room
    rw [hcs]
    show (update_room A.room_name (room_remove c.addr) σ.room_list).find? _ = _
    rw [hfu, room_remove_eq c.addr A hm]

theorem le_sum_of_mem (l : List Nat) (x : Nat) (h : x ∈ l) : x ≤ l.sum := by
  induction l with
  | nil => cases h
  | cons y ys ih =>
    rw [List.sum_cons]
    rcases List.mem_cons.mp h with h | h
    · subst h; omega
    · have := ih h; omega

/-- Under the invariant a client is in at most one slot, counted over all rooms. -/
theorem inv_slots_sum (σ : Server) (hi : Inv σ) (a : Nat) :
    (σ.room_list.map (fun r => r.clients.count (some a))).sum ≤ 1 := by
  apply slots_sum_le_one a σ.room_list hi.room_nodup
  · intro r hr; exact (hi.room_ok r hr).2.2.2.2 a
  · intro r1 h1 r2 h2 m1 m2
    obtain ⟨c1, hc1, ha1, hn1⟩ := hi.slot_ref r1 h1 a m1
    obtain ⟨c2, hc2, ha2, hn2⟩ := hi.slot_ref r2 h2 a m2
    have : c1 = c2 := inv_client_unique σ hi c1 c2 hc1 hc2 (ha1.trans ha2.symm)
    rw [← hn1, ← hn2, this]

/-- C12: a session that holds a slot of room `A` sends `/join B` for a valid
name `B` other than `A` whose room has fewer than 15 members or is absent (and
can be created), so that the command succeeds. Afterwards the reply is
JOIN_SUCCESS, the session holds a slot of `B`, it holds exactly one slot over
all rooms, its record names `B`, no room named `A` holds it, and room `A` is
gone from the registry when the session was its only member and is otherwise
left with the session's slot emptied and its count one lower. -/
theorem join_moves_session (σ : Server) (ok : Bool) (fd : Int) (c : client_info)
    (A : room_info) (B : List Nat) (roomB : room_info)
    (hσ : Reachable σ) (hc : find_client_by_socket σ fd = some c)
    (hA : A ∈ σ.room_list) (hm : some c.addr ∈ A.clients)
    (hal : ∀ x ∈ B, isalnum x = true) (h0 : 1 ≤ B.length) (h1 : B.length ≤ 32)
    (hne : B ≠ A.room_name)
    (hroom : (find_room σ B = some roomB ∧ roomB.client_count < 15) ∨
      (find_room σ B = none ∧ ok = true ∧
        roomB = { room_name := B, clients := List.replicate 15 none, client_count := 0,
                  total_messages_sent := 0 })) :
    (∃ rest, (handle_join_command σ ok fd B).out
      = σ.out ++ (fd, lit "JOIN_SUCCESS Joined room '" ++ B ++ lit "' ("
          ++ dec (roomB.client_count + 1) ++ lit "/15 clients)") :: rest) ∧
    (∃ rb, find_room (handle_join_command σ ok fd B) B = some rb ∧ some c.addr ∈ rb.clients) ∧
    ((handle_join_command σ ok fd B).room_list.map
      (fun r => r.clients.count (some c.addr))).sum = 1 ∧
    (∃ idx : Int, find_client_by_socket (handle_join_command σ ok fd B) fd
      = some { c with current_room_name := B, current_room_index := idx }) ∧
    (∀ r ∈ (handle_join_command σ ok fd B).room_list, r.room_name = A.room_name →
      some c.addr ∉ r.clients) ∧
    (A.client_count = 1 → find_room (handle_join_command σ ok fd B) A.room_name = none) ∧
    (A.client_count ≠ 1 → find_room (handle_join_command σ ok fd B) A.room_name
      = some { A with clients := remove_member c.addr A.clients,
                      client_count := A.client_count - 1 }) := by
  have hinv := reachable_inv σ hσ
  have hinv2 := reachable_inv _ (Reachable.join σ ok fd B hσ)
  obtain ⟨hcm, hfd⟩ := find_client_by_socket_some σ fd c hc
  obtain ⟨hcur, _, _, hcsA⟩ := member_facts σ hinv c hcm A hA hm
  have hnul := no_nul_of_alnum B hal
  have hcsB : cstr B = B := cstr_of_no_nul B hnul
  have hneB : c.current_room_name ≠ B := by rw [hcur]; exact fun e => hne e.symm
  have hok0 : RoomOK roomB ∧ roomB.client_count < 15 := by
    rcases hroom with ⟨hf, hcnt⟩ | ⟨_, _, hfresh⟩
    · exact ⟨hinv.room_ok roomB (find_room_some σ B roomB hf).1, hcnt⟩
    · rw [hfresh]
      exact ⟨roomok_fresh B (by intro h; rw [h] at h0; simp at h0) hnul,
        (by show (0 : Int) < 15; omega)⟩
  have hslot := slot_free_of_count roomB hok0.1 hok0.2
  have hother : find_room (join_leave_old σ c) B = find_room σ B :=
    join_leave_old_other σ c B (by rw [hcsB, hcur, hcsA]; exact hne)
  have hcase : find_room (join_leave_old σ c) B = some roomB ∨
      (find_room (join_leave_old σ c) B = none ∧ ok = true ∧
        roomB = { room_name := B, clients := List.replicate 15 none, client_count := 0,
                  total_messages_sent := 0 }) := by
    rw [hother]
    rcases hroom with ⟨hf, _⟩ | h
    · exact Or.inl hf
    · exact Or.inr h
  have hmain := handle_join_command_main σ ok fd c B hc hal (by omega) h1 hneB
  obtain ⟨e1, e2, ⟨idx, e3⟩, _, e5⟩ :=
    join_enter_effect (join_leave_old σ c) ok fd c B roomB hnul h1 hcase hok0.2 hslot
  rw [← hmain] at e1 e2 e3 e5
  rw [(join_leave_old_fields σ c).1] at e3
  rw [(join_leave_old_fields σ c).2.1] at e5
  have hfind : find_client_by_socket (handle_join_command σ ok fd B) fd
      = some { c with current_room_name := B, current_room_index := idx } := by
    unfold find_client_by_socket
    unfold find_client_by_socket at hc
    have hfu := find_update_client σ.client_list c.addr fd
      (fun x => { x with current_room_name := B, current_room_index := idx }) (fun x => rfl)
      hinv.addr_nodup
    rw [e3, hfu, hc]
    simp only [Option.map_some', if_true]
  have hin : some c.addr ∈ (room_add c.addr roomB).clients := put_member_has c.addr _ hslot
  have hcnt := roomok_count_bounds roomB hok0.1
  have hA2 := e2 A.room_name (by rw [hcsA]; exact fun e => hne e.symm)
  rw [join_leave_old_member σ hinv c hcm A hA hm] at hA2
  refine ⟨?_, ⟨_, e1, hin⟩, ?_, ⟨idx, hfind⟩, ?_, ?_, ?_⟩
  · rw [e5, join_success_text B _ h1 (by omega) (by omega)]
    exact ⟨_, rfl⟩
  · apply Nat.le_antisymm (inv_slots_sum _ hinv2 c.addr)
    have hmem := (find_room_some _ B _ e1).1
    have h1c : 1 ≤ (room_add c.addr roomB).clients.count (some c.addr) :=
      List.count_pos_iff.mpr hin
    exact Nat.le_trans h1c (le_sum_of_mem _ _ (List.mem_map.mpr ⟨_, hmem, rfl⟩))
  · intro r hr hrn hra
    obtain ⟨c2, hc2, ha2, hn2⟩ := hinv2.slot_ref r hr c.addr hra
    have hc3 := (find_client_by_socket_some _ fd _ hfind).1
    have := inv_client_unique _ hinv2 c2 _ hc2 hc3 ha2
    rw [this] at hn2
    exact hne (hn2.trans hrn)
  · intro hone
    rw [hA2, if_pos hone]
  · intro hmore
    rw [hA2, if_neg hmore]

theorem join_enter_full (σ1 : Server) (ok : Bool) (fd : Int) (c : client_info)
    (r : List Nat) (target : room_info) (hf : find_room σ1 r = some target)
    (hfull : target.client_count ≥ 15) :
    join_enter σ1 ok fd c r = σ1.emit fd (snprintf 256 (lit "ERROR Room '" ++ r
      ++ lit "' is full (" ++ dec MAX_CLIENTS_PER_ROOM ++ lit "/" ++ dec MAX_CLIENTS_PER_ROOM
      ++ lit " clients)")) := by
  unfold join_enter
  dsimp only
  rw [hf]
  dsimp only
  rw [if_pos (by unfold MAX_CLIENTS_PER_ROOM; push_cast; omega)]

/-- The `/join` to a full room: room `r` has 15 members and a session whose
record does not name `r` (so that it holds no slot of `r`) sends `/join r`. The
only frame sent is the reply "ERROR Room 'r' is full (15/15 clients)" to that
session; room `r` is afterwards the record it was, slots and count; the session
is in none of its slots; and no room of the registry has more than 15
members. -/
theorem join_full_room_rejected (σ : Server) (ok : Bool) (fd : Int) (c : client_info)
    (r : List Nat) (room : room_info)
    (hσ : Reachable σ) (hc : find_client_by_socket σ fd = some c)
    (hal : ∀ x ∈ r, isalnum x = true) (h1 : r.length ≤ 32)
    (hroom : find_room σ r = some room) (hfull : room.client_count = 15)
    (hnot : c.current_room_name ≠ r) :
    (handle_join_command σ ok fd r).out
      = σ.out ++ [(fd, lit "ERROR Room '" ++ r ++ lit "' is full (15/15 clients)")] ∧
    find_room (handle_join_command σ ok fd r) r = some room ∧
    some c.addr ∉ room.clients ∧
    (∀ x ∈ (handle_join_command σ ok fd r).room_list,
      x.client_count ≤ 15 ∧ (x.clients.filter Option.isSome).length ≤ 15) := by
  have hinv := reachable_inv σ hσ
  have hinv2 := reachable_inv _ (Reachable.join σ ok fd r hσ)
  obtain ⟨hcm, hfd⟩ := find_client_by_socket_some σ fd c hc
  have hnul := no_nul_of_alnum r hal
  have hcs : cstr r = r := cstr_of_no_nul r hnul
  obtain ⟨hrm, hrn⟩ := find_room_some σ r room hroom
  rw [hcs] at hrn
  have h0 : 0 < r.length := by
    rw [← hrn]; exact List.length_pos.mpr (hinv.room_ok room hrm).1
  have hother : find_room (join_leave_old σ c) r = some room := by
    rw [join_leave_old_other σ c r
      (by rw [hcs, cstr_of_no_nul _ (hinv.cur_nonul c hcm)]; exact fun e => hnot e.symm)]
    exact hroom
  have hmain := handle_join_command_main σ ok fd c r hc hal h0 h1 hnot
  rw [join_enter_full _ ok fd c r room hother (by omega), room_full_text r h1] at hmain
  refine ⟨?_, ?_, ?_, ?_⟩
  · rw [hmain]
    show (join_leave_old σ c).out ++ _ = _
    rw [(join_leave_old_fields σ c).2.1]
  · rw [hmain]
    exact hother
  · intro hmem
    obtain ⟨c2, hc2, ha2, hn2⟩ := hinv.slot_ref room hrm c.addr hmem
    have := inv_client_unique σ hinv c2 c hc2 hcm ha2
    rw [this] at hn2
    exact hnot (hn2.trans hrn)
  · intro x hx
    have hb := roomok_count_bounds x (hinv2.room_ok x hx)
    obtain ⟨_, _, _, h4, _⟩ := hinv2.room_ok x hx
    exact ⟨hb.2, by omega⟩

/-! ## `/leave` and the closing of a session: lemmas -/

theorem filter_skip_none (l : List client_info) :
    l.filter (fun d => decide (some d.addr ≠ none)) = l := by
  apply List.filter_eq_self.mpr
  intro d _
  simp

theorem leave_success_text (name : List Nat) (h0 : 0 ∉ name) (h1 : name.length ≤ 32) :
    snprintf 256 (lit "LEAVE_SUCCESS Left room '" ++ strncpy name 32 ++ lit "'")
      = lit "LEAVE_SUCCESS Left room '" ++ name ++ lit "'" := by
  have e1 : (lit "LEAVE_SUCCESS Left room '").length = 25 := by decide
  have e2 : (lit "'").length = 1 := by decide
  rw [strncpy_short name 32 h0 h1]
  exact snprintf_fit _ _ (by simp only [List.length_append, e1, e2]; omega)

/-- The members a room is left with when `c` has been taken out are not `c`. -/
theorem remaining_ne (σ : Server) (c : client_info) (R : room_info) (hR : RoomOK R)
    (d : client_info) (hd : d ∈ active_members σ (remove_member c.addr R.clients)) :
    d.addr ≠ c.addr := by
  intro he
  have := (active_members_mem σ _ d hd).2.1
  rw [he] at this
  exact remove_member_gone c.addr R.clients (hR.2.2.2.2 c.addr) this

/-- The `/leave` of a member: a session whose record names room `R` and which
holds a slot of `R` sends `/leave`. Afterwards `R` is the room it was with the
session's slot emptied and the count one lower; the frames sent are
"ROOM_NOTIFICATION <user> left the room" to each remaining active member of
`R`, none of them on the leaver's socket, followed by the reply "LEAVE_SUCCESS
Left room 'R'"; the session's record names no room; and a second `/leave` sends
the reply "ERROR You are not in any room" and does nothing else. -/
theorem leave_room (σ : Server) (fd : Int) (c : client_info) (R : room_info)
    (hσ : Reachable σ) (hc : find_client_by_socket σ fd = some c)
    (hR : find_room σ c.current_room_name = some R) (hm : some c.addr ∈ R.clients) :
    find_room (handle_leave_command σ fd) R.room_name
      = some { R with clients := remove_member c.addr R.clients,
                      client_count := R.client_count - 1 } ∧
    some c.addr ∉ remove_member c.addr R.clients ∧
    (handle_leave_command σ fd).out
      = σ.out ++ (active_members σ (remove_member c.addr R.clients)).map
          (fun d => (d.socket_fd, lit "ROOM_NOTIFICATION " ++ c.username ++ lit " left the room"))
        ++ [(fd, lit "LEAVE_SUCCESS Left room '" ++ R.room_name ++ lit "'")] ∧
    (∀ d ∈ active_members σ (remove_member c.addr R.clients), d.socket_fd ≠ fd) ∧
    find_client_by_socket (handle_leave_command σ fd) fd
      = some { c with current_room_name := [], current_room_index := -1 } ∧
    handle_leave_command (handle_leave_command σ fd) fd
      = (handle_leave_command σ fd).emit fd (lit "ERROR You are not in any room") := by
  have hinv := reachable_inv σ hσ
  have hnames := reachable_names σ hσ
  obtain ⟨hcm, hfd⟩ := find_client_by_socket_some σ fd c hc
  have hRm := (find_room_some σ _ R hR).1
  obtain ⟨hcur, _, hpos, hcs⟩ := member_facts σ hinv c hcm R hRm hm
  have hRok := hinv.room_ok R hRm
  have heq : handle_leave_command σ fd
      = ((notify (σ.with_rooms (update_room R.room_name (room_remove c.addr) σ.room_list)) none
          (snprintf 256 (lit "ROOM_NOTIFICATION " ++ c.username ++ lit " left the room"))
          (room_remove c.addr R).clients).with_clients
        (update_client c.addr
          (fun x => { x with current_room_name := [], current_room_index := -1 })
          (notify (σ.with_rooms (update_room R.room_name (room_remove c.addr) σ.room_list)) none
            (snprintf 256 (lit "ROOM_NOTIFICATION " ++ c.username ++ lit " left the room"))
            (room_remove c.addr R).clients).client_list)).emit fd
        (snprintf 256 (lit "LEAVE_SUCCESS Left room '" ++ strncpy R.room_name 32 ++ lit "'")) := by
    unfold handle_leave_command
    rw [hc]
    dsimp only
    rw [if_neg (by omega), hR]
    dsimp only
    rw [if_neg (fun h => h hm)]
  have hrooms : (handle_leave_command σ fd).room_list
      = update_room R.room_name (room_remove c.addr) σ.room_list := by
    rw [heq]
    show (notify _ _ _ _).room_list = _
    rw [(notify_fields _ _ _ _).2.1]
    rfl
  have hclients : (handle_leave_command σ fd).client_list
      = update_client c.addr
          (fun x => { x with current_room_name := [], current_room_index := -1 })
          σ.client_list := by
    rw [heq]
    show update_client _ _ (notify _ _ _ _).client_list = _
    rw [(notify_fields _ _ _ _).1]
    rfl
  have hfind : find_client_by_socket (handle_leave_command σ fd) fd
      = some { c with current_room_name := [], current_room_index := -1 } := by
    unfold find_client_by_socket
    unfold find_client_by_socket at hc
    have hfu := find_update_client σ.client_list c.addr fd
      (fun x => { x with current_room_name := [], current_room_index := -1 }) (fun x => rfl)
      hinv.addr_nodup
    rw [hclients, hfu, hc]
    simp only [Option.map_some', if_true]
  refine ⟨?_, remove_member_gone c.addr R.clients (hRok.2.2.2.2 c.addr), ?_, ?_, hfind, ?_⟩
  · unfold find_room
    rw [hrooms, hcs, find_update_room _ _ _ (room_remove c.addr) (fun x => room_remove_name _ x),
      if_pos rfl]
    unfold find_room at hR
    rw [hcur, hcs] at hR
    rw [hR, Option.map_some', room_remove_eq c.addr R hm]
  · rw [heq]
    show (notify _ _ _ _).out ++ _ = _
    rw [notify_out, filter_skip_none, leave_success_text R.room_name hRok.2.1
        (hnames.room_len R hRm),
      notification_text c.username (lit " left the room") (username_length σ hnames c hcm)
        (by decide), room_remove_eq c.addr R hm]
    rfl
  · intro d hd
    have := others_socket_ne σ hinv c hcm _ d hd (remaining_ne σ c R hRok d hd)
    rw [hfd] at this
    exact this
  · have key : ∀ τ : Server,
        find_client_by_socket τ fd
          = some { c with current_room_name := [], current_room_index := -1 } →
        handle_leave_command τ fd = τ.emit fd (lit "ERROR You are not in any room") := by
      intro τ hτ
      unfold handle_leave_command
      rw [hτ]
      dsimp only
      rw [if_pos List.length_nil]
    exact key _ hfind

/-- C17: a session that holds a slot of room `R` is closed
(`cleanup_client_connection` followed by `remove_client`). Afterwards `R` is the
room it was with the session's slot emptied and the count one lower; the frames
sent are one "ROOM_NOTIFICATION <user> disconnected" to each remaining active
member of `R`; the record is gone from the client list, neither
`find_client_by_socket` on its socket nor `find_client_by_username` on its name
finds a session, and the client count is one lower. -/
theorem close_session_member (σ : Server) (fd : Int) (c : client_info) (R : room_info)
    (hσ : Reachable σ) (hc : find_client_by_socket σ fd = some c)
    (hR : R ∈ σ.room_list) (hm : some c.addr ∈ R.clients) :
    find_room (close_session σ fd) R.room_name
      = some { R with clients := remove_member c.addr R.clients,
                      client_count := R.client_count - 1 } ∧
    some c.addr ∉ remove_member c.addr R.clients ∧
    (close_session σ fd).out
      = σ.out ++ (active_members σ (remove_member c.addr R.clients)).map
          (fun d => (d.socket_fd,
            lit "ROOM_NOTIFICATION " ++ c.username ++ lit " disconnected")) ∧
    (∀ d ∈ active_members σ (remove_member c.addr R.clients), d.socket_fd ≠ fd) ∧
    c ∉ (close_session σ fd).client_list ∧
    (close_session σ fd).client_list = σ.client_list.filter (fun d => decide (d.socket_fd ≠ fd)) ∧
    find_client_by_socket (close_session σ fd) fd = none ∧
    find_client_by_username (close_session σ fd) c.username = none ∧
    (close_session σ fd).active_client_count = σ.active_client_count - 1 := by
  have hinv := reachable_inv σ hσ
  have hnames := reachable_names σ hσ
  obtain ⟨hcm, hfd⟩ := find_client_by_socket_some σ fd c hc
  obtain ⟨hcur, hfind, hpos, hcs⟩ := member_facts σ hinv c hcm R hR hm
  have hRok := hinv.room_ok R hR
  have hfd0 : fd ≠ -1 := by
    have := hinv.fd_nonneg c hcm
    omega
  have hclean : cleanup_client_connection σ fd
      = notify (σ.with_rooms (update_room R.room_name (room_remove c.addr) σ.room_list)) none
          (snprintf 256 (lit "ROOM_NOTIFICATION " ++ c.username ++ lit " disconnected"))
          (room_remove c.addr R).clients := by
    unfold cleanup_client_connection
    rw [if_neg hfd0, hc]
    dsimp only
    rw [if_pos hpos, hfind]
  have hcl : (cleanup_client_connection σ fd).client_list = σ.client_list := by
    rw [hclean, (notify_fields _ _ _ _).1]; rfl
  have hfc : (cleanup_client_connection σ fd).client_list.find?
      (fun x => decide (x.socket_fd = fd)) = some c := by
    rw [hcl]; exact hc
  have heq : close_session σ fd
      = { cleanup_client_connection σ fd with
          client_list := (cleanup_client_connection σ fd).client_list.eraseP
            (fun x => decide (x.socket_fd = fd)),
          active_client_count := (cleanup_client_connection σ fd).active_client_count - 1 } := by
    unfold close_session remove_client
    rw [hfc]
  have hlist : (close_session σ fd).client_list
      = σ.client_list.filter (fun d => decide (d.socket_fd ≠ fd)) := by
    rw [heq]
    show (cleanup_client_connection σ fd).client_list.eraseP _ = _
    rw [hcl]
    exact eraseP_eq_filter (fun x : client_info => x.socket_fd) fd σ.client_list hinv.fd_nodup
  have hgone : ∀ d ∈ (close_session σ fd).client_list, d ∈ σ.client_list ∧ d.socket_fd ≠ fd := by
    intro d hd
    rw [hlist] at hd
    obtain ⟨h1, h2⟩ := List.mem_filter.mp hd
    exact ⟨h1, by simpa using h2⟩
  refine ⟨?_, remove_member_gone c.addr R.clients (hRok.2.2.2.2 c.addr), ?_, ?_, ?_, hlist,
    ?_, ?_, ?_⟩
  · unfold find_room
    rw [heq]
    show (cleanup_client_connection σ fd).room_list.find? _ = _
    rw [hclean, (notify_fields _ _ _ _).2.1]
    show (update_room R.room_name (room_remove c.addr) σ.room_list).find? _ = _
    rw [hcs, find_update_room _ _ _ (room_remove c.addr) (fun x => room_remove_name _ x),
      if_pos rfl]
    unfold find_room at hfind
    rw [hcur, hcs] at hfind
    rw [hfind, Option.map_some', room_remove_eq c.addr R hm]
  · rw [heq]
    show (cleanup_client_connection σ fd).out = _
    rw [hclean, notify_out, filter_skip_none,
      notification_text c.username (lit " disconnected") (username_length σ hnames c hcm)
        (by decide), room_remove_eq c.addr R hm]
    rfl
  · intro d hd
    have := others_socket_ne σ hinv c hcm _ d hd (remaining_ne σ c R hRok d hd)
    rw [hfd] at this
    exact this
  · intro hmem
    exact (hgone c hmem).2 hfd
  · unfold find_client_by_socket
    rw [List.find?_eq_none]
    intro d hd
    simpa using (hgone d hd).2
  · unfold find_client_by_username
    rw [List.find?_eq_none]
    intro d hd hp
    have hdn : d.username = c.username := by
      have := (of_decide_eq_true hp).2
      rw [cstr_of_no_nul _ (hnames.user_ok c hcm).2.2] at this
      exact this
    have := eq_of_key (fun x : client_info => x.username) σ.client_list hnames.user_nodup d c
      (hgone d hd).1 hcm hdn
    rw [this] at hd
    exact (hgone c hd).2 hfd
  · rw [heq]
    show (cleanup_client_connection σ fd).active_client_count - 1 = _
    rw [hclean, (notify_counts _ _ _ _).2]
    rfl

/-! ## `/broadcast`: lemmas -/

theorem broadcast_text_length (message : List Nat) :
    (rtrim ws_sp_tab_nl_cr (ltrim ws_sp_tab (strncpy message 1023))).length ≤ 1023 := by
  have h1 := length_rtrim_le ws_sp_tab_nl_cr (ltrim ws_sp_tab (strncpy message 1023))
  have h2 : (ltrim ws_sp_tab (strncpy message 1023)).length ≤ (strncpy message 1023).length :=
    (List.dropWhile_sublist _).length_le
  have h3 : (strncpy message 1023).length ≤ 1023 := by
    unfold strncpy
    rw [List.length_take]
    exact Nat.min_le_left _ _
  omega

theorem broadcast_frame_text (u name text : List Nat) (hu : u.length ≤ 16)
    (hn : name.length ≤ 32) (ht : text.length ≤ 1023) :
    snprintf 1200 (lit "BROADCAST [" ++ u ++ lit "@" ++ name ++ lit "]: " ++ text)
      = lit "BROADCAST [" ++ u ++ lit "@" ++ name ++ lit "]: " ++ text := by
  have e1 : (lit "BROADCAST [").length = 11 := by decide
  have e2 : (lit "@").length = 1 := by decide
  have e3 : (lit "]: ").length = 3 := by decide
  exact snprintf_fit _ _ (by simp only [List.length_append, e1, e2, e3]; omega)

theorem broadcast_success_text (n : Nat) (name : List Nat) (hn : n ≤ 15)
    (hl : name.length ≤ 32) :
    snprintf 256 (lit "BROADCAST_SUCCESS Message delivered to " ++ dec (n : Int)
        ++ lit " recipient(s) in room '" ++ name ++ lit "'")
      = lit "BROADCAST_SUCCESS Message delivered to " ++ dec (n : Int)
        ++ lit " recipient(s) in room '" ++ name ++ lit "'" := by
  have hd := dec_length n hn
  have e1 : (lit "BROADCAST_SUCCESS Message delivered to ").length = 39 := by decide
  have e2 : (lit " recipient(s) in room '").length = 23 := by decide
  have e3 : (lit "'").length = 1 := by decide
  exact snprintf_fit _ _ (by simp only [List.length_append, e1, e2, e3]; omega)

theorem broadcast_partial_text (m n : Nat) (name : List Nat) (hm : m ≤ 15) (hn : n ≤ 15)
    (hl : name.length ≤ 32) :
    snprintf 256 (lit "BROADCAST_PARTIAL Message delivered to " ++ dec (m : Int) ++ lit "/"
        ++ dec (n : Int) ++ lit " recipient(s) in room '" ++ name ++ lit "'")
      = lit "BROADCAST_PARTIAL Message delivered to " ++ dec (m : Int) ++ lit "/"
        ++ dec (n : Int) ++ lit " recipient(s) in room '" ++ name ++ lit "'" := by
  have hd := dec_length n hn
  have hd2 := dec_length m hm
  have e1 : (lit "BROADCAST_PARTIAL Message delivered to ").length = 39 := by decide
  have e2 : (lit " recipient(s) in room '").length = 23 := by decide
  have e3 : (lit "'").length = 1 := by decide
  have e4 : (lit "/").length = 1 := by decide
  exact snprintf_fit _ _ (by simp only [List.length_append, e1, e2, e3, e4]; omega)

theorem int_incr_of_lt (x : Int) (h : x < 2147483647) : int_incr x = x + 1 := by
  unfold int_incr
  rw [if_neg (by omega)]

/-- On the range of `int` the increment is the addition modulo 2^32. -/
theorem int_incr_wrap (x : Int) (h0 : -2147483648 ≤ x) (h1 : x ≤ 2147483647) :
    int_incr x = (x + 1 + 2147483648) % 4294967296 - 2147483648 := by
  unfold int_incr
  split <;> omega

/-- The effect of a `/broadcast` from a sender that holds a slot of room `R`,
for a message whose text (the first 1023 bytes, trimmed) is not empty: the
frames to the other active members of `R` in the order of the slots, the reply
to the sender, the counter of `R` after the statement `total_messages_sent++`,
and the rest of the registries unchanged. -/
theorem handle_broadcast_command_effect (σ : Server) (net : Int → Bool) (fd : Int)
    (c : client_info)
    (R : room_info) (message text : List Nat) (recips : List client_info)
    (hσ : Reachable σ) (hc : find_client_by_socket σ fd = some c)
    (hR : R ∈ σ.room_list) (hm : some c.addr ∈ R.clients)
    (htext : text = rtrim ws_sp_tab_nl_cr (ltrim ws_sp_tab (strncpy message 1023)))
    (hmsg : text ≠ [])
    (hrecips : recips = (active_members σ R.clients).filter
      (fun d => decide (d.addr ≠ c.addr))) :
    ((∀ d ∈ recips, net d.socket_fd = true) →
      (handle_broadcast_command σ net fd message).out
        = σ.out ++ recips.map (fun d => (d.socket_fd,
            lit "BROADCAST [" ++ c.username ++ lit "@" ++ R.room_name ++ lit "]: " ++ text))
          ++ [(fd, lit "BROADCAST_SUCCESS Message delivered to " ++ dec (recips.length : Int)
            ++ lit " recipient(s) in room '" ++ R.room_name ++ lit "'")]) ∧
    (¬ (∀ d ∈ recips, net d.socket_fd = true) →
      (recips.filter (fun d => net d.socket_fd)).length < recips.length ∧
      (handle_broadcast_command σ net fd message).out
        = σ.out ++ recips.map (fun d => (d.socket_fd,
            lit "BROADCAST [" ++ c.username ++ lit "@" ++ R.room_name ++ lit "]: " ++ text))
          ++ [(fd, lit "BROADCAST_PARTIAL Message delivered to "
            ++ dec ((recips.filter (fun d => net d.socket_fd)).length : Int) ++ lit "/"
            ++ dec (recips.length : Int)
            ++ lit " recipient(s) in room '" ++ R.room_name ++ lit "'")]) ∧
    (∀ d ∈ recips, d.socket_fd ≠ fd) ∧
    find_room (handle_broadcast_command σ net fd message) R.room_name
      = some { R with total_messages_sent := int_incr R.total_messages_sent } ∧
    (∀ n, cstr n ≠ R.room_name →
      find_room (handle_broadcast_command σ net fd message) n = find_room σ n) ∧
    (handle_broadcast_command σ net fd message).room_list.map
        (fun r => (r.room_name, r.clients, r.client_count))
      = σ.room_list.map (fun r => (r.room_name, r.clients, r.client_count)) ∧
    (handle_broadcast_command σ net fd message).client_list = σ.client_list := by
  have hinv := reachable_inv σ hσ
  have hnames := reachable_names σ hσ
  obtain ⟨hcm, hfd⟩ := find_client_by_socket_some σ fd c hc
  obtain ⟨hcur, hfind, hpos, hcs⟩ := member_facts σ hinv c hcm R hR hm
  have hRok := hinv.room_ok R hR
  have hlen0 : strlen message ≠ 0 := by
    intro h0
    apply hmsg
    have : strncpy message 1023 = [] := by
      unfold strncpy
      have hz : cstr message = [] :=
        List.length_eq_zero.mp (by rw [← strlen_eq_cstr_length]; exact h0)
      rw [hz]
      rfl
    rw [htext, this]
    rfl
  have htl : text.length ≤ 1023 := by rw [htext]; exact broadcast_text_length message
  have hframe := broadcast_frame_text c.username R.room_name text
    (username_length σ hnames c hcm) (hnames.room_len R hR) htl
  have heq : handle_broadcast_command σ net fd message
      = ((broadcast_loop net c.addr
            (lit "BROADCAST [" ++ c.username ++ lit "@" ++ R.room_name ++ lit "]: " ++ text)
            σ R.clients).1.with_rooms
          (update_room R.room_name
            (fun x => { x with total_messages_sent := int_incr x.total_messages_sent })
            (broadcast_loop net c.addr
              (lit "BROADCAST [" ++ c.username ++ lit "@" ++ R.room_name ++ lit "]: " ++ text)
              σ R.clients).1.room_list)).emit fd
        (if (broadcast_loop net c.addr
              (lit "BROADCAST [" ++ c.username ++ lit "@" ++ R.room_name ++ lit "]: " ++ text)
              σ R.clients).2.1
            = (broadcast_loop net c.addr
              (lit "BROADCAST [" ++ c.username ++ lit "@" ++ R.room_name ++ lit "]: " ++ text)
              σ R.clients).2.2 then
          snprintf 256 (lit "BROADCAST_SUCCESS Message delivered to "
            ++ dec (broadcast_loop net c.addr
              (lit "BROADCAST [" ++ c.username ++ lit "@" ++ R.room_name ++ lit "]: " ++ text)
              σ R.clients).2.2
            ++ lit " recipient(s) in room '" ++ R.room_name ++ lit "'")
        else
          snprintf 256 (lit "BROADCAST_PARTIAL Message delivered to "
            ++ dec (broadcast_loop net c.addr
              (lit "BROADCAST [" ++ c.username ++ lit "@" ++ R.room_name ++ lit "]: " ++ text)
              σ R.clients).2.1 ++ lit "/"
            ++ dec (broadcast_loop net c.addr
              (lit "BROADCAST [" ++ c.username ++ lit "@" ++ R.room_name ++ lit "]: " ++ text)
              σ R.clients).2.2
            ++ lit " recipient(s) in room '" ++ R.room_name ++ lit "'")) := by
    unfold handle_broadcast_command
    rw [if_neg hlen0, hc]
    dsimp only
    rw [if_neg (by omega), hfind]
    dsimp only
    rw [← htext, if_neg (fun h => hmsg (List.length_eq_zero.mp h)), hframe]
  obtain ⟨b1, b2, b3⟩ := broadcast_loop_out net c.addr
    (lit "BROADCAST [" ++ c.username ++ lit "@" ++ R.room_name ++ lit "]: " ++ text) R.clients σ
  obtain ⟨f1, f2, _⟩ := broadcast_loop_fields net c.addr
    (lit "BROADCAST [" ++ c.username ++ lit "@" ++ R.room_name ++ lit "]: " ++ text) R.clients σ
  rw [← hrecips] at b1 b2 b3
  rw [b2, b3, f2] at heq
  have hn15 : recips.length ≤ 15 := by
    have h1 : recips.length ≤ (active_members σ R.clients).length := by
      rw [hrecips]; exact List.length_filter_le _ _
    have h2 := active_members_length σ R.clients
    have h3 := List.length_filter_le Option.isSome R.clients
    have h4 : R.clients.length = 15 := hRok.2.2.1
    omega
  have hm15 : (recips.filter (fun d => net d.socket_fd)).length ≤ recips.length :=
    List.length_filter_le _ _
  have hrooms : (handle_broadcast_command σ net fd message).room_list
      = update_room R.room_name
          (fun x => { x with total_messages_sent := int_incr x.total_messages_sent }) σ.room_list := by
    rw [heq]; rfl
  have hfR : σ.room_list.find? (fun r => decide (r.room_name = R.room_name)) = some R := by
    unfold find_room at hfind
    rw [hcur, hcs] at hfind
    exact hfind
  refine ⟨?_, ?_, ?_, ?_, ?_, ?_, ?_⟩
  · intro hall
    have hmn : (recips.filter (fun d => net d.socket_fd)).length = recips.length :=
      List.filter_length_eq_length.mpr hall
    rw [heq, if_pos (by rw [hmn]), broadcast_success_text _ _ hn15 (hnames.room_len R hR)]
    show (broadcast_loop _ _ _ _ _).1.out ++ _ = _
    rw [b1]
  · intro hnot
    have hmn : (recips.filter (fun d => net d.socket_fd)).length ≠ recips.length :=
      fun e => hnot (List.filter_length_eq_length.mp e)
    refine ⟨by omega, ?_⟩
    rw [heq, if_neg (by intro e; exact hmn (by exact_mod_cast e)),
      broadcast_partial_text _ _ _ (by omega) hn15 (hnames.room_len R hR)]
    show (broadcast_loop _ _ _ _ _).1.out ++ _ = _
    rw [b1]
  · intro d hd
    rw [hrecips] at hd
    obtain ⟨h1, h2⟩ := List.mem_filter.mp hd
    have := others_socket_ne σ hinv c hcm _ d h1 (by simpa using h2)
    rw [hfd] at this
    exact this
  · unfold find_room
    rw [hrooms, hcs, find_update_room _ _ _
      (fun x => { x with total_messages_sent := int_incr x.total_messages_sent }) (fun x => rfl),
      if_pos rfl, hfR]
    rfl
  · intro n hn
    unfold find_room
    rw [hrooms, find_update_room _ _ _
      (fun x => { x with total_messages_sent := int_incr x.total_messages_sent }) (fun x => rfl),
      if_neg hn]
  · rw [hrooms]
    exact update_room_map R.room_name
      (fun x => { x with total_messages_sent := int_incr x.total_messages_sent })
      (fun r => (r.room_name, r.clients, r.client_count)) (fun x => rfl) σ.room_list
  · rw [heq]
    exact f1

/-- C18 (as amended): a sender that holds a slot of room `R` sends `/broadcast`
with a message whose text (the first 1023 bytes, trimmed) is not empty. The
frame "BROADCAST [<sender>@R]: <text>" goes once to each active member of `R`
other than the sender, in the order of the slots, and to nobody else; then the
sender gets the reply, BROADCAST_SUCCESS with the number `n` of recipients when
every send succeeded, and otherwise BROADCAST_PARTIAL with the number `m` of
successful sends, `m < n`. The broadcast counter of `R` is the result of
`total_messages_sent++`, which is one higher when the counter was below
INT_MAX (2^31 - 1); every other room is the record it was, slots and counts of
all rooms are the same, and so is the client list. -/
theorem broadcast_to_room (σ : Server) (net : Int → Bool) (fd : Int) (c : client_info)
    (R : room_info) (message text : List Nat) (recips : List client_info)
    (hσ : Reachable σ) (hc : find_client_by_socket σ fd = some c)
    (hR : R ∈ σ.room_list) (hm : some c.addr ∈ R.clients)
    (htext : text = rtrim ws_sp_tab_nl_cr (ltrim ws_sp_tab (strncpy message 1023)))
    (hmsg : text ≠ [])
    (hrecips : recips = (active_members σ R.clients).filter
      (fun d => decide (d.addr ≠ c.addr))) :
    ((∀ d ∈ recips, net d.socket_fd = true) →
      (handle_broadcast_command σ net fd message).out
        = σ.out ++ recips.map (fun d => (d.socket_fd,
            lit "BROADCAST [" ++ c.username ++ lit "@" ++ R.room_name ++ lit "]: " ++ text))
          ++ [(fd, lit "BROADCAST_SUCCESS Message delivered to " ++ dec (recips.length : Int)
            ++ lit " recipient(s) in room '" ++ R.room_name ++ lit "'")]) ∧
    (¬ (∀ d ∈ recips, net d.socket_fd = true) →
      (recips.filter (fun d => net d.socket_fd)).length < recips.length ∧
      (handle_broadcast_command σ net fd message).out
        = σ.out ++ recips.map (fun d => (d.socket_fd,
            lit "BROADCAST [" ++ c.username ++ lit "@" ++ R.room_name ++ lit "]: " ++ text))
          ++ [(fd, lit "BROADCAST_PARTIAL Message delivered to "
            ++ dec ((recips.filter (fun d => net d.socket_fd)).length : Int) ++ lit "/"
            ++ dec (recips.length : Int)
            ++ lit " recipient(s) in room '" ++ R.room_name ++ lit "'")]) ∧
    (∀ d ∈ recips, d.socket_fd ≠ fd) ∧
    find_room (handle_broadcast_command σ net fd message) R.room_name
      = some { R with total_messages_sent := int_incr R.total_messages_sent } ∧
    (R.total_messages_sent < 2147483647 →
      find_room (handle_broadcast_command σ net fd message) R.room_name
        = some { R with total_messages_sent := R.total_messages_sent + 1 }) ∧
    (∀ n, cstr n ≠ R.room_name →
      find_room (handle_broadcast_command σ net fd message) n = find_room σ n) ∧
    (handle_broadcast_command σ net fd message).room_list.map
        (fun r => (r.room_name, r.clients, r.client_count))
      = σ.room_list.map (fun r => (r.room_name, r.clients, r.client_count)) ∧
    (handle_broadcast_command σ net fd message).client_list = σ.client_list := by
  obtain ⟨e1, e2, e3, e4, e5, e6, e7⟩ := handle_broadcast_command_effect σ net fd c R message
    text recips hσ hc hR hm htext hmsg hrecips
  refine ⟨e1, e2, e3, e4, ?_, e5, e6, e7⟩
  intro hlt
  rw [e4, int_incr_of_lt _ hlt]

/-- The `/broadcast` of a session whose record names no room, with a non-empty
message text. The only frame sent is the reply "ERROR You must join a room
first to broadcast messages" to that session, and nothing else changes: the
rooms, their counters included, and the client list are the same. -/
theorem broadcast_without_room (σ : Server) (net : Int → Bool) (fd : Int) (c : client_info)
    (message : List Nat) (hc : find_client_by_socket σ fd = some c)
    (hno : c.current_room_name = []) (hmsg : 0 < strlen message) :
    handle_broadcast_command σ net fd message
      = σ.emit fd (lit "ERROR You must join a room first to broadcast messages") ∧
    (handle_broadcast_command σ net fd message).out
      = σ.out ++ [(fd, lit "ERROR You must join a room first to broadcast messages")] ∧
    (handle_broadcast_command σ net fd message).room_list = σ.room_list ∧
    (handle_broadcast_command σ net fd message).client_list = σ.client_list := by
  have heq : handle_broadcast_command σ net fd message
      = σ.emit fd (lit "ERROR You must join a room first to broadcast messages") := by
    unfold handle_broadcast_command
    rw [if_neg (by omega), hc]
    dsimp only
    rw [if_pos (by rw [hno]; rfl)]
  rw [heq]
  exact ⟨rfl, rfl, rfl, rfl⟩

/-! ## `/whisper`: lemmas -/

theorem takeWhile_dropWhile_stop {α : Type} (p : α → Bool) (l : List α) (x : α) (rest : List α)
    (h1 : ∀ y ∈ l, p y = true) (h2 : p x = false) :
    (l ++ x :: rest).takeWhile p = l ∧ (l ++ x :: rest).dropWhile p = x :: rest := by
  induction l with
  | nil =>
    refine ⟨?_, ?_⟩
    · rw [List.nil_append, List.takeWhile_cons, h2]
      simp only [Bool.false_eq_true, if_false]
    · rw [List.nil_append, List.dropWhile_cons, h2]
      simp only [Bool.false_eq_true, if_false]
  | cons y ys ih =>
    have hy := h1 y (List.mem_cons_self _ _)
    obtain ⟨i1, i2⟩ := ih (fun z hz => h1 z (List.mem_cons_of_mem _ hz))
    refine ⟨?_, ?_⟩
    · rw [List.cons_append, List.takeWhile_cons, hy, if_pos rfl, i1]
    · rw [List.cons_append, List.dropWhile_cons, hy, if_pos rfl, i2]

theorem isalnum_ne_space (x : Nat) (h : isalnum x = true) : (x != 32) = true := by
  have := (isalnum_not_blank x h).2.1
  unfold ws_sp_tab at this
  simp only [Bool.or_eq_false_iff, beq_eq_false_iff_ne, ne_eq] at this
  simp only [bne_iff_ne, ne_eq]
  exact this.1

/-- The arguments `t m` of a `/whisper`, for an alphanumeric target name `t`
and a message without NUL whose text after the leading blanks is not empty:
the handler gets past its tests of the form of the arguments. -/
theorem handle_whisper_command_args (σ : Server) (net : Int → Bool) (fd : Int)
    (s : client_info) (t m : List Nat) (hs : find_client_by_socket σ fd = some s)
    (hal : ∀ x ∈ t, isalnum x = true) (hm0 : 0 ∉ m) (hm : ltrim ws_sp_tab m ≠ []) :
    handle_whisper_command σ net fd (t ++ 32 :: m)
      = if s.username = t then σ.emit fd (lit "ERROR Cannot whisper to yourself")
        else
          match find_client_by_username σ t with
          | none => σ.emit fd
              (snprintf 256 (lit "ERROR User '" ++ t ++ lit "' not found or offline"))
          | some target =>
            if target.is_active = 0 then σ.emit fd
              (snprintf 256 (lit "ERROR User '" ++ t ++ lit "' not found or offline"))
            else if net target.socket_fd = true then
              (σ.emit target.socket_fd (snprintf 1024 (lit "WHISPER [" ++ s.username
                ++ [32, 226, 134, 146, 32] ++ target.username ++ lit "]: "
                ++ ltrim ws_sp_tab m))).emit fd
                (snprintf 256 (lit "WHISPER_SENT Whisper sent to " ++ t))
            else
              (σ.emit target.socket_fd (snprintf 1024 (lit "WHISPER [" ++ s.username
                ++ [32, 226, 134, 146, 32] ++ target.username ++ lit "]: "
                ++ ltrim ws_sp_tab m))).emit fd (lit "ERROR Failed to deliver whisper") := by
  have hnul : 0 ∉ t ++ 32 :: m := by
    intro h
    rcases List.mem_append.mp h with h | h
    · exact no_nul_of_alnum t hal h
    · rcases List.mem_cons.mp h with h | h
      · exact absurd h (by decide)
      · exact hm0 h
  have hcs : cstr (t ++ 32 :: m) = t ++ 32 :: m := cstr_of_no_nul _ hnul
  have hlen : strlen (t ++ 32 :: m) ≠ 0 := by
    rw [strlen_of_no_nul _ hnul, List.length_append, List.length_cons]
    omega
  obtain ⟨ht, hd⟩ := takeWhile_dropWhile_stop (fun c : Nat => c != 32) t 32 m
    (fun y hy => isalnum_ne_space y (hal y hy)) (by decide)
  unfold handle_whisper_command
  rw [if_neg hlen, hs]
  dsimp only
  rw [hcs, if_neg (fun h => h (List.mem_append_right _ (List.mem_cons_self _ _))), ht, hd,
    List.tail_cons, if_neg (fun h => hm (List.length_eq_zero.mp h))]

theorem snprintf_begins (size : Nat) (p rest : List Nat) (h : p.length + 1 ≤ size) :
    p <+: snprintf size (p ++ rest) := by
  unfold snprintf
  rw [List.take_append_eq_append_take, List.take_of_length_le (by omega)]
  exact ⟨_, rfl⟩

/-- C20 (as amended): a session `s` sends `/whisper t m` for a target name `t`
of 1 to 16 alphanumeric bytes and a message `m` that is not empty after its
leading blanks. If `t` is the name of `s`, the only frame sent is the reply
"ERROR Cannot whisper to yourself". Otherwise, if no active session is named
`t`, the only frame sent is the reply "ERROR User 't' not found or offline".
Otherwise one frame beginning "WHISPER [s → t]: " goes to the socket of the
session named `t`, which is not the socket of `s`, and then `s` gets the reply
"WHISPER_SENT Whisper sent to t" when that send succeeded and "ERROR Failed to
deliver whisper" when it failed; nothing is sent to any other session. In no
case does a registry or a room change. -/
theorem whisper_outcomes (σ : Server) (net : Int → Bool) (fd : Int) (s : client_info)
    (t m : List Nat) (hσ : Reachable σ) (hs : find_client_by_socket σ fd = some s)
    (hal : ∀ x ∈ t, isalnum x = true) (h0 : 1 ≤ t.length) (h1 : t.length ≤ 16)
    (hm0 : 0 ∉ m) (hm : ltrim ws_sp_tab m ≠ []) :
    (s.username = t →
      (handle_whisper_command σ net fd (t ++ 32 :: m)).out
        = σ.out ++ [(fd, lit "ERROR Cannot whisper to yourself")]) ∧
    (s.username ≠ t → (∀ d ∈ σ.client_list, d.is_active ≠ 0 → d.username ≠ t) →
      (handle_whisper_command σ net fd (t ++ 32 :: m)).out
        = σ.out ++ [(fd, lit "ERROR User '" ++ t ++ lit "' not found or offline")]) ∧
    (s.username ≠ t → ∀ d ∈ σ.client_list, d.is_active ≠ 0 → d.username = t →
      d.socket_fd ≠ fd ∧
      (lit "WHISPER [" ++ s.username ++ [32, 226, 134, 146, 32] ++ t ++ lit "]: ")
        <+: snprintf 1024 (lit "WHISPER [" ++ s.username ++ [32, 226, 134, 146, 32] ++ t
          ++ lit "]: " ++ ltrim ws_sp_tab m) ∧
      (handle_whisper_command σ net fd (t ++ 32 :: m)).out
        = σ.out ++ [(d.socket_fd, snprintf 1024 (lit "WHISPER [" ++ s.username
              ++ [32, 226, 134, 146, 32] ++ t ++ lit "]: " ++ ltrim ws_sp_tab m)),
            (fd, if net d.socket_fd = true then lit "WHISPER_SENT Whisper sent to " ++ t
                 else lit "ERROR Failed to deliver whisper")]) ∧
    (handle_whisper_command σ net fd (t ++ 32 :: m)).client_list = σ.client_list ∧
    (handle_whisper_command σ net fd (t ++ 32 :: m)).room_list = σ.room_list ∧
    (handle_whisper_command σ net fd (t ++ 32 :: m)).active_client_count
      = σ.active_client_count ∧
    (handle_whisper_command σ net fd (t ++ 32 :: m)).total_room_count
      = σ.total_room_count := by
  have hinv := reachable_inv σ hσ
  have hnames := reachable_names σ hσ
  obtain ⟨hsm, hfd⟩ := find_client_by_socket_some σ fd s hs
  have hargs := handle_whisper_command_args σ net fd s t m hs hal hm0 hm
  have hcst : cstr t = t := cstr_of_no_nul t (no_nul_of_alnum t hal)
  have e1 : (lit "ERROR User '").length = 12 := by decide
  have e2 : (lit "' not found or offline").length = 22 := by decide
  have e3 : (lit "WHISPER_SENT Whisper sent to ").length = 29 := by decide
  have e4 : (lit "WHISPER [").length = 9 := by decide
  have e5 : (lit "]: ").length = 3 := by decide
  have hnf : snprintf 256 (lit "ERROR User '" ++ t ++ lit "' not found or offline")
      = lit "ERROR User '" ++ t ++ lit "' not found or offline" :=
    snprintf_fit _ _ (by simp only [List.length_append, e1, e2]; omega)
  have hsent : snprintf 256 (lit "WHISPER_SENT Whisper sent to " ++ t)
      = lit "WHISPER_SENT Whisper sent to " ++ t :=
    snprintf_fit _ _ (by simp only [List.length_append, e3]; omega)
  have hsl := username_length σ hnames s hsm
  refine ⟨?_, ?_, ?_, ?_, ?_, ?_, ?_⟩
  · intro he
    rw [hargs, if_pos he]
    rfl
  · intro hne hnone
    have hf : find_client_by_username σ t = none := by
      unfold find_client_by_username
      rw [List.find?_eq_none]
      intro d hd hp
      have := of_decide_eq_true hp
      rw [hcst] at this
      exact hnone d hd this.1 this.2
    rw [hargs, if_neg hne, hf]
    dsimp only
    rw [hnf]
    rfl
  · intro hne d hd hact hname
    have hf : find_client_by_username σ t = some d := by
      unfold find_client_by_username
      cases hfx : σ.client_list.find? (fun c => decide (c.is_active ≠ 0 ∧ c.username = cstr t)) with
      | none =>
        have := List.find?_eq_none.mp hfx d hd
        rw [hcst] at this
        exact absurd (decide_eq_true (⟨hact, hname⟩ : d.is_active ≠ 0 ∧ d.username = t)) this
      | some d2 =>
        have h2 : d2.is_active ≠ 0 ∧ d2.username = cstr t := by
          simpa using List.find?_some hfx
        rw [hcst] at h2
        rw [eq_of_key (fun x : client_info => x.username) σ.client_list hnames.user_nodup d2 d
          (List.mem_of_find?_eq_some hfx) hd (h2.2.trans hname.symm)]
    refine ⟨?_, ?_, ?_⟩
    · intro he
      have := eq_of_key (fun x : client_info => x.socket_fd) σ.client_list hinv.fd_nodup d s
        hd hsm (he.trans hfd.symm)
      rw [this] at hname
      exact hne hname
    · have := snprintf_begins 1024
        (lit "WHISPER [" ++ s.username ++ [32, 226, 134, 146, 32] ++ t ++ lit "]: ")
        (ltrim ws_sp_tab m)
        (by simp only [List.length_append, e4, e5, List.length_cons, List.length_nil]; omega)
      exact this
    · rw [hargs, if_neg hne, hf]
      dsimp only
      rw [if_neg hact, hname, hsent]
      by_cases hn : net d.socket_fd = true
      · rw [if_pos hn, if_pos hn]
        simp only [Server.emit, List.append_assoc, List.singleton_append]
      · rw [if_neg hn, if_neg hn]
        simp only [Server.emit, List.append_assoc, List.singleton_append]
  · exact (handle_whisper_command_fields σ net fd _).1
  · exact (handle_whisper_command_fields σ net fd _).2.1
  · exact (handle_whisper_command_fields σ net fd _).2.2.2.1
  · exact (handle_whisper_command_fields σ net fd _).2.2.2.2

/-! ## The claims on rooms and messages at concrete states -/

/-- C20 as stated fails: `alice` and `bob` are logged in, `alice` sends
`/whisper bob hi`, and the send to the socket of `bob` fails. The name `bob` is
valid, it is not the name of the sender and an active session has it, yet the
reply is none of the three of the claim: it is "ERROR Failed to deliver
whisper". -/
theorem whisper_delivery_failure :
    Reachable (final scenario_pair) ∧
    (find_client_by_socket (final scenario_pair) 4).map (fun c => c.username)
      = some (lit "alice") ∧
    (find_client_by_username (final scenario_pair) (lit "bob")).map
      (fun c => (c.socket_fd, c.is_active)) = some (5, 1) ∧
    (handle_whisper_command (final scenario_pair) (fun _ => false) 4 (lit "bob hi")).out
      = (final scenario_pair).out
        ++ [(5, lit "WHISPER [alice " ++ [226, 134, 146] ++ lit " bob]: hi"),
            (4, lit "ERROR Failed to deliver whisper")] := by
  refine ⟨final_reachable scenario_pair (by decide), by decide, by decide, by decide⟩

theorem whisper_outcomes_witness :
    (handle_whisper_command (final scenario_pair) (fun _ => true) 4
        (lit "bob" ++ 32 :: lit "hi")).client_list = (final scenario_pair).client_list ∧
    (handle_whisper_command (final scenario_pair) (fun _ => true) 4
        (lit "bob" ++ 32 :: lit "hi")).room_list = (final scenario_pair).room_list :=
  ⟨(whisper_outcomes (final scenario_pair) (fun _ => true) 4
      ⟨1, lit "alice", 4, lit "room1", 0, lit "127.0.0.1", 40000, lit "/tmp", 1, 0, 0⟩
      (lit "bob") (lit "hi") (final_reachable scenario_pair (by decide)) (by decide) (by decide)
      (by decide) (by decide) (by decide) (by decide)).2.2.2.1,
   (whisper_outcomes (final scenario_pair) (fun _ => true) 4
      ⟨1, lit "alice", 4, lit "room1", 0, lit "127.0.0.1", 40000, lit "/tmp", 1, 0, 0⟩
      (lit "bob") (lit "hi") (final_reachable scenario_pair (by decide)) (by decide) (by decide)
      (by decide) (by decide) (by decide) (by decide)).2.2.2.2.1⟩

/-- C13 fails on the code. The sessions `alice` (socket 4) and `bob` (socket
5) are in `room1` and `bob` sends `/join room2`. `bob` is taken out of `room1`,
`alice` stays an active member of it, and the only frame the command sends is
the reply to `bob`: nothing goes to the socket of `alice`. -/
theorem join_elsewhere_no_notice :
    Reachable (final scenario_pair) ∧
    (final scenario_pair).room_list.map (fun r => (r.room_name, r.clients.take 3, r.client_count))
      = [(lit "room1", [some 1, some 2, none], 2)] ∧
    (handle_join_command (final scenario_pair) true 5 (lit "room2")).out
      = (final scenario_pair).out
        ++ [(5, lit "JOIN_SUCCESS Joined room 'room2' (1/15 clients)")] ∧
    (handle_join_command (final scenario_pair) true 5 (lit "room2")).room_list.map
        (fun r => (r.room_name, r.clients.take 3, r.client_count))
      = [(lit "room2", [some 2, none, none], 1), (lit "room1", [some 1, none, none], 1)] ∧
    (handle_join_command (final scenario_pair) true 5 (lit "room2")).client_list.map
        (fun c => (c.addr, c.username, c.socket_fd, c.is_active))
      = [(2, lit "bob", 5, 1), (1, lit "alice", 4, 1)] := by
  refine ⟨final_reachable scenario_pair (by decide), by decide, by decide, by decide, by decide⟩

/-- C15 fails on the code. Sixteen sessions; fifteen fill room `B`, the
sixteenth (user `p`, socket 25) is the only member of room `A` and sends
`/join B`. The reply begins with "ERROR", and the command has taken `p` out of
room `A` and removed room `A` from the registry. -/
theorem error_reply_changes_rooms :
    Reachable (final scenario_before_full) ∧
    (final scenario_before_full).room_list.map
        (fun r => (r.room_name, r.clients.head?, r.client_count))
      = [(lit "A", some (some 16), 1), (lit "B", some (some 1), 15)] ∧
    (find_client_by_socket (final scenario_before_full) 25).map
        (fun c => (c.addr, c.username, c.current_room_name)) = some (16, lit "p", lit "A") ∧
    (handle_join_command (final scenario_before_full) true 25 (lit "B")).out
      = (final scenario_before_full).out
        ++ [(25, lit "ERROR Room 'B' is full (15/15 clients)")] ∧
    (handle_join_command (final scenario_before_full) true 25 (lit "B")).room_list.map
        (fun r => (r.room_name, r.clients.head?, r.client_count))
      = [(lit "B", some (some 1), 15)] ∧
    (final scenario_before_full).total_room_count = 2 ∧
    (handle_join_command (final scenario_before_full) true 25 (lit "B")).total_room_count
      = 1 := by
  refine ⟨final_reachable scenario_before_full (by decide), by decide, by decide, by decide,
    by decide, by decide, by decide⟩

theorem join_from_no_room_witness :
    ∃ idx : Int, find_client_by_socket
        (handle_join_command (final scenario_trio) true 6 (lit "room1")) 6
      = some { (⟨3, lit "carol", 6, [], -1, lit "127.0.0.1", 40000, lit "/tmp", 1, 0, 0⟩ :
          client_info) with current_room_name := lit "room1", current_room_index := idx } :=
  (join_from_no_room (final scenario_trio) true 6
    ⟨3, lit "carol", 6, [], -1, lit "127.0.0.1", 40000, lit "/tmp", 1, 0, 0⟩ (lit "room1")
    ⟨lit "room1", [some 1, some 2, none, none, none, none, none, none, none, none, none, none,
      none, none, none], 2, 0⟩
    (final_reachable scenario_trio (by decide)) (by decide) rfl (by decide) (by decide)
    (by decide) (Or.inl ⟨by decide, by decide⟩)).2.2.2.1

theorem join_moves_session_witness :
    ∃ rb, find_room (handle_join_command (final scenario_pair) true 5 (lit "room2"))
        (lit "room2") = some rb ∧ some 2 ∈ rb.clients :=
  (join_moves_session (final scenario_pair) true 5
    ⟨2, lit "bob", 5, lit "room1", 0, lit "127.0.0.1", 40000, lit "/tmp", 1, 0, 0⟩
    ⟨lit "room1", [some 1, some 2, none, none, none, none, none, none, none, none, none, none,
      none, none, none], 2, 0⟩
    (lit "room2")
    ⟨lit "room2", List.replicate 15 none, 0, 0⟩
    (final_reachable scenario_pair (by decide)) (by decide) (by decide) (by decide) (by decide)
    (by decide) (by decide) (by decide) (Or.inr ⟨by decide, rfl, rfl⟩)).2.1

theorem join_full_room_rejected_witness :
    (handle_join_command (final scenario_before_full) true 25 (lit "B")).out
      = (final scenario_before_full).out
        ++ [(25, lit "ERROR Room '" ++ lit "B" ++ lit "' is full (15/15 clients)")] :=
  (join_full_room_rejected (final scenario_before_full) true 25
    ⟨16, lit "p", 25, lit "A", 0, lit "127.0.0.1", 40000, lit "/tmp", 1, 0, 0⟩ (lit "B")
    ⟨lit "B", [some 1, some 2, some 3, some 4, some 5, some 6, some 7, some 8, some 9, some 10,
      some 11, some 12, some 13, some 14, some 15], 15, 0⟩
    (final_reachable scenario_before_full (by decide)) (by decide) (by decide) (by decide)
    (by decide) rfl (by decide)).1

theorem leave_room_witness :
    handle_leave_command (handle_leave_command (final scenario_pair) 5) 5
      = (handle_leave_command (final scenario_pair) 5).emit 5
          (lit "ERROR You are not in any room") :=
  (leave_room (final scenario_pair) 5
    ⟨2, lit "bob", 5, lit "room1", 0, lit "127.0.0.1", 40000, lit "/tmp", 1, 0, 0⟩
    ⟨lit "room1", [some 1, some 2, none, none, none, none, none, none, none, none, none, none,
      none, none, none], 2, 0⟩
    (final_reachable scenario_pair (by decide)) (by decide) (by decide) (by decide)).2.2.2.2.2

theorem close_session_member_witness :
    find_client_by_socket (close_session (final scenario_pair) 5) 5 = none ∧
    find_client_by_username (close_session (final scenario_pair) 5) (lit "bob") = none :=
  ⟨(close_session_member (final scenario_pair) 5
      ⟨2, lit "bob", 5, lit "room1", 0, lit "127.0.0.1", 40000, lit "/tmp", 1, 0, 0⟩
      ⟨lit "room1", [some 1, some 2, none, none, none, none, none, none, none, none, none, none,
        none, none, none], 2, 0⟩
      (final_reachable scenario_pair (by decide)) (by decide) (by decide)
      (by decide)).2.2.2.2.2.2.1,
   (close_session_member (final scenario_pair) 5
      ⟨2, lit "bob", 5, lit "room1", 0, lit "127.0.0.1", 40000, lit "/tmp", 1, 0, 0⟩
      ⟨lit "room1", [some 1, some 2, none, none, none, none, none, none, none, none, none, none,
        none, none, none], 2, 0⟩
      (final_reachable scenario_pair (by decide)) (by decide) (by decide)
      (by decide)).2.2.2.2.2.2.2.1⟩

theorem broadcast_to_room_witness :
    (handle_broadcast_command (final scenario_pair) (fun _ => true) 4 (lit "hello")).out
      = (final scenario_pair).out
        ++ [(⟨2, lit "bob", 5, lit "room1", 0, lit "127.0.0.1", 40000, lit "/tmp", 1, 0, 0⟩ :
              client_info)].map (fun d => (d.socket_fd,
            lit "BROADCAST [" ++ lit "alice" ++ lit "@" ++ lit "room1" ++ lit "]: "
              ++ lit "hello"))
        ++ [(4, lit "BROADCAST_SUCCESS Message delivered to " ++ dec ((1 : Nat) : Int)
            ++ lit " recipient(s) in room '" ++ lit "room1" ++ lit "'")] :=
  (broadcast_to_room (final scenario_pair) (fun _ => true) 4
    ⟨1, lit "alice", 4, lit "room1", 0, lit "127.0.0.1", 40000, lit "/tmp", 1, 0, 0⟩
    ⟨lit "room1", [some 1, some 2, none, none, none, none, none, none, none, none, none, none,
      none, none, none], 2, 0⟩
    (lit "hello") (lit "hello")
    [⟨2, lit "bob", 5, lit "room1", 0, lit "127.0.0.1", 40000, lit "/tmp", 1, 0, 0⟩]
    (final_reachable scenario_pair (by decide)) (by decide) (by decide) (by decide) (by decide)
    (by decide) (by decide)).1 (by decide)

theorem broadcast_without_room_witness :
    (handle_broadcast_command demo_alice (fun _ => true) 4 (lit "hi")).out
      = demo_alice.out ++ [(4, lit "ERROR You must join a room first to broadcast messages")] :=
  (broadcast_without_room demo_alice (fun _ => true) 4
    ⟨1, lit "alice", 4, [], -1, lit "127.0.0.1", 40000, lit "/tmp", 1, 0, 0⟩ (lit "hi")
    (by decide) rfl (by decide)).2.1

/-! ## File names: lemmas -/

theorem tolower_eq_zero (x : Nat) : tolower x = 0 ↔ x = 0 := by
  unfold tolower
  split <;> omega

theorem strcasecmp_loop_zero (a : List Nat) : ∀ b : List Nat, 0 ∉ a → 0 ∉ b →
    (strcasecmp_loop a b = 0 ↔ a.map tolower = b.map tolower) := by
  induction a with
  | nil =>
    intro b _ hb
    cases b with
    | nil => simp [strcasecmp_loop]
    | cons y ys =>
      have hy : y ≠ 0 := fun h => hb (by rw [h]; exact List.mem_cons_self _ _)
      have : tolower y ≠ 0 := fun h => hy ((tolower_eq_zero y).mp h)
      simp only [strcasecmp_loop, List.map_nil, List.map_cons]
      constructor
      · intro h; omega
      · intro h; cases h
  | cons x xs ih =>
    intro b ha hb
    have hx : x ≠ 0 := fun h => ha (by rw [h]; exact List.mem_cons_self _ _)
    have hx2 : tolower x ≠ 0 := fun h => hx ((tolower_eq_zero x).mp h)
    cases b with
    | nil =>
      simp only [strcasecmp_loop, List.map_nil, List.map_cons]
      constructor
      · intro h; omega
      · intro h; cases h
    | cons y ys =>
      simp only [strcasecmp_loop, List.map_cons]
      by_cases h : tolower x = tolower y
      · rw [if_pos h, ih ys (fun m => ha (List.mem_cons_of_mem _ m))
          (fun m => hb (List.mem_cons_of_mem _ m)), h]
        constructor
        · intro e; rw [e]
        · intro e; exact (List.cons.inj e).2
      · rw [if_neg h]
        constructor
        · intro e; omega
        · intro e; exact absurd (List.cons.inj e).1 h

theorem strrchr_loop_none (c : Nat) (l : List Nat) : strrchr_loop c l = none ↔ c ∉ l := by
  induction l with
  | nil => simp [strrchr_loop]
  | cons x xs ih =>
    unfold strrchr_loop
    cases h : strrchr_loop c xs with
    | some r =>
      have : c ∈ xs := by
        by_contra hn
        rw [ih.mpr hn] at h
        cases h
      simp [this]
    | none =>
      have hn := ih.mp h
      by_cases hx : x = c
      · subst hx; simp
      · simp only [if_neg hx, List.mem_cons, true_iff, not_or]
        exact ⟨fun e => hx e.symm, hn⟩

/-- The search `strrchr` finds the part of the string that starts at the last
occurrence of the character. -/
theorem strrchr_loop_some (c : Nat) (l : List Nat) (r : List Nat) :
    strrchr_loop c l = some r ↔ ∃ pre suf, l = pre ++ c :: suf ∧ c ∉ suf ∧ r = c :: suf := by
  induction l generalizing r with
  | nil =>
    simp only [strrchr_loop]
    constructor
    · intro e; cases e
    · rintro ⟨pre, suf, h, _⟩
      cases pre <;> cases h
  | cons x xs ih =>
    unfold strrchr_loop
    cases h : strrchr_loop c xs with
    | some r2 =>
      obtain ⟨pre, suf, h1, h2, h3⟩ := (ih r2).mp h
      dsimp only
      constructor
      · intro e
        cases e
        exact ⟨x :: pre, suf, by rw [h1]; rfl, h2, h3⟩
      · rintro ⟨pre2, suf2, g1, g2, g3⟩
        have hin : c ∈ xs := by rw [h1]; exact List.mem_append_right _ (List.mem_cons_self _ _)
        cases pre2 with
        | nil =>
          rw [List.nil_append] at g1
          have := (List.cons.inj g1).2
          rw [this] at hin
          exact absurd hin g2
        | cons p ps =>
          rw [List.cons_append] at g1
          have g1b := (List.cons.inj g1).2
          have := (ih r).mpr ⟨ps, suf2, g1b, g2, g3⟩
          rw [h] at this
          exact this
    | none =>
      have hn := (strrchr_loop_none c xs).mp h
      dsimp only
      by_cases hx : x = c
      · rw [if_pos hx]
        constructor
        · intro e
          cases e
          exact ⟨[], xs, by rw [hx]; rfl, hn, by rw [hx]⟩
        · rintro ⟨pre2, suf2, g1, g2, g3⟩
          cases pre2 with
          | nil =>
            rw [List.nil_append] at g1
            rw [g3, g1]
          | cons p ps =>
            rw [List.cons_append] at g1
            have g1b := (List.cons.inj g1).2
            exact absurd (by rw [g1b]; exact List.mem_append_right _ (List.mem_cons_self _ _)) hn
      · rw [if_neg hx]
        constructor
        · intro e; cases e
        · rintro ⟨pre2, suf2, g1, g2, g3⟩
          cases pre2 with
          | nil =>
            rw [List.nil_append] at g1
            exact absurd (List.cons.inj g1).1 hx
          | cons p ps =>
            rw [List.cons_append] at g1
            have g1b := (List.cons.inj g1).2
            exact absurd (by rw [g1b]; exact List.mem_append_right _ (List.mem_cons_self _ _)) hn

theorem validate_file_extension_iff (f : List Nat) :
    validate_file_extension f = 1 ↔
      ∃ pre suf, cstr f = pre ++ 46 :: suf ∧ 46 ∉ suf ∧
        ∃ e ∈ ALLOWED_EXTENSIONS, (46 :: suf).map tolower = e.map tolower := by
  have hal : ∀ e ∈ ALLOWED_EXTENSIONS, 0 ∉ e ∧ cstr e = e := by decide
  unfold validate_file_extension strrchr
  cases h : strrchr_loop 46 (cstr f) with
  | none =>
    have hn := (strrchr_loop_none 46 (cstr f)).mp h
    simp only [false_iff, show ((0 : Int) = 1) = False from by simp]
    rintro ⟨pre, suf, h1, _⟩
    exact hn (by rw [h1]; exact List.mem_append_right _ (List.mem_cons_self _ _))
  | some dot =>
    obtain ⟨pre, suf, h1, h2, h3⟩ := (strrchr_loop_some 46 (cstr f) dot).mp h
    have hdot0 : 0 ∉ dot := by
      intro hm
      have : (0 : Nat) ∈ cstr f := by
        rw [h1, ← h3]; exact List.mem_append_right _ hm
      exact no_nul_cstr f this
    have hcd : cstr dot = dot := cstr_of_no_nul dot hdot0
    have hany : (ALLOWED_EXTENSIONS.any (fun e => strcasecmp dot e == 0)) = true ↔
        ∃ e ∈ ALLOWED_EXTENSIONS, dot.map tolower = e.map tolower := by
      rw [List.any_eq_true]
      constructor
      · rintro ⟨e, he, hz⟩
        refine ⟨e, he, ?_⟩
        have hz2 : strcasecmp dot e = 0 := by simpa using hz
        unfold strcasecmp at hz2
        rw [hcd, (hal e he).2] at hz2
        exact (strcasecmp_loop_zero dot e hdot0 (hal e he).1).mp hz2
      · rintro ⟨e, he, hz⟩
        refine ⟨e, he, ?_⟩
        have : strcasecmp dot e = 0 := by
          unfold strcasecmp
          rw [hcd, (hal e he).2]
          exact (strcasecmp_loop_zero dot e hdot0 (hal e he).1).mpr hz
        simpa using this
    dsimp only
    constructor
    · intro hv
      by_cases ha : (ALLOWED_EXTENSIONS.any (fun e => strcasecmp dot e == 0)) = true
      · obtain ⟨e, he, hz⟩ := hany.mp ha
        exact ⟨pre, suf, h1, h2, e, he, by rw [← h3]; exact hz⟩
      · rw [if_neg ha] at hv
        exact absurd hv (by decide)
    · rintro ⟨pre2, suf2, g1, g2, e, he, hz⟩
      have hd2 := (strrchr_loop_some 46 (cstr f) (46 :: suf2)).mpr ⟨pre2, suf2, g1, g2, rfl⟩
      rw [h] at hd2
      have hd3 : dot = 46 :: suf2 := Option.some.inj hd2
      rw [if_pos (hany.mpr ⟨e, he, by rw [hd3]; exact hz⟩)]

/-- C21: `validate_file_extension` returns 1 exactly when the filename has a
'.' and the part from its last '.' on is, up to the case of ASCII letters, one
of ".txt", ".pdf", ".jpg", ".png", ".mp4"; otherwise it returns 0. So "a.PNG"
is accepted, and "a.exe", "a.txt.exe" and "readme" are rejected. -/
theorem validate_file_extension_spec :
    (∀ f : List Nat, validate_file_extension f = 1 ↔
      ∃ pre suf, cstr f = pre ++ 46 :: suf ∧ 46 ∉ suf ∧
        ∃ e ∈ [lit ".txt", lit ".pdf", lit ".jpg", lit ".png", lit ".mp4"],
          (46 :: suf).map tolower = e.map tolower) ∧
    (∀ f : List Nat, validate_file_extension f = 1 ∨ validate_file_extension f = 0) ∧
    validate_file_extension (lit "a.PNG") = 1 ∧
    validate_file_extension (lit "a.exe") = 0 ∧
    validate_file_extension (lit "a.txt.exe") = 0 ∧
    validate_file_extension (lit "readme") = 0 := by
  refine ⟨validate_file_extension_iff, ?_, by decide, by decide, by decide, by decide⟩
  intro f
  unfold validate_file_extension
  split
  · exact Or.inr rfl
  · split
    · exact Or.inl rfl
    · exact Or.inr rfl

/-! ## File queue: lemmas -/

theorem split_at_index {α : Type} (l : List α) (i : Nat) (h : i < l.length) :
    ∃ pre a rest, l = pre ++ a :: rest ∧ pre.length = i := by
  refine ⟨l.take i, l.get ⟨i, h⟩, l.drop (i + 1), ?_, ?_⟩
  · have h1 : l.drop i = l.get ⟨i, h⟩ :: l.drop (i + 1) := by
      exact List.drop_eq_getElem_cons h
    rw [← h1, List.take_append_drop]
  · rw [List.length_take]; omega

theorem shift_loop_closed (k : Nat) : ∀ (pre : List file_queue_item) (a : file_queue_item)
    (rest : List file_queue_item), k ≤ rest.length →
    ∃ x, shift_loop k (pre ++ a :: rest) pre.length = pre ++ rest.take k ++ x :: rest.drop k := by
  induction k with
  | zero =>
    intro pre a rest _
    exact ⟨a, by simp [shift_loop]⟩
  | succ k ih =>
    intro pre a rest hk
    cases rest with
    | nil => simp at hk
    | cons b tl =>
      have hk2 : k ≤ tl.length := by simpa using hk
      obtain ⟨x, hx⟩ := ih (pre ++ [b]) b tl hk2
      refine ⟨x, ?_⟩
      have hget : (pre ++ a :: b :: tl).get? (pre.length + 1) = some b := by
        rw [List.get?_append_right (by omega)]
        simp
      have hset : (pre ++ a :: b :: tl).set pre.length b = (pre ++ [b]) ++ b :: tl := by
        rw [List.set_append_right _ _ (le_refl _)]
        simp
      unfold shift_loop
      rw [hget]
      dsimp only
      rw [hset]
      have hl : (pre ++ [b]).length = pre.length + 1 := by simp
      rw [← hl, hx]
      simp

theorem free_loop_closed (k : Nat) : ∀ (pre rest : List file_queue_item),
    free_loop k (pre ++ rest) pre.length =
      (pre ++ (rest.take k).map file_queue_item.cleared ++ rest.drop k,
       (rest.take k).filterMap (fun it => it.file_data)) := by
  induction k with
  | zero =>
    intro pre rest
    simp [free_loop]
  | succ k ih =>
    intro pre rest
    cases rest with
    | nil =>
      have hget : (pre ++ ([] : List file_queue_item)).get? pre.length = none := by simp
      unfold free_loop
      rw [hget]
      simp
    | cons it tl =>
      have hget : (pre ++ it :: tl).get? pre.length = some it := by
        rw [List.get?_append_right (le_refl _)]
        simp
      have hl : (pre ++ [it.cleared]).length = pre.length + 1 := by simp
      unfold free_loop
      rw [hget]
      dsimp only
      cases hd : it.file_data with
      | some p =>
        dsimp only
        have hset : (pre ++ it :: tl).set pre.length { it with file_data := none } =
            (pre ++ [it.cleared]) ++ tl := by
          rw [List.set_append_right _ _ (le_refl _)]
          simp [file_queue_item.cleared]
        rw [hset, ← hl, ih (pre ++ [it.cleared]) tl]
        simp [hd]
      | none =>
        dsimp only
        have hc : it.cleared = it := by
          cases it
          simp only [file_queue_item.cleared] at *
          simp only [hd] at *
        have hsame : pre ++ it :: tl = (pre ++ [it.cleared]) ++ tl := by rw [hc]; simp
        rw [hsame, ← hl, ih (pre ++ [it.cleared]) tl]
        simp [hd, hc]

/-- The invariant of the file queue: an array of 5 slots and a count between 0
and 5. -/
theorem queue_reachable_inv (q : file_queue_t) (h : QueueReachable q) :
    q.items.length = 5 ∧ 0 ≤ q.count ∧ q.count ≤ 5 := by
  induction h with
  | init => decide
  | add q f s r d n ss rs _ ih =>
    obtain ⟨h1, h2, h3⟩ := ih
    unfold add_to_file_queue
    split
    · exact ⟨h1, h2, h3⟩
    · rename_i hc
      have : q.count < 5 := by
        have : ¬ (q.count ≥ 5) := hc
        omega
      refine ⟨?_, ?_, ?_⟩
      · simp only [List.length_set]; exact h1
      · show 0 ≤ q.count + 1; omega
      · show q.count + 1 ≤ 5; omega
  | remove q i _ ih =>
    obtain ⟨h1, h2, h3⟩ := ih
    unfold remove_from_file_queue
    split
    · exact ⟨h1, h2, h3⟩
    · rename_i hc
      have hi : 0 ≤ i ∧ i < q.count := by omega
      have hlt : i.toNat < q.items.length := by omega
      obtain ⟨pre, a, rest, hsp, hpl⟩ := split_at_index q.items i.toNat hlt
      have hrl : rest.length = 4 - i.toNat := by
        have := congrArg List.length hsp
        simp at this
        omega
      obtain ⟨x, hx⟩ := shift_loop_closed (q.count - 1 - i).toNat pre a rest (by omega)
      refine ⟨?_, ?_, ?_⟩
      · show (shift_loop (q.count - 1 - i).toNat q.items i.toNat).length = 5
        rw [hsp, ← hpl, hx]
        simp
        omega
      · show 0 ≤ q.count - 1; omega
      · show q.count - 1 ≤ 5; omega
  | abort q _ ih =>
    obtain ⟨h1, h2, h3⟩ := ih
    have := free_loop_closed q.count.toNat [] q.items
    refine ⟨?_, le_refl _, by show (0 : Int) ≤ 5; decide⟩
    show (free_loop q.count.toNat q.items 0).1.length = 5
    rw [show q.items = [] ++ q.items from rfl, show (0 : Nat) = ([] : List file_queue_item).length from rfl, this]
    simp
    omega
  | cleanup q _ ih =>
    obtain ⟨h1, h2, h3⟩ := ih
    have := free_loop_closed q.count.toNat [] q.items
    refine ⟨?_, le_refl _, by show (0 : Int) ≤ 5; decide⟩
    show (free_loop q.count.toNat q.items 0).1.length = 5
    rw [show q.items = [] ++ q.items from rfl, show (0 : Nat) = ([] : List file_queue_item).length from rfl, this]
    simp
    omega

/-! ## File queue: admission and removal -/

theorem tickets_length (q : file_queue_t) (hl : q.items.length = 5) (h0 : 0 ≤ q.count)
    (h5 : q.count ≤ 5) : q.tickets.length = q.count.toNat := by
  unfold file_queue_t.tickets
  rw [List.length_take]
  omega

/-- Admission to a queue that is not full: the ticket goes to the slot at the
old count, which is the index returned. -/
theorem add_to_file_queue_stores (q : file_queue_t) (hl : q.items.length = 5) (h0 : 0 ≤ q.count)
    (h5 : q.count < 5) (filename sender receiver : List Nat) (file_data : Option Nat)
    (file_size : Nat) (ss rs : Int) :
    (add_to_file_queue q filename sender receiver file_data file_size ss rs).1 = q.count ∧
    (add_to_file_queue q filename sender receiver file_data file_size ss rs).2.count
      = q.count + 1 ∧
    (add_to_file_queue q filename sender receiver file_data file_size ss rs).2.items.length = 5 ∧
    (add_to_file_queue q filename sender receiver file_data file_size ss rs).2.items.get?
        q.count.toNat
      = some ⟨strncpy filename 255, strncpy sender 16, strncpy receiver 16, file_data,
          file_size, ss, rs⟩ ∧
    (add_to_file_queue q filename sender receiver file_data file_size ss rs).2.tickets
      = q.tickets ++ [⟨strncpy filename 255, strncpy sender 16, strncpy receiver 16, file_data,
          file_size, ss, rs⟩] := by
  have hc : ¬ (q.count ≥ (MAX_UPLOAD_QUEUE : Int)) := by
    show ¬ (q.count ≥ 5)
    omega
  have hlt : q.count.toNat < q.items.length := by omega
  obtain ⟨pre, a, rest, hsp, hpl⟩ := split_at_index q.items q.count.toNat hlt
  unfold add_to_file_queue
  rw [if_neg hc]
  dsimp only
  refine ⟨by omega, rfl, ?_, ?_, ?_⟩
  · rw [List.length_set]; exact hl
  · rw [hsp, ← hpl, List.set_append_right _ _ (le_refl _),
      List.get?_append_right (le_refl _)]
    simp
  · unfold file_queue_t.tickets
    dsimp only
    have h1 : (q.count + 1).toNat = pre.length + 1 := by omega
    rw [h1, hsp, ← hpl, List.set_append_right _ _ (le_refl _), List.take_append]
    simp

/-- Removal at a valid index: the count drops by one and the tickets are the
old ones without the one at the index. -/
theorem remove_from_file_queue_valid (q : file_queue_t) (hl : q.items.length = 5)
    (h5 : q.count ≤ 5) (index : Int) (hi0 : 0 ≤ index) (hi : index < q.count) :
    (remove_from_file_queue q index).1 = 0 ∧
    (remove_from_file_queue q index).2.1.count = q.count - 1 ∧
    (remove_from_file_queue q index).2.1.items.length = 5 ∧
    (remove_from_file_queue q index).2.1.tickets = q.tickets.eraseIdx index.toNat := by
  have hc : ¬ (index < 0 ∨ index ≥ q.count) := by omega
  have hlt : index.toNat < q.items.length := by omega
  obtain ⟨pre, a, rest, hsp, hpl⟩ := split_at_index q.items index.toNat hlt
  have hrl : rest.length = 4 - index.toNat := by
    have := congrArg List.length hsp
    simp at this
    omega
  obtain ⟨x, hx⟩ := shift_loop_closed (q.count - 1 - index).toNat pre a rest (by omega)
  unfold remove_from_file_queue
  rw [if_neg hc]
  dsimp only
  refine ⟨rfl, rfl, ?_, ?_⟩
  · rw [hsp, ← hpl, hx]
    simp
    omega
  · unfold file_queue_t.tickets
    dsimp only
    rw [hsp, ← hpl, hx]
    have h1 : (q.count - 1).toNat = pre.length + (q.count - 1 - index).toNat := by omega
    have h2 : q.count.toNat = pre.length + ((q.count - 1 - index).toNat + 1) := by omega
    have hk : (q.count - 1 - index).toNat ≤ rest.length := by omega
    rw [h1, h2]
    generalize (q.count - 1 - index).toNat = k at hk
    rw [List.append_assoc, List.take_append, List.take_append,
      List.eraseIdx_append_of_length_le (le_refl _)]
    simp
    rw [List.take_append_of_le_length (by simp; omega)]
    simp

/-- An admission followed by the removal of the index it returned gives back
the tickets and the count from before. -/
theorem add_then_remove (q : file_queue_t) (hl : q.items.length = 5) (h0 : 0 ≤ q.count)
    (h5 : q.count ≤ 5) (filename sender receiver : List Nat) (file_data : Option Nat)
    (file_size : Nat) (ss rs : Int) :
    (remove_from_file_queue
        (add_to_file_queue q filename sender receiver file_data file_size ss rs).2
        (add_to_file_queue q filename sender receiver file_data file_size ss rs).1).2.1.tickets
      = q.tickets ∧
    (remove_from_file_queue
        (add_to_file_queue q filename sender receiver file_data file_size ss rs).2
        (add_to_file_queue q filename sender receiver file_data file_size ss rs).1).2.1.count
      = q.count := by
  by_cases hfull : q.count = 5
  · have hc : q.count ≥ (MAX_UPLOAD_QUEUE : Int) := by
      show q.count ≥ 5
      omega
    have ha : add_to_file_queue q filename sender receiver file_data file_size ss rs
        = (-1, q) := by
      unfold add_to_file_queue
      rw [if_pos hc]
    rw [ha]
    have hc2 : (-1 : Int) < 0 ∨ (-1 : Int) ≥ q.count := Or.inl (by decide)
    unfold remove_from_file_queue
    dsimp only
    rw [if_pos hc2]
    exact ⟨rfl, rfl⟩
  · obtain ⟨a1, a2, a3, _, a5⟩ := add_to_file_queue_stores q hl h0 (by omega) filename sender
      receiver file_data file_size ss rs
    obtain ⟨_, r2, _, r4⟩ := remove_from_file_queue_valid
      (add_to_file_queue q filename sender receiver file_data file_size ss rs).2 a3
      (by rw [a2]; omega)
      (add_to_file_queue q filename sender receiver file_data file_size ss rs).1
      (by rw [a1]; exact h0) (by rw [a1, a2]; omega)
    refine ⟨?_, by rw [r2, a2]; omega⟩
    rw [r4, a5, a1]
    have ht := tickets_length q hl h0 h5
    rw [← ht, List.eraseIdx_append_of_length_le (le_refl _)]
    simp

theorem drain_closed (q : file_queue_t) :
    free_loop q.count.toNat q.items 0 =
      ((q.items.take q.count.toNat).map file_queue_item.cleared ++ q.items.drop q.count.toNat,
       (q.items.take q.count.toNat).filterMap (fun it => it.file_data)) := by
  have h := free_loop_closed q.count.toNat [] q.items
  simpa using h

/-- C23: in every state reachable from `init_file_queue` by admissions,
removals and drains the queue holds between 0 and 5 tickets; an admission to a
queue of 5 tickets returns -1 and leaves the queue as it was; an admission to a
queue of fewer tickets stores the ticket in the slot at the old count, appends
it to the tickets, and returns that index. -/
theorem file_queue_capacity (q : file_queue_t) (h : QueueReachable q)
    (filename sender receiver : List Nat) (file_data : Option Nat) (file_size : Nat)
    (ss rs : Int) :
    0 ≤ q.count ∧ q.count ≤ 5 ∧ q.tickets.length = q.count.toNat ∧ q.tickets.length ≤ 5 ∧
    (q.tickets.length = 5 →
      add_to_file_queue q filename sender receiver file_data file_size ss rs = (-1, q)) ∧
    (q.tickets.length < 5 →
      (add_to_file_queue q filename sender receiver file_data file_size ss rs).1
        = (q.tickets.length : Int) ∧
      (add_to_file_queue q filename sender receiver file_data file_size ss rs).2.items.get?
          q.tickets.length
        = some ⟨strncpy filename 255, strncpy sender 16, strncpy receiver 16, file_data,
            file_size, ss, rs⟩ ∧
      (add_to_file_queue q filename sender receiver file_data file_size ss rs).2.tickets
        = q.tickets ++ [⟨strncpy filename 255, strncpy sender 16, strncpy receiver 16,
            file_data, file_size, ss, rs⟩]) := by
  obtain ⟨hl, h0, h5⟩ := queue_reachable_inv q h
  have ht := tickets_length q hl h0 h5
  refine ⟨h0, h5, ht, by omega, ?_, ?_⟩
  · intro hfull
    have hc : q.count ≥ (MAX_UPLOAD_QUEUE : Int) := by
      show q.count ≥ 5
      omega
    unfold add_to_file_queue
    rw [if_pos hc]
  · intro hroom
    obtain ⟨a1, _, _, a4, a5⟩ := add_to_file_queue_stores q hl h0 (by omega) filename sender
      receiver file_data file_size ss rs
    rw [ht]
    exact ⟨by rw [a1]; omega, a4, a5⟩

theorem file_queue_capacity_witness :
    (add_to_file_queue queue_one (lit "doc.pdf") (lit "bob") (lit "alice") (some 8) 20 5 4).1
      = (queue_one.tickets.length : Int) :=
  ((file_queue_capacity queue_one
    (QueueReachable.add init_file_queue (lit "pic.png") (lit "alice") (lit "bob") (some 7) 10 4 5
      QueueReachable.init)
    (lit "doc.pdf") (lit "bob") (lit "alice") (some 8) 20 5 4).2.2.2.2.2 (by decide)).1

/-- C30: for a queue of 5 slots holding `count` tickets, removal at an index
`i` with `0 ≤ i < count` returns 0, lowers the count by one and leaves the other
tickets in their order, unchanged; removal at any other index returns -1 and
leaves the queue as it was; an admission followed by the removal of the index
it returned gives back the tickets and the count from before. -/
theorem remove_from_file_queue_spec (q : file_queue_t) (hl : q.items.length = 5)
    (h0 : 0 ≤ q.count) (h5 : q.count ≤ 5) :
    (∀ index : Int, 0 ≤ index → index < q.count →
      (remove_from_file_queue q index).1 = 0 ∧
      (remove_from_file_queue q index).2.1.count = q.count - 1 ∧
      (remove_from_file_queue q index).2.1.tickets = q.tickets.eraseIdx index.toNat) ∧
    (∀ index : Int, ¬ (0 ≤ index ∧ index < q.count) →
      (remove_from_file_queue q index).1 = -1 ∧ (remove_from_file_queue q index).2.1 = q) ∧
    (∀ (filename sender receiver : List Nat) (file_data : Option Nat) (file_size : Nat)
        (ss rs : Int),
      (remove_from_file_queue
          (add_to_file_queue q filename sender receiver file_data file_size ss rs).2
          (add_to_file_queue q filename sender receiver file_data file_size ss rs).1).2.1.tickets
        = q.tickets ∧
      (remove_from_file_queue
          (add_to_file_queue q filename sender receiver file_data file_size ss rs).2
          (add_to_file_queue q filename sender receiver file_data file_size ss rs).1).2.1.count
        = q.count) := by
  refine ⟨?_, ?_, ?_⟩
  · intro index hi0 hi
    obtain ⟨r1, r2, _, r4⟩ := remove_from_file_queue_valid q hl h5 index hi0 hi
    exact ⟨r1, r2, r4⟩
  · intro index hn
    have hc : index < 0 ∨ index ≥ q.count := by omega
    unfold remove_from_file_queue
    rw [if_pos hc]
    exact ⟨rfl, rfl⟩
  · intro filename sender receiver file_data file_size ss rs
    exact add_then_remove q hl h0 h5 filename sender receiver file_data file_size ss rs

theorem remove_from_file_queue_spec_witness :
    (remove_from_file_queue queue_two 0).1 = 0 ∧
    (remove_from_file_queue queue_two 0).2.1.count = queue_two.count - 1 ∧
    (remove_from_file_queue queue_two 0).2.1.tickets = queue_two.tickets.eraseIdx (0 : Int).toNat :=
  (remove_from_file_queue_spec queue_two (by decide) (by decide) (by decide)).1 0 (by decide)
    (by decide)

/-- C24 fails: after one admission (payload buffer at address 7) and the
removal of that ticket, and likewise after one completed `/sendfile`, both
drains leave the count at 0, but slot 0 of the ticket array still holds the
reference 7 to the buffer that `remove_from_file_queue` has freed. -/
theorem drain_keeps_stale_reference :
    QueueReachable (remove_from_file_queue queue_one 0).2.1 ∧
    (remove_from_file_queue queue_one 0).2.2 = [7] ∧
    (abort_all_file_transfers (remove_from_file_queue queue_one 0).2.1).1.count = 0 ∧
    (abort_all_file_transfers (remove_from_file_queue queue_one 0).2.1).1.items.map
        (fun it => it.file_data) = [some 7, none, none, none, none] ∧
    (cleanup_file_queue (remove_from_file_queue queue_one 0).2.1).1.count = 0 ∧
    (cleanup_file_queue (remove_from_file_queue queue_one 0).2.1).1.items.map
        (fun it => it.file_data) = [some 7, none, none, none, none] ∧
    (handle_sendfile_command world_upload (fun _ => true) [] 7 4
        (lit "pic.png bob")).queue.count = 0 ∧
    (cleanup_file_queue (handle_sendfile_command world_upload (fun _ => true) [] 7 4
        (lit "pic.png bob")).queue).1.items.map (fun it => it.file_data)
      = [some 7, none, none, none, none] :=
  ⟨QueueReachable.remove queue_one 0
      (QueueReachable.add init_file_queue (lit "pic.png") (lit "alice") (lit "bob") (some 7) 10
        4 5 QueueReachable.init),
    by decide, by decide, by decide, by decide, by decide, by decide, by decide⟩

/-- What the two drains do: afterwards the count is 0, every slot below the
count the drain found holds no reference to a payload buffer, the buffers the
tickets referred to have been passed to `free`, and the slots at or above that
count are left as they were. -/
theorem drain_clears_tickets (q : file_queue_t) :
    (abort_all_file_transfers q).1.count = 0 ∧
    (abort_all_file_transfers q).1.tickets = [] ∧
    (∀ it ∈ (abort_all_file_transfers q).1.items.take q.count.toNat, it.file_data = none) ∧
    (abort_all_file_transfers q).1.items.drop q.count.toNat = q.items.drop q.count.toNat ∧
    (abort_all_file_transfers q).2 = q.tickets.filterMap (fun it => it.file_data) ∧
    cleanup_file_queue q = abort_all_file_transfers q := by
  have hd := drain_closed q
  have hlen : ((q.items.take q.count.toNat).map file_queue_item.cleared).length
      = min q.count.toNat q.items.length := by simp
  refine ⟨rfl, rfl, ?_, ?_, ?_, rfl⟩
  · intro it hit
    have hit2 : it ∈ ((free_loop q.count.toNat q.items 0).1).take q.count.toNat := hit
    rw [hd] at hit2
    dsimp only at hit2
    have := List.mem_of_mem_take hit2
    rcases List.mem_append.mp this with hm | hm
    · obtain ⟨x, _, hx⟩ := List.mem_map.mp hm
      rw [← hx]
      rfl
    · by_cases hle : q.count.toNat ≤ q.items.length
      · rw [List.take_append_of_le_length (by rw [hlen]; omega)] at hit2
        obtain ⟨x, _, hx⟩ := List.mem_map.mp (List.mem_of_mem_take hit2)
        rw [← hx]
        rfl
      · rw [List.drop_eq_nil_of_le (by omega)] at hm
        cases hm
  · show ((free_loop q.count.toNat q.items 0).1).drop q.count.toNat = _
    rw [hd]
    dsimp only
    by_cases hle : q.count.toNat ≤ q.items.length
    · rw [List.drop_append_of_le_length (by rw [hlen]; omega)]
      rw [List.drop_eq_nil_of_le (by rw [hlen]; omega)]
      simp
    · have hd0 : q.items.drop q.count.toNat = [] := List.drop_eq_nil_of_le (by omega)
      rw [hd0, List.append_nil]
      exact List.drop_eq_nil_of_le (by rw [hlen]; omega)
  · show (free_loop q.count.toNat q.items 0).2 = _
    rw [hd]
    rfl

/-! ## File transfer over a socket: lemmas -/

/-- One `recv` call that asks for `m ≥ 1` bytes of the `d` that are on the wire
and does not fail returns some first part of `d`, at least one byte. -/
theorem recv_some (s : Sock) (m : Nat) (d rest : List Nat) (hs : Io.err ∉ s.sched)
    (hw : s.wire = d ++ rest) (hm : 1 ≤ m) (hmd : m ≤ d.length) :
    ∃ c sched, 1 ≤ c ∧ c ≤ m ∧ Io.err ∉ sched ∧
      recv s m = ((c : Int), d.take c, ⟨d.drop c ++ rest, sched⟩) := by
  have hwl : s.wire.length = d.length + rest.length := by rw [hw, List.length_append]
  have hmin : min m s.wire.length = m := by omega
  cases hsc : s.sched with
  | nil =>
    refine ⟨m, [], hm, le_refl _, by simp, ?_⟩
    have ht : s.wire.take m = d.take m := by
      rw [hw, List.take_append_of_le_length hmd]
    have hdr : s.wire.drop m = d.drop m ++ rest := by
      rw [hw, List.drop_append_of_le_length hmd]
    simp only [recv, hsc, hmin, ht, hdr]
  | cons e tl =>
    cases e with
    | err => exact absurd (hsc ▸ List.mem_cons_self _ _) hs
    | take k =>
      have hc1 := chunk_pos k m (by omega)
      have hc2 := chunk_le k m
      have htl : Io.err ∉ tl := fun hx => hs (hsc ▸ List.mem_cons_of_mem _ hx)
      refine ⟨chunk k m, tl, hc1, hc2, htl, ?_⟩
      have ht : s.wire.take (chunk k m) = d.take (chunk k m) := by
        rw [hw, List.take_append_of_le_length (by omega)]
      have hdr : s.wire.drop (chunk k m) = d.drop (chunk k m) ++ rest := by
        rw [hw, List.drop_append_of_le_length (by omega)]
      simp only [recv, hsc, hmin, ht, hdr]

/-- A `recv` with `MSG_WAITALL` on a wire that holds the bytes it still needs
returns with all `n` bytes, whatever the short reads. -/
theorem recv_waitall_ok (fuel : Nat) : ∀ (s : Sock) (n : Nat) (got d rest : List Nat),
    Io.err ∉ s.sched → s.wire = d ++ rest → got.length + d.length = n → d.length ≤ fuel →
    ∃ sched, Io.err ∉ sched ∧
      recv_waitall fuel s n got = ((n : Int), got ++ d, ⟨rest, sched⟩) := by
  induction fuel with
  | zero =>
    intro s n got d rest hs hw hn hf
    have hd0 : d = [] := List.length_eq_zero.mp (by omega)
    subst hd0
    refine ⟨s.sched, hs, ?_⟩
    have hlt : ¬ (got.length < n) := by simp at hn; omega
    unfold recv_waitall
    rw [if_neg hlt]
    have : got.length = n := by simpa using hn
    cases s
    simp_all
  | succ fuel ih =>
    intro s n got d rest hs hw hn hf
    by_cases hd0 : d = []
    · subst hd0
      refine ⟨s.sched, hs, ?_⟩
      have hlt : ¬ (got.length < n) := by simp at hn; omega
      unfold recv_waitall
      rw [if_neg hlt]
      have : got.length = n := by simpa using hn
      cases s
      simp_all
    · have hdl : 1 ≤ d.length := by
        cases d with
        | nil => exact absurd rfl hd0
        | cons x xs => simp
      have hlt : got.length < n := by omega
      obtain ⟨c, sched, hc1, hc2, hsc, hr⟩ := recv_some s (n - got.length) d rest hs hw
        (by omega) (by omega)
      unfold recv_waitall
      rw [if_pos hlt]
      dsimp only
      rw [hr]
      dsimp only
      have hpos : ¬ ((c : Int) ≤ 0) := by omega
      rw [if_neg hpos]
      obtain ⟨sched2, h1, h2⟩ := ih ⟨d.drop c ++ rest, sched⟩ n (got ++ d.take c) (d.drop c)
        rest hsc rfl
        (by rw [List.length_append, List.length_take, List.length_drop]; omega)
        (by rw [List.length_drop]; omega)
      refine ⟨sched2, h1, ?_⟩
      rw [h2, List.append_assoc, List.take_append_drop]

/-- The chunked receive loop of a file, on a wire that holds the bytes it still
needs, stores them at `i` and consumes exactly these bytes. -/
theorem recv_file_loop_ok (fuel : Nat) : ∀ (s : Sock) (buf : List Nat) (i n : Nat)
    (d rest : List Nat),
    Io.err ∉ s.sched → s.wire = d ++ rest → i + d.length = n → n ≤ buf.length →
    d.length ≤ fuel →
    ∃ sched, Io.err ∉ sched ∧
      recv_file_loop fuel s buf i n = (some (store buf i d), ⟨rest, sched⟩) := by
  induction fuel with
  | zero =>
    intro s buf i n d rest hs hw hn _ hf
    have hd0 : d = [] := List.length_eq_zero.mp (by omega)
    subst hd0
    refine ⟨s.sched, hs, ?_⟩
    have hlt : ¬ (i < n) := by simp at hn; omega
    unfold recv_file_loop
    rw [if_neg hlt, store_nil]
    cases s
    simp_all
  | succ fuel ih =>
    intro s buf i n d rest hs hw hn hb hf
    by_cases hd0 : d = []
    · subst hd0
      refine ⟨s.sched, hs, ?_⟩
      have hlt : ¬ (i < n) := by simp at hn; omega
      unfold recv_file_loop
      rw [if_neg hlt, store_nil]
      cases s
      simp_all
    · have hdl : 1 ≤ d.length := by
        cases d with
        | nil => exact absurd rfl hd0
        | cons x xs => simp
      have hlt : i < n := by omega
      have hcs : 1 ≤ (if n - i < CHUNK_SIZE then n - i else CHUNK_SIZE) ∧
          (if n - i < CHUNK_SIZE then n - i else CHUNK_SIZE) ≤ d.length := by
        have : CHUNK_SIZE = 4096 := rfl
        split <;> omega
      obtain ⟨c, sched, hc1, hc2, hsc, hr⟩ := recv_some s
        (if n - i < CHUNK_SIZE then n - i else CHUNK_SIZE) d rest hs hw hcs.1 hcs.2
      unfold recv_file_loop
      rw [if_pos hlt]
      dsimp only
      rw [hr]
      dsimp only
      have hpos : ¬ ((c : Int) ≤ 0) := by omega
      rw [if_neg hpos, Int.toNat_ofNat]
      have hlt2 : (d.take c).length = c := by rw [List.length_take]; omega
      obtain ⟨sched2, h1, h2⟩ := ih ⟨d.drop c ++ rest, sched⟩ (store buf i (d.take c)) (i + c) n
        (d.drop c) rest hsc rfl
        (by rw [List.length_drop]; omega)
        (by simp only [store, List.length_append, List.length_take, List.length_drop]; omega)
        (by rw [List.length_drop]; omega)
      refine ⟨sched2, h1, ?_⟩
      rw [h2]
      have h4 := store_store buf i (d.take c) (d.drop c) (by omega)
      rw [hlt2, List.take_append_drop] at h4
      rw [h4]

/-- The result of `receive_file_from_client` on a stream that starts with the
declared length `L` and the `L` bytes of the payload. -/
theorem receive_file_ok (s : Sock) (L : Nat) (payload rest : List Nat)
    (hs : Io.err ∉ s.sched) (hL : L ≤ 3145728) (hw : s.wire = htonl L ++ payload ++ rest)
    (hp : payload.length = L) :
    ∃ sched, Io.err ∉ sched ∧
      receive_file_from_client true s = (0, some payload, L, ⟨rest, sched⟩) := by
  obtain ⟨sc1, h1, h2⟩ := recv_waitall_ok 4 s 4 [] (htonl L) (payload ++ rest) hs
    (by rw [hw, List.append_assoc]) (by simp [htonl_length]) (by simp [htonl_length])
  rw [List.nil_append] at h2
  obtain ⟨sc2, h3, h4⟩ := recv_file_loop_ok L ⟨payload ++ rest, sc1⟩ (List.replicate L 0) 0 L
    payload rest h1 rfl (by omega) (by simp) (by omega)
  rw [store_zero_full _ _ (by simp [hp])] at h4
  refine ⟨sc2, h3, ?_⟩
  have hsz : ¬ (L > MAX_FILE_SIZE) := by
    show ¬ (L > 3 * 1024 * 1024)
    omega
  unfold receive_file_from_client
  dsimp only
  rw [h2]
  dsimp only
  rw [if_neg (by decide), ntohl_htonl L (by omega), if_neg hsz]
  simp only [Bool.not_true, Bool.false_eq_true, if_false]
  rw [h4]

/-- The result of `receive_file_from_client` on a stream that starts with a
declared length above the limit: nothing after the length is read. -/
theorem receive_file_too_large (alloc_ok : Bool) (s : Sock) (L : Nat) (rest : List Nat)
    (hs : Io.err ∉ s.sched) (hL : 3145728 < L) (hL2 : L < 4294967296)
    (hw : s.wire = htonl L ++ rest) :
    ∃ sched, Io.err ∉ sched ∧
      receive_file_from_client alloc_ok s = (-1, none, L, ⟨rest, sched⟩) := by
  obtain ⟨sc1, h1, h2⟩ := recv_waitall_ok 4 s 4 [] (htonl L) rest hs
    hw (by simp [htonl_length]) (by simp [htonl_length])
  rw [List.nil_append] at h2
  refine ⟨sc1, h1, ?_⟩
  have hsz : L > MAX_FILE_SIZE := by
    show L > 3 * 1024 * 1024
    omega
  unfold receive_file_from_client
  dsimp only
  rw [h2]
  dsimp only
  rw [if_neg (by decide), ntohl_htonl L hL2, if_pos hsz]

/-- C22: `receive_file_from_client` accepts every declared length up to 3 MiB
(3145728) inclusive: on a stream that carries the 4-byte big-endian length `L`
and then `L` payload bytes it returns 0 with a buffer equal to these `L` bytes
in order and leaves the bytes after them unread, for every split of the stream
into short reads; for every declared length from 3145729 on it returns -1
without a buffer and leaves every byte after the length unread. -/
theorem receive_file_spec (s : Sock) (L : Nat) (hs : Io.err ∉ s.sched) (hL : L < 4294967296) :
    (L ≤ 3145728 → ∀ payload rest : List Nat, s.wire = htonl L ++ payload ++ rest →
      payload.length = L →
      ∃ sched, receive_file_from_client true s = (0, some payload, L, ⟨rest, sched⟩)) ∧
    (3145729 ≤ L → ∀ (rest : List Nat) (alloc_ok : Bool), s.wire = htonl L ++ rest →
      ∃ sched, receive_file_from_client alloc_ok s = (-1, none, L, ⟨rest, sched⟩)) := by
  refine ⟨?_, ?_⟩
  · intro hle payload rest hw hp
    obtain ⟨sched, _, h⟩ := receive_file_ok s L payload rest hs hle hw hp
    exact ⟨sched, h⟩
  · intro hgt rest alloc_ok hw
    obtain ⟨sched, _, h⟩ := receive_file_too_large alloc_ok s L rest hs (by omega) hL hw
    exact ⟨sched, h⟩

theorem receive_file_spec_witness :
    ∃ sched, receive_file_from_client true
        ⟨htonl 10 ++ [1, 2, 3, 4, 5, 6, 7, 8, 9, 10] ++ [99], [Io.take 2, Io.take 3]⟩
      = (0, some [1, 2, 3, 4, 5, 6, 7, 8, 9, 10], 10, ⟨[99], sched⟩) :=
  (receive_file_spec ⟨htonl 10 ++ [1, 2, 3, 4, 5, 6, 7, 8, 9, 10] ++ [99], [Io.take 2, Io.take 3]⟩
    10 (by decide) (by decide)).1 (by decide) [1, 2, 3, 4, 5, 6, 7, 8, 9, 10] [99] rfl rfl

/-! ## Shutdown notifications: lemmas -/

theorem notify_transfer_loop_out (l : List file_queue_item) : ∀ σ : Server,
    (notify_transfer_loop σ l).out = σ.out ++ l.flatMap (fun item =>
      [(item.sender_socket, sender_msg item), (item.receiver_socket, receiver_msg item)]) ∧
    (notify_transfer_loop σ l).client_list = σ.client_list := by
  induction l with
  | nil => intro σ; simp [notify_transfer_loop]
  | cons item rest ih =>
    intro σ
    unfold notify_transfer_loop
    obtain ⟨h1, h2⟩ := ih ((σ.emit item.sender_socket (sender_msg item)).emit
      item.receiver_socket (receiver_msg item))
    rw [h1, h2]
    simp [Server.emit]

theorem shutdown_notify_loop_out (l : List client_info) : ∀ σ : Server,
    (shutdown_notify_loop σ l).out = σ.out ++
      (l.filter (fun c => decide (c.is_active ≠ 0 ∧ c.socket_fd ≥ 0))).map (fun c =>
        (c.socket_fd, lit "SERVER_SHUTDOWN Server is shutting down. Please disconnect.")) := by
  induction l with
  | nil => intro σ; simp [shutdown_notify_loop]
  | cons c rest ih =>
    intro σ
    unfold shutdown_notify_loop
    by_cases h : c.is_active ≠ 0 ∧ c.socket_fd ≥ 0
    · rw [if_pos h, ih, List.filter_cons_of_pos (by simpa using h)]
      simp [Server.emit]
    · rw [if_neg h, ih, List.filter_cons_of_neg (by simpa using h)]

theorem frames_since_append (σ σ2 : Server) (x : List (Int × List Nat))
    (h : σ2.out = σ.out ++ x) :
    frames_since σ σ2 = x.map (fun e => ShutdownStep.frame e.1 e.2) := by
  unfold frames_since
  rw [h, List.drop_left]

/-- The steps of `shutdown_all_clients` when the queue holds tickets. -/
theorem shutdown_all_clients_steps (σ : Server) (q : file_queue_t) (h : 0 < q.count) :
    (shutdown_all_clients σ q).2.2 =
      (q.tickets.flatMap (fun item =>
        [ShutdownStep.frame item.sender_socket (sender_msg item),
         ShutdownStep.frame item.receiver_socket (receiver_msg item)]))
      ++ [ShutdownStep.drain]
      ++ (σ.client_list.filter (fun c => decide (c.is_active ≠ 0 ∧ c.socket_fd ≥ 0))).map
          (fun c => ShutdownStep.frame c.socket_fd
            (lit "SERVER_SHUTDOWN Server is shutting down. Please disconnect.")) ∧
    (shutdown_all_clients σ q).2.1 = (abort_all_file_transfers q).1 := by
  have hc : get_file_queue_count q > 0 := h
  have hne : ¬ (q.count = 0) := by omega
  obtain ⟨h1, h2⟩ := notify_transfer_loop_out q.tickets σ
  have h3 := shutdown_notify_loop_out σ.client_list (notify_transfer_loop σ q.tickets)
  unfold shutdown_all_clients
  rw [if_pos hc]
  dsimp only
  unfold notify_file_transfer_shutdown
  rw [if_neg hne, h2]
  refine ⟨?_, rfl⟩
  rw [frames_since_append _ _ _ h1, frames_since_append _ _ _ h3]
  simp [List.map_flatMap, List.map_map, Function.comp_def]

/-- The steps of `shutdown_all_clients` when the queue holds no ticket. -/
theorem shutdown_all_clients_idle (σ : Server) (q : file_queue_t) (h : q.count ≤ 0) :
    (shutdown_all_clients σ q).2.2 =
      (σ.client_list.filter (fun c => decide (c.is_active ≠ 0 ∧ c.socket_fd ≥ 0))).map
        (fun c => ShutdownStep.frame c.socket_fd
          (lit "SERVER_SHUTDOWN Server is shutting down. Please disconnect.")) ∧
    (shutdown_all_clients σ q).2.1 = q := by
  have hc : ¬ (get_file_queue_count q > 0) := by
    show ¬ (q.count > 0)
    omega
  have h3 := shutdown_notify_loop_out σ.client_list σ
  unfold shutdown_all_clients
  rw [if_neg hc]
  dsimp only
  refine ⟨?_, rfl⟩
  rw [frames_since_append _ _ _ h3, List.map_map]
  rfl

/-- C27 (counterexample): with alice (socket 4) and bob (socket 5) logged in
and one ticket from alice to bob in the queue, `shutdown_all_clients` first
sends the two FILE_TRANSFER_ABORT frames, then drains the queue, and sends the
SERVER_SHUTDOWN frames last. -/
theorem shutdown_aborts_first :
    (shutdown_all_clients (final scenario_pair) queue_one).2.2 =
      [ShutdownStep.frame 4 (lit
          "FILE_TRANSFER_ABORT Server shutting down - file transfer of 'pic.png' to 'bob' cancelled"),
       ShutdownStep.frame 5 (lit
          "FILE_TRANSFER_ABORT Server shutting down - incoming file 'pic.png' from 'alice' cancelled"),
       ShutdownStep.drain,
       ShutdownStep.frame 5 (lit "SERVER_SHUTDOWN Server is shutting down. Please disconnect."),
       ShutdownStep.frame 4 (lit "SERVER_SHUTDOWN Server is shutting down. Please disconnect.")] := by
  decide

/-- C27 (amended): when tickets are outstanding, `shutdown_all_clients` first
sends, for every ticket in the queue's order, a frame beginning
"FILE_TRANSFER_ABORT Server shutting down - " to the ticket's sender socket and
one to its receiver socket, then drains the queue, and only after that sends
"SERVER_SHUTDOWN Server is shutting down. Please disconnect." to every active
session with a socket, in the order of the client list. With no ticket
outstanding it sends the SERVER_SHUTDOWN frames only and leaves the queue as
it is. -/
theorem shutdown_order (σ : Server) (q : file_queue_t) :
    (0 < q.count →
      (shutdown_all_clients σ q).2.2 =
        (q.tickets.flatMap (fun item =>
          [ShutdownStep.frame item.sender_socket (sender_msg item),
           ShutdownStep.frame item.receiver_socket (receiver_msg item)]))
        ++ [ShutdownStep.drain]
        ++ (σ.client_list.filter (fun c => decide (c.is_active ≠ 0 ∧ c.socket_fd ≥ 0))).map
            (fun c => ShutdownStep.frame c.socket_fd
              (lit "SERVER_SHUTDOWN Server is shutting down. Please disconnect.")) ∧
      (shutdown_all_clients σ q).2.1 = (abort_all_file_transfers q).1) ∧
    (q.count ≤ 0 →
      (shutdown_all_clients σ q).2.2 =
        (σ.client_list.filter (fun c => decide (c.is_active ≠ 0 ∧ c.socket_fd ≥ 0))).map
          (fun c => ShutdownStep.frame c.socket_fd
            (lit "SERVER_SHUTDOWN Server is shutting down. Please disconnect.")) ∧
      (shutdown_all_clients σ q).2.1 = q) ∧
    (∀ item : file_queue_item,
      lit "FILE_TRANSFER_ABORT Server shutting down - " <+: sender_msg item ∧
      lit "FILE_TRANSFER_ABORT Server shutting down - " <+: receiver_msg item) := by
  refine ⟨shutdown_all_clients_steps σ q, shutdown_all_clients_idle σ q, ?_⟩
  intro item
  constructor
  · have := snprintf_begins 512 (lit "FILE_TRANSFER_ABORT Server shutting down - ")
      (lit "file transfer of '" ++ item.filename ++ lit "' to '" ++ item.receiver_username
        ++ lit "' cancelled") (by decide)
    unfold sender_msg
    simpa [lit] using this
  · have := snprintf_begins 512 (lit "FILE_TRANSFER_ABORT Server shutting down - ")
      (lit "incoming file '" ++ item.filename ++ lit "' from '" ++ item.sender_username
        ++ lit "' cancelled") (by decide)
    unfold receiver_msg
    simpa [lit] using this

/-! ## Dispatch of commands: lemmas -/

theorem take_cstr_eq (p : List Nat) (hp : 0 ∉ p) : ∀ c : List Nat,
    (cstr c).take p.length = p ↔ ∃ t, p ++ t = c := by
  induction p with
  | nil => intro c; simp
  | cons x xs ih =>
    intro c
    have hx : x ≠ 0 := fun h => hp (by rw [h]; exact List.mem_cons_self _ _)
    have hxs : 0 ∉ xs := fun h => hp (List.mem_cons_of_mem _ h)
    cases c with
    | nil => simp [cstr]
    | cons y ys =>
      by_cases hy : y = 0
      · subst hy
        have : cstr (0 :: ys) = [] := by simp [cstr]
        rw [this]
        simp only [List.take_nil, List.cons_append, List.cons.injEq]
        constructor
        · intro h; cases h
        · rintro ⟨t, h, _⟩; exact absurd h hx
      · have : cstr (y :: ys) = y :: cstr ys := by
          unfold cstr
          rw [List.takeWhile_cons]
          simp [hy]
        rw [this]
        simp only [List.length_cons, List.take_succ_cons, List.cons_append, List.cons.injEq]
        constructor
        · rintro ⟨h1, h2⟩
          obtain ⟨t, ht⟩ := (ih hxs ys).mp h2
          exact ⟨t, h1.symm, ht⟩
        · rintro ⟨t, h1, h2⟩
          exact ⟨h1.symm, (ih hxs ys).mpr ⟨t, h2⟩⟩

/-- The test `strncmp(c, p, strlen(p)) == 0` holds exactly when `c` begins
with `p`. -/
theorem strncmp_eq_begins (c p : List Nat) (hp : 0 ∉ p) :
    strncmp_eq c p p.length = true ↔ p <+: c := by
  unfold strncmp_eq
  rw [cstr_of_no_nul p hp, List.take_length, beq_iff_eq]
  exact take_cstr_eq p hp c

/-- A command that begins with none of the six command words of the dispatcher
is answered by the else branch. -/
theorem process_client_command_unknown (w : World) (net : Int → Bool) (heap : List Bool)
    (buf : Nat) (fd : Int) (c : List Nat) (hc : c ≠ []) (h0 : 0 ∉ c)
    (h1 : ¬ (lit "/join " <+: c)) (h2 : ¬ (lit "/leave" <+: c))
    (h3 : ¬ (lit "/broadcast " <+: c)) (h4 : ¬ (lit "/whisper " <+: c))
    (h5 : ¬ (lit "/sendfile " <+: c)) (h6 : ¬ (lit "/exit" <+: c)) :
    process_client_command w net heap buf fd c
      = w.reply fd (snprintf 256 (lit "ERROR Unknown command: " ++ c)) := by
  have hl : ¬ (strlen c = 0) := by
    rw [strlen_of_no_nul c h0]
    intro h
    exact hc (List.length_eq_zero.mp h)
  have e1 : strncmp_eq c (lit "/join ") 6 = false := by
    have := strncmp_eq_begins c (lit "/join ") (by decide)
    cases hb : strncmp_eq c (lit "/join ") 6 with
    | false => rfl
    | true => exact absurd (this.mp hb) h1
  have e2 : strncmp_eq c (lit "/leave") 6 = false := by
    have := strncmp_eq_begins c (lit "/leave") (by decide)
    cases hb : strncmp_eq c (lit "/leave") 6 with
    | false => rfl
    | true => exact absurd (this.mp hb) h2
  have e3 : strncmp_eq c (lit "/broadcast ") 11 = false := by
    have := strncmp_eq_begins c (lit "/broadcast ") (by decide)
    cases hb : strncmp_eq c (lit "/broadcast ") 11 with
    | false => rfl
    | true => exact absurd (this.mp hb) h3
  have e4 : strncmp_eq c (lit "/whisper ") 9 = false := by
    have := strncmp_eq_begins c (lit "/whisper ") (by decide)
    cases hb : strncmp_eq c (lit "/whisper ") 9 with
    | false => rfl
    | true => exact absurd (this.mp hb) h4
  have e5 : strncmp_eq c (lit "/sendfile ") 10 = false := by
    have := strncmp_eq_begins c (lit "/sendfile ") (by decide)
    cases hb : strncmp_eq c (lit "/sendfile ") 10 with
    | false => rfl
    | true => exact absurd (this.mp hb) h5
  have e6 : strncmp_eq c (lit "/exit") 5 = false := by
    have := strncmp_eq_begins c (lit "/exit") (by decide)
    cases hb : strncmp_eq c (lit "/exit") 5 with
    | false => rfl
    | true => exact absurd (this.mp hb) h6
  unfold process_client_command
  rw [if_neg hl, e1, e2, e3, e4, e5, e6, cstr_of_no_nul c h0]
  simp

/-- C28 (counterexample): with alice and bob in room1, the command "/leaveX"
from bob runs `/leave` (bob leaves room1); the command "/exitnow" gets no
reply and ends the message loop; and a command of 300 bytes 'x' is answered
with "ERROR Unknown command: " followed by its first 232 bytes only. -/
theorem unknown_command_misses :
    (process_client_command world_pair (fun _ => true) [] 0 5 (lit "/leaveX")).srv.out
      = (final scenario_pair).out ++ [(4, lit "ROOM_NOTIFICATION bob left the room"),
          (5, lit "LEAVE_SUCCESS Left room 'room1'")] ∧
    client_message_round world_pair (fun _ => true) [] 0 5 (lit "/exitnow")
      = (false, world_pair) ∧
    (process_client_command world_pair (fun _ => true) [] 0 5 (List.replicate 300 120)).srv.out
      = (final scenario_pair).out
        ++ [(5, lit "ERROR Unknown command: " ++ List.replicate 232 120)] := by
  refine ⟨by decide, by decide, by decide⟩

/-- C28 (amended): a non-empty command text `c` that begins with none of
"/join ", "/leave", "/broadcast ", "/whisper ", "/sendfile ", "/exit" is
answered with "ERROR Unknown command: " followed by `c`, the whole cut to 255
bytes (so `c` is echoed in full when it has at most 232 bytes); nothing else is
sent, the registries, the file queue and the streams stay as they are, and the
message loop goes on. -/
theorem unknown_command_reply (w : World) (net : Int → Bool) (heap : List Bool)
    (buf : Nat) (fd : Int) (c : List Nat) (hc : c ≠ []) (h0 : 0 ∉ c)
    (h1 : ¬ (lit "/join " <+: c)) (h2 : ¬ (lit "/leave" <+: c))
    (h3 : ¬ (lit "/broadcast " <+: c)) (h4 : ¬ (lit "/whisper " <+: c))
    (h5 : ¬ (lit "/sendfile " <+: c)) (h6 : ¬ (lit "/exit" <+: c)) :
    client_message_round w net heap buf fd c
      = (true, ⟨w.srv.emit fd ((lit "ERROR Unknown command: " ++ c).take 255), w.queue, w.up,
          w.down⟩) ∧
    (process_client_command w net heap buf fd c).srv.out
      = w.srv.out ++ [(fd, (lit "ERROR Unknown command: " ++ c).take 255)] ∧
    (process_client_command w net heap buf fd c).srv.client_list = w.srv.client_list ∧
    (process_client_command w net heap buf fd c).srv.room_list = w.srv.room_list ∧
    (c.length ≤ 232 →
      (lit "ERROR Unknown command: " ++ c).take 255 = lit "ERROR Unknown command: " ++ c) := by
  have hp := process_client_command_unknown w net heap buf fd c hc h0 h1 h2 h3 h4 h5 h6
  have e6 : strncmp_eq c (lit "/exit") 5 = false := by
    have := strncmp_eq_begins c (lit "/exit") (by decide)
    cases hb : strncmp_eq c (lit "/exit") 5 with
    | false => rfl
    | true => exact absurd (this.mp hb) h6
  refine ⟨?_, ?_, ?_, ?_, ?_⟩
  · unfold client_message_round
    rw [hp, e6]
    rfl
  · rw [hp]; rfl
  · rw [hp]; rfl
  · rw [hp]; rfl
  · intro hle
    exact List.take_of_length_le (by
      rw [List.length_append]
      have : (lit "ERROR Unknown command: ").length = 23 := by decide
      omega)

theorem unknown_command_reply_witness :
    (process_client_command world_pair (fun _ => true) [] 0 5 (lit "/joinX a")).srv.out
      = world_pair.srv.out ++ [(5, (lit "ERROR Unknown command: " ++ lit "/joinX a").take 255)] :=
  (unknown_command_reply world_pair (fun _ => true) [] 0 5 (lit "/joinX a") (by decide)
    (by decide) (by decide) (by decide) (by decide) (by decide) (by decide) (by decide)).2.1

/-! ## Texts relayed by `/broadcast` and `/whisper`: lemmas -/

/-- The search by name finds the active session of that name. -/
theorem find_client_by_username_active (σ : Server) (hn : NamesOK σ) (t : List Nat)
    (d : client_info) (hd : d ∈ σ.client_list) (hact : d.is_active ≠ 0) (hname : d.username = t) :
    find_client_by_username σ t = some d := by
  have hcst : cstr t = t := by
    rw [← hname]
    exact cstr_of_no_nul _ (hn.user_ok d hd).2.2
  unfold find_client_by_username
  cases hfx : σ.client_list.find? (fun c => decide (c.is_active ≠ 0 ∧ c.username = cstr t)) with
  | none =>
    have := List.find?_eq_none.mp hfx d hd
    rw [hcst] at this
    exact absurd (decide_eq_true (⟨hact, hname⟩ : d.is_active ≠ 0 ∧ d.username = t)) this
  | some d2 =>
    have h2 : d2.is_active ≠ 0 ∧ d2.username = cstr t := by
      simpa using List.find?_some hfx
    rw [hcst] at h2
    rw [eq_of_key (fun x : client_info => x.username) σ.client_list hn.user_nodup d2 d
      (List.mem_of_find?_eq_some hfx) hd (h2.2.trans hname.symm)]

/-- The search by name finds nothing when no active session has the name. -/
theorem find_client_by_username_absent (σ : Server) (t : List Nat)
    (h : ∀ d ∈ σ.client_list, d.is_active ≠ 0 → d.username ≠ cstr t) :
    find_client_by_username σ t = none := by
  unfold find_client_by_username
  rw [List.find?_eq_none]
  intro d hd hp
  have := of_decide_eq_true hp
  exact h d hd this.1 this.2

theorem emit_out_some (σ1 : Server) (fd : Int) (conf : List Nat) (X : List (Int × List Nat))
    (h : σ1.out = X) : ∃ k, (σ1.emit fd conf).out = X ++ [(fd, k)] :=
  ⟨conf, by rw [← h]; rfl⟩

/-- The frames of a `/broadcast` from a member of a room: one to every other
active member, carrying the trimmed first 1023 bytes of the message, then the
confirmation to the sender. -/
theorem broadcast_frames (σ : Server) (net : Int → Bool) (fd : Int) (c : client_info)
    (R : room_info) (message : List Nat)
    (hσ : Reachable σ) (hc : find_client_by_socket σ fd = some c)
    (hR : R ∈ σ.room_list) (hm : some c.addr ∈ R.clients)
    (hmsg : rtrim ws_sp_tab_nl_cr (ltrim ws_sp_tab (strncpy message 1023)) ≠ []) :
    ∃ conf, (handle_broadcast_command σ net fd message).out
      = σ.out ++ ((active_members σ R.clients).filter
          (fun d => decide (d.addr ≠ c.addr))).map (fun d => (d.socket_fd,
            lit "BROADCAST [" ++ c.username ++ lit "@" ++ R.room_name ++ lit "]: "
              ++ rtrim ws_sp_tab_nl_cr (ltrim ws_sp_tab (strncpy message 1023))))
        ++ [(fd, conf)] := by
  have hinv := reachable_inv σ hσ
  have hnames := reachable_names σ hσ
  obtain ⟨hcm, hfd⟩ := find_client_by_socket_some σ fd c hc
  obtain ⟨hcur, hfind, hpos, hcs⟩ := member_facts σ hinv c hcm R hR hm
  have hlen0 : strlen message ≠ 0 := by
    intro h0
    apply hmsg
    have : strncpy message 1023 = [] := by
      unfold strncpy
      have hz : cstr message = [] :=
        List.length_eq_zero.mp (by rw [← strlen_eq_cstr_length]; exact h0)
      rw [hz]
      rfl
    rw [this]
    rfl
  have hframe := broadcast_frame_text c.username R.room_name
    (rtrim ws_sp_tab_nl_cr (ltrim ws_sp_tab (strncpy message 1023)))
    (username_length σ hnames c hcm) (hnames.room_len R hR) (broadcast_text_length message)
  obtain ⟨b1, _, _⟩ := broadcast_loop_out net c.addr
    (lit "BROADCAST [" ++ c.username ++ lit "@" ++ R.room_name ++ lit "]: "
      ++ rtrim ws_sp_tab_nl_cr (ltrim ws_sp_tab (strncpy message 1023))) R.clients σ
  unfold handle_broadcast_command
  rw [if_neg hlen0, hc]
  dsimp only
  rw [if_neg (by omega), hfind]
  dsimp only
  rw [if_neg (fun h => hmsg (List.length_eq_zero.mp h)), hframe]
  exact emit_out_some _ fd _ _ b1

/-- C29 (counterexample): with alice and bob in room1, alice sends a message
of 1024 bytes, 1023 times 'a' and then 'b'. The BROADCAST frame that bob gets
carries the 1023 bytes 'a' only, and the WHISPER frame that bob gets carries
998 of them: the end of the message is dropped. -/
theorem relay_drops_tail :
    (List.replicate 1023 97 ++ [98]).length ≤ 4095 ∧
    (handle_broadcast_command (final scenario_pair) (fun _ => true) 4
        (List.replicate 1023 97 ++ [98])).out
      = (final scenario_pair).out
        ++ [(5, lit "BROADCAST [alice@room1]: " ++ List.replicate 1023 97),
            (4, lit "BROADCAST_SUCCESS Message delivered to 1 recipient(s) in room 'room1'")] ∧
    (handle_whisper_command (final scenario_pair) (fun _ => true) 4
        (lit "bob " ++ (List.replicate 1023 97 ++ [98]))).out
      = (final scenario_pair).out
        ++ [(5, lit "WHISPER [alice" ++ [32, 226, 134, 146, 32] ++ lit "bob]: "
              ++ List.replicate 998 97),
            (4, lit "WHISPER_SENT Whisper sent to bob")] := by
  refine ⟨by decide, by decide, by decide⟩

/-- C29 (amended): a session `c` of a reachable state sends a message. The
frame that `/broadcast` delivers to every other active member of the room of
`c` is "BROADCAST [c@room]: " followed by the whitespace-trimmed first 1023
bytes of the message, which are the whole message when it has at most 1023
bytes. The frame that `/whisper` delivers to the active session named `t` is
"WHISPER [c → t]: " followed by the message, the whole cut to 1023 bytes, which
is the whole text when the three of them have at most 1023 bytes together. -/
theorem relayed_text (σ : Server) (net : Int → Bool) (fd : Int) (c : client_info)
    (hσ : Reachable σ) (hc : find_client_by_socket σ fd = some c) :
    (∀ (R : room_info) (message : List Nat), R ∈ σ.room_list → some c.addr ∈ R.clients →
      rtrim ws_sp_tab_nl_cr (ltrim ws_sp_tab (strncpy message 1023)) ≠ [] →
      (∃ conf, (handle_broadcast_command σ net fd message).out
        = σ.out ++ ((active_members σ R.clients).filter
            (fun d => decide (d.addr ≠ c.addr))).map (fun d => (d.socket_fd,
              lit "BROADCAST [" ++ c.username ++ lit "@" ++ R.room_name ++ lit "]: "
                ++ rtrim ws_sp_tab_nl_cr (ltrim ws_sp_tab ((cstr message).take 1023))))
          ++ [(fd, conf)]) ∧
      (0 ∉ message → message.length ≤ 1023 → (cstr message).take 1023 = message)) ∧
    (∀ (t m : List Nat) (d : client_info), (∀ x ∈ t, isalnum x = true) → 0 ∉ m →
      ltrim ws_sp_tab m ≠ [] → c.username ≠ t → d ∈ σ.client_list → d.is_active ≠ 0 →
      d.username = t →
      (∃ reply, (handle_whisper_command σ net fd (t ++ 32 :: m)).out
        = σ.out ++ [(d.socket_fd, (lit "WHISPER [" ++ c.username ++ [32, 226, 134, 146, 32] ++ t
            ++ lit "]: " ++ ltrim ws_sp_tab m).take 1023), (fd, reply)]) ∧
      (c.username.length + t.length + (ltrim ws_sp_tab m).length + 17 ≤ 1023 →
        (lit "WHISPER [" ++ c.username ++ [32, 226, 134, 146, 32] ++ t ++ lit "]: "
            ++ ltrim ws_sp_tab m).take 1023
          = lit "WHISPER [" ++ c.username ++ [32, 226, 134, 146, 32] ++ t ++ lit "]: "
            ++ ltrim ws_sp_tab m)) := by
  have hnames := reachable_names σ hσ
  refine ⟨?_, ?_⟩
  · intro R message hR hm hmsg
    refine ⟨broadcast_frames σ net fd c R message hσ hc hR hm hmsg, ?_⟩
    intro h0 hl
    rw [cstr_of_no_nul message h0]
    exact List.take_of_length_le hl
  · intro t m d hal hm0 hm hne hd hact hname
    have hargs := handle_whisper_command_args σ net fd c t m hc hal hm0 hm
    have hf := find_client_by_username_active σ hnames t d hd hact hname
    refine ⟨?_, ?_⟩
    · rw [hargs, if_neg hne, hf]
      dsimp only
      rw [if_neg hact, hname]
      by_cases hn : net d.socket_fd = true
      · rw [if_pos hn]
        obtain ⟨k, hk⟩ := emit_out_some (σ.emit d.socket_fd (snprintf 1024 (lit "WHISPER ["
          ++ c.username ++ [32, 226, 134, 146, 32] ++ t ++ lit "]: " ++ ltrim ws_sp_tab m))) fd
          (snprintf 256 (lit "WHISPER_SENT Whisper sent to " ++ t)) _ rfl
        exact ⟨k, by rw [hk]; simp [Server.emit, snprintf]⟩
      · rw [if_neg hn]
        obtain ⟨k, hk⟩ := emit_out_some (σ.emit d.socket_fd (snprintf 1024 (lit "WHISPER ["
          ++ c.username ++ [32, 226, 134, 146, 32] ++ t ++ lit "]: " ++ ltrim ws_sp_tab m))) fd
          (lit "ERROR Failed to deliver whisper") _ rfl
        exact ⟨k, by rw [hk]; simp [Server.emit, snprintf]⟩
    · intro hl
      have e4 : (lit "WHISPER [").length = 9 := by decide
      have e5 : (lit "]: ").length = 3 := by decide
      exact List.take_of_length_le (by
        simp only [List.length_append, e4, e5, List.length_cons, List.length_nil]
        omega)

theorem relayed_text_witness :
    ∃ conf, (handle_broadcast_command (final scenario_pair) (fun _ => true) 4
        (lit "hello")).out
      = (final scenario_pair).out ++ ((active_members (final scenario_pair)
            [some 1, some 2, none, none, none, none, none, none, none, none, none, none,
              none, none, none]).filter (fun d => decide (d.addr ≠ 1))).map
          (fun d => (d.socket_fd,
            lit "BROADCAST [" ++ lit "alice" ++ lit "@" ++ lit "room1" ++ lit "]: "
              ++ rtrim ws_sp_tab_nl_cr (ltrim ws_sp_tab ((cstr (lit "hello")).take 1023))))
        ++ [(4, conf)] :=
  ((relayed_text (final scenario_pair) (fun _ => true) 4
    ⟨1, lit "alice", 4, lit "room1", 0, lit "127.0.0.1", 40000, lit "/tmp", 1, 0, 0⟩
    (final_reachable scenario_pair (by decide)) (by decide)).1
    ⟨lit "room1", [some 1, some 2, none, none, none, none, none, none, none, none, none, none,
      none, none, none], 2, 0⟩
    (lit "hello") (by decide) (by decide) (by decide)).1

/-! ## Decimal texts: lemmas -/

theorem dec_nat (n : Nat) : dec (n : Int) = (Nat.toDigits 10 n).map Char.toNat := rfl

theorem digitChar_ne_nul : ∀ d : Nat, d < 10 → (Nat.digitChar d).toNat ≠ 0 := by decide

theorem toDigitsCore_no_nul (fuel : Nat) : ∀ (n : Nat) (ds : List Char),
    (∀ c ∈ ds, c.toNat ≠ 0) → ∀ c ∈ Nat.toDigitsCore 10 fuel n ds, c.toNat ≠ 0 := by
  induction fuel with
  | zero => intro n ds h c hc; exact h c hc
  | succ fuel ih =>
    intro n ds h c hc
    have hd : ∀ c ∈ Nat.digitChar (n % 10) :: ds, c.toNat ≠ 0 := by
      intro c hc
      rcases List.mem_cons.mp hc with hc | hc
      · rw [hc]; exact digitChar_ne_nul _ (Nat.mod_lt _ (by decide))
      · exact h c hc
    unfold Nat.toDigitsCore at hc
    dsimp only at hc
    split at hc
    · exact hd c hc
    · exact ih _ _ hd c hc

/-- The decimal text of a size has no NUL byte. -/
theorem dec_no_nul (n : Nat) : 0 ∉ dec (n : Int) := by
  rw [dec_nat]
  intro h
  obtain ⟨c, hc, hz⟩ := List.mem_map.mp h
  exact toDigitsCore_no_nul (n + 1) n [] (fun c hc => absurd hc (List.not_mem_nil c)) c hc hz

/-- The decimal text of a size below 10^7 has at most 7 digits. -/
theorem dec_length_size (n : Nat) (h : n < 10000000) : (dec (n : Int)).length ≤ 7 := by
  rw [dec_nat, List.length_map]
  exact Nat.repr_length n 7 (by decide) (by omega)

/-! ## Sending a file: lemmas -/

theorem send_sched (s : Sock) (data : List Nat) : (send s data).2.sched <:+ s.sched := by
  unfold send
  cases hsc : s.sched with
  | nil => exact List.suffix_refl _
  | cons e tl =>
    cases e with
    | err => exact List.suffix_cons _ _
    | take k => exact List.suffix_cons _ _

theorem send_loop_sched (fuel : Nat) : ∀ (s : Sock) (p : List Nat) (i n : Int),
    (send_loop fuel s p i n).2.sched <:+ s.sched := by
  induction fuel with
  | zero =>
    intro s p i n
    unfold send_loop
    split
    · exact List.suffix_refl _
    · exact List.suffix_refl _
  | succ fuel ih =>
    intro s p i n
    unfold send_loop
    split
    · dsimp only
      split
      · exact send_sched s _
      · exact (ih _ p _ n).trans (send_sched s _)
    · exact List.suffix_refl _

theorem send_message_sched (fd : Int) (s : Sock) (m : List Nat) :
    (send_message fd s m).2.sched <:+ s.sched := by
  unfold send_message
  split
  · exact List.suffix_refl _
  · dsimp only
    split
    · exact send_loop_sched 4 s _ 0 4
    · exact (send_loop_sched _ _ m 0 _).trans (send_loop_sched 4 s _ 0 4)

/-- One `send` call with at least one byte to send that does not fail sends
some first part of the bytes, at least one. -/
theorem send_some (s : Sock) (data : List Nat) (hs : Io.err ∉ s.sched) (hd : 1 ≤ data.length) :
    ∃ c sched, 1 ≤ c ∧ c ≤ data.length ∧ Io.err ∉ sched ∧
      send s data = ((c : Int), ⟨s.wire ++ data.take c, sched⟩) := by
  cases hsc : s.sched with
  | nil =>
    refine ⟨data.length, [], hd, le_refl _, by simp, ?_⟩
    simp only [send, hsc, List.take_length]
  | cons e tl =>
    cases e with
    | err => exact absurd (hsc ▸ List.mem_cons_self _ _) hs
    | take k =>
      have hc1 := chunk_pos k data.length (by omega)
      have hc2 := chunk_le k data.length
      have htl : Io.err ∉ tl := fun hx => hs (hsc ▸ List.mem_cons_of_mem _ hx)
      refine ⟨chunk k data.length, tl, hc1, hc2, htl, ?_⟩
      simp only [send, hsc]

/-- The chunked send loop of a file over a schedule without failing calls
writes exactly the bytes `file_data[i .. n)` and returns 0. -/
theorem send_file_loop_ok (fuel : Nat) : ∀ (s : Sock) (file_data : List Nat) (i n : Nat),
    Io.err ∉ s.sched → i ≤ n → n ≤ file_data.length → n - i ≤ fuel →
    ∃ sched, Io.err ∉ sched ∧
      send_file_loop fuel s file_data i n
        = (0, ⟨s.wire ++ (file_data.drop i).take (n - i), sched⟩) := by
  induction fuel with
  | zero =>
    intro s file_data i n hs hin _ hf
    have : i = n := by omega
    subst this
    refine ⟨s.sched, hs, ?_⟩
    unfold send_file_loop
    simp
  | succ fuel ih =>
    intro s file_data i n hs hin hn hf
    rcases Nat.eq_or_lt_of_le hin with h | h
    · subst h
      refine ⟨s.sched, hs, ?_⟩
      unfold send_file_loop
      simp
    · have hcs : 1 ≤ (if n - i < CHUNK_SIZE then n - i else CHUNK_SIZE) ∧
          (if n - i < CHUNK_SIZE then n - i else CHUNK_SIZE) ≤ n - i := by
        have : CHUNK_SIZE = 4096 := rfl
        split <;> omega
      generalize hm : (if n - i < CHUNK_SIZE then n - i else CHUNK_SIZE) = m at hcs
      have hlen : ((file_data.drop i).take m).length = m := by
        rw [List.length_take, List.length_drop]; omega
      obtain ⟨c, sched, hc1, hc2, hsc, hr⟩ := send_some s ((file_data.drop i).take m) hs
        (by rw [hlen]; exact hcs.1)
      rw [hlen] at hc2
      unfold send_file_loop
      rw [if_pos h]
      dsimp only
      rw [hm, hr]
      dsimp only
      have hpos : ¬ ((c : Int) ≤ 0) := by omega
      rw [if_neg hpos, Int.toNat_ofNat]
      obtain ⟨sched2, h1, h2⟩ := ih ⟨s.wire ++ ((file_data.drop i).take m).take c, sched⟩
        file_data (i + c) n hsc (by omega) hn (by omega)
      refine ⟨sched2, h1, ?_⟩
      rw [h2]
      have hl : ((file_data.drop i).take m).take c
          ++ (file_data.drop (i + c)).take (n - (i + c)) = (file_data.drop i).take (n - i) := by
        rw [List.take_take, Nat.min_eq_left hc2]
        have h3 := (take_split (file_data.drop i) c (n - i) (by omega)).symm
        rw [List.drop_drop, List.take_take, Nat.min_eq_left (by omega)] at h3
        have e3 : n - (i + c) = n - i - c := by omega
        rw [e3]
        exact h3
      simp only [List.append_assoc, hl]

theorem smooth_no_err (sched : List Io) (h : Smooth sched) : Io.err ∉ sched := by
  intro hm
  obtain ⟨k, _, hk⟩ := h _ hm
  cases hk

/-- The raw `send` of the four size bytes is not cut short on a smooth schedule. -/
theorem send_four (s : Sock) (data : List Nat) (hs : Smooth s.sched) (hd : data.length = 4) :
    ∃ sched, Smooth sched ∧ send s data = (4, ⟨s.wire ++ data, sched⟩) := by
  cases hsc : s.sched with
  | nil =>
    refine ⟨[], fun e he => absurd he (List.not_mem_nil e), ?_⟩
    simp only [send, hsc, hd]
    rfl
  | cons e tl =>
    obtain ⟨k, hk, he⟩ := hs e (hsc ▸ List.mem_cons_self _ _)
    subst he
    have hc : chunk k data.length = 4 := by
      unfold chunk
      omega
    refine ⟨tl, fun e he => hs e (hsc ▸ List.mem_cons_of_mem _ he), ?_⟩
    simp only [send, hsc, hc]
    rw [← hd, List.take_length, hd]
    rfl

/-- The bytes `send_file_to_client` writes when no send fails and none of the
calls is cut below four bytes: the frame of the header, the size in network
byte order, and the payload. -/
theorem send_file_to_client_ok (fd : Int) (s : Sock) (filename sender file_data : List Nat)
    (hfd : fd ≠ -1) (hs : Smooth s.sched) (hf : 0 ∉ filename) (hu : 0 ∉ sender)
    (hfl : filename.length ≤ 255) (hul : sender.length ≤ 16)
    (hn : file_data.length ≤ 3145728) :
    file_download_header filename sender file_data.length
      = lit "FILE_DOWNLOAD:" ++ filename ++ lit ":" ++ dec (file_data.length : Int) ++ lit ":"
        ++ sender ∧
    ∃ sched, send_file_to_client fd s filename sender file_data file_data.length
      = (0, ⟨s.wire ++ frame (lit "FILE_DOWNLOAD:" ++ filename ++ lit ":"
              ++ dec (file_data.length : Int) ++ lit ":" ++ sender)
            ++ htonl file_data.length ++ file_data, sched⟩) := by
  have hdl := dec_length_size file_data.length (by omega)
  have e1 : (lit "FILE_DOWNLOAD:").length = 14 := by decide
  have e2 : (lit ":").length = 1 := by decide
  have hhead : file_download_header filename sender file_data.length
      = lit "FILE_DOWNLOAD:" ++ filename ++ lit ":" ++ dec (file_data.length : Int) ++ lit ":"
        ++ sender := by
    unfold file_download_header
    rw [cstr_of_no_nul filename hf, cstr_of_no_nul sender hu]
    exact snprintf_fit _ _ (by simp only [List.length_append, e1, e2]; omega)
  refine ⟨hhead, ?_⟩
  have hnul : 0 ∉ lit "FILE_DOWNLOAD:" ++ filename ++ lit ":" ++ dec (file_data.length : Int)
      ++ lit ":" ++ sender := by
    intro h
    simp only [List.mem_append] at h
    rcases h with ((((h | h) | h) | h) | h) | h
    · exact absurd h (by decide)
    · exact hf h
    · exact absurd h (by decide)
    · exact dec_no_nul _ h
    · exact absurd h (by decide)
    · exact hu h
  obtain ⟨sc1, _, h2⟩ := send_message_ok fd s _ hfd (smooth_no_err _ hs) hnul
    (by simp only [List.length_append, e1, e2]; omega)
  have hsuf := send_message_sched fd s (lit "FILE_DOWNLOAD:" ++ filename ++ lit ":"
    ++ dec (file_data.length : Int) ++ lit ":" ++ sender)
  rw [h2] at hsuf
  have hsm1 : Smooth sc1 := fun e he => hs e (hsuf.subset he)
  obtain ⟨sc2, hsm2, h3⟩ := send_four ⟨s.wire ++ htonl (lit "FILE_DOWNLOAD:" ++ filename
    ++ lit ":" ++ dec (file_data.length : Int) ++ lit ":" ++ sender).length
    ++ (lit "FILE_DOWNLOAD:" ++ filename ++ lit ":" ++ dec (file_data.length : Int) ++ lit ":"
      ++ sender), sc1⟩ (htonl file_data.length) hsm1 (htonl_length _)
  obtain ⟨sc3, _, h4⟩ := send_file_loop_ok file_data.length ⟨_, sc2⟩ file_data 0
    file_data.length (smooth_no_err _ hsm2) (by omega) (le_refl _) (by omega)
  refine ⟨sc3, ?_⟩
  unfold send_file_to_client
  dsimp only
  rw [hhead, h2]
  dsimp only
  rw [if_neg (by decide), h3]
  dsimp only
  rw [if_neg (by decide), h4]
  simp [frame]

/-! ## `/sendfile`: lemmas -/

theorem ltrim_id (ws : Nat → Bool) (m : List Nat) (h : ∀ x ∈ m, ws x = false) :
    ltrim ws m = m := by
  unfold ltrim
  cases m with
  | nil => rfl
  | cons x xs => exact dropWhile_of_head _ x xs (h x (List.mem_cons_self _ _))

theorem rtrim_id (ws : Nat → Bool) (m : List Nat) (h : ∀ x ∈ m, ws x = false) :
    rtrim ws m = m := by
  unfold rtrim
  cases m with
  | nil => rfl
  | cons x xs =>
    dsimp only
    congr 1
    cases hr : xs.reverse with
    | nil =>
      have : xs = [] := List.reverse_eq_nil_iff.mp hr
      rw [this]; rfl
    | cons y ys =>
      have hy : y ∈ xs := by
        have : y ∈ xs.reverse := by rw [hr]; exact List.mem_cons_self _ _
        exact List.mem_reverse.mp this
      rw [dropWhile_of_head _ y ys (h y (List.mem_cons_of_mem _ hy)), ← hr, List.reverse_reverse]

theorem no_space_ws (m : List Nat) (h : 32 ∉ m) : ∀ x ∈ m, ws_sp x = false := by
  intro x hx
  unfold ws_sp
  simp only [beq_eq_false_iff_ne, ne_eq]
  intro e
  exact h (e ▸ hx)

/-- The arguments `f t` of a `/sendfile`, for two non-empty words without space
or NUL: the handler gets past the parsing and runs its checks on `f` and `t`. -/
theorem handle_sendfile_command_args (w : World) (net : Int → Bool) (heap : List Bool)
    (buf : Nat) (fd : Int) (s : client_info) (f t : List Nat)
    (hs : find_client_by_socket w.srv fd = some s) (hheap : heap.headD true = true)
    (hf : f ≠ []) (hf32 : 32 ∉ f) (hf0 : 0 ∉ f) (ht : t ≠ []) (ht32 : 32 ∉ t) (ht0 : 0 ∉ t) :
    handle_sendfile_command w net heap buf fd (f ++ 32 :: t)
      = handle_sendfile_checks w net (heap.tail.headD true) buf fd s f t := by
  have hnul : 0 ∉ f ++ 32 :: t := by
    intro h
    rcases List.mem_append.mp h with h | h
    · exact hf0 h
    · rcases List.mem_cons.mp h with h | h
      · exact absurd h (by decide)
      · exact ht0 h
  have hcs : cstr (f ++ 32 :: t) = f ++ 32 :: t := cstr_of_no_nul _ hnul
  have hlen : strlen (f ++ 32 :: t) ≠ 0 := by
    rw [strlen_of_no_nul _ hnul, List.length_append, List.length_cons]
    omega
  obtain ⟨htk, hdr⟩ := takeWhile_dropWhile_stop (fun c : Nat => c != 32) f 32 t
    (fun y hy => by
      simp only [bne_iff_ne, ne_eq]
      intro e
      exact hf32 (e ▸ hy)) (by decide)
  have hfl : ¬ (f.length = 0 ∨ t.length = 0) := by
    intro h
    rcases h with h | h
    · exact hf (List.length_eq_zero.mp h)
    · exact ht (List.length_eq_zero.mp h)
  unfold handle_sendfile_command
  rw [if_neg hlen, hs]
  dsimp only
  rw [hheap, hcs, htk, hdr, List.tail_cons, rtrim_id ws_sp f (no_space_ws f hf32),
    ltrim_id ws_sp t (no_space_ws t ht32), rtrim_id ws_sp t (no_space_ws t ht32)]
  rw [if_neg (by decide), if_neg (fun h => h (List.mem_append_right _ (List.mem_cons_self _ _))),
    if_neg hfl]

/-- The checks of `/sendfile` in their order: the reply of the first one that
fails. -/
theorem handle_sendfile_checks_cases (w : World) (net : Int → Bool) (alloc_ok : Bool)
    (buf : Nat) (fd : Int) (s : client_info) (f t : List Nat) (ht0 : 0 ∉ t) :
    (validate_file_extension f = 0 →
      handle_sendfile_checks w net alloc_ok buf fd s f t
        = w.reply fd (lit "ERROR Invalid file type. Allowed: .txt, .pdf, .jpg, .png")) ∧
    (validate_file_extension f ≠ 0 → s.username = t →
      handle_sendfile_checks w net alloc_ok buf fd s f t
        = w.reply fd (lit "ERROR Cannot send file to yourself")) ∧
    (validate_file_extension f ≠ 0 → s.username ≠ t →
      (∀ d ∈ w.srv.client_list, d.is_active ≠ 0 → d.username ≠ t) →
      handle_sendfile_checks w net alloc_ok buf fd s f t
        = w.reply fd (snprintf 256 (lit "ERROR User '" ++ t ++ lit "' not found or offline"))) ∧
    (validate_file_extension f ≠ 0 → s.username ≠ t →
      (∃ d ∈ w.srv.client_list, d.is_active ≠ 0 ∧ d.username = t) → 5 ≤ w.queue.count →
      handle_sendfile_checks w net alloc_ok buf fd s f t
        = w.reply fd (lit "ERROR Upload queue is full (5/5). Please try again later.")) := by
  have hcst : cstr t = t := cstr_of_no_nul t ht0
  refine ⟨?_, ?_, ?_, ?_⟩
  · intro he
    unfold handle_sendfile_checks
    rw [if_pos he]
  · intro he hself
    unfold handle_sendfile_checks
    rw [if_neg he, if_pos hself]
  · intro he hne hnone
    have hfind := find_client_by_username_absent w.srv t (by rw [hcst]; exact hnone)
    unfold handle_sendfile_checks
    rw [if_neg he, if_neg hne]
    dsimp only
    rw [hfind]
  · intro he hne hex hfull
    obtain ⟨d, hd, hact, hname⟩ := hex
    have hq : is_file_queue_full w.queue ≠ 0 := by
      unfold is_file_queue_full
      rw [if_pos (by show w.queue.count ≥ 5; omega)]
      decide
    unfold handle_sendfile_checks
    rw [if_neg he, if_neg hne]
    dsimp only
    cases hfx : find_client_by_username w.srv t with
    | none =>
      unfold find_client_by_username at hfx
      have := List.find?_eq_none.mp hfx d hd
      rw [hcst] at this
      exact absurd (decide_eq_true (⟨hact, hname⟩ : d.is_active ≠ 0 ∧ d.username = t)) this
    | some r =>
      have h2 : r.is_active ≠ 0 ∧ r.username = cstr t := by
        unfold find_client_by_username at hfx
        simpa using List.find?_some hfx
      dsimp only
      rw [if_neg h2.1, if_pos hq]
      rfl

/-- C26 (counterexample): alice sends "/sendfile a.txt t" for a name `t` of
300 bytes 'x' that no session has. The reply is not "ERROR User 't' not found
or offline": it is cut after 255 bytes, in the middle of the name. -/
theorem sendfile_long_target_cut :
    (∀ d ∈ world_pair.srv.client_list, d.username ≠ List.replicate 300 120) ∧
    (handle_sendfile_command world_pair (fun _ => true) [] 0 4
        (lit "a.txt " ++ List.replicate 300 120)).srv.out
      = world_pair.srv.out ++ [(4, lit "ERROR User '" ++ List.replicate 243 120)] := by
  refine ⟨by decide, by decide⟩

/-- C26 (amended): a session `s` sends "/sendfile f t" for two non-empty words
`f` and `t`. The first check that fails, in the order extension, self-target,
lookup of the target, room in the queue, decides the reply: "ERROR Invalid file
type. Allowed: .txt, .pdf, .jpg, .png" for a filename without an allowed
extension; "ERROR Cannot send file to yourself" when `t` is the name of `s`;
"ERROR User 't' not found or offline", cut to 255 bytes (whole when `t` has at
most 221 bytes), when no active session is named `t`; "ERROR Upload queue is
full (5/5). Please try again later." when the queue holds 5 tickets. In each
case this reply is the only frame sent, the stream from the sender is not
read, nothing is written to the receiver, and the file queue is unchanged. -/
theorem sendfile_rejections (w : World) (net : Int → Bool) (heap : List Bool) (buf : Nat)
    (fd : Int) (s : client_info) (f t : List Nat)
    (hs : find_client_by_socket w.srv fd = some s) (hheap : heap.headD true = true)
    (hf : f ≠ []) (hf32 : 32 ∉ f) (hf0 : 0 ∉ f) (ht : t ≠ []) (ht32 : 32 ∉ t) (ht0 : 0 ∉ t) :
    (validate_file_extension f = 0 →
      handle_sendfile_command w net heap buf fd (f ++ 32 :: t)
        = ⟨w.srv.emit fd (lit "ERROR Invalid file type. Allowed: .txt, .pdf, .jpg, .png"),
            w.queue, w.up, w.down⟩) ∧
    (validate_file_extension f = 1 → s.username = t →
      handle_sendfile_command w net heap buf fd (f ++ 32 :: t)
        = ⟨w.srv.emit fd (lit "ERROR Cannot send file to yourself"), w.queue, w.up, w.down⟩) ∧
    (validate_file_extension f = 1 → s.username ≠ t →
      (∀ d ∈ w.srv.client_list, d.is_active ≠ 0 → d.username ≠ t) →
      handle_sendfile_command w net heap buf fd (f ++ 32 :: t)
        = ⟨w.srv.emit fd ((lit "ERROR User '" ++ t ++ lit "' not found or offline").take 255),
            w.queue, w.up, w.down⟩ ∧
      (t.length ≤ 221 → (lit "ERROR User '" ++ t ++ lit "' not found or offline").take 255
        = lit "ERROR User '" ++ t ++ lit "' not found or offline")) ∧
    (validate_file_extension f = 1 → s.username ≠ t →
      (∃ d ∈ w.srv.client_list, d.is_active ≠ 0 ∧ d.username = t) →
      w.queue.tickets.length = 5 →
      handle_sendfile_command w net heap buf fd (f ++ 32 :: t)
        = ⟨w.srv.emit fd (lit "ERROR Upload queue is full (5/5). Please try again later."),
            w.queue, w.up, w.down⟩) ∧
    (∀ msg : List Nat, (w.srv.emit fd msg).out = w.srv.out ++ [(fd, msg)]) := by
  have hargs := handle_sendfile_command_args w net heap buf fd s f t hs hheap hf hf32 hf0 ht
    ht32 ht0
  obtain ⟨c1, c2, c3, c4⟩ := handle_sendfile_checks_cases w net (heap.tail.headD true) buf fd s
    f t ht0
  refine ⟨?_, ?_, ?_, ?_, fun msg => rfl⟩
  · intro he
    rw [hargs, c1 he]
    rfl
  · intro he hself
    rw [hargs, c2 (by rw [he]; decide) hself]
    rfl
  · intro he hne hnone
    refine ⟨?_, ?_⟩
    · rw [hargs, c3 (by rw [he]; decide) hne hnone]
      rfl
    · intro hl
      have e1 : (lit "ERROR User '").length = 12 := by decide
      have e2 : (lit "' not found or offline").length = 22 := by decide
      exact List.take_of_length_le (by simp only [List.length_append, e1, e2]; omega)
  · intro he hne hex hfull
    have h5 : 5 ≤ w.queue.count := by
      unfold file_queue_t.tickets at hfull
      rw [List.length_take] at hfull
      omega
    rw [hargs, c4 (by rw [he]; decide) hne hex h5]
    rfl

theorem sendfile_rejections_witness :
    handle_sendfile_command world_pair (fun _ => true) [] 0 4 (lit "a.exe" ++ 32 :: lit "bob")
      = ⟨world_pair.srv.emit 4 (lit "ERROR Invalid file type. Allowed: .txt, .pdf, .jpg, .png"),
          world_pair.queue, world_pair.up, world_pair.down⟩ :=
  (sendfile_rejections world_pair (fun _ => true) [] 0 4
    ⟨1, lit "alice", 4, lit "room1", 0, lit "127.0.0.1", 40000, lit "/tmp", 1, 0, 0⟩
    (lit "a.exe") (lit "bob") (by decide) (by decide) (by decide) (by decide) (by decide)
    (by decide) (by decide) (by decide)).1 (by decide)

/-- The transfer of `/sendfile` when the upload request reaches the sender and
the payload arrives: the frames logged, the reply depending on the outcome of
`send_file_to_client`, and the queue with the ticket admitted and removed. -/
theorem handle_sendfile_transfer_run (w : World) (net : Int → Bool) (buf : Nat) (fd : Int)
    (s r : client_info) (f t p rest : List Nat)
    (hnet : net fd = true) (hups : Io.err ∉ w.up.sched)
    (hup : w.up.wire = htonl p.length ++ p ++ rest) (hp : p.length ≤ 3145728)
    (hl : w.queue.items.length = 5) (h0 : 0 ≤ w.queue.count) (h5 : w.queue.count < 5) :
    ∃ sched,
      handle_sendfile_transfer w net true buf fd s r f t
        = ⟨((w.srv.emit fd (snprintf 512 (lit "FILE_UPLOAD_REQUEST:" ++ f ++ lit ":" ++ t))).emit
              r.socket_fd (file_download_header f s.username p.length)).emit fd
            (if (send_file_to_client r.socket_fd w.down f s.username p p.length).1 = 0 then
              snprintf 512 (lit "FILE_TRANSFER_SUCCESS File '" ++ f
                ++ lit "' sent successfully to " ++ t ++ lit " ("
                ++ dec (p.length : Int) ++ lit " bytes)")
            else
              snprintf 512 (lit "FILE_TRANSFER_FAILED Failed to send '" ++ f
                ++ lit "' to " ++ t)),
          (remove_from_file_queue
            (add_to_file_queue w.queue f s.username r.username (some buf) p.length s.socket_fd
              r.socket_fd).2
            (add_to_file_queue w.queue f s.username r.username (some buf) p.length s.socket_fd
              r.socket_fd).1).2.1,
          ⟨rest, sched⟩,
          (send_file_to_client r.socket_fd w.down f s.username p p.length).2⟩ := by
  obtain ⟨sched, _, hrecv⟩ := receive_file_ok w.up p.length p rest hups hp hup rfl
  obtain ⟨a1, _, _, _, _⟩ := add_to_file_queue_stores w.queue hl h0 h5 f s.username r.username
    (some buf) p.length s.socket_fd r.socket_fd
  have ha : ¬ ((add_to_file_queue w.queue f s.username r.username (some buf) p.length
      s.socket_fd r.socket_fd).1 < 0) := by
    rw [a1]; omega
  refine ⟨sched, ?_⟩
  unfold handle_sendfile_transfer
  dsimp only
  rw [hnet, hrecv]
  dsimp only
  rw [if_neg (by decide), if_neg (by decide)]
  simp only [Option.getD_some]
  rw [if_neg ha]
  by_cases hd : (send_file_to_client r.socket_fd w.down f s.username p p.length).1 = 0
  · rw [if_pos hd, if_pos hd]
    rfl
  · rw [if_neg hd, if_neg hd]
    rfl

/-- A name of the client registry is a non-empty word of at most 16 bytes
without space or NUL. -/
theorem username_word (σ : Server) (h : NamesOK σ) (c : client_info) (hc : c ∈ σ.client_list) :
    c.username ≠ [] ∧ 32 ∉ c.username ∧ 0 ∉ c.username ∧ c.username.length ≤ 16 := by
  obtain ⟨_, hv, hn⟩ := h.user_ok c hc
  obtain ⟨h1, _, h3⟩ := (validate_username_iff c.username).mp hv
  rw [cstr_of_no_nul _ hn] at h3
  rw [strlen_of_no_nul _ hn] at h1
  refine ⟨?_, ?_, hn, username_length σ h c hc⟩
  · intro e
    rw [e] at h1
    simp at h1
  · intro hm
    have := h3 32 hm
    omega

/-- The transfer of a `/sendfile`: a session `s` sends "/sendfile f t" where
`t` names another active session, `f` is a word of at most 255 bytes with an
allowed extension, the queue holds fewer than 5 tickets, and the stream from
`s` carries the size `n` of at most 3 MiB and the `n` bytes of the payload `p`.
The frames sent are "FILE_UPLOAD_REQUEST:f:t" to `s`, then
"FILE_DOWNLOAD:f:n:s" to `t`, then the reply to `s`. When no send fails and
none is cut below four bytes, the stream to `t` receives the frame of the
header, the size `n` as 4 bytes in network byte order and the `n` bytes of `p`
in order, and the reply is "FILE_TRANSFER_SUCCESS File 'f' sent successfully to
t (n bytes)". When `send_file_to_client` fails the reply is
"FILE_TRANSFER_FAILED Failed to send 'f' to t". In both cases the queue holds
the same tickets as before, and the payload has been read off the stream from
`s`. -/
theorem sendfile_delivers (w : World) (net : Int → Bool) (heap : List Bool) (buf : Nat)
    (fd : Int) (s r : client_info) (f t p rest : List Nat)
    (hσ : Reachable w.srv) (hq : QueueReachable w.queue)
    (hs : find_client_by_socket w.srv fd = some s)
    (hr : r ∈ w.srv.client_list) (hract : r.is_active ≠ 0) (hrn : r.username = t)
    (hne : s.username ≠ t)
    (hf32 : 32 ∉ f) (hf0 : 0 ∉ f) (hfl : f.length ≤ 255) (hext : validate_file_extension f = 1)
    (hqc : w.queue.tickets.length < 5)
    (hp : p.length ≤ 3145728) (hup : w.up.wire = htonl p.length ++ p ++ rest)
    (hups : Io.err ∉ w.up.sched)
    (hheap : heap.headD true = true) (hheap2 : heap.tail.headD true = true)
    (hnet : net fd = true) :
    (Smooth w.down.sched →
      (handle_sendfile_command w net heap buf fd (f ++ 32 :: t)).srv.out
        = w.srv.out ++ [(fd, lit "FILE_UPLOAD_REQUEST:" ++ f ++ lit ":" ++ t),
            (r.socket_fd, lit "FILE_DOWNLOAD:" ++ f ++ lit ":" ++ dec (p.length : Int) ++ lit ":"
              ++ s.username),
            (fd, lit "FILE_TRANSFER_SUCCESS File '" ++ f ++ lit "' sent successfully to " ++ t
              ++ lit " (" ++ dec (p.length : Int) ++ lit " bytes)")] ∧
      (handle_sendfile_command w net heap buf fd (f ++ 32 :: t)).down.wire
        = w.down.wire ++ frame (lit "FILE_DOWNLOAD:" ++ f ++ lit ":" ++ dec (p.length : Int)
            ++ lit ":" ++ s.username) ++ htonl p.length ++ p) ∧
    ((send_file_to_client r.socket_fd w.down f s.username p p.length).1 ≠ 0 →
      (handle_sendfile_command w net heap buf fd (f ++ 32 :: t)).srv.out
        = w.srv.out ++ [(fd, lit "FILE_UPLOAD_REQUEST:" ++ f ++ lit ":" ++ t),
            (r.socket_fd, lit "FILE_DOWNLOAD:" ++ f ++ lit ":" ++ dec (p.length : Int) ++ lit ":"
              ++ s.username),
            (fd, lit "FILE_TRANSFER_FAILED Failed to send '" ++ f ++ lit "' to " ++ t)]) ∧
    (handle_sendfile_command w net heap buf fd (f ++ 32 :: t)).queue.tickets = w.queue.tickets ∧
    (handle_sendfile_command w net heap buf fd (f ++ 32 :: t)).queue.count = w.queue.count ∧
    (handle_sendfile_command w net heap buf fd (f ++ 32 :: t)).up.wire = rest := by
  have hinv := reachable_inv w.srv hσ
  have hnames := reachable_names w.srv hσ
  obtain ⟨hsm, hfd⟩ := find_client_by_socket_some w.srv fd s hs
  obtain ⟨hl, h0, h5⟩ := queue_reachable_inv w.queue hq
  have htl := tickets_length w.queue hl h0 h5
  have hc5 : w.queue.count < 5 := by omega
  obtain ⟨rw1, rw2, rw3, rw4⟩ := username_word w.srv hnames r hr
  rw [hrn] at rw1 rw2 rw3 rw4
  obtain ⟨_, _, sw3, sw4⟩ := username_word w.srv hnames s hsm
  have hfne : f ≠ [] := by
    intro e
    rw [e] at hext
    exact absurd hext (by decide)
  have hargs := handle_sendfile_command_args w net heap buf fd s f t hs hheap hfne hf32 hf0 rw1
    rw2 rw3
  have hfind := find_client_by_username_active w.srv hnames t r hr hract hrn
  have hfull : ¬ (is_file_queue_full w.queue ≠ 0) := by
    unfold is_file_queue_full
    rw [if_neg (by show ¬ (w.queue.count ≥ 5); omega)]
    decide
  have hchecks : handle_sendfile_checks w net true buf fd s f t
      = handle_sendfile_transfer w net true buf fd s r f t := by
    unfold handle_sendfile_checks
    rw [if_neg (by rw [hext]; decide), if_neg hne]
    dsimp only
    rw [hfind]
    dsimp only
    rw [if_neg hract, if_neg hfull]
  obtain ⟨sched, hrun⟩ := handle_sendfile_transfer_run w net buf fd s r f t p rest hnet hups hup
    hp hl h0 hc5
  obtain ⟨ar1, ar2⟩ := add_then_remove w.queue hl h0 h5 f s.username r.username (some buf)
    p.length s.socket_fd r.socket_fd
  have hdl := dec_length_size p.length (by omega)
  have e1 : (lit "FILE_UPLOAD_REQUEST:").length = 20 := by decide
  have e2 : (lit ":").length = 1 := by decide
  have e3 : (lit "FILE_TRANSFER_SUCCESS File '").length = 28 := by decide
  have e4 : (lit "' sent successfully to ").length = 23 := by decide
  have e5 : (lit " (").length = 2 := by decide
  have e6 : (lit " bytes)").length = 7 := by decide
  have e7 : (lit "FILE_TRANSFER_FAILED Failed to send '").length = 37 := by decide
  have e8 : (lit "' to ").length = 5 := by decide
  have hreq : snprintf 512 (lit "FILE_UPLOAD_REQUEST:" ++ f ++ lit ":" ++ t)
      = lit "FILE_UPLOAD_REQUEST:" ++ f ++ lit ":" ++ t :=
    snprintf_fit _ _ (by simp only [List.length_append, e1, e2]; omega)
  have hok : snprintf 512 (lit "FILE_TRANSFER_SUCCESS File '" ++ f
        ++ lit "' sent successfully to " ++ t ++ lit " (" ++ dec (p.length : Int)
        ++ lit " bytes)")
      = lit "FILE_TRANSFER_SUCCESS File '" ++ f ++ lit "' sent successfully to " ++ t
        ++ lit " (" ++ dec (p.length : Int) ++ lit " bytes)" :=
    snprintf_fit _ _ (by simp only [List.length_append, e3, e4, e5, e6]; omega)
  have hfail : snprintf 512 (lit "FILE_TRANSFER_FAILED Failed to send '" ++ f ++ lit "' to "
        ++ t)
      = lit "FILE_TRANSFER_FAILED Failed to send '" ++ f ++ lit "' to " ++ t :=
    snprintf_fit _ _ (by simp only [List.length_append, e7, e8]; omega)
  have hfdn : r.socket_fd ≠ -1 := by
    have := hinv.fd_nonneg r hr
    omega
  have hhead : file_download_header f s.username p.length
      = lit "FILE_DOWNLOAD:" ++ f ++ lit ":" ++ dec (p.length : Int) ++ lit ":"
        ++ s.username := by
    have e9 : (lit "FILE_DOWNLOAD:").length = 14 := by decide
    unfold file_download_header
    rw [cstr_of_no_nul f hf0, cstr_of_no_nul s.username sw3]
    exact snprintf_fit _ _ (by simp only [List.length_append, e9, e2]; omega)
  rw [hargs, hheap2, hchecks, hrun]
  refine ⟨?_, ?_, ar1, ar2, rfl⟩
  · intro hsm
    obtain ⟨_, sc, hsend⟩ := send_file_to_client_ok r.socket_fd w.down f s.username p hfdn hsm
      hf0 sw3 hfl sw4 hp
    refine ⟨?_, ?_⟩
    · show ((w.srv.emit fd _).emit r.socket_fd _).out ++ [(fd, _)] = _
      rw [hsend, if_pos rfl, hreq, hok, hhead]
      simp [Server.emit]
    · show (send_file_to_client r.socket_fd w.down f s.username p p.length).2.wire = _
      rw [hsend]
  · intro hbad
    show ((w.srv.emit fd _).emit r.socket_fd _).out ++ [(fd, _)] = _
    rw [if_neg hbad, hreq, hfail, hhead]
    simp [Server.emit]

theorem sendfile_delivers_witness :
    (handle_sendfile_command world_upload (fun _ => true) [] 7 4
        (lit "pic.png" ++ 32 :: lit "bob")).srv.out
      = world_upload.srv.out ++ [(4, lit "FILE_UPLOAD_REQUEST:" ++ lit "pic.png" ++ lit ":"
            ++ lit "bob"),
          (5, lit "FILE_DOWNLOAD:" ++ lit "pic.png" ++ lit ":"
            ++ dec (([1, 2, 3, 4, 5, 6, 7, 8, 9, 10] : List Nat).length : Int) ++ lit ":"
            ++ lit "alice"),
          (4, lit "FILE_TRANSFER_SUCCESS File '" ++ lit "pic.png" ++ lit "' sent successfully to "
            ++ lit "bob" ++ lit " ("
            ++ dec (([1, 2, 3, 4, 5, 6, 7, 8, 9, 10] : List Nat).length : Int)
            ++ lit " bytes)")] ∧
    (handle_sendfile_command world_upload (fun _ => true) [] 7 4
        (lit "pic.png" ++ 32 :: lit "bob")).down.wire
      = world_upload.down.wire ++ frame (lit "FILE_DOWNLOAD:" ++ lit "pic.png" ++ lit ":"
          ++ dec (([1, 2, 3, 4, 5, 6, 7, 8, 9, 10] : List Nat).length : Int) ++ lit ":"
          ++ lit "alice")
        ++ htonl ([1, 2, 3, 4, 5, 6, 7, 8, 9, 10] : List Nat).length
        ++ [1, 2, 3, 4, 5, 6, 7, 8, 9, 10] :=
  (sendfile_delivers world_upload (fun _ => true) [] 7 4
    ⟨1, lit "alice", 4, lit "room1", 0, lit "127.0.0.1", 40000, lit "/tmp", 1, 0, 0⟩
    ⟨2, lit "bob", 5, lit "room1", 0, lit "127.0.0.1", 40000, lit "/tmp", 1, 0, 0⟩
    (lit "pic.png") (lit "bob") [1, 2, 3, 4, 5, 6, 7, 8, 9, 10] []
    (final_reachable scenario_pair (by decide)) QueueReachable.init (by decide) (by decide)
    (by decide) (by decide) (by decide) (by decide) (by decide) (by decide) (by decide)
    (by decide) (by decide) (by decide) (by decide) (by decide) (by decide) (by decide)).1
    (fun e he => absurd he (List.not_mem_nil e))

/-- A delivery that fails: the first `send` on the stream to bob returns an
error, and alice gets the reply "FILE_TRANSFER_FAILED Failed to send 'pic.png'
to bob"; the queue is empty again afterwards. -/
theorem sendfile_failed_delivery :
    (handle_sendfile_command
        ⟨final scenario_pair, init_file_queue,
          ⟨htonl 10 ++ [1, 2, 3, 4, 5, 6, 7, 8, 9, 10], []⟩, ⟨[], [Io.err]⟩⟩
        (fun _ => true) [] 7 4 (lit "pic.png bob")).srv.out
      = (final scenario_pair).out ++ [(4, lit "FILE_UPLOAD_REQUEST:pic.png:bob"),
          (5, lit "FILE_DOWNLOAD:pic.png:10:alice"),
          (4, lit "FILE_TRANSFER_FAILED Failed to send 'pic.png' to bob")] ∧
    (handle_sendfile_command
        ⟨final scenario_pair, init_file_queue,
          ⟨htonl 10 ++ [1, 2, 3, 4, 5, 6, 7, 8, 9, 10], []⟩, ⟨[], [Io.err]⟩⟩
        (fun _ => true) [] 7 4 (lit "pic.png bob")).queue.tickets = [] := by
  refine ⟨by decide, by decide⟩

/-! ## Commands of a session with a stale room name -/

/-- C11 fails on the code. In the state of `scenario_full_room` the session `p`
(socket 25, address 16) is in no room: no room holds it in a slot, and room `A`
is absent. It sends `/join A`. The reply is "INFO You are already in room 'A'",
no room `A` is created and `p` is in no slot afterwards: the record of `p`
still names `A`, left there by the rejected `/join B`. -/
theorem join_stale_name_refused :
    Reachable (final scenario_full_room) ∧
    (find_client_by_socket (final scenario_full_room) 25).map
        (fun c => (c.addr, c.username, c.current_room_name)) = some (16, lit "p", lit "A") ∧
    (∀ r ∈ (final scenario_full_room).room_list, some 16 ∉ r.clients) ∧
    find_room (final scenario_full_room) (lit "A") = none ∧
    (handle_join_command (final scenario_full_room) true 25 (lit "A")).out
      = (final scenario_full_room).out ++ [(25, lit "INFO You are already in room 'A'")] ∧
    find_room (handle_join_command (final scenario_full_room) true 25 (lit "A")) (lit "A")
      = none ∧
    (∀ r ∈ (handle_join_command (final scenario_full_room) true 25 (lit "A")).room_list,
      some 16 ∉ r.clients) := by
  refine ⟨final_reachable scenario_full_room (by decide), by decide, by decide, by decide,
    by decide, by decide, by decide⟩

/-- C14 fails on the code. In the state of `scenario_stale_full` room `A` has
15 members and the session `p` (socket 25, address 16) is not one of them, but
its record names `A`. It sends `/join A`. The reply is "INFO You are already in
room 'A'", not the "room is full" error. -/
theorem join_full_room_stale_info :
    Reachable (final scenario_stale_full) ∧
    (final scenario_stale_full).room_list.map (fun r => (r.room_name, r.client_count))
      = [(lit "A", 15)] ∧
    (∀ r ∈ (final scenario_stale_full).room_list, some 16 ∉ r.clients) ∧
    (find_client_by_socket (final scenario_stale_full) 25).map
        (fun c => (c.addr, c.username, c.current_room_name)) = some (16, lit "p", lit "A") ∧
    (handle_join_command (final scenario_stale_full) true 25 (lit "A")).out
      = (final scenario_stale_full).out ++ [(25, lit "INFO You are already in room 'A'")] := by
  refine ⟨final_reachable scenario_stale_full (by decide), by decide, by decide, by decide,
    by decide⟩

/-- C16 fails on the code. The record of the session `p` (socket 25) names room
`A`. In the state of `scenario_full_room`, where room `A` is absent, `/leave`
from `p` is answered "ERROR Room no longer exists"; in the state of
`scenario_stale_recreated`, where `q` has created room `A` again, it is
answered "ERROR You were not properly registered in the room", room `A` keeps
its one member and `q` is sent nothing. In both cases the name is cleared. -/
theorem leave_stale_name_error :
    Reachable (final scenario_full_room) ∧
    (find_client_by_socket (final scenario_full_room) 25).map
        (fun c => (c.addr, c.username, c.current_room_name)) = some (16, lit "p", lit "A") ∧
    (handle_leave_command (final scenario_full_room) 25).out
      = (final scenario_full_room).out ++ [(25, lit "ERROR Room no longer exists")] ∧
    (find_client_by_socket (handle_leave_command (final scenario_full_room) 25) 25).map
        (fun c => c.current_room_name) = some [] ∧
    Reachable (final scenario_stale_recreated) ∧
    (find_client_by_socket (final scenario_stale_recreated) 25).map
        (fun c => (c.addr, c.username, c.current_room_name)) = some (16, lit "p", lit "A") ∧
    (find_room (final scenario_stale_recreated) (lit "A")).map
        (fun r => (r.clients.head?, r.client_count)) = some (some (some 17), 1) ∧
    (handle_leave_command (final scenario_stale_recreated) 25).out
      = (final scenario_stale_recreated).out
        ++ [(25, lit "ERROR You were not properly registered in the room")] ∧
    (find_room (handle_leave_command (final scenario_stale_recreated) 25) (lit "A")).map
        (fun r => (r.clients.head?, r.client_count)) = some (some (some 17), 1) := by
  refine ⟨final_reachable scenario_full_room (by decide), by decide, by decide, by decide,
    final_reachable scenario_stale_recreated (by decide), by decide, by decide, by decide,
    by decide⟩

/-- C19 fails on the code. The session `p` (socket 25, address 16) is in no
room: no room holds it in a slot. Its record still names `A`. In the state of
`scenario_stale_recreated`, where `q` (socket 26) has created room `A` again,
`/broadcast hello` from `p` sends "BROADCAST [p@A]: hello" to `q`, is answered
BROADCAST_SUCCESS, and raises the counter of room `A` from 0 to 1. In the state
of `scenario_full_room`, where room `A` is absent, the reply is "ERROR Room no
longer exists. Please join a room first." -/
theorem broadcast_stale_name_sent :
    Reachable (final scenario_stale_recreated) ∧
    (find_client_by_socket (final scenario_stale_recreated) 25).map
        (fun c => (c.addr, c.username, c.current_room_name)) = some (16, lit "p", lit "A") ∧
    (∀ r ∈ (final scenario_stale_recreated).room_list, some 16 ∉ r.clients) ∧
    (handle_broadcast_command (final scenario_stale_recreated) (fun _ => true) 25
        (lit "hello")).out
      = (final scenario_stale_recreated).out
        ++ [(26, lit "BROADCAST [p@A]: hello"),
            (25, lit "BROADCAST_SUCCESS Message delivered to 1 recipient(s) in room 'A'")] ∧
    (find_room (final scenario_stale_recreated) (lit "A")).map
        (fun r => r.total_messages_sent) = some 0 ∧
    (find_room (handle_broadcast_command (final scenario_stale_recreated) (fun _ => true) 25
        (lit "hello")) (lit "A")).map (fun r => r.total_messages_sent) = some 1 ∧
    Reachable (final scenario_full_room) ∧
    (handle_broadcast_command (final scenario_full_room) (fun _ => true) 25 (lit "hello")).out
      = (final scenario_full_room).out
        ++ [(25, lit "ERROR Room no longer exists. Please join a room first.")] := by
  refine ⟨final_reachable scenario_stale_recreated (by decide), by decide, by decide, by decide,
    by decide, by decide, final_reachable scenario_full_room (by decide), by decide⟩

/-! ## A short write of the size of a file -/

/-- C25 fails on the code. alice sends "/sendfile pic.png bob" with a payload
of ten bytes; no `send` call on the stream to bob fails: the frame of the
header goes out in two calls and `send_message` returns 0, and the `send` of
the four size bytes returns 2. `send_file_to_client` takes this for a failure:
alice gets the reply "FILE_TRANSFER_FAILED Failed to send 'pic.png' to bob",
and bob's stream holds the frame of the header followed by two bytes of the
size and no payload. -/
theorem sendfile_short_size_failed :
    Reachable world_short_size.srv ∧ QueueReachable world_short_size.queue ∧
    Io.err ∉ world_short_size.down.sched ∧
    (send_message 5 world_short_size.down (lit "FILE_DOWNLOAD:pic.png:10:alice")).1 = 0 ∧
    (send (send_message 5 world_short_size.down (lit "FILE_DOWNLOAD:pic.png:10:alice")).2
        (htonl 10)).1 = 2 ∧
    (handle_sendfile_command world_short_size (fun _ => true) [] 7 4
        (lit "pic.png bob")).srv.out
      = (final scenario_pair).out ++ [(4, lit "FILE_UPLOAD_REQUEST:pic.png:bob"),
          (5, lit "FILE_DOWNLOAD:pic.png:10:alice"),
          (4, lit "FILE_TRANSFER_FAILED Failed to send 'pic.png' to bob")] ∧
    (handle_sendfile_command world_short_size (fun _ => true) [] 7 4
        (lit "pic.png bob")).down.wire
      = frame (lit "FILE_DOWNLOAD:pic.png:10:alice") ++ [0, 0] := by
  refine ⟨final_reachable scenario_pair (by decide), QueueReachable.init, by decide, by decide,
    by decide, by decide, by decide⟩

/-! ## The broadcast counter at INT_MAX -/

/-- One more broadcast of "hi" by alice in a state that has the sessions of
`scenario_pair` and room1 with its two members and the counter `k`: the
sessions and the members stay, and the counter is `int_incr k`. -/
theorem broadcast_step (σ : Server) (k : Int) (hσ : Reachable σ)
    (hcl : σ.client_list = (final scenario_pair).client_list)
    (hrl : σ.room_list = [⟨lit "room1", [some 1, some 2, none, none, none, none, none, none,
      none, none, none, none, none, none, none], 2, k⟩]) :
    (handle_broadcast_command σ (fun _ => true) 4 (lit "hi")).client_list
      = (final scenario_pair).client_list ∧
    (handle_broadcast_command σ (fun _ => true) 4 (lit "hi")).room_list
      = [⟨lit "room1", [some 1, some 2, none, none, none, none, none, none,
          none, none, none, none, none, none, none], 2, int_incr k⟩] := by
  have hc : find_client_by_socket σ 4
      = some ⟨1, lit "alice", 4, lit "room1", 0, lit "127.0.0.1", 40000, lit "/tmp", 1, 0, 0⟩ := by
    unfold find_client_by_socket
    rw [hcl]
    decide
  have hR : (⟨lit "room1", [some 1, some 2, none, none, none, none, none, none,
      none, none, none, none, none, none, none], 2, k⟩ : room_info) ∈ σ.room_list := by
    rw [hrl]
    exact List.mem_cons_self _ _
  obtain ⟨_, _, _, e4, _, e6, e7⟩ := handle_broadcast_command_effect σ (fun _ => true) 4
    ⟨1, lit "alice", 4, lit "room1", 0, lit "127.0.0.1", 40000, lit "/tmp", 1, 0, 0⟩
    ⟨lit "room1", [some 1, some 2, none, none, none, none, none, none,
      none, none, none, none, none, none, none], 2, k⟩
    (lit "hi") (lit "hi") _ hσ hc hR (List.mem_cons_self _ _) (by decide) (by decide) rfl
  refine ⟨by rw [e7, hcl], ?_⟩
  rw [hrl] at e6
  cases hl : (handle_broadcast_command σ (fun _ => true) 4 (lit "hi")).room_list with
  | nil =>
    rw [hl] at e6
    cases e6
  | cons X tl =>
    rw [hl] at e6
    simp only [List.map_cons, List.map_nil, List.cons.injEq, List.map_eq_nil_iff] at e6
    obtain ⟨_, htl⟩ := e6
    subst htl
    unfold find_room at e4
    rw [hl, List.find?_cons] at e4
    split at e4
    · have := Option.some.inj e4
      rw [this]
    · cases e4

/-- After `n` broadcasts, `n` up to INT_MAX, the state is reachable, the
sessions are those of `scenario_pair`, and the counter of room1 is `n`. -/
theorem broadcast_times_state (n : Nat) (hn : n ≤ 2147483647) :
    Reachable (broadcast_times n) ∧
    (broadcast_times n).client_list = (final scenario_pair).client_list ∧
    (broadcast_times n).room_list = [⟨lit "room1", [some 1, some 2, none, none, none, none,
      none, none, none, none, none, none, none, none, none], 2, (n : Int)⟩] := by
  induction n with
  | zero =>
    exact ⟨final_reachable scenario_pair (by decide), rfl, by decide⟩
  | succ m ih =>
    obtain ⟨h1, h2, h3⟩ := ih (by omega)
    obtain ⟨s1, s2⟩ := broadcast_step (broadcast_times m) (m : Int) h1 h2 h3
    refine ⟨Reachable.broadcast _ _ _ _ h1, s1, ?_⟩
    rw [int_incr_of_lt _ (by omega)] at s2
    rw [Nat.cast_succ]
    exact s2

/-- C18 as stated fails. After 2147483647 broadcasts by alice in room1 (a
reachable state) the counter of room1 is INT_MAX. alice, a member of room1,
sends one more `/broadcast hi`: the counter is not one higher, the increment
overflows and the result in the model is INT_MIN. -/
theorem broadcast_counter_overflow :
    Reachable (broadcast_times 2147483647) ∧
    (broadcast_times 2147483647).client_list = (final scenario_pair).client_list ∧
    (broadcast_times 2147483647).room_list = [⟨lit "room1", [some 1, some 2, none, none,
      none, none, none, none, none, none, none, none, none, none, none], 2, 2147483647⟩] ∧
    (handle_broadcast_command (broadcast_times 2147483647) (fun _ => true) 4
        (lit "hi")).room_list
      = [⟨lit "room1", [some 1, some 2, none, none, none, none, none, none, none, none,
          none, none, none, none, none], 2, -2147483648⟩] := by
  obtain ⟨h1, h2, h3⟩ := broadcast_times_state 2147483647 (le_refl _)
  have hcast : ((2147483647 : Nat) : Int) = 2147483647 := by norm_num
  rw [hcast] at h3
  obtain ⟨_, s2⟩ := broadcast_step (broadcast_times 2147483647) 2147483647 h1 h2 h3
  have hw : int_incr 2147483647 = -2147483648 := by decide
  rw [hw] at s2
  exact ⟨h1, h2, h3, s2⟩

end ChatServer
